import Mathlib

/-!
# CDF time utilities: TT2000 codec, leap-second table, EPOCH strings and range search

A shallow embedding of `cdftt2000.c` (TT2000 compute / breakdown / encode / parse and the
leap-second table), of `epochu.c` (EPOCH and EPOCH16 compute / breakdown / encode / parse) and of
`bsearcho.c` (range search over sorted time arrays), followed by theorems about them.

Conventions of the embedding.

* `long` and `long long` are 64-bit two's complement integers.  They are modelled by `Int`;
  `wrap64` is applied where the C arithmetic can leave the 64-bit range: on `long long` time
  values, and on the `long` day numbers of `JulianDay` and `computeEpoch` of `epochu.c`, which
  take fields that were not validated.  C integer division and remainder truncate toward zero
  (`Int.tdiv`, `Int.tmod`).
* `double` is IEEE-754 binary64 with round-to-nearest-even, every operation rounded on its
  own.  A finite double is an integer multiple of `2^-1074`; `Dbl.raw` is that integer.
  Infinities and NaN are not modelled (the modelled code paths never produce them).
* The module's `static` variables are the fields of `TTState`; every function that reads or
  writes them takes and returns the state.  The process environment and the file system are
  the `Host` argument.
-/

namespace Cdf

/-! ## IEEE-754 binary64 arithmetic -/

/-- A finite `double`: the value is `raw * 2^-1074`. -/
structure Dbl where
  raw : Int
deriving DecidableEq, Repr

/-- Scale of `Dbl.raw`: one unit is `2^-1074`. -/
@[irreducible] def SC : Nat := 2 ^ 1074

/-- Bisection for the binary logarithm: with `2^lo ≤ n < 2^(lo + 2^s)` returns `⌊log2 n⌋`. -/
def ilog2Aux : Nat → Nat → Nat → Nat
  | 0, lo, _ => lo
  | s + 1, lo, n => if 2 ^ (lo + 2 ^ s) ≤ n then ilog2Aux s (lo + 2 ^ s) n else ilog2Aux s lo n

/-- Floor of the binary logarithm of `n` for `1 ≤ n < 2^8192` (0 for `n = 0`). -/
@[irreducible] def ilog2 (n : Nat) : Nat := ilog2Aux 13 0 n

/-- Nearest integer to `n / d`, ties to the even integer. -/
def roundNE (n d : Nat) : Nat :=
  let q := n / d
  let r := n % d
  if 2 * r < d then q else if d < 2 * r then q + 1 else if q % 2 = 0 then q else q + 1

/-- Round the non-negative rational `n / d` (in units of `2^-1074`) to the nearest value with
at most 53 significant bits that is a whole number of units: round-to-nearest-even of binary64,
gradual underflow included. -/
@[irreducible] def flN (n d : Nat) : Nat :=
  let k := ilog2 (n / d) - 52
  roundNE n (d * 2 ^ k) * 2 ^ k

/-- The values binary64 represents exactly (in units of `2^-1074`, sign apart): at most 53
significant bits. -/
def Rep (M : Nat) : Prop := ∃ m j : Nat, m ≤ 2 ^ 53 ∧ M = m * 2 ^ j

/-- Signed rounding of `n / d` units. -/
def flZ (n : Int) (d : Nat) : Int :=
  if n < 0 then -((flN n.natAbs d : Nat) : Int) else ((flN n.natAbs d : Nat) : Int)

namespace Dbl

/-- Conversion of an integer (`(double) n`). -/
def ofInt (n : Int) : Dbl := ⟨flZ (n * SC) 1⟩

/-- A decimal literal `num / 10^k`, converted as a C compiler does: correctly rounded. -/
def dec (num : Int) (k : Nat) : Dbl := ⟨flZ (num * SC) (10 ^ k)⟩

/-- Sum `a + b`. -/
def add (a b : Dbl) : Dbl := ⟨flZ (a.raw + b.raw) 1⟩

/-- Difference `a - b`. -/
def sub (a b : Dbl) : Dbl := ⟨flZ (a.raw - b.raw) 1⟩

/-- Product `a * b`. -/
def mul (a b : Dbl) : Dbl := ⟨flZ (a.raw * b.raw) SC⟩

/-- Quotient `a / b` (`b` is never zero on the modelled paths; the model then gives 0). -/
def div (a b : Dbl) : Dbl :=
  if b.raw = 0 then ⟨0⟩
  else if 0 < b.raw then ⟨flZ (a.raw * SC) b.raw.natAbs⟩ else ⟨flZ (-(a.raw * SC)) b.raw.natAbs⟩

/-- Comparison `a < b`. -/
def lt (a b : Dbl) : Bool := decide (a.raw < b.raw)

/-- Comparison `a <= b`. -/
def le (a b : Dbl) : Bool := decide (a.raw ≤ b.raw)

/-- Comparison `a == b`. -/
def beq (a b : Dbl) : Bool := decide (a.raw = b.raw)

/-- Conversion to an integer type, `(long) a`: truncation toward zero. -/
def toInt (a : Dbl) : Int := Int.tdiv a.raw SC

/-- The C library `floor`. -/
def floor (a : Dbl) : Dbl := ⟨a.raw / SC * SC⟩

/-- The C library `fmod`: exact remainder with the sign of `a`. -/
def fmod (a b : Dbl) : Dbl := ⟨Int.tmod a.raw b.raw⟩

end Dbl

/-! ## 64-bit integers -/

/-- Largest `long long`. -/
def INT64_MAX : Int := 9223372036854775807

/-- Smallest `long long`. -/
def INT64_MIN : Int := -9223372036854775808

/-- Two's complement wrap of an exact integer into the `long long` range. -/
def wrap64 (x : Int) : Int := (x + 9223372036854775808) % 18446744073709551616 - 9223372036854775808

/-! ## Constants of `cdftt2000.c` -/

/-- The reserved TT2000 values.  They are `#define`d in `cdf.h`, which is not among the
sources, and are therefore parameters of the embedding. -/
structure Sentinels where
  FILLED_TT2000_VALUE : Int
  DEFAULT_TT2000_PADVALUE : Int
  ILLEGAL_TT2000_VALUE : Int
deriving DecidableEq, Repr

/-- The values the CDF distribution gives the three reserved constants
(`INT64_MIN`, `INT64_MIN + 1`, `INT64_MIN + 3`); used for concrete evaluations. -/
def cdfSentinels : Sentinels := ⟨-9223372036854775808, -9223372036854775807, -9223372036854775805⟩

/-- The macro `YearWithin(a)`. -/
def YearWithin (a : Int) : Bool := decide (1708 ≤ a) && decide (a ≤ 2291)

def JulianDateJ2000_12h : Int := 2451545
def J2000Since0AD12hSec : Dbl := Dbl.ofInt 63113904000
def dTinNanoSecs : Int := 32184000000
def MJDbase : Dbl := Dbl.dec 24000005 1
def SECinNanoSecs : Int := 1000000000
def SECinNanoSecsD : Dbl := Dbl.ofInt 1000000000
def DAYinNanoSecs : Int := 86400000000000
def HOURinNanoSecs : Int := 3600000000000
def MINUTEinNanoSecs : Int := 60000000000
def T12hinNanoSecs : Int := 43200000000000
def JDY17070922 : Int := 2344793
def JDY22920411 : Int := 2558297
def NERA1 : Int := 14

/-- One row of the leap-second table: year, month, day, delta, drift reference, drift rate. -/
structure Row where
  c0 : Dbl
  c1 : Dbl
  c2 : Dbl
  c3 : Dbl
  c4 : Dbl
  c5 : Dbl
deriving DecidableEq, Repr

/-- A row of the static table, from its decimal literals: the delta has 7 decimals, the
drift reference 1, the drift rate 7. -/
def ltsRow (y m d delta drift0 drift1 : Int) : Row :=
  ⟨Dbl.ofInt y, Dbl.ofInt m, Dbl.ofInt d, Dbl.dec delta 7, Dbl.dec drift0 1, Dbl.dec drift1 7⟩

/-- The built-in table `LTS`. -/
def LTS : List Row :=
  [ ltsRow 1960 1 1 14178180 373000 12960,
    ltsRow 1961 1 1 14228180 373000 12960,
    ltsRow 1961 8 1 13728180 373000 12960,
    ltsRow 1962 1 1 18458580 376650 11232,
    ltsRow 1963 11 1 19458580 376650 11232,
    ltsRow 1964 1 1 32401300 387610 12960,
    ltsRow 1964 4 1 33401300 387610 12960,
    ltsRow 1964 9 1 34401300 387610 12960,
    ltsRow 1965 1 1 35401300 387610 12960,
    ltsRow 1965 3 1 36401300 387610 12960,
    ltsRow 1965 7 1 37401300 387610 12960,
    ltsRow 1965 9 1 38401300 387610 12960,
    ltsRow 1966 1 1 43131700 391260 25920,
    ltsRow 1968 2 1 42131700 391260 25920,
    ltsRow 1972 1 1 100000000 0 0,
    ltsRow 1972 7 1 110000000 0 0,
    ltsRow 1973 1 1 120000000 0 0,
    ltsRow 1974 1 1 130000000 0 0,
    ltsRow 1975 1 1 140000000 0 0,
    ltsRow 1976 1 1 150000000 0 0,
    ltsRow 1977 1 1 160000000 0 0,
    ltsRow 1978 1 1 170000000 0 0,
    ltsRow 1979 1 1 180000000 0 0,
    ltsRow 1980 1 1 190000000 0 0,
    ltsRow 1981 7 1 200000000 0 0,
    ltsRow 1982 7 1 210000000 0 0,
    ltsRow 1983 7 1 220000000 0 0,
    ltsRow 1985 7 1 230000000 0 0,
    ltsRow 1988 1 1 240000000 0 0,
    ltsRow 1990 1 1 250000000 0 0,
    ltsRow 1991 1 1 260000000 0 0,
    ltsRow 1992 7 1 270000000 0 0,
    ltsRow 1993 7 1 280000000 0 0,
    ltsRow 1994 7 1 290000000 0 0,
    ltsRow 1996 1 1 300000000 0 0,
    ltsRow 1997 7 1 310000000 0 0,
    ltsRow 1999 1 1 320000000 0 0,
    ltsRow 2006 1 1 330000000 0 0,
    ltsRow 2009 1 1 340000000 0 0,
    ltsRow 2012 7 1 350000000 0 0,
    ltsRow 2015 7 1 360000000 0 0,
    ltsRow 2017 1 1 370000000 0 0 ]

/-- The row count `NDAT = sizeof (LTS) / sizeof (LTS[0])`. -/
def NDAT : Int := LTS.length

/-- The pre-computed thresholds `NST2`. -/
def NST2 : List Int :=
  [ 0, 0, 0, 0, 0, 0, 0, 0, 0, 0, 0, 0, 0, 0,
    -883655957816000000, -867931156816000000, -852033555816000000,
    -820497554816000000, -788961553816000000, -757425552816000000,
    -725803151816000000, -694267150816000000, -662731149816000000,
    -631195148816000000, -583934347816000000, -552398346816000000,
    -520862345816000000, -457703944816000000, -378734343816000000,
    -315575942816000000, -284039941816000000, -236779140816000000,
    -205243139816000000, -173707138816000000, -126273537816000000,
    -79012736816000000, -31579135816000000, 189345665184000000,
    284040066184000000, 394372867184000000, 488980868184000000,
    536500869184000000 ]

def doys1 : List Int := [31, 59, 90, 120, 151, 181, 212, 243, 273, 304, 334, 365]
def doys2 : List Int := [31, 60, 91, 121, 152, 182, 213, 244, 274, 305, 335, 366]
def daym1 : List Int := [31, 28, 31, 30, 31, 30, 31, 31, 30, 31, 30, 31]
def daym2 : List Int := [31, 29, 31, 30, 31, 30, 31, 31, 30, 31, 30, 31]

/-- Element `i` of an integer table (0 outside the table, where the C read is undefined). -/
def tbl (t : List Int) (i : Int) : Int := if i < 0 then 0 else t.getD i.toNat 0

/-! ## Calendar arithmetic -/

/-- The `long` expression inside `JulianDay12h` (with `m == 0` replaced by 1). -/
def JulianDay12hL (y m d : Int) : Int :=
  let m := if m = 0 then 1 else m
  367 * y - Int.tdiv (7 * (y + Int.tdiv (m + 9) 12)) 4
    - Int.tdiv (3 * (Int.tdiv (y + Int.tdiv (m - 9) 7) 100 + 1)) 4
    + Int.tdiv (275 * m) 9 + d + 1721029

/-- `JulianDay12h`: the Julian day number of a calendar date, as a `double`. -/
def JulianDay12h (y m d : Int) : Dbl := Dbl.ofInt (JulianDay12hL y m d)

/-- The integer body of `DatefromJulianDay` and `EPOCHbreakdownTT2000`, from `l = 68569 + jd`
on: calendar date `(y, m, d)` of a Julian day number. -/
def dateFromL (l0 : Int) : Int × Int × Int :=
  let l := l0
  let n := Int.tdiv (4 * l) 146097
  let l := l - Int.tdiv (146097 * n + 3) 4
  let i := Int.tdiv (4000 * (l + 1)) 1461001
  let l := l - Int.tdiv (1461 * i) 4 + 31
  let j := Int.tdiv (80 * l) 2447
  let k := l - Int.tdiv (2447 * j) 80
  let l := Int.tdiv j 11
  let j := j + 2 - 12 * l
  let i := 100 * (n - 49) + i + l
  (i, j, k)

/-- `DatefromJulianDay`. -/
def DatefromJulianDay (julday : Dbl) : Int × Int × Int :=
  dateFromL (68569 + Dbl.toInt julday)

/-- `ValidateYMD`: 1 when the date lies in 1707-09-22 .. 2292-04-11, else 0. -/
def ValidateYMD (yy mm dd : Int) : Int :=
  if yy ≤ 0 ∨ mm < 0 ∨ dd < 0 then 0
  else
    let jday := JulianDay12h yy mm dd
    if Dbl.lt jday (Dbl.ofInt JDY17070922) || Dbl.lt (Dbl.ofInt JDY22920411) jday then 0 else 1

/-- `EPOCHbreakdownTT2000`: seconds since 0000-01-01 to year, month, day, hour, minute,
second. -/
def EPOCHbreakdownTT2000 (epoch : Dbl) : Int × Int × Int × Int × Int × Int :=
  let second_AD := epoch
  let minute_AD := Dbl.div second_AD (Dbl.ofInt 60)
  let hour_AD := Dbl.div minute_AD (Dbl.ofInt 60)
  let day_AD := Dbl.div hour_AD (Dbl.ofInt 24)
  let jd := 1721060 + Dbl.toInt day_AD
  let ymd := dateFromL (jd + 68569)
  (ymd.1, ymd.2.1, ymd.2.2,
   Dbl.toInt (Dbl.fmod hour_AD (Dbl.ofInt 24)),
   Dbl.toInt (Dbl.fmod minute_AD (Dbl.ofInt 60)),
   Dbl.toInt (Dbl.fmod second_AD (Dbl.ofInt 60)))

/-! ## Module state and host -/

/-- A C pointer to heap data: `NULL`, pointing to live data, or dangling after `free`. -/
inductive Ptr (α : Type) where
  | null : Ptr α
  | live (v : α) : Ptr α
  | freed : Ptr α
deriving DecidableEq, Repr

/-- The pointer test `p == NULL`. -/
def Ptr.isNull {α : Type} : Ptr α → Bool
  | .null => true
  | _ => false

/-- The data behind a pointer (nothing behind `NULL` or a dangling pointer, where the C read
is undefined). -/
def Ptr.data {α : Type} : Ptr (List α) → List α
  | .live v => v
  | _ => []

/-- The `static` variables of `cdftt2000.c`. -/
structure TTState where
  LTD : Ptr (List Row)
  NST : Ptr (List Int)
  entryCnt : Int
  leapTableEnv : Option String
  tableChecked : Int
  openCDF64s : Int
  toPlus : Int
  currentDay : Int
  currentLeapSeconds : Dbl
  currentJDay : Dbl
  fromFile : Int
deriving DecidableEq, Repr

/-- The state at program start (C static initialisation). -/
def TTState.init : TTState :=
  { LTD := .null, NST := .null, entryCnt := 0, leapTableEnv := none, tableChecked := 0,
    openCDF64s := 0, toPlus := 0, currentDay := -1, currentLeapSeconds := ⟨0⟩,
    currentJDay := ⟨0⟩, fromFile := 0 }

/-- What the module consumes from its host: the value of the environment variable
`CDF_LEAPSECONDSTABLE`, the text files (the list of buffers successive `fgets (line, 80, f)`
calls return; `none` when `fopen` fails), and `sscanf (line, "%ld %ld %ld %lf %lf %lf", ..)`
(the six converted values when it returns 6, `none` when it returns anything else). -/
structure Host where
  getenv : Option String
  fopen : String → Option (List String)
  sscanf6 : String → Option (Int × Int × Int × Dbl × Dbl × Dbl)

/-- A host without a configured leap-second file. -/
def Host.plain : Host := { getenv := none, fopen := fun _ => none, sscanf6 := fun _ => none }

/-- Row `i` of the loaded table `LTD`. -/
def TTState.row (s : TTState) (i : Nat) : Row :=
  s.LTD.data.getD i ⟨⟨0⟩, ⟨0⟩, ⟨0⟩, ⟨0⟩, ⟨0⟩, ⟨0⟩⟩

/-- `CDFgetLeapSecondsTableEnvVar`. -/
def CDFgetLeapSecondsTableEnvVar (h : Host) (s : TTState) : Option String :=
  if s.openCDF64s > 0 then s.leapTableEnv else h.getenv

/-- The test `line[0] == ';'` of the file readers. -/
def isCommentLine (line : String) : Bool := line.data.head? == some ';'

/-- The second reading loop of `LoadLeapSecondsTable`: rows converted so far in `acc`;
`none` as soon as one `sscanf` does not return 6. -/
def scanRows (h : Host) : List String → List Row → Option (List Row)
  | [], acc => some acc
  | line :: rest, acc =>
    if isCommentLine line then scanRows h rest acc
    else
      match h.sscanf6 line with
      | none => none
      | some (yy, mm, dd, x3, x4, x5) =>
        scanRows h rest (acc ++ [⟨Dbl.ofInt yy, Dbl.ofInt mm, Dbl.ofInt dd, x3, x4, x5⟩])

/-- `LoadLeapSecondsTable`. -/
def LoadLeapSecondsTable (h : Host) (s : TTState) : TTState :=
  if s.tableChecked = 0 then
    let table := CDFgetLeapSecondsTableEnvVar h s
    let s1 : TTState :=
      match table with
      | some path =>
        if path.length > 0 then
          let s := { s with leapTableEnv := some path }
          match h.fopen path with
          | some lines =>
            let count : Int := (lines.filter (fun l => !isCommentLine l)).length
            match scanRows h lines [] with
            | none => { s with LTD := .freed }
            | some rows => { s with LTD := .live rows, entryCnt := count, fromFile := 1 }
          | none => { s with fromFile := 0 }
        else { s with leapTableEnv := none, fromFile := 0 }
      | none => { s with leapTableEnv := none, fromFile := 0 }
    let s2 : TTState :=
      if s1.fromFile = 0 then { s1 with LTD := .live LTS, entryCnt := NDAT } else s1
    { s2 with tableChecked := 1 }
  else s

/-- `CDFClearLeapSecondsTable`. -/
def CDFClearLeapSecondsTable (s : TTState) : TTState :=
  let s1 : TTState :=
    if s.openCDF64s = 0 ∧ !s.LTD.isNull then
      { s with LTD := .null, NST := .null, tableChecked := 0 }
    else s
  if s1.openCDF64s = 0 ∧ s1.leapTableEnv ≠ none then { s1 with leapTableEnv := none } else s1

/-- The search loop of `LeapSecondsfromYMD`, `i` running down from `k - 1` to 0: the first
`i` with `m >= (long) (12 * LTD[i][0] + LTD[i][1])`, or -1. -/
def ymdIndex (s : TTState) (m : Int) : Nat → Int
  | 0 => -1
  | i + 1 =>
    let n := Dbl.toInt (Dbl.add (Dbl.mul (Dbl.ofInt 12) (s.row i).c0) (s.row i).c1)
    if m ≥ n then (i : Int) else ymdIndex s m i

/-- `LeapSecondsfromYMD`: the leap seconds (with drift before 1972) in force on a date. -/
def LeapSecondsfromYMD (h : Host) (s : TTState) (iy im id : Int) : Dbl × TTState :=
  let s := if s.LTD.isNull then LoadLeapSecondsTable h s else s
  let m := 12 * iy + im
  let j := ymdIndex s m s.entryCnt.toNat
  if j = -1 then (⟨0⟩, s)
  else
    let da := (s.row j.toNat).c3
    if j < NERA1 then
      let jda := JulianDay12h iy im id
      (Dbl.add da (Dbl.mul (Dbl.sub (Dbl.sub jda MJDbase) (s.row j.toNat).c4) (s.row j.toNat).c5), s)
    else (da, s)

/-! ## computeTT2000 -/

/-- The local `double` variables of `computeTT2000` and the date `lyl, lml, ldl` the carry
blocks recompute. -/
structure Loc where
  ly : Dbl
  lm : Dbl
  ld : Dbl
  lh : Dbl
  ln : Dbl
  ls : Dbl
  ll : Dbl
  lu : Dbl
  la : Dbl
  lyl : Int
  lml : Int
  ldl : Int
deriving DecidableEq, Repr

/-- The statement pair closing every carry block:
`tmp = JulianDay12h ((long) ly, (long) lm, (long) ld); DatefromJulianDay (tmp, &lyl, &lml, &ldl)`. -/
def Loc.redate (v : Loc) : Loc :=
  let ymd := DatefromJulianDay (JulianDay12h (Dbl.toInt v.ly) (Dbl.toInt v.lm) (Dbl.toInt v.ld))
  { v with lyl := ymd.1, lml := ymd.2.1, ldl := ymd.2.2 }

/-- One step `q = floor (x / unit); x = x - q * unit` of a carry block: `(q, x)`. -/
def carryStep (x unit : Dbl) : Dbl × Dbl :=
  let q := Dbl.floor (Dbl.div x unit)
  (q, Dbl.sub x (Dbl.mul q unit))

/-- The block `if (la >= 1000.0)`: nanoseconds carried into the larger fields. -/
def carryNanos (v : Loc) : Loc :=
  if Dbl.le (Dbl.ofInt 1000) v.la then
    let (ad, la) := carryStep v.la (Dbl.ofInt 86400000000000)
    let (ah, la) := carryStep la (Dbl.ofInt 3600000000000)
    let (am, la) := carryStep la (Dbl.ofInt 60000000000)
    let (as, la) := carryStep la (Dbl.ofInt 1000000000)
    let (al, la) := carryStep la (Dbl.ofInt 1000000)
    let (au, la) := carryStep la (Dbl.ofInt 1000)
    Loc.redate { v with la := la, ld := Dbl.add v.ld ad, lh := Dbl.add v.lh ah,
                        ln := Dbl.add v.ln am, ls := Dbl.add v.ls as, ll := Dbl.add v.ll al,
                        lu := Dbl.add v.lu au }
  else v

/-- The block `if (lu >= 1000.0)`. -/
def carryMicros (v : Loc) : Loc :=
  if Dbl.le (Dbl.ofInt 1000) v.lu then
    let (ad, lu) := carryStep v.lu (Dbl.ofInt 86400000000)
    let (ah, lu) := carryStep lu (Dbl.ofInt 3600000000)
    let (am, lu) := carryStep lu (Dbl.ofInt 60000000)
    let (as, lu) := carryStep lu (Dbl.ofInt 1000000)
    let (al, lu) := carryStep lu (Dbl.ofInt 1000)
    Loc.redate { v with lu := lu, ld := Dbl.add v.ld ad, lh := Dbl.add v.lh ah,
                        ln := Dbl.add v.ln am, ls := Dbl.add v.ls as, ll := Dbl.add v.ll al }
  else v

/-- The block `if (ll >= 1000.0)`. -/
def carryMillis (v : Loc) : Loc :=
  if Dbl.le (Dbl.ofInt 1000) v.ll then
    let (ad, ll) := carryStep v.ll (Dbl.ofInt 86400000)
    let (ah, ll) := carryStep ll (Dbl.ofInt 3600000)
    let (am, ll) := carryStep ll (Dbl.ofInt 60000)
    let (as, ll) := carryStep ll (Dbl.ofInt 1000)
    Loc.redate { v with ll := ll, ld := Dbl.add v.ld ad, lh := Dbl.add v.lh ah,
                        ln := Dbl.add v.ln am, ls := Dbl.add v.ls as }
  else v

/-- The block `if (ls >= 60.0)`: the length of the day's last minute comes from the leap
seconds at the next day minus those at this day, stored in the `static int toPlus`. -/
def carrySeconds (h : Host) (s : TTState) (v : Loc) : Loc × TTState :=
  if Dbl.le (Dbl.ofInt 60) v.ls then
    let tmp := JulianDay12h (Dbl.toInt v.ly) (Dbl.toInt v.lm) (Dbl.toInt v.ld)
    let x := DatefromJulianDay (Dbl.add tmp (Dbl.ofInt 1))
    let (l1, s) := LeapSecondsfromYMD h s x.1 x.2.1 x.2.2
    let (l0, s) := LeapSecondsfromYMD h s (Dbl.toInt v.ly) (Dbl.toInt v.lm) (Dbl.toInt v.ld)
    let toPlus := Dbl.toInt (Dbl.sub l1 l0)
    let s := { s with toPlus := toPlus }
    if Dbl.le (Dbl.add (Dbl.ofInt 60) (Dbl.ofInt toPlus)) v.ls then
      let (ad, ls) := carryStep v.ls (Dbl.ofInt (86400 + toPlus))
      let (ah, ls) := carryStep ls (Dbl.ofInt (3600 + toPlus))
      let (am, ls) := carryStep ls (Dbl.ofInt (60 + toPlus))
      (Loc.redate { v with ls := ls, ld := Dbl.add v.ld ad, lh := Dbl.add v.lh ah,
                           ln := Dbl.add v.ln am }, s)
    else (v, s)
  else (v, s)

/-- The block `if (ln >= 60.0)`. -/
def carryMinutes (v : Loc) : Loc :=
  if Dbl.le (Dbl.ofInt 60) v.ln then
    let (ad, ln) := carryStep v.ln (Dbl.ofInt 1440)
    let (ah, ln) := carryStep ln (Dbl.ofInt 60)
    Loc.redate { v with ln := ln, ld := Dbl.add v.ld ad, lh := Dbl.add v.lh ah }
  else v

/-- The block `if (lh >= 24.0)`. -/
def carryHours (v : Loc) : Loc :=
  if Dbl.le (Dbl.ofInt 24) v.lh then
    let (ad, lh) := carryStep v.lh (Dbl.ofInt 24)
    Loc.redate { v with lh := lh, ld := Dbl.add v.ld ad }
  else v

/-- The leap-year flag `lyear = (lyl & 3) == 0 && ((lyl % 25) != 0 || (lyl & 15) == 0)`;
on two's complement `x & (2^k - 1)` is the non-negative remainder modulo `2^k`. -/
def lyearOf (lyl : Int) : Bool :=
  decide (lyl % 4 = 0) && (decide (Int.tmod lyl 25 ≠ 0) || decide (lyl % 16 = 0))

/-- The day-of-year loop `for (ix = 0; ix < 12; ++ix)`, entered at `ix`, with `k` rounds left:
the month and day it leaves in `lml, ldl`. -/
def doyLoop (lyear : Bool) (lml ldl : Int) : Nat → Nat → Int × Int
  | 0, _ => (lml, ldl)
  | k + 1, ix =>
    if (!lyear && decide (ldl ≤ tbl doys1 ix)) || (lyear && decide (ldl ≤ tbl doys2 ix)) then
      if ix = 0 then (lml, ldl)
      else ((ix : Int) + 1, if !lyear then ldl - tbl doys1 ((ix : Int) - 1)
                            else ldl - tbl doys2 ((ix : Int) - 1))
    else doyLoop lyear lml ldl k (ix + 1)

/-- The closing `long long` arithmetic of `computeTT2000`:
`nanoSecSinceJ2000 = (long long) jd * DAYinNanoSecs + subDayinNanoSecs`, then the leap-second
term `t2`, `dTinNanoSecs` and `T12hinNanoSecs` in the order the sign test selects. -/
def coreArith (jd subDay t2 : Int) : Int :=
  let n := wrap64 (wrap64 (jd * DAYinNanoSecs) + subDay)
  if n < 0 then
    let n := wrap64 (n + t2)
    let n := wrap64 (n + dTinNanoSecs)
    wrap64 (n - T12hinNanoSecs)
  else
    let n := wrap64 (n - T12hinNanoSecs)
    let n := wrap64 (n + t2)
    wrap64 (n + dTinNanoSecs)

/-- The exact (unwrapped) value of every arithmetic result `coreArith` forms, in program
order: the product, the sum with `subDay`, and the three adjustments.  Each entry is computed
from the 64-bit value the machine holds before that operation. -/
def coreSteps (jd subDay t2 : Int) : List Int :=
  let p := jd * DAYinNanoSecs
  let n := wrap64 p + subDay
  if wrap64 n < 0 then
    [p, n, wrap64 n + t2, wrap64 (wrap64 n + t2) + dTinNanoSecs,
     wrap64 (wrap64 (wrap64 n + t2) + dTinNanoSecs) - T12hinNanoSecs]
  else
    [p, n, wrap64 n - T12hinNanoSecs, wrap64 (wrap64 n - T12hinNanoSecs) + t2,
     wrap64 (wrap64 (wrap64 n - T12hinNanoSecs) + t2) + dTinNanoSecs]

/-- What `computeTT2000` returns: one of the three reserved constants, by name, or a
computed value. -/
inductive TTRes where
  | filled : TTRes
  | pad : TTRes
  | illegal : TTRes
  | value (n : Int) : TTRes
deriving DecidableEq, Repr

/-- The `long long` a result stands for, given the values of the reserved constants. -/
def TTRes.toInt (c : Sentinels) : TTRes → Int
  | .filled => c.FILLED_TT2000_VALUE
  | .pad => c.DEFAULT_TT2000_PADVALUE
  | .illegal => c.ILLEGAL_TT2000_VALUE
  | .value n => n

/-- The second half of the body of `computeTT2000`, from the test for the fill date on: the
reserved dates, the validity checks, the leap-second lookup (cached by day in the `static`
variables) and the closing arithmetic, on the `long` fields `lyl .. lal`. -/
def computeFields (h : Host) (s : TTState) (lyl lml ldl lhl lnl lsl lll lul lal : Int) :
    TTRes × TTState :=
  if lyl = 9999 ∧ lml = 12 ∧ ldl = 31 ∧ lhl = 23 ∧ lnl = 59 ∧ lsl = 59 ∧ lll = 999 then
    (.filled, s)
  else if lyl = 0 ∧ lml = 1 ∧ ldl = 1 ∧ lhl = 0 ∧ lnl = 0 ∧ lsl = 0 ∧ lll = 0 ∧ lul = 0
      ∧ lal = 0 then (.pad, s)
  else if !YearWithin lyl && decide (ValidateYMD lyl lml ldl = 0) then
    (.illegal, s)
  else
    let lyear := lyearOf lyl
    if (!lyear && decide (ldl > 365)) || (lyear && decide (ldl > 366)) then
      (.illegal, s)
    else if (!lyear && decide (lml > 1) && decide (ldl > tbl daym1 (lml - 1)))
        || (lyear && decide (lml > 1) && decide (ldl > tbl daym2 (lml - 1))) then
      (.illegal, s)
    else
      let md : Int × Int :=
        if lml ≤ 1 ∧ ldl > 31 then doyLoop lyear (if lml = 0 then 1 else lml) ldl 12 0
        else (lml, ldl)
      let lml := md.1
      let ldl := md.2
      let iy := 10000000 * lml + 10000 * ldl + lyl
      let s : TTState :=
        if iy ≠ s.currentDay then
          let (cl, s) := LeapSecondsfromYMD h { s with currentDay := iy } lyl lml ldl
          { s with currentLeapSeconds := cl, currentJDay := JulianDay12h lyl lml ldl }
        else s
      let jd := Dbl.sub s.currentJDay (Dbl.ofInt JulianDateJ2000_12h)
      let subDayinNanoSecs := lhl * HOURinNanoSecs + lnl * MINUTEinNanoSecs
        + lsl * SECinNanoSecs + lll * 1000000 + lul * 1000 + lal
      let t2 := Dbl.toInt (Dbl.mul s.currentLeapSeconds (Dbl.ofInt SECinNanoSecs))
      (.value (coreArith (Dbl.toInt jd) subDayinNanoSecs t2), s)

/-- The statement `if (lyl == -999 && lml == -999) { lyl = (long) ly; lml = (long) lm;
ldl = (long) ld; }`: the date fields when no carry block recomputed them. -/
def Loc.settle (v : Loc) : Loc :=
  if v.lyl = -999 ∧ v.lml = -999 then
    { v with lyl := Dbl.toInt v.ly, lml := Dbl.toInt v.lm, ldl := Dbl.toInt v.ld }
  else v

/-- The body of `computeTT2000` (alias `CDF_TT2000_from_UTC_parts`) in its nine-field call
form `computeTT2000 (yy, mm, dd, hh, mn, ss, ms, us, ns)`, that is with `ix == 6` optional
arguments `opt[0] .. opt[5]`; a `return` of a reserved constant is kept by name. -/
def computeTT2000Sym (h : Host) (s : TTState)
    (yy mm dd o0 o1 o2 o3 o4 o5 : Dbl) : TTRes × TTState :=
  let mm := if Dbl.beq mm ⟨0⟩ then Dbl.ofInt 1 else mm
  let ly := Dbl.floor yy
  let lm := Dbl.floor mm
  let ld := Dbl.floor dd
  if Dbl.lt o0 ⟨0⟩ || Dbl.lt o1 ⟨0⟩ || Dbl.lt o2 ⟨0⟩ || Dbl.lt o3 ⟨0⟩ || Dbl.lt o4 ⟨0⟩
      || Dbl.lt o5 ⟨0⟩ then (.illegal, s)
  else if !Dbl.beq (Dbl.sub dd ld) ⟨0⟩ || !Dbl.beq (Dbl.sub o0 (Dbl.floor o0)) ⟨0⟩
      || !Dbl.beq (Dbl.sub o1 (Dbl.floor o1)) ⟨0⟩ || !Dbl.beq (Dbl.sub o2 (Dbl.floor o2)) ⟨0⟩
      || !Dbl.beq (Dbl.sub o3 (Dbl.floor o3)) ⟨0⟩ || !Dbl.beq (Dbl.sub o4 (Dbl.floor o4)) ⟨0⟩
    then (.illegal, s)
  else
    let v : Loc := { ly := ly, lm := lm, ld := ld, lh := o0, ln := o1, ls := o2, ll := o3,
                     lu := o4, la := o5, lyl := -999, lml := -999, ldl := 0 }
    let v := carryNanos v
    let v := carryMicros v
    let v := carryMillis v
    let r := carrySeconds h s v
    let v := Loc.settle (carryHours (carryMinutes r.1))
    computeFields h r.2 v.lyl v.lml v.ldl (Dbl.toInt v.lh) (Dbl.toInt v.ln) (Dbl.toInt v.ls)
      (Dbl.toInt v.ll) (Dbl.toInt v.lu) (Dbl.toInt v.la)

/-- `computeTT2000` in its nine-field call form. -/
def computeTT2000 (c : Sentinels) (h : Host) (s : TTState)
    (yy mm dd o0 o1 o2 o3 o4 o5 : Dbl) : Int × TTState :=
  let r := computeTT2000Sym h s yy mm dd o0 o1 o2 o3 o4 o5
  (r.1.toInt c, r.2)

/-- The nine-field call with integer arguments, each converted to `double` as the C call
does. -/
def computeTT2000I (c : Sentinels) (h : Host) (s : TTState)
    (yy mm dd hh mn ss ms us ns : Int) : Int × TTState :=
  computeTT2000 c h s (Dbl.ofInt yy) (Dbl.ofInt mm) (Dbl.ofInt dd) (Dbl.ofInt hh) (Dbl.ofInt mn)
    (Dbl.ofInt ss) (Dbl.ofInt ms) (Dbl.ofInt us) (Dbl.ofInt ns)

/-! ## Threshold table and breakdownTT2000 -/

/-- The loop `for (ix = NERA1; ix < entryCnt; ++ix) NST[ix] = CDF_TT2000_from_UTC_parts
(LTD[ix][0], LTD[ix][1], LTD[ix][2], 0.0, ...)` of `LoadLeapNanoSecondsTable`, with `k` rounds
left. -/
def nstLoop (c : Sentinels) (h : Host) : Nat → Nat → TTState → List Int → List Int × TTState
  | 0, _, s, acc => (acc, s)
  | k + 1, ix, s, acc =>
    let r := computeTT2000 c h s (s.row ix).c0 (s.row ix).c1 (s.row ix).c2 ⟨0⟩ ⟨0⟩ ⟨0⟩ ⟨0⟩ ⟨0⟩ ⟨0⟩
    nstLoop c h k (ix + 1) r.2 (acc.set ix r.1)

/-- `LoadLeapNanoSecondsTable`: fills `NST`, from `NST2` or by computing the thresholds.
Entries the C code leaves uninitialised, or copies from beyond `NST2`, are 0 here. -/
def LoadLeapNanoSecondsTable (c : Sentinels) (h : Host) (s : TTState) : TTState :=
  let s := if s.LTD.isNull then LoadLeapSecondsTable h s else s
  let n := s.entryCnt.toNat
  let copy : List Int := (List.range n).map (fun i => NST2.getD i 0)
  if s.fromFile = 0 then { s with NST := .live copy }
  else if Dbl.beq (s.row (n - 1)).c0 (LTS.getD (n - 1) ⟨⟨0⟩, ⟨0⟩, ⟨0⟩, ⟨0⟩, ⟨0⟩, ⟨0⟩⟩).c0 then
    { s with NST := .live copy }
  else
    let r := nstLoop c h (n - 14) 14 s (List.replicate n 0)
    { r.2 with NST := .live r.1 }

/-- Entry `i` of the threshold table `NST`. -/
def TTState.nst (s : TTState) (i : Nat) : Int := s.NST.data.getD i 0

/-- The search loop of `LeapSecondsfromJ2000`, `i` running down from `k - 1` to `NERA1`:
the index found (or -1) and the leap-second flag. -/
def j2000Index (s : TTState) (nanosecs : Int) : Nat → Int × Int
  | 0 => (-1, 0)
  | i + 1 =>
    if (i : Int) < NERA1 then (-1, 0)
    else if nanosecs ≥ s.nst i then
      ((i : Int),
       if (i : Int) < s.entryCnt - 1 ∧ wrap64 (nanosecs + 1000000000) ≥ s.nst (i + 1) then 1
       else 0)
    else j2000Index s nanosecs i

/-- `LeapSecondsfromJ2000`: leap seconds in force at a TT2000 value on or after 1972 (0.0
before), and the flag telling that the value lies in an inserted leap second. -/
def LeapSecondsfromJ2000 (c : Sentinels) (h : Host) (s : TTState) (nanosecs : Int) :
    Dbl × Int × TTState :=
  let s := if s.NST.isNull then LoadLeapNanoSecondsTable c h s else s
  let r := j2000Index s nanosecs s.entryCnt.toNat
  if r.1 = -1 then (⟨0⟩, r.2, s) else ((s.row r.1.toNat).c3, r.2, s)

/-- The nine values `breakdownTT2000` writes. -/
structure Parts where
  yy : Dbl
  mm : Dbl
  dd : Dbl
  hh : Dbl
  mn : Dbl
  ss : Dbl
  ms : Dbl
  us : Dbl
  ns : Dbl
deriving DecidableEq, Repr

/-- Nine integer values as `double`s. -/
def Parts.ofInts (y m d hh mn ss ms us ns : Int) : Parts :=
  ⟨Dbl.ofInt y, Dbl.ofInt m, Dbl.ofInt d, Dbl.ofInt hh, Dbl.ofInt mn, Dbl.ofInt ss,
   Dbl.ofInt ms, Dbl.ofInt us, Dbl.ofInt ns⟩

/-- The split `secSinceJ2000 = (long long) ((double) n / SECinNanoSecsD);
nansec = (long) (n - secSinceJ2000 * SECinNanoSecs)`. -/
def splitSec (n : Int) : Int × Int :=
  let sec := Dbl.toInt (Dbl.div (Dbl.ofInt n) SECinNanoSecsD)
  (sec, wrap64 (n - sec * SECinNanoSecs))

/-- The adjustment `if (nansec < 0) { nansec = SECinNanoSecs + nansec; --sec; }`. -/
def fixNeg (p : Int × Int) : Int × Int :=
  if p.2 < 0 then (p.1 - 1, SECinNanoSecs + p.2) else p

/-- One refinement round of the pre-1972 branch: the leap seconds of the guessed date are
taken off `t2`, the result is split into seconds and nanoseconds and broken down again. -/
def reguess (h : Host) (s : TTState) (t2 : Int) (ye1 mo1 da1 : Int) :
    (Int × Int × Int × Int × Int × Int) × Int × TTState :=
  let (dat0, s) := LeapSecondsfromYMD h s ye1 mo1 da1
  let tmpx := wrap64 (t2 - Dbl.toInt (Dbl.mul dat0 (Dbl.ofInt SECinNanoSecs)))
  let p := fixNeg (splitSec tmpx)
  let epoch := Dbl.add (Dbl.ofInt p.1) J2000Since0AD12hSec
  (EPOCHbreakdownTT2000 epoch, p.2, s)

/-- `breakdownTT2000` (alias `CDF_TT2000_to_UTC_parts`) in its nine-field call form, that is
with `ix == 6` optional output pointers. -/
def breakdownTT2000 (c : Sentinels) (h : Host) (s : TTState) (nanoSecSinceJ2000 : Int) :
    Parts × TTState :=
  if nanoSecSinceJ2000 = c.FILLED_TT2000_VALUE then
    (Parts.ofInts 9999 12 31 23 59 59 999 999 999, s)
  else if nanoSecSinceJ2000 = c.DEFAULT_TT2000_PADVALUE then
    (Parts.ofInts 0 1 1 0 0 0 0 0 0, s)
  else
    let s := { s with toPlus := 0 }
    let t3 := nanoSecSinceJ2000
    let (dat0, leapSec, s) := LeapSecondsfromJ2000 c h s nanoSecSinceJ2000
    let p : Int × Int :=
      if nanoSecSinceJ2000 > 0 then
        let q := splitSec nanoSecSinceJ2000
        (q.1 - 32 + 43200, q.2 - 184000000)
      else
        splitSec (wrap64 (wrap64 (nanoSecSinceJ2000 + T12hinNanoSecs) - dTinNanoSecs))
    let p := fixNeg p
    let secSinceJ2000 := p.1
    let nansec := p.2
    let t2 := wrap64 (secSinceJ2000 * SECinNanoSecs + nansec)
    let r : (Int × Int × Int × Int × Int × Int) × Int × TTState :=
      if Dbl.lt ⟨0⟩ dat0 then
        let secSinceJ2000 := secSinceJ2000 - Dbl.toInt dat0
        let epoch := Dbl.add J2000Since0AD12hSec (Dbl.ofInt secSinceJ2000)
        if leapSec = 0 then (EPOCHbreakdownTT2000 epoch, nansec, s)
        else
          let b := EPOCHbreakdownTT2000 (Dbl.sub epoch (Dbl.ofInt 1))
          ((b.1, b.2.1, b.2.2.1, b.2.2.2.1, b.2.2.2.2.1, b.2.2.2.2.2 + 1), nansec, s)
      else
        let epoch := Dbl.add (Dbl.ofInt secSinceJ2000) J2000Since0AD12hSec
        let b := EPOCHbreakdownTT2000 epoch
        let (tmpNanosecs, s) := computeTT2000I c h s b.1 b.2.1 b.2.2.1 b.2.2.2.1 b.2.2.2.2.1
          b.2.2.2.2.2 0 0 nansec
        if tmpNanosecs ≠ t3 then
          let (b, nansec, s) := reguess h s t2 b.1 b.2.1 b.2.2.1
          let (tmpNanosecs, s) := computeTT2000I c h s b.1 b.2.1 b.2.2.1 b.2.2.2.1 b.2.2.2.2.1
            b.2.2.2.2.2 0 0 nansec
          if tmpNanosecs ≠ t3 then reguess h s t2 b.1 b.2.1 b.2.2.1
          else (b, nansec, s)
        else (b, nansec, s)
    let b := r.1
    let nansec := r.2.1
    let s := r.2.2
    let se1 := b.2.2.2.2.2
    let s := if se1 = 60 then { s with toPlus := 1 } else s
    let ml1 := Int.tdiv nansec 1000000
    let tmp1 := Dbl.ofInt (nansec - 1000000 * ml1)
    let (ml1, se1) := if ml1 > 1000 then (ml1 - 1000, se1 + 1) else (ml1, se1)
    let ma1 := Dbl.toInt (Dbl.div tmp1 (Dbl.ofInt 1000))
    let na1 := Dbl.toInt (Dbl.sub tmp1 (Dbl.ofInt (1000 * ma1)))
    (Parts.ofInts b.1 b.2.1 b.2.2.1 b.2.2.2.1 b.2.2.2.2.1 se1 ml1 ma1 na1, s)

/-- `computeTT2000` applied to the nine values a breakdown wrote. -/
def computeParts (c : Sentinels) (h : Host) (s : TTState) (p : Parts) : Int × TTState :=
  computeTT2000 c h s p.yy p.mm p.dd p.hh p.mn p.ss p.ms p.us p.ns

/-! ## Range search (`bsearcho.c`)

The array is a list, `*(array + i)` is `rd array i`.  A read outside the array, a read of a
variable that was never assigned, or a loop that does not end are undefined behaviour: the
model then returns `none`.  `int` index arithmetic is modelled by `Int`; it is exact for
arrays of fewer than `2^30` elements. -/

/-- The read `*(array + i)`. -/
def rd {α : Type} (a : List α) (i : Int) : Option α :=
  if i < 0 then none else a.get? i.toNat

/-- The first bisection loop (`while (first <= last)`, searching `start`), entered with
`middle` computed: the value it leaves in `beginning`; `none` when the loop ends without
assigning it.  The first argument bounds the number of rounds. -/
def lowerLoop {α : Type} [LinearOrder α] (a : List α) (start : α) :
    Nat → Int → Int → Int → Option Int
  | 0, _, _, _ => none
  | k + 1, first, last, middle =>
    if first ≤ last then
      (rd a middle).bind fun am =>
        if am > start then
          let last := middle - 1
          if last - first ≤ 1 then
            (rd a last).bind fun al =>
              if al < start then some middle
              else lowerLoop a start k first last (Int.tdiv (first + last) 2)
          else lowerLoop a start k first last (Int.tdiv (first + last) 2)
        else if am < start then
          let first := middle + 1
          if last - first ≤ 1 then
            (rd a first).bind fun af =>
              if af > start then some first
              else lowerLoop a start k first last (Int.tdiv (first + last) 2)
          else lowerLoop a start k first last (Int.tdiv (first + last) 2)
        else some middle
    else none

/-- The second bisection loop (searching `stop`): the value it leaves in `ending`. -/
def upperLoop {α : Type} [LinearOrder α] (a : List α) (stop : α) :
    Nat → Int → Int → Int → Option Int
  | 0, _, _, _ => none
  | k + 1, first, last, middle =>
    if first ≤ last then
      (rd a middle).bind fun am =>
        if am < stop then
          let first := middle + 1
          if last - first ≤ 1 then
            (rd a first).bind fun af =>
              if af > stop then some middle
              else upperLoop a stop k first last (Int.tdiv (first + last) 2)
          else upperLoop a stop k first last (Int.tdiv (first + last) 2)
        else if am > stop then
          let last := middle - 1
          if last - first ≤ 1 then
            (rd a last).bind fun al =>
              if al < stop then some last
              else upperLoop a stop k first last (Int.tdiv (first + last) 2)
          else upperLoop a stop k first last (Int.tdiv (first + last) 2)
        else some middle
    else none

/-- The part of the three range searches after the early return: both bisections and the
final `if (beginning > ending)`. -/
def searchBody {α : Type} [LinearOrder α] (a : List α) (first last : Int) (start stop : α) :
    Option (Int × Int) :=
  let total := last - first + 1
  let fuel := a.length + 2
  (rd a 0).bind fun a0 =>
    (if a0 ≥ start then some 0
     else lowerLoop a start fuel first last (Int.tdiv (first + last) 2)).bind fun beginning =>
      (rd a (total - 1)).bind fun an =>
        (if an ≤ stop then some (total - 1)
         else upperLoop a stop fuel beginning (total - 1)
                (Int.tdiv (beginning + (total - 1)) 2)).bind fun ending =>
          if beginning > ending then some (-1, -1) else some (beginning, ending)

/-- `RangeSearchForTT2000`: the pair written to `elements[0], elements[1]`. -/
def RangeSearchForTT2000 (array : List Int) (first last : Int) (start stop : Int) :
    Option (Int × Int) :=
  let total := last - first + 1
  if start > stop then some (-1, -1)
  else
    (rd array 0).bind fun a0 =>
      if stop < a0 then some (-1, -1)
      else
        (rd array (total - 1)).bind fun an =>
          if start > an then some (-1, -1)
          else searchBody array first last start stop

/-- Doubles are ordered by their values. -/
instance : LinearOrder Dbl :=
  LinearOrder.lift' Dbl.raw (fun a b hab => by cases a; cases b; simpa using hab)

/-- `RangeSearchForEPOCH`: the same search over `double` keys. -/
def RangeSearchForEPOCH (array : List Dbl) (first last : Int) (start stop : Dbl) :
    Option (Int × Int) :=
  let total := last - first + 1
  if start > stop then some (-1, -1)
  else
    (rd array (total - 1)).bind fun an =>
      if start > an then some (-1, -1)
      else
        (rd array 0).bind fun a0 =>
          if stop < a0 then some (-1, -1)
          else searchBody array first last start stop

/-! ## Example hosts -/

/-- A `sscanf` that converts exactly one line, a well-formed 2017 row. -/
def scanExample (line : String) : Option (Int × Int × Int × Dbl × Dbl × Dbl) :=
  if line = "2017 1 1 37.0 0.0 0.0" then some (2017, 1, 1, Dbl.ofInt 37, ⟨0⟩, ⟨0⟩) else none

/-- A host whose leap-second file `good.dat` holds a comment and one well-formed row. -/
def hostGood : Host :=
  { getenv := some "good.dat",
    fopen := fun p => if p = "good.dat" then some ["; leap seconds", "2017 1 1 37.0 0.0 0.0"]
                      else none,
    sscanf6 := scanExample }

/-- A host whose leap-second file `bad.dat` holds one row with five columns instead of six. -/
def hostBad : Host :=
  { getenv := some "bad.dat",
    fopen := fun p => if p = "bad.dat" then some ["2017 1 1 37.0 0.0"] else none,
    sscanf6 := scanExample }

/-- The double `x` lies in `[q, q + 1 - 2^(e - 1074)]`: its integer part is `q`, with a margin
of `2^e` raw units below the next integer. -/
def Below (x : Dbl) (q : Int) (e : Nat) : Prop :=
  q * SC ≤ x.raw ∧ x.raw + 2 ^ e ≤ (q + 1) * SC

/-- Days in month `m` of year `y`: the tables `daym1`, `daym2` selected by the leap-year test
of `computeTT2000`. -/
def daysInMonth (y m : Int) : Int :=
  if lyearOf y then tbl daym2 (m - 1) else tbl daym1 (m - 1)

/-- The calendar day after `(y, m, d)`. -/
def nextDay (y m d : Int) : Int × Int × Int :=
  if d < daysInMonth y m then (y, m, d + 1)
  else if m < 12 then (y, m + 1, 1)
  else (y + 1, 1, 1)

/-- Calendar order of dates: by year, then month, then day. -/
def dateLt (y m d y2 m2 d2 : Int) : Prop :=
  y < y2 ∨ (y = y2 ∧ (m < m2 ∨ (m = m2 ∧ d < d2)))

/-- The value of `l` in `dateFromL` for 1 March of year `Y`. -/
def marchStart (Y : Int) : Int := JulianDay12hL Y 3 1 + 68569

/-- Length of the year running from 1 March of `Y` to the end of February of `Y + 1`. -/
def yearLen (Y : Int) : Int := if lyearOf (Y + 1) then 366 else 365

/-- Days from 1 March to the first of month `m` within a March-based year. -/
def marchOffset (m : Int) : Int :=
  tbl [306, 337, 0, 31, 61, 92, 122, 153, 184, 214, 245, 275] (m - 1)

/-- The last steps of `dateFromL`, from `l = t + 31` on, `t` being the day within the
March-based year: the year carry, the month and the day. -/
def tailOf (t : Int) : Int × Int × Int :=
  let l := t + 31
  let j := Int.tdiv (80 * l) 2447
  let k := l - Int.tdiv (2447 * j) 80
  let l := Int.tdiv j 11
  (l, j + 2 - 12 * l, k)

/-- Check of one March-based year `Y`: the intermediate quotients `n` and `i` of `dateFromL`
are the same on its first and its last day, they give the year `Y`, the day count restarts at
0, and the next March-based year starts right after the last day. -/
def marchYearOK (Y : Int) : Bool :=
  let S := marchStart Y
  let E := S + yearLen Y - 1
  let n := Int.tdiv (4 * S) 146097
  let c := Int.tdiv (146097 * n + 3) 4
  let i := Int.tdiv (4000 * (S - c + 1)) 1461001
  decide (marchStart (Y + 1) = S + yearLen Y) && decide (0 ≤ S) && decide (0 ≤ S - c + 1)
    && decide (Int.tdiv (4 * E) 146097 = n)
    && decide (Int.tdiv (4000 * (E - c + 1)) 1461001 = i)
    && decide (S - c - Int.tdiv (1461 * i) 4 = 0)
    && decide (100 * (n - 49) + i = Y)

/-- Every March-based year from `lo` on, `k` of them, passes `marchYearOK`. -/
def marchYearsOK (lo : Int) (k : Nat) : Bool :=
  (List.range k).all fun j => marchYearOK (lo + (j : Int))

/-- The check behind `tail_forward`: every day of every month, table `daym2`. -/
def tailForwardOK : Bool :=
  (List.range 12).all fun m => (List.range 31).all fun d =>
    decide ((d : Int) + 1 ≤ tbl daym2 m →
      tailOf (marchOffset ((m : Int) + 1) + ((d : Int) + 1) - 1)
        = ((if (m : Int) + 1 ≤ 2 then 1 else 0), (m : Int) + 1, (d : Int) + 1))

/-- The check behind `tail_backward`: every day `t` of a March-based year. -/
def tailBackwardOK : Bool :=
  (List.range 366).all fun t =>
    let r := tailOf (t : Int)
    decide (1 ≤ r.2.1) && decide (r.2.1 ≤ 12) && decide (1 ≤ r.2.2)
      && decide (r.2.2 ≤ tbl daym2 (r.2.1 - 1))
      && decide (r.1 = if r.2.1 ≤ 2 then 1 else 0)
      && decide (marchOffset r.2.1 + r.2.2 - 1 = (t : Int))
      && decide (t = 365 → r.2.1 = 2 ∧ r.2.2 = 29)
      && decide (r.2.1 = 2 ∧ r.2.2 = 29 → t = 365)

/-- Row `i` of the built-in table. -/
def ltsRowAt (i : Nat) : Row := LTS.getD i ⟨⟨0⟩, ⟨0⟩, ⟨0⟩, ⟨0⟩, ⟨0⟩, ⟨0⟩⟩

/-- The value `(long) (12 * LTD[i][0] + LTD[i][1])` that `LeapSecondsfromYMD` compares with,
for the built-in table. -/
def ltsKey (i : Nat) : Int :=
  Dbl.toInt (Dbl.add (Dbl.mul (Dbl.ofInt 12) (ltsRowAt i).c0) (ltsRowAt i).c1)

/-- Year of row `i` of the built-in table. -/
def ltsYear (i : Nat) : Int := Dbl.toInt (ltsRowAt i).c0

/-- Month of row `i` of the built-in table. -/
def ltsMonth (i : Nat) : Int := Dbl.toInt (ltsRowAt i).c1

/-- Day number of the date of row `i` of the built-in table. -/
def ltsDay (i : Nat) : Int := JulianDay12hL (ltsYear i) (ltsMonth i) 1

/-- Check of row `i` (from 1972 on) of the built-in table against the thresholds `NST2`: the
row holds `i - 4` leap seconds, without drift, from the first of a month, and the threshold
is midnight of that date on the TT2000 scale. -/
def leapRowOK (i : Nat) : Bool :=
  decide ((ltsRowAt i).c3 = Dbl.ofInt ((i : Int) - 4))
    && decide ((ltsRowAt i).c0 = Dbl.ofInt (ltsYear i))
    && decide ((ltsRowAt i).c1 = Dbl.ofInt (ltsMonth i))
    && decide ((ltsRowAt i).c2 = Dbl.ofInt 1)
    && decide (ltsKey i = 12 * ltsYear i + ltsMonth i)
    && decide (1 ≤ ltsMonth i) && decide (ltsMonth i ≤ 12)
    && decide (1972 ≤ ltsYear i) && decide (ltsYear i ≤ 2017)
    && decide (NST2.getD i 0 + 43167816000000
        = ((ltsDay i - 1721060) * 86400 - 63113904000 + ((i : Int) - 4)) * 1000000000)
    && decide (i + 1 < 42 → NST2.getD i 0 + 1000000000 < NST2.getD (i + 1) 0
        ∧ ltsKey i < ltsKey (i + 1))
    && decide (2441318 ≤ ltsDay i) && decide (ltsDay i ≤ 2457755)

/-- All rows from 1972 on pass `leapRowOK`. -/
def leapTableOK : Bool := (List.range 28).all fun k => leapRowOK (k + 14)

/-- The module state holds the built-in table and its thresholds. -/
def Loaded (s : TTState) : Prop :=
  s.LTD = .live LTS ∧ s.entryCnt = NDAT ∧ s.NST = .live NST2

/-- The local variables of `computeTT2000` after the argument checks, for integer
arguments. -/
def Loc.ofInts (y m d hh mn ss ms us ns : Int) : Loc :=
  { ly := Dbl.ofInt y, lm := Dbl.ofInt m, ld := Dbl.ofInt d, lh := Dbl.ofInt hh,
    ln := Dbl.ofInt mn, ls := Dbl.ofInt ss, ll := Dbl.ofInt ms, lu := Dbl.ofInt us,
    la := Dbl.ofInt ns, lyl := -999, lml := -999, ldl := 0 }

/-- The module state after `LoadLeapSecondsTable` on a host without a configured file: the
built-in table is in place. -/
def builtinState : TTState := LoadLeapSecondsTable Host.plain TTState.init

/-! ## Strings: encodeTT2000 and parseTT2000

A C string is the list of its characters before the terminating NUL.  The lengths
`TT2000_k_STRING_LEN` are `#define`d in `cdf.h`, which is not among the sources; their values
are those the comment of `toParseTT2000` gives (`len = 30`, 19, 14, 29, 30) and the fixed
strings of `encodeTT2000` have. -/

def TT2000_0_STRING_LEN : Nat := 30
def TT2000_1_STRING_LEN : Nat := 19
def TT2000_2_STRING_LEN : Nat := 14
def TT2000_3_STRING_LEN : Nat := 29
def TT2000_4_STRING_LEN : Nat := 30

/-- The character of a decimal digit. -/
def digitChar (d : Nat) : Char := Char.ofNat (48 + d)

/-- The decimal digits of `n`, most significant first (at most `fuel` of them). -/
def natDigits : Nat → Nat → List Char
  | 0, _ => []
  | f + 1, n => if n < 10 then [digitChar n] else natDigits f (n / 10) ++ [digitChar (n % 10)]

/-- The `printf` conversions `%p.pld` and `%p.plld`: at least `p` digits, zero filled, with a
minus sign before them for a negative value (a 64-bit value has at most 19 digits). -/
def fmtLd (p : Nat) (n : Int) : List Char :=
  let ds := natDigits 20 n.natAbs
  let body := List.replicate (p - ds.length) '0' ++ ds
  if n < 0 then '-' :: body else body

/-- `MonthToken`. -/
def MonthToken (month : Int) : List Char :=
  if month = 1 then "Jan".data else if month = 2 then "Feb".data
  else if month = 3 then "Mar".data else if month = 4 then "Apr".data
  else if month = 5 then "May".data else if month = 6 then "Jun".data
  else if month = 7 then "Jul".data else if month = 8 then "Aug".data
  else if month = 9 then "Sep".data else if month = 10 then "Oct".data
  else if month = 11 then "Nov".data else if month = 12 then "Dec".data
  else "???".data

/-- `MonthNumber`; the comparison `StrStrIgCaseX` belongs to another file of the library and
is the parameter `ig`. -/
def MonthNumber (ig : List Char → List Char → Bool) (month : List Char) : Int :=
  if ig month "jan".data then 1 else if ig month "feb".data then 2
  else if ig month "mar".data then 3 else if ig month "apr".data then 4
  else if ig month "may".data then 5 else if ig month "jun".data then 6
  else if ig month "jul".data then 7 else if ig month "aug".data then 8
  else if ig month "sep".data then 9 else if ig month "oct".data then 10
  else if ig month "nov".data then 11 else if ig month "dec".data then 12
  else 0

/-- Comparison of two strings without regard to the case of ASCII letters: an instance of
the parameter `ig` for examples. -/
def igCase (a b : List Char) : Bool := a.map Char.toLower == b.map Char.toLower

/-- `encodeTT2000` (alias `CDF_TT2000_to_UTC_string`): the string written, and the state. -/
def encodeTT2000 (c : Sentinels) (h : Host) (s : TTState) (nanoSecSinceJ2000 : Int)
    (style : Int) : List Char × TTState :=
  let style := if style < 0 ∨ style > 4 then 3 else style
  if nanoSecSinceJ2000 = c.FILLED_TT2000_VALUE ∨ nanoSecSinceJ2000 = c.ILLEGAL_TT2000_VALUE then
    if style = 0 then ("31-Dec-9999 23:59:59.999999999".data, s)
    else if style = 1 then ("99991231.9999999999".data, s)
    else if style = 2 then ("99991231235959".data, s)
    else if style = 3 then ("9999-12-31T23:59:59.999999999".data, s)
    else ("9999-12-31T23:59:59.999999999Z".data, s)
  else if nanoSecSinceJ2000 = c.DEFAULT_TT2000_PADVALUE then
    if style = 0 then ("01-JAN-0000 00:00:00.000000000".data, s)
    else if style = 1 then ("00000101.0000000000".data, s)
    else if style = 2 then ("00000101000000".data, s)
    else if style = 3 then ("0000-01-01T00:00:00.000000000".data, s)
    else ("0000-01-01T00:00:00.000000000Z".data, s)
  else
    let r := breakdownTT2000 c h s nanoSecSinceJ2000
    let s := r.2
    let ly := Dbl.toInt r.1.yy
    let lm := Dbl.toInt r.1.mm
    let ld := Dbl.toInt r.1.dd
    let lh := Dbl.toInt r.1.hh
    let ln := Dbl.toInt r.1.mn
    let ls := Dbl.toInt r.1.ss
    let ll := Dbl.toInt r.1.ms
    let lu := Dbl.toInt r.1.us
    let la := Dbl.toInt r.1.ns
    if style = 0 then
      ((fmtLd 2 ld ++ '-' :: MonthToken lm ++ '-' :: fmtLd 4 ly ++ ' ' :: fmtLd 2 lh
          ++ ':' :: fmtLd 2 ln ++ ':' :: fmtLd 2 ls ++ '.' :: fmtLd 3 ll ++ fmtLd 3 lu
          ++ fmtLd 3 la).take TT2000_0_STRING_LEN, s)
    else if style = 1 then
      let milsecs := 3600000 * lh + 60000 * ln + 1000 * ls + ll
      let nansecs := 1000 * lu + la
      let subday := Dbl.div (Dbl.add (Dbl.mul (Dbl.ofInt 1000000) (Dbl.ofInt milsecs))
        (Dbl.ofInt nansecs)) (Dbl.mul (Dbl.ofInt 86400) SECinNanoSecsD)
      let subdayll := Dbl.toInt (Dbl.mul subday (Dbl.ofInt 10000000000))
      ((fmtLd 4 ly ++ fmtLd 2 lm ++ fmtLd 2 ld ++ '.' :: fmtLd 10 subdayll).take
        TT2000_1_STRING_LEN, s)
    else if style = 2 then
      ((fmtLd 4 ly ++ fmtLd 2 lm ++ fmtLd 2 ld ++ fmtLd 2 lh ++ fmtLd 2 ln ++ fmtLd 2 ls).take
        TT2000_2_STRING_LEN, s)
    else
      ((fmtLd 4 ly ++ '-' :: fmtLd 2 lm ++ '-' :: fmtLd 2 ld ++ 'T' :: fmtLd 2 lh
          ++ ':' :: fmtLd 2 ln ++ ':' :: fmtLd 2 ls ++ '.' :: fmtLd 3 ll ++ fmtLd 3 lu
          ++ fmtLd 3 la ++ (if style = 4 then ['Z'] else [])).take
        (if style = 3 then TT2000_3_STRING_LEN else TT2000_4_STRING_LEN), s)

/-- The C library `isspace` (in the C locale). -/
def isspaceC (ch : Char) : Bool := ch.toNat = 32 || (decide (9 ≤ ch.toNat) && decide (ch.toNat ≤ 13))

/-- The C library `isprint` (in the C locale). -/
def isprintC (ch : Char) : Bool := decide (32 ≤ ch.toNat) && decide (ch.toNat ≤ 126)

/-- The test of the two trimming loops of `parseTT2000`. -/
def skipC (ch : Char) : Bool := isspaceC ch || !isprintC ch

/-- The trimming of `parseTT2000`: leading and trailing characters that are white space or not
printable are dropped.  On a string without any other character the first loop runs past the
terminating NUL; the model then gives `none`. -/
def trimC (s : List Char) : Option (List Char) :=
  let a := s.dropWhile skipC
  if a = [] then none else some ((a.reverse.dropWhile skipC).reverse)

/-- The read `string[k]`: the NUL at `k = strlen (string)`, nothing beyond it. -/
def chAt (s : List Char) (k : Nat) : Option Char :=
  if k < s.length then s.get? k else if k = s.length then some (Char.ofNat 0) else none

/-- A decimal digit. -/
def isDigitC (ch : Char) : Bool := decide (48 ≤ ch.toNat) && decide (ch.toNat ≤ 57)

/-- The number a string of decimal digits denotes. -/
def digitsValue (ds : List Char) : Nat := ds.foldl (fun a ch => 10 * a + (ch.toNat - 48)) 0

/-- The digits a `scanf` integer conversion takes: at most `k` characters. -/
def scanDigits (k : Nat) (s : List Char) : Option (Nat × List Char) :=
  let ds := (s.take k).takeWhile isDigitC
  if ds = [] then none else some (digitsValue ds, s.drop ds.length)

/-- The `scanf` conversions `%wld` and `%wlld` (`w = 0`: no width): white space is skipped,
then an optional sign and decimal digits, `w` characters at most; `none` when no digit
follows.  The value is not reduced to 64 bits. -/
def scanInt (w : Nat) (s : List Char) : Option (Int × List Char) :=
  let s := s.dropWhile isspaceC
  let w := if w = 0 then s.length + 1 else w
  if s.head? = some '-' then (scanDigits (w - 1) s.tail).map fun p => (-(p.1 : Int), p.2)
  else if s.head? = some '+' then (scanDigits (w - 1) s.tail).map fun p => ((p.1 : Int), p.2)
  else (scanDigits w s).map fun p => ((p.1 : Int), p.2)

/-- The directives of the `scanf` formats of `cdftt2000.c`. -/
inductive Fmt where
  | ld (w : Nat) : Fmt
  | chr : Fmt
  | lit (ch : Char) : Fmt
  | ws : Fmt
deriving DecidableEq, Repr

/-- A value `sscanf` stores. -/
inductive SVal where
  | int (n : Int) : SVal
  | chr (ch : Char) : SVal
deriving DecidableEq, Repr

/-- The C library `sscanf` on the directives `Fmt`: the values stored, in order; their number
is the return value (an input failure before the first conversion, which returns `EOF`, is
an empty list: every caller compares the return value with a positive count). -/
def sscanf : List Fmt → List Char → List SVal
  | [], _ => []
  | .ld w :: f, s =>
    match scanInt w s with
    | none => []
    | some (n, r) => .int n :: sscanf f r
  | .chr :: f, s =>
    match s with
    | [] => []
    | ch :: r => .chr ch :: sscanf f r
  | .lit ch :: f, s =>
    match s with
    | [] => []
    | x :: r => if x = ch then sscanf f r else []
  | .ws :: f, s => sscanf f (s.dropWhile isspaceC)

/-- The format `"%2ld-%c%c%c-%4ld %2ld:%2ld:%2ld.%9ld"`. -/
def fmtStyle0 : List Fmt :=
  [.ld 2, .lit '-', .chr, .chr, .chr, .lit '-', .ld 4, .ws, .ld 2, .lit ':', .ld 2, .lit ':',
   .ld 2, .lit '.', .ld 9]

/-- The format `"%4ld%2ld%2ld.%lld"`. -/
def fmtStyle1 : List Fmt := [.ld 4, .ld 2, .ld 2, .lit '.', .ld 0]

/-- The format `"%4ld%2ld%2ld%2ld%2ld%2ld"`. -/
def fmtStyle2 : List Fmt := [.ld 4, .ld 2, .ld 2, .ld 2, .ld 2, .ld 2]

/-- The format `"%4ld-%2ld-%2ld%c%2ld:%2ld:%2ld"`; a literal after the last conversion
(`"Z"` or `"."`) does not change the number of conversions. -/
def fmtStyle3 : List Fmt :=
  [.ld 4, .lit '-', .ld 2, .lit '-', .ld 2, .chr, .ld 2, .lit ':', .ld 2, .lit ':', .ld 2]

/-- `ScanUTCstring`: the style of a date/time string, -1 when none fits; `none` when a test
reads beyond the end of the string. -/
def ScanUTCstring (s : List Char) : Option Int :=
  let len := s.length
  let isT (ch : Char) : Bool := ch = 'T' || ch = 't' || ch = ' '
  let last : Option Char := if len = 0 then none else chAt s (len - 1)
  (if len = TT2000_3_STRING_LEN then some true
   else if 19 ≤ len ∧ len < TT2000_3_STRING_LEN then
     (chAt s 10).bind fun c10 => if isT c10 then last.map fun cl => cl ≠ 'Z' else some false
   else some false).bind fun t3 =>
  if t3 then some 3
  else
    (if len ≤ TT2000_0_STRING_LEN then (chAt s 11).map fun c11 => decide (c11 = ' ')
     else some false).bind fun t0 =>
    if t0 then some 0
    else
      (if len = TT2000_4_STRING_LEN then some true
       else if 19 ≤ len ∧ len < TT2000_4_STRING_LEN then
         (chAt s 10).bind fun c10 =>
           if isT c10 then last.map fun cl => decide (cl = 'Z') else some false
       else some false).bind fun t4 =>
      if t4 then some 4
      else
        (if len = TT2000_1_STRING_LEN ∨ (9 < len ∧ len < TT2000_1_STRING_LEN) then
           (chAt s 8).map fun c8 => decide (c8 = '.')
         else some false).bind fun t1 =>
        if t1 then some 1
        else if len = TT2000_2_STRING_LEN ∧ (sscanf [.ld 8] s).length = 1 then some 2
        else
          (if len = TT2000_0_STRING_LEN + 1 then
             (chAt s 11).bind fun c11 =>
               if c11 = ' ' then last.map fun cl => decide (cl = 'Z') else some false
           else some false).bind fun t0b =>
          if t0b then some 0 else some (-1)

/-- The text after the last `'.'` of a string (`strrchr (s, '.') + 1`), `none` without one. -/
def afterLastDot (s : List Char) : Option (List Char) :=
  if '.' ∈ s then some (s.reverse.takeWhile (fun ch => ch ≠ '.')).reverse else none

/-- The end of every branch of `parseTT2000`: the validity test and `computeTT2000`. -/
def parseFinish (c : Sentinels) (h : Host) (s : TTState)
    (ly lm ld lh ln ls ll lu la : Int) : Int × TTState :=
  if !YearWithin ly && decide (ValidateYMD ly lm ld = 0) then (c.ILLEGAL_TT2000_VALUE, s)
  else computeTT2000I c h s ly lm ld lh ln ls ll lu la

/-- The split `ll = tmp / 1000000; tmp = tmp - ll * 1000000; lu = tmp / 1000;
la = tmp - lu * 1000` of a count of nanoseconds. -/
def splitNanos (tmp : Int) : Int × Int × Int :=
  let ll := Int.tdiv tmp 1000000
  let tmp := tmp - ll * 1000000
  let lu := Int.tdiv tmp 1000
  (ll, lu, tmp - lu * 1000)

/-- The test for the fill date in styles 0, 3 and 4. -/
def isFillDate (ly lm ld lh ln ls tmp : Int) : Bool :=
  decide (ly = 9999 ∧ lm = 12 ∧ ld = 31 ∧ lh = 23 ∧ ln = 59 ∧ ls = 59
    ∧ (tmp = 999999999 ∨ tmp = 999 ∨ tmp = 999999))

/-- The test for the pad date in styles 0, 3 and 4. -/
def isPadDate (ly lm ld lh ln ls tmp : Int) : Bool :=
  decide (ly = 0 ∧ lm = 1 ∧ ld = 1 ∧ lh = 0 ∧ ln = 0 ∧ ls = 0 ∧ tmp = 0)

/-- The branch `style == 0` of `parseTT2000`. -/
def parseStyle0 (ig : List Char → List Char → Bool) (c : Sentinels) (h : Host) (s : TTState)
    (tmpPtr : List Char) : Option (Int × TTState) :=
  let len := tmpPtr.length
  let scanned : Option (List Char × List SVal) :=
    if len ≠ TT2000_0_STRING_LEN then
      (if len = 0 then none else chAt tmpPtr (len - 1)).map fun cl =>
        let len := if cl = 'Z' ∨ cl = 'z' then len - 1 else len
        let newstr := tmpPtr.take len ++ List.replicate (TT2000_0_STRING_LEN - len) '0'
        let v := sscanf fmtStyle0 newstr
        (newstr, if v.length = 8 then v ++ [.int 0] else v)
    else some (tmpPtr, sscanf fmtStyle0 tmpPtr)
  scanned.bind fun p =>
    match p.2 with
    | [.int ld, .chr m0, .chr m1, .chr m2, .int ly, .int lh, .int ln, .int ls, .int tmp] =>
      let lm := MonthNumber ig [m0, m1, m2]
      if isFillDate ly lm ld lh ln ls tmp then some (c.FILLED_TT2000_VALUE, s)
      else if isPadDate ly lm ld lh ln ls tmp then some (c.DEFAULT_TT2000_PADVALUE, s)
      else
        let f : Int × Int × Int :=
          if tmp = 0 then (0, 0, 0)
          else
            match afterLastDot p.1 with
            | none => (0, 0, 0)
            | some frac =>
              let tmp := if frac.length < 9 then
                  Dbl.toInt (Dbl.mul (Dbl.ofInt tmp) (Dbl.ofInt (10 ^ (9 - frac.length))))
                else tmp
              splitNanos tmp
        some (parseFinish c h s ly lm ld lh ln ls f.1 f.2.1 f.2.2)
    | _ => some (c.ILLEGAL_TT2000_VALUE, s)

/-- The branch `style == 1` of `parseTT2000`: the fraction of the day goes through `double`
arithmetic. -/
def parseStyle1 (c : Sentinels) (h : Host) (s : TTState) (tmpPtr : List Char) :
    Option (Int × TTState) :=
  match sscanf fmtStyle1 tmpPtr with
  | [.int ly, .int lm, .int ld, .int tmp] =>
    let fraction : Dbl :=
      if tmp = 0 then ⟨0⟩
      else Dbl.div (Dbl.ofInt tmp) (Dbl.ofInt (10 ^ ((afterLastDot tmpPtr).getD []).length))
    if ly = 9999 ∧ lm = 12 ∧ ld = 31 ∧ tmp = 9999999999 then some (c.FILLED_TT2000_VALUE, s)
    else if ly = 0 ∧ lm = 1 ∧ ld = 1 ∧ tmp = 0 then some (c.DEFAULT_TT2000_PADVALUE, s)
    else if !YearWithin ly && decide (ValidateYMD ly lm ld = 0) then
      some (c.ILLEGAL_TT2000_VALUE, s)
    else
      let fraction := Dbl.mul fraction (Dbl.ofInt 24)
      let lh := Dbl.toInt (Dbl.floor fraction)
      let fraction := Dbl.mul (Dbl.sub fraction (Dbl.ofInt lh)) (Dbl.ofInt 60)
      let ln := Dbl.toInt (Dbl.floor fraction)
      let fraction := Dbl.mul (Dbl.sub fraction (Dbl.ofInt ln)) (Dbl.ofInt 60)
      let ls := Dbl.toInt (Dbl.floor fraction)
      let fraction := Dbl.mul (Dbl.sub fraction (Dbl.ofInt ls)) (Dbl.ofInt 1000)
      let ll := Dbl.toInt (Dbl.floor fraction)
      let fraction := Dbl.mul (Dbl.sub fraction (Dbl.ofInt ll)) (Dbl.ofInt 1000)
      let lu := Dbl.toInt (Dbl.floor fraction)
      let la := Dbl.toInt (Dbl.mul (Dbl.sub fraction (Dbl.ofInt lu)) (Dbl.ofInt 1000))
      some (computeTT2000I c h s ly lm ld lh ln ls ll lu la)
  | _ => some (c.ILLEGAL_TT2000_VALUE, s)

/-- The branch `style == 2` of `parseTT2000`. -/
def parseStyle2 (c : Sentinels) (h : Host) (s : TTState) (tmpPtr : List Char) :
    Option (Int × TTState) :=
  match sscanf fmtStyle2 tmpPtr with
  | [.int ly, .int lm, .int ld, .int lh, .int ln, .int ls] =>
    if ly = 9999 ∧ lm = 12 ∧ ld = 31 ∧ lh = 23 ∧ ln = 59 ∧ ls = 59 then
      some (c.FILLED_TT2000_VALUE, s)
    else if ly = 0 ∧ lm = 1 ∧ ld = 1 ∧ lh = 0 ∧ ln = 0 ∧ ls = 0 then
      some (c.DEFAULT_TT2000_PADVALUE, s)
    else some (parseFinish c h s ly lm ld lh ln ls 0 0 0)
  | _ => some (c.ILLEGAL_TT2000_VALUE, s)

/-- The branch `style == 3 || style == 4` of `parseTT2000`.  With a `'.'` in the string the
digits from position 20 on are copied over `"000000000"`; a string too short for that
(`memcpy` with a negative count) gives `none`. -/
def parseStyle3 (c : Sentinels) (h : Host) (s : TTState) (tmpPtr : List Char) :
    Option (Int × TTState) :=
  let len := tmpPtr.length
  let zeros : List Char := List.replicate 9 '0'
  let endsZ : Bool := tmpPtr.getLast? = some 'Z'
  match sscanf fmtStyle3 tmpPtr with
  | [.int ly, .int lm, .int ld, .chr _, .int lh, .int ln, .int ls] =>
    let tmp2 : Option (List Char) :=
      if '.' ∈ tmpPtr then
        let k : Int := if endsZ then (len : Int) - 20 - 1 else (len : Int) - 20
        if k < 0 then none
        else some ((((tmpPtr.drop 20).take k.toNat) ++ zeros.drop k.toNat).take 9)
      else some zeros
    tmp2.bind fun tmp2 =>
      match sscanf [.ld 0] tmp2 with
      | [.int tmp] =>
        if isFillDate ly lm ld lh ln ls tmp then some (c.FILLED_TT2000_VALUE, s)
        else if isPadDate ly lm ld lh ln ls tmp then some (c.DEFAULT_TT2000_PADVALUE, s)
        else
          let f : Int × Int × Int := if tmp = 0 then (0, 0, 0) else splitNanos tmp
          some (parseFinish c h s ly lm ld lh ln ls f.1 f.2.1 f.2.2)
      | _ => some (c.ILLEGAL_TT2000_VALUE, s)
  | _ => some (c.ILLEGAL_TT2000_VALUE, s)

/-- `parseTT2000` (alias `CDF_TT2000_from_UTC_string`): the value returned and the state;
`none` where the C code reads or writes outside a string. -/
def parseTT2000 (ig : List Char → List Char → Bool) (c : Sentinels) (h : Host) (s : TTState)
    (string : List Char) : Option (Int × TTState) :=
  (trimC string).bind fun tmpPtr =>
    (ScanUTCstring tmpPtr).bind fun style =>
      if style = 0 then parseStyle0 ig c h s tmpPtr
      else if style = 1 then parseStyle1 c h s tmpPtr
      else if style = 2 then parseStyle2 c h s tmpPtr
      else if style = 3 ∨ style = 4 then parseStyle3 c h s tmpPtr
      else some (c.ILLEGAL_TT2000_VALUE, s)

/-- Encoding followed by parsing, the state threaded through: `parseTT2000 (encodeTT2000
(x, style))`. -/
def parseEncoded (ig : List Char → List Char → Bool) (c : Sentinels) (h : Host) (s : TTState)
    (x : Int) (style : Int) : Option (Int × TTState) :=
  parseTT2000 ig c h (encodeTT2000 c h s x style).2 (encodeTT2000 c h s x style).1

/-- Digit `k` (from the right) of a non-negative integer, as a character. -/
def dig (n : Int) (k : Nat) : Char := digitChar (n.toNat / 10 ^ k % 10)

/-- Check of `fmtLd` with 2 and 3 digits on all values, and with 4 digits on the years
1972 .. 2292. -/
def fmtLdOK : Bool :=
  ((List.range 100).all fun k => fmtLd 2 (k : Int) == [dig k 1, dig k 0])
  && ((List.range 1000).all fun k => fmtLd 3 (k : Int) == [dig k 2, dig k 1, dig k 0])
  && ((List.range 321).all fun k =>
        fmtLd 4 (1972 + (k : Int))
          == [dig (1972 + (k : Int)) 3, dig (1972 + (k : Int)) 2, dig (1972 + (k : Int)) 1,
              dig (1972 + (k : Int)) 0])

/-- The nine digits of the sub-second fields. -/
def fracDigits (ms us ns : Int) : List Char :=
  [dig ms 2, dig ms 1, dig ms 0, dig us 2, dig us 1, dig us 0, dig ns 2, dig ns 1, dig ns 0]

/-- The string of styles 3 and 4 for fields within their ranges. -/
def isoString (y m d hh mn ss ms us ns : Int) (z : List Char) : List Char :=
  [dig y 3, dig y 2, dig y 1, dig y 0, '-', dig m 1, dig m 0, '-', dig d 1, dig d 0, 'T',
   dig hh 1, dig hh 0, ':', dig mn 1, dig mn 0, ':', dig ss 1, dig ss 0, '.']
    ++ (fracDigits ms us ns ++ z)

/-- The string of style 0 for fields within their ranges; `t0 t1 t2` is the month token. -/
def dmyString (t0 t1 t2 : Char) (y d hh mn ss ms us ns : Int) : List Char :=
  [dig d 1, dig d 0, '-', t0, t1, t2, '-', dig y 3, dig y 2, dig y 1, dig y 0, ' ',
   dig hh 1, dig hh 0, ':', dig mn 1, dig mn 0, ':', dig ss 1, dig ss 0, '.']
    ++ fracDigits ms us ns

/-- The leap seconds `LeapSecondsfromYMD` gives for a date under the built-in table. -/
def leapOfDate (y m d : Int) : Dbl := (LeapSecondsfromYMD Host.plain builtinState y m d).1

/-- The day cache of `computeTT2000` (`currentDay`, `currentLeapSeconds`, `currentJDay`) is
consistent with the built-in table: when `currentDay` is the key of a date, the two cached
values are those of that date. -/
def CacheOK (s : TTState) : Prop :=
  ∀ y m d : Int, 1 ≤ m → m ≤ 12 → 1 ≤ d → d ≤ 31 → 0 ≤ y → y < 10000 →
    s.currentDay = 10000000 * m + 10000 * d + y →
    s.currentLeapSeconds = leapOfDate y m d ∧ s.currentJDay = JulianDay12h y m d

/-- The invariant of the round-trip theorems: the module holds the built-in table, its
thresholds are either not loaded yet or those of the built-in table, and the day cache is
consistent. -/
def BuiltinOK (s : TTState) : Prop :=
  s.LTD = .live LTS ∧ s.entryCnt = NDAT ∧ (s.NST = .null ∨ s.NST = .live NST2) ∧ CacheOK s

/-- `RecheckLeapSecondsTableEnvVar`: with no CDF open, the table is cleared and loaded again
when the environment variable is unset or empty, or when it differs from a cached path. -/
def RecheckLeapSecondsTableEnvVar (h : Host) (s : TTState) : TTState :=
  if s.openCDF64s ≠ 0 then s
  else
    match CDFgetLeapSecondsTableEnvVar h s with
    | some table2 =>
      if table2.length > 0 then
        if s.leapTableEnv ≠ none ∧ s.leapTableEnv ≠ some table2 then
          LoadLeapSecondsTable h { CDFClearLeapSecondsTable s with leapTableEnv := some table2 }
        else s
      else LoadLeapSecondsTable h { CDFClearLeapSecondsTable s with leapTableEnv := none }
    | none => LoadLeapSecondsTable h { CDFClearLeapSecondsTable s with leapTableEnv := none }

/-- The first statement of every table query:
`if (LTD == NULL) LoadLeapSecondsTable (); else RecheckLeapSecondsTableEnvVar ();`. -/
def refreshTable (h : Host) (s : TTState) : TTState :=
  if s.LTD.isNull then LoadLeapSecondsTable h s else RecheckLeapSecondsTableEnvVar h s

/-- `CDFgetRowsinLeapSecondsTable`. -/
def CDFgetRowsinLeapSecondsTable (h : Host) (s : TTState) : Int × TTState :=
  ((refreshTable h s).entryCnt, refreshTable h s)

/-- The read `LTD[i]` of a table row: `none` outside the allocated rows. -/
def TTState.rowAt (s : TTState) (i : Int) : Option Row :=
  if i < 0 then none else s.LTD.data.get? i.toNat

/-- `CDFgetLastDateinLeapSecondsTable`: year, month and day of row `entryCnt - 1`. -/
def CDFgetLastDateinLeapSecondsTable (h : Host) (s : TTState) :
    Option (Int × Int × Int) × TTState :=
  (((refreshTable h s).rowAt ((refreshTable h s).entryCnt - 1)).map fun r =>
      (Dbl.toInt r.c0, Dbl.toInt r.c1, Dbl.toInt r.c2),
    refreshTable h s)

/-- `CDFgetLeapSecondsTableStatus`. -/
def CDFgetLeapSecondsTableStatus (h : Host) (s : TTState) : Int × TTState :=
  ((refreshTable h s).fromFile, refreshTable h s)

/-- `CDFfillLeapSecondsTable`: the rows copied into the caller's table, `none` when a read
leaves the allocated rows. -/
def CDFfillLeapSecondsTable (h : Host) (s : TTState) : Option (List Row) × TTState :=
  ((List.range (refreshTable h s).entryCnt.toNat).mapM fun i =>
      (refreshTable h s).rowAt (i : Int),
    refreshTable h s)

/-- `AddOpenCDFsCount`. -/
def AddOpenCDFsCount (s : TTState) : TTState := { s with openCDF64s := s.openCDF64s + 1 }

/-- `ReduceOpenCDFsCount`. -/
def ReduceOpenCDFsCount (s : TTState) : TTState :=
  CDFClearLeapSecondsTable { s with openCDF64s := s.openCDF64s - 1 }

/-- The calendar date of a table row. -/
def Row.date (r : Row) : Int × Int × Int := (Dbl.toInt r.c0, Dbl.toInt r.c1, Dbl.toInt r.c2)

/-- The buffer `tmp2` of the ISO branch of `parseTT2000`, as `parseStyle3` fills it: the
digits after position 20 copied over nine zeros, `none` for a negative `memcpy` count. -/
def isoFraction (tmpPtr : List Char) : Option (List Char) :=
  if '.' ∈ tmpPtr then
    if (if tmpPtr.getLast? = some 'Z' then (tmpPtr.length : Int) - 20 - 1
        else (tmpPtr.length : Int) - 20) < 0 then none
    else some ((((tmpPtr.drop 20).take
        (if tmpPtr.getLast? = some 'Z' then (tmpPtr.length : Int) - 20 - 1
          else (tmpPtr.length : Int) - 20).toNat)
      ++ (List.replicate 9 '0').drop
        (if tmpPtr.getLast? = some 'Z' then (tmpPtr.length : Int) - 20 - 1
          else (tmpPtr.length : Int) - 20).toNat).take 9)
  else some (List.replicate 9 '0')

/-- The first 19 characters `yyyy-mm-ddThh:mm:ss` of an ISO string. -/
def isoHead (y m d hh mn ss : Int) : List Char :=
  [dig y 3, dig y 2, dig y 1, dig y 0, '-', dig m 1, dig m 0, '-', dig d 1, dig d 0, 'T',
   dig hh 1, dig hh 0, ':', dig mn 1, dig mn 0, ':', dig ss 1, dig ss 0]

/-- Check of the magnitudes of the built-in table: in every row the delta is at most 64, the
drift origin at most 65536 and the drift rate at most `2^-8`. -/
def rowsBoundOK : Bool :=
  (List.range 42).all fun i =>
    decide ((ltsRowAt i).c3.raw.natAbs ≤ 2 ^ 6 * 2 ^ 1074)
      && decide ((ltsRowAt i).c4.raw.natAbs ≤ 2 ^ 16 * 2 ^ 1074)
      && decide ((ltsRowAt i).c5.raw.natAbs ≤ 2 ^ 1066)

/-- Check of `fmtLd` with 4 digits on the years 1700 .. 2299. -/
def fmtLdYearOK : Bool :=
  (List.range 600).all fun k =>
    fmtLd 4 (1700 + (k : Int))
      == [dig (1700 + (k : Int)) 3, dig (1700 + (k : Int)) 2, dig (1700 + (k : Int)) 1,
          dig (1700 + (k : Int)) 0]

/-- A string has a given length and given characters at given positions. -/
def HasLayout (str : List Char) (len : Nat) (marks : List (Nat × Char)) : Prop :=
  str.length = len ∧ ∀ p ∈ marks, str.get? p.1 = some p.2

/-- The fixed widths and delimiter positions of the five styles of a TT2000 string: 30
characters with `-` at 2 and 6 and a blank at 11 for style 0, 19 characters with `.` at 8 for
style 1, 14 characters for style 2, 29 and 30 characters with `-` at 4 and 7, `T` at 10, `:` at
13 and 16 and `.` at 19 for styles 3 and 4. -/
def styleLayout (style : Int) : Nat × List (Nat × Char) :=
  if style = 0 then (30, [(2, '-'), (6, '-'), (11, ' ')])
  else if style = 1 then (19, [(8, '.')])
  else if style = 2 then (14, [])
  else if style = 3 then (29, [(4, '-'), (7, '-'), (10, 'T'), (13, ':'), (16, ':'), (19, '.')])
  else (30, [(4, '-'), (7, '-'), (10, 'T'), (13, ':'), (16, ':'), (19, '.')])

/-- The body of `dateFromL` with floor division in place of the truncating division of C;
the two agree from `l = 0` on. -/
def dateFromE (l : Int) : Int × Int × Int :=
  let n := 4 * l / 146097
  let l2 := l - (146097 * n + 3) / 4
  let i := 4000 * (l2 + 1) / 1461001
  let l3 := l2 - 1461 * i / 4 + 31
  let j := 80 * l3 / 2447
  let k := l3 - 2447 * j / 80
  let l4 := j / 11
  (100 * (n - 49) + i + l4, j + 2 - 12 * l4, k)

/-- The value of `marchStart` with floor division. -/
def marchStartE (Y : Int) : Int :=
  367 * Y - 7 * (Y + 1) / 4 - 3 * (Y / 100 + 1) / 4 + 1789690

/-! ## EPOCH strings (`epochu.c`)

An EPOCH is a `double`: milliseconds since 0000-01-01T00:00:00.000.  The lengths
`EPOCH_STRING_LEN`, `EPOCH1_STRING_LEN`, ... are those the comment of `toParseEPOCH` gives
(`len = 24`, 16, 14, 24, 23); `MAX_PART_LEN`, `MAX_MOD_LEN` and `MAX_ePART_LEN` are defined
in `epochu.c` itself.  The `long` fields of a date hold a few digits only, so their
arithmetic is that of `Int`. -/

/-- The constants of the header `cdf.h` that `epochu.c` uses; the header is not among the
sources, so they are parameters: the value that marks an illegal EPOCH, the largest EPOCH
`EPOCHbreakdown` decodes, and the capacity of the string `encodeEPOCHx` writes. -/
structure EpochConsts where
  ILLEGAL_EPOCH_VALUE : Dbl
  MAX_EPOCH_BINARY : Dbl
  EPOCHx_STRING_MAX : Nat

/-- The constants with the values of the CDF distribution: -1.0, 3.15569519999998e14
(9999-12-31T23:59:59.998) and 50. -/
def cdfEpochConsts : EpochConsts := ⟨Dbl.ofInt (-1), Dbl.ofInt 315569519999998, 50⟩

/-- A C `double` that may be NaN. -/
inductive Double where
  | nan : Double
  | val (x : Dbl) : Double
deriving DecidableEq, Repr

/-- The literal `-1.0E31`, the EPOCH fill value. -/
def fillEpoch : Dbl := Dbl.ofInt (-10000000000000000000000000000000)

/-- Negation `-a`. -/
def Dbl.neg (a : Dbl) : Dbl := ⟨-a.raw⟩

def EPOCH_STRING_LEN : Nat := 24

def EPOCH1_STRING_LEN : Nat := 16

def EPOCH2_STRING_LEN : Nat := 14

def EPOCH3_STRING_LEN : Nat := 24

def EPOCH4_STRING_LEN : Nat := 23

def MAX_PART_LEN : Nat := 10

def MAX_MOD_LEN : Nat := 10

def MAX_ePART_LEN : Nat := 25

/-- The library routine `strcatX (dst, src, max)` (defined in another file of the library):
concatenation that stops when the destination holds `max` characters; `max = 0` means no
limit. -/
def strcatX (dst src : List Char) (max : Nat) : List Char :=
  if max = 0 then dst ++ src else dst ++ src.take (max - dst.length)

/-- The library routine `catchrX (dst, ch, max)`: `strcatX` of one character. -/
def catchrX (dst : List Char) (ch : Char) (max : Nat) : List Char := strcatX dst [ch] max

/-- The library routine `strcpyX (dst, src, max)`: copy of at most `max` characters; `max = 0`
means no limit. -/
def strcpyX (src : List Char) (max : Nat) : List Char :=
  if max = 0 then src else src.take max

/-- The macro `MakeUpper`. -/
def MakeUpper (ch : Char) : Char := ch.toUpper

/-- The macro `MakeLower`. -/
def MakeLower (ch : Char) : Char := ch.toLower

/-- `JulianDay` of `epochu.c`:
`367*y-7*(y+(m+9)/12)/4-3*((y+(m-9)/7)/100+1)/4+275*m/9+d+1721029` in `long` arithmetic.
Every sum, difference and product is wrapped into 64 bits, as the machine does when a
`computeEPOCH` caller passes a year, month or day far outside the calendar; for fields up to
10^16 in absolute value nothing wraps (`JulianDay_eq`). -/
def JulianDay (y m d : Int) : Int :=
  wrap64 (wrap64 (wrap64 (wrap64 (wrap64 (wrap64 (367 * y)
      - Int.tdiv (wrap64 (7 * wrap64 (y + Int.tdiv (wrap64 (m + 9)) 12))) 4)
    - Int.tdiv (wrap64 (3 * wrap64 (Int.tdiv (wrap64 (y + Int.tdiv (wrap64 (m - 9)) 7)) 100
        + 1))) 4)
    + Int.tdiv (wrap64 (275 * m)) 9) + d) + 1721029)

/-- `computeEpoch`: the EPOCH of date and time fields outside their usual ranges.  The day
count `daysSince0AD` is a `long`: its arithmetic (and `--year`, `13 + month`) wraps into 64
bits; the milliseconds are computed in `double`. -/
def computeEpoch (k : EpochConsts) (year month day hour minute second msec : Int) : Dbl :=
  let daysSince0AD :=
    if month = 0 then wrap64 (wrap64 (JulianDay year 1 1 + wrap64 (day - 1)) - 1721060)
    else if month < 0 then
      wrap64 (JulianDay (wrap64 (year - 1)) (wrap64 (13 + month)) day - 1721060)
    else wrap64 (JulianDay year month day - 1721060)
  if daysSince0AD < 0 then k.ILLEGAL_EPOCH_VALUE
  else
    let msecInDay :=
      Dbl.add (Dbl.add (Dbl.add (Dbl.mul (Dbl.ofInt 3600000) (Dbl.ofInt hour))
        (Dbl.mul (Dbl.ofInt 60000) (Dbl.ofInt minute)))
        (Dbl.mul (Dbl.ofInt 1000) (Dbl.ofInt second))) (Dbl.ofInt msec)
    let msecFromEpoch := Dbl.add (Dbl.mul (Dbl.ofInt 86400000) (Dbl.ofInt daysSince0AD)) msecInDay
    if Dbl.lt msecFromEpoch (Dbl.ofInt 0) then k.ILLEGAL_EPOCH_VALUE else msecFromEpoch

/-- `computeEPOCH`: milliseconds since 0000-01-01T00:00:00.000 of a date and time.  The fill
date gives `-1.0*pow(10.0, 31.0)`, taken as the double nearest to `-10^31`.  On the last path
the year is 0 .. 9999, the month 0 .. 12, the day 1 .. 366 and the time fields are within a
day, so the `long` sums `daysSince0AD` and `msecInDay` stay far inside 64 bits. -/
def computeEPOCH (k : EpochConsts) (year month day hour minute second msec : Int) : Dbl :=
  if year = 9999 ∧ month = 12 ∧ day = 31 ∧ hour = 23 ∧ minute = 59 ∧ second = 59 ∧ msec = 999 then
    fillEpoch
  else if year < 0 then k.ILLEGAL_EPOCH_VALUE
  else if year > 9999 ∨ (month < 0 ∨ month > 12) ∨ (hour < 0 ∨ hour > 23)
      ∨ (minute < 0 ∨ minute > 59) ∨ (second < 0 ∨ second > 59) ∨ (msec < 0 ∨ msec > 999) then
    computeEpoch k year month day hour minute second msec
  else if month = 0 ∧ (day < 1 ∨ day > 366) then
    computeEpoch k year month day hour minute second msec
  else if month ≠ 0 ∧ (day < 1 ∨ day > 31) then
    computeEpoch k year month day hour minute second msec
  else if (hour = 0 ∧ minute = 0 ∧ second = 0) ∧ (msec < 0 ∨ msec > 86399999) then
    computeEpoch k year month day hour minute second msec
  else
    let daysSince0AD :=
      if month = 0 then JulianDay year 1 1 + (day - 1) - 1721060
      else JulianDay year month day - 1721060
    let msecInDay :=
      if hour = 0 ∧ minute = 0 ∧ second = 0 then msec
      else 3600000 * hour + 60000 * minute + 1000 * second + msec
    Dbl.add (Dbl.mul (Dbl.ofInt 86400000) (Dbl.ofInt daysSince0AD)) (Dbl.ofInt msecInDay)

/-- `EPOCHbreakdown`: year, month, day, hour, minute, second and millisecond of an EPOCH.
(The test `NegativeZeroReal8` is left out: the model of `double` has no negative zero.) -/
def EPOCHbreakdown (k : EpochConsts) (epoch : Dbl) :
    Int × Int × Int × Int × Int × Int × Int :=
  if Dbl.beq epoch fillEpoch || Dbl.beq epoch k.ILLEGAL_EPOCH_VALUE then
    (9999, 12, 31, 23, 59, 59, 999)
  else
    let epoch := if Dbl.lt epoch (Dbl.ofInt 0) then Dbl.neg epoch else epoch
    let epoch := if Dbl.lt k.MAX_EPOCH_BINARY epoch then k.MAX_EPOCH_BINARY else epoch
    let msec_AD := epoch
    let second_AD := Dbl.div msec_AD (Dbl.ofInt 1000)
    let minute_AD := Dbl.div second_AD (Dbl.ofInt 60)
    let hour_AD := Dbl.div minute_AD (Dbl.ofInt 60)
    let day_AD := Dbl.div hour_AD (Dbl.ofInt 24)
    let jd := 1721060 + Dbl.toInt day_AD
    let ymd := dateFromL (jd + 68569)
    (ymd.1, ymd.2.1, ymd.2.2,
     Dbl.toInt (Dbl.fmod hour_AD (Dbl.ofInt 24)),
     Dbl.toInt (Dbl.fmod minute_AD (Dbl.ofInt 60)),
     Dbl.toInt (Dbl.fmod second_AD (Dbl.ofInt 60)),
     Dbl.toInt (Dbl.fmod msec_AD (Dbl.ofInt 1000)))

/-- A run of `n` calls `strcatX (encoded, piece, max)`. -/
def strcatRep (max : Nat) (piece : List Char) : Nat → List Char → List Char
  | 0, encoded => encoded
  | n + 1, encoded => strcatRep max piece n (strcatX encoded piece max)

/-- `AppendPart`: the text of a part, padded on the left to `width` characters, or `width`
asterisks when it is longer. -/
def AppendPart (k : EpochConsts) (encoded ePart : List Char) (width : Int) (leading0 : Bool) :
    List Char :=
  if width = 0 then strcatX encoded ePart k.EPOCHx_STRING_MAX
  else
    let length : Int := ePart.length
    if length > width then strcatRep k.EPOCHx_STRING_MAX ['*'] width.toNat encoded
    else
      let pad := width - length
      strcatX (strcatRep k.EPOCHx_STRING_MAX [if leading0 then '0' else ' '] pad.toNat encoded)
        ePart k.EPOCHx_STRING_MAX

/-- `AppendIntegerPart`: the new string and the return value.  The modifier is read with
`"%d"`; the modifiers of the callers have at most two digits. -/
def AppendIntegerPart (k : EpochConsts) (encoded : List Char) (integer : Int)
    (defaultWidth : Int) (defaultLeading0 : Bool) (modifier : List Char) : List Char × Bool :=
  if modifier ≠ [] then
    match sscanf [.ld 0] modifier with
    | [.int width] =>
      if width < 0 then (strcatX encoded ['?'] k.EPOCHx_STRING_MAX, false)
      else (AppendPart k encoded (fmtLd 0 integer) width (modifier.head? == some '0'), true)
    | _ => (strcatX encoded ['?'] k.EPOCHx_STRING_MAX, false)
  else (AppendPart k encoded (fmtLd 0 integer) defaultWidth defaultLeading0, true)

/-- The decimal digits of `n`, zero filled to at least `p` digits. -/
def fmtNat (p n : Nat) : List Char :=
  List.replicate (p - (natDigits 400 n).length) '0' ++ natDigits 400 n

/-- The `printf` conversion `%w.pf` of a finite double: the value rounded to `p` decimals
(to nearest, ties to even), blank filled on the left to `w` characters. -/
def fmtF (w p : Nat) (x : Dbl) : List Char :=
  let n := roundNE (x.raw.natAbs * 10 ^ p) SC
  let body := natDigits 400 (n / 10 ^ p) ++ (if p = 0 then [] else '.' :: fmtNat p (n % 10 ^ p))
  let s := if x.raw < 0 then '-' :: body else body
  List.replicate (w - s.length) ' ' ++ s

/-- The text after the first `'.'` of a string (`strchr (s, '.') + 1`). -/
def afterFirstDot (s : List Char) : List Char := (s.dropWhile fun ch => ch ≠ '.').tail

/-- `AppendFractionPart`: the new string and the return value. -/
def AppendFractionPart (k : EpochConsts) (encoded : List Char) (fraction : Dbl)
    (defaultWidth : Int) (modifier : List Char) : List Char × Bool :=
  let go (width : Int) : List Char × Bool :=
    let width := if width + 2 > MAX_ePART_LEN then (MAX_ePART_LEN : Int) - 2 else width
    let ePart := (fmtF (width + 2).toNat width.toNat fraction).take MAX_ePART_LEN
    let ePart :=
      if ePart.head? = some '1' then
        ePart.take 2 ++ List.replicate width.toNat '9' ++ ePart.drop (2 + width.toNat)
      else ePart
    (AppendPart k encoded (afterFirstDot ePart) width false, true)
  if modifier ≠ [] then
    match sscanf [.ld 0] modifier with
    | [.int width] =>
      if width < 1 then (strcatX encoded ['?'] k.EPOCHx_STRING_MAX, false) else go width
    | _ => (strcatX encoded ['?'] k.EPOCHx_STRING_MAX, false)
  else go defaultWidth

/-- The scan of the format string in `encodeEPOCHx`, with the fields of the EPOCH: `fuel`
bounds the number of rounds of the `for (;;)` loop, each of which consumes at least one
character of the format. -/
def encodeParts (k : EpochConsts) (year month day hour minute second msec : Int) :
    Nat → List Char → List Char → List Char
  | 0, _, encoded => encoded
  | _ + 1, [], encoded => encoded
  | fuel + 1, ch :: rest, encoded =>
    if ch = '<' then
      if rest.head? = some '<' then
        encodeParts k year month day hour minute second msec fuel rest.tail
          (strcatX encoded ['<'] k.EPOCHx_STRING_MAX)
      else
        let inner := rest.takeWhile fun c => c ≠ '>'
        if inner.length = rest.length then strcatX encoded ['?'] k.EPOCHx_STRING_MAX
        else
          let part := (inner.takeWhile fun c => c ≠ '.').take MAX_PART_LEN
          let mod := ((inner.dropWhile fun c => c ≠ '.').tail).take MAX_MOD_LEN
          let ptr := rest.drop (inner.length + 1)
          let next (r : List Char × Bool) : List Char :=
            if r.2 then encodeParts k year month day hour minute second msec fuel ptr r.1
            else r.1
          if part = "dom".data then next (AppendIntegerPart k encoded day 0 false mod)
          else if part = "doy".data then
            next (AppendIntegerPart k encoded
              (JulianDay year month day - JulianDay year 1 1 + 1) 3 true mod)
          else if part = "month".data then
            next (strcatX encoded (MonthToken month) k.EPOCHx_STRING_MAX, true)
          else if part = "mm".data then next (AppendIntegerPart k encoded month 0 false mod)
          else if part = "year".data then next (AppendIntegerPart k encoded year 4 true mod)
          else if part = "yr".data then
            next (AppendIntegerPart k encoded (Int.tmod year 100) 2 true mod)
          else if part = "hour".data then next (AppendIntegerPart k encoded hour 2 true mod)
          else if part = "min".data then next (AppendIntegerPart k encoded minute 2 true mod)
          else if part = "sec".data then next (AppendIntegerPart k encoded second 2 true mod)
          else if part = "fos".data then
            next (AppendFractionPart k encoded (Dbl.div (Dbl.ofInt msec) (Dbl.ofInt 1000)) 3 mod)
          else if part = "fod".data then
            next (AppendFractionPart k encoded
              (Dbl.add (Dbl.add (Dbl.add (Dbl.div (Dbl.ofInt hour) (Dbl.ofInt 24))
                (Dbl.div (Dbl.ofInt minute) (Dbl.ofInt 1440)))
                (Dbl.div (Dbl.ofInt second) (Dbl.ofInt 86400)))
                (Dbl.div (Dbl.ofInt msec) (Dbl.ofInt 86400000))) 8 mod)
          else strcatX encoded ['?'] k.EPOCHx_STRING_MAX
    else
      encodeParts k year month day hour minute second msec fuel rest
        (catchrX encoded ch k.EPOCHx_STRING_MAX)

/-- `encodeEPOCHx` on a format that is not empty: the breakdown, then the scan of the
format. -/
def encodeEPOCHxFmt (k : EpochConsts) (epoch : Dbl) (format : List Char) : List Char :=
  let f := EPOCHbreakdown k epoch
  encodeParts k f.1 f.2.1 f.2.2.1 f.2.2.2.1 f.2.2.2.2.1 f.2.2.2.2.2.1 f.2.2.2.2.2.2
    (format.length + 1) format []

/-- `encodeEPOCH` (style 0); its call of `encodeEPOCHx` has a format that is not empty. -/
def encodeEPOCH (k : EpochConsts) (epoch : Double) : List Char :=
  match epoch with
  | .nan => "Nan".data
  | .val x =>
    if Dbl.beq x fillEpoch || Dbl.beq x k.ILLEGAL_EPOCH_VALUE then
      "31-Dec-9999 23:59:59.999".data
    else encodeEPOCHxFmt k x "<dom.02>-<month>-<year> <hour>:<min>:<sec>.<fos>".data

/-- `encodeEPOCHx`: an empty format selects `encodeEPOCH`. -/
def encodeEPOCHx (k : EpochConsts) (epoch : Dbl) (format : List Char) : List Char :=
  if format = [] then encodeEPOCH k (.val epoch) else encodeEPOCHxFmt k epoch format

/-- `encodeEPOCH1` (style 1). -/
def encodeEPOCH1 (k : EpochConsts) (epoch : Double) : List Char :=
  match epoch with
  | .nan => "Nan".data
  | .val x =>
    if Dbl.beq x fillEpoch || Dbl.beq x k.ILLEGAL_EPOCH_VALUE then "99991231.9999999".data
    else encodeEPOCHx k x "<year><mm.02><dom.02>.<fod.7>".data

/-- `encodeEPOCH2` (style 2). -/
def encodeEPOCH2 (k : EpochConsts) (epoch : Double) : List Char :=
  match epoch with
  | .nan => "Nan".data
  | .val x =>
    if Dbl.beq x fillEpoch || Dbl.beq x k.ILLEGAL_EPOCH_VALUE then "99991231235959".data
    else encodeEPOCHx k x "<year><mm.02><dom.02><hour><min><sec>".data

/-- `encodeEPOCH3` (style 3). -/
def encodeEPOCH3 (k : EpochConsts) (epoch : Double) : List Char :=
  match epoch with
  | .nan => "Nan".data
  | .val x =>
    if Dbl.beq x fillEpoch || Dbl.beq x k.ILLEGAL_EPOCH_VALUE then
      "9999-12-31T23:59:59.999Z".data
    else encodeEPOCHx k x "<year>-<mm.02>-<dom.02>T<hour>:<min>:<sec>.<fos>Z".data

/-- `encodeEPOCH4` (style 4). -/
def encodeEPOCH4 (k : EpochConsts) (epoch : Double) : List Char :=
  match epoch with
  | .nan => "Nan".data
  | .val x =>
    if Dbl.beq x fillEpoch || Dbl.beq x k.ILLEGAL_EPOCH_VALUE then
      "9999-12-31T23:59:59.999".data
    else encodeEPOCHx k x "<year>-<mm.02>-<dom.02>T<hour>:<min>:<sec>.<fos>".data

/-- `toEncodeEPOCH`: the string of an EPOCH in one of the five styles. -/
def toEncodeEPOCH (k : EpochConsts) (epoch : Double) (style : Int) : List Char :=
  match epoch with
  | .nan => "Nan".data
  | .val _ =>
    let style := if style < 0 ∨ style > 4 then 4 else style
    if style = 0 then encodeEPOCH k epoch
    else if style = 1 then encodeEPOCH1 k epoch
    else if style = 2 then encodeEPOCH2 k epoch
    else if style = 3 then encodeEPOCH3 k epoch
    else encodeEPOCH4 k epoch

/-- The month loop of `parseEPOCH`: the number of the month whose token is `moString`, 0
when there is none. -/
def monthOfToken (moString : List Char) : Int :=
  match (List.range 12).find? fun i => MonthToken ((i : Int) + 1) == moString with
  | some i => (i : Int) + 1
  | none => 0

/-- The format `"%2ld-%c%c%c-%4ld %2ld:%2ld:%2ld.%3ld"`. -/
def fmtEPOCH : List Fmt :=
  [.ld 2, .lit '-', .chr, .chr, .chr, .lit '-', .ld 4, .ws, .ld 2, .lit ':', .ld 2, .lit ':',
   .ld 2, .lit '.', .ld 3]

/-- The format `"%4ld%2ld%2ld.%ld"`. -/
def fmtEPOCH1 : List Fmt := [.ld 4, .ld 2, .ld 2, .lit '.', .ld 0]

/-- The format `"%4ld-%2ld-%2ld%c%2ld:%2ld:%2ld.%3ld%c"`. -/
def fmtEPOCH3 : List Fmt :=
  [.ld 4, .lit '-', .ld 2, .lit '-', .ld 2, .chr, .ld 2, .lit ':', .ld 2, .lit ':', .ld 2,
   .lit '.', .ld 3, .chr]

/-- The format `"%4ld-%2ld-%2ld%c%2ld:%2ld:%2ld.%3ld"`. -/
def fmtEPOCH4 : List Fmt :=
  [.ld 4, .lit '-', .ld 2, .lit '-', .ld 2, .chr, .ld 2, .lit ':', .ld 2, .lit ':', .ld 2,
   .lit '.', .ld 3]

/-- `parseEPOCH` (style 0).  The search `CDFstrstrIgCase`, another file of the library, is
the parameter `ig`: `ig s t` tells whether `t` occurs in `s`, the case of letters ignored. -/
def parseEPOCH (ig : List Char → List Char → Bool) (k : EpochConsts) (inString : List Char) :
    Double :=
  if ig inString "nan".data then .nan
  else
    match sscanf fmtEPOCH inString with
    | .int day :: .chr c0 :: .chr c1 :: .chr c2 :: .int year :: .int hour :: .int minute
        :: .int second :: rest =>
      let msec := match rest with
        | .int ms :: _ => ms
        | _ => 0
      let month := monthOfToken [MakeUpper c0, MakeLower c1, MakeLower c2]
      if month = 0 then .val k.ILLEGAL_EPOCH_VALUE
      else .val (computeEPOCH k year month day hour minute second msec)
    | _ => .val fillEpoch

/-- `parseEPOCH1` (style 1): the fraction of the day goes through `double` arithmetic. -/
def parseEPOCH1 (ig : List Char → List Char → Bool) (k : EpochConsts) (inString : List Char) :
    Double :=
  if ig inString "nan".data then .nan
  else
    let temp := strcpyX inString EPOCH1_STRING_LEN
    let temp := temp ++ List.replicate (EPOCH1_STRING_LEN - temp.length) '0'
    match sscanf fmtEPOCH1 temp with
    | [.int year, .int month, .int day, .int fractionL] =>
      let fraction := Dbl.div (Dbl.ofInt fractionL) (Dbl.ofInt 10000000)
      let hour := Dbl.toInt (Dbl.mul fraction (Dbl.ofInt 24))
      let fraction := Dbl.sub fraction (Dbl.div (Dbl.ofInt hour) (Dbl.ofInt 24))
      let minute := Dbl.toInt (Dbl.mul fraction (Dbl.ofInt 1440))
      let fraction := Dbl.sub fraction (Dbl.div (Dbl.ofInt minute) (Dbl.ofInt 1440))
      let second := Dbl.toInt (Dbl.mul fraction (Dbl.ofInt 86400))
      let fraction := Dbl.sub fraction (Dbl.div (Dbl.ofInt second) (Dbl.ofInt 86400))
      let msec := Dbl.toInt (Dbl.mul fraction (Dbl.ofInt 86400000))
      .val (computeEPOCH k year month day hour minute second msec)
    | _ => .val k.ILLEGAL_EPOCH_VALUE

/-- `parseEPOCH2` (style 2). -/
def parseEPOCH2 (ig : List Char → List Char → Bool) (k : EpochConsts) (inString : List Char) :
    Double :=
  if ig inString "nan".data then .nan
  else
    match sscanf fmtStyle2 inString with
    | [.int year, .int month, .int day, .int hour, .int minute, .int second] =>
      .val (computeEPOCH k year month day hour minute second 0)
    | _ => .val k.ILLEGAL_EPOCH_VALUE

/-- `parseEPOCH3` (style 3). -/
def parseEPOCH3 (ig : List Char → List Char → Bool) (k : EpochConsts) (inString : List Char) :
    Double :=
  if ig inString "nan".data then .nan
  else
    match sscanf fmtEPOCH3 inString with
    | .int year :: .int month :: .int day :: .chr _ :: .int hour :: .int minute :: .int second
        :: rest =>
      let msec := match rest with
        | .int ms :: _ => ms
        | _ => 0
      .val (computeEPOCH k year month day hour minute second msec)
    | _ => .val k.ILLEGAL_EPOCH_VALUE

/-- `parseEPOCH4` (style 4). -/
def parseEPOCH4 (ig : List Char → List Char → Bool) (k : EpochConsts) (inString : List Char) :
    Double :=
  if ig inString "nan".data then .nan
  else
    match sscanf fmtEPOCH4 inString with
    | .int year :: .int month :: .int day :: .chr _ :: .int hour :: .int minute :: .int second
        :: rest =>
      let msec := match rest with
        | .int ms :: _ => ms
        | _ => 0
      .val (computeEPOCH k year month day hour minute second msec)
    | _ => .val k.ILLEGAL_EPOCH_VALUE

/-- `toParseEPOCH`: the EPOCH of a string in one of the five styles; `none` when the
trimming or a test reads beyond the end of the string. -/
def toParseEPOCH (ig : List Char → List Char → Bool) (k : EpochConsts) (inString : List Char) :
    Option Double :=
  if ig inString "nan".data then some .nan
  else
    (trimC inString).bind fun tmpPtr =>
    let len := tmpPtr.length
    let isSep (c : Char) : Bool := c = 'T' || c = 't' || c = ' ' || c = '/'
    let endsZ : Bool := tmpPtr.getLast? = some 'Z' || tmpPtr.getLast? = some 'z'
    if len = EPOCH_STRING_LEN then
      if tmpPtr.get? 11 = some ' ' then some (parseEPOCH ig k tmpPtr)
      else if (tmpPtr.get? 10).any isSep then some (parseEPOCH3 ig k tmpPtr)
      else some (.val k.ILLEGAL_EPOCH_VALUE)
    else if len = EPOCH1_STRING_LEN ∧ tmpPtr.get? 8 = some '.' then
      some (parseEPOCH1 ig k tmpPtr)
    else if len = EPOCH2_STRING_LEN ∧ (sscanf [.ld 8] tmpPtr).length = 1 then
      some (parseEPOCH2 ig k tmpPtr)
    else if len = EPOCH4_STRING_LEN ∧ (tmpPtr.get? 10).any isSep then
      some (parseEPOCH4 ig k tmpPtr)
    else if len = EPOCH_STRING_LEN + 1 ∧ endsZ then some (parseEPOCH ig k tmpPtr)
    else
      (chAt tmpPtr 11).bind fun c11 =>
        if c11 = ' ' then some (parseEPOCH ig k tmpPtr)
        else
          (chAt tmpPtr 10).map fun c10 =>
            if isSep c10 then
              if endsZ then parseEPOCH3 ig k tmpPtr else parseEPOCH4 ig k tmpPtr
            else .val k.ILLEGAL_EPOCH_VALUE

/-- The string `t` starts the string `s`, the case of ASCII letters ignored. -/
def igStarts : List Char → List Char → Bool
  | _, [] => true
  | [], _ :: _ => false
  | a :: s, b :: t => (a.toLower == b.toLower) && igStarts s t

/-- An instance of the search `CDFstrstrIgCase` for examples: `t` occurs in `s` at some
position, the case of ASCII letters ignored. -/
def igFind : List Char → List Char → Bool
  | [], t => t.isEmpty
  | a :: s, t => igStarts (a :: s) t || igFind s t

/-- Some letter n of the string is directly followed by a letter a, in either case: what
every string with the letters of `nan` in a row has. -/
def hasNA : List Char → Bool
  | a :: b :: r => (a.toLower == 'n' && b.toLower == 'a') || hasNA (b :: r)
  | _ => false

/-- The string of style 0 for fields within their ranges; `t0 t1 t2` is the month token. -/
def epochDmy (t0 t1 t2 : Char) (y d hh mn ss ms : Int) : List Char :=
  [dig d 1, dig d 0, '-', t0, t1, t2, '-', dig y 3, dig y 2, dig y 1, dig y 0, ' ',
   dig hh 1, dig hh 0, ':', dig mn 1, dig mn 0, ':', dig ss 1, dig ss 0, '.',
   dig ms 2, dig ms 1, dig ms 0]

/-- The string of styles 3 and 4 for fields within their ranges. -/
def epochIso (y m d hh mn ss ms : Int) (z : List Char) : List Char :=
  [dig y 3, dig y 2, dig y 1, dig y 0, '-', dig m 1, dig m 0, '-', dig d 1, dig d 0, 'T',
   dig hh 1, dig hh 0, ':', dig mn 1, dig mn 0, ':', dig ss 1, dig ss 0, '.',
   dig ms 2, dig ms 1, dig ms 0] ++ z

/-! ## EPOCH16 strings (`epochu.c`)

An EPOCH16 is an array of two `double`s: whole seconds since 0000-01-01T00:00:00 and
picoseconds within the second.  The routines that parse a string return a `double` and write
the array; their model returns both.  The lengths `EPOCH16_STRING_LEN`, ... are those the
comment of `toParseEPOCH16` gives (`len = 36`, 24, 14, 36, 32). -/

/-- The constants of the header `cdf.h` that the EPOCH16 routines of `epochu.c` use: the
largest seconds and the largest picoseconds `EPOCH16breakdown` decodes. -/
structure Epoch16Consts where
  MAX_EPOCH16_1_BINARY : Dbl
  MAX_EPOCH16_2_BINARY : Dbl

/-- The constants with the values of the CDF distribution: 3.15569519999E11 and
9.99999999998E11. -/
def cdfEpoch16Consts : Epoch16Consts := ⟨Dbl.ofInt 315569519999, Dbl.ofInt 999999999998⟩

def EPOCH16_STRING_LEN : Nat := 36

def EPOCH16_1_STRING_LEN : Nat := 24

def EPOCH16_2_STRING_LEN : Nat := 14

def EPOCH16_3_STRING_LEN : Nat := 36

def EPOCH16_4_STRING_LEN : Nat := 32

/-- The call `strcpyX (s + off, src, max)` on a buffer holding the string `s`: the copy
replaces the string from position `off` on; beyond the end of `s` it is out of sight, behind
the terminating NUL. -/
def strcpyAt (s : List Char) (off : Nat) (src : List Char) (max : Nat) : List Char :=
  if off ≤ s.length then s.take off ++ strcpyX src max else s

/-- The assignments `s[i] = c; s[i+1] = NUL` on a buffer holding the string `s`. -/
def pokeEnd (s : List Char) (i : Nat) (c : Char) : List Char :=
  if i ≤ s.length then s.take i ++ [c] else s

/-- `encodeEPOCH16x2`: the picoseconds as `mmm.uuu.nnn.ppp`. -/
def encodeEPOCH16x2 (epoch : Dbl) : List Char :=
  let psec := Dbl.toInt (Dbl.fmod epoch (Dbl.ofInt 1000))
  let mmm := Dbl.div epoch (Dbl.ofInt 1000)
  let nsec := Dbl.toInt (Dbl.fmod mmm (Dbl.ofInt 1000))
  let mmm := Dbl.div mmm (Dbl.ofInt 1000)
  let usec := Dbl.toInt (Dbl.fmod mmm (Dbl.ofInt 1000))
  let msec := Dbl.toInt (Dbl.div mmm (Dbl.ofInt 1000))
  (fmtLd 3 msec ++ '.' :: fmtLd 3 usec ++ '.' :: fmtLd 3 nsec ++ '.' :: fmtLd 3 psec).take 15

/-- `encodeEPOCH16x4`: the picoseconds as `mmmuuunnnppp`. -/
def encodeEPOCH16x4 (epoch : Dbl) : List Char :=
  let psec := Dbl.toInt (Dbl.fmod epoch (Dbl.ofInt 1000))
  let mmm := Dbl.div epoch (Dbl.ofInt 1000)
  let nsec := Dbl.toInt (Dbl.fmod mmm (Dbl.ofInt 1000))
  let mmm := Dbl.div mmm (Dbl.ofInt 1000)
  let usec := Dbl.toInt (Dbl.fmod mmm (Dbl.ofInt 1000))
  let msec := Dbl.toInt (Dbl.div mmm (Dbl.ofInt 1000))
  (fmtLd 3 msec ++ fmtLd 3 usec ++ fmtLd 3 nsec ++ fmtLd 3 psec).take 12

/-- `EPOCH16breakdown`: the ten fields of an EPOCH16.  (The tests `NegativeZeroReal8` are
left out: the model of `double` has no negative zero.) -/
def EPOCH16breakdown (k : Epoch16Consts) (epoch : Dbl × Dbl) :
    Int × Int × Int × Int × Int × Int × Int × Int × Int × Int :=
  if Dbl.beq epoch.1 fillEpoch && Dbl.beq epoch.2 fillEpoch then
    (9999, 12, 31, 23, 59, 59, 999, 999, 999, 999)
  else
    let e0 := if Dbl.lt epoch.1 (Dbl.ofInt 0) then Dbl.neg epoch.1 else epoch.1
    let e1 := if Dbl.lt epoch.2 (Dbl.ofInt 0) then Dbl.neg epoch.2 else epoch.2
    let e0 := if Dbl.lt k.MAX_EPOCH16_1_BINARY e0 then k.MAX_EPOCH16_1_BINARY else e0
    let e1 :=
      if Dbl.beq e0 k.MAX_EPOCH16_1_BINARY then
        (if Dbl.lt k.MAX_EPOCH16_2_BINARY e1 then k.MAX_EPOCH16_2_BINARY else e1)
      else
        (if Dbl.lt (Dbl.add k.MAX_EPOCH16_2_BINARY (Dbl.ofInt 1)) e1 then
          Dbl.add k.MAX_EPOCH16_2_BINARY (Dbl.ofInt 1) else e1)
    let second_AD := e0
    let minute_AD := Dbl.div second_AD (Dbl.ofInt 60)
    let hour_AD := Dbl.div minute_AD (Dbl.ofInt 60)
    let day_AD := Dbl.div hour_AD (Dbl.ofInt 24)
    let jd := 1721060 + Dbl.toInt day_AD
    let ymd := dateFromL (jd + 68569)
    let psec_SC := e1
    let nsec_SC := Dbl.div psec_SC (Dbl.ofInt 1000)
    let usec_SC := Dbl.div nsec_SC (Dbl.ofInt 1000)
    (ymd.1, ymd.2.1, ymd.2.2,
     Dbl.toInt (Dbl.fmod hour_AD (Dbl.ofInt 24)),
     Dbl.toInt (Dbl.fmod minute_AD (Dbl.ofInt 60)),
     Dbl.toInt (Dbl.fmod second_AD (Dbl.ofInt 60)),
     Dbl.toInt (Dbl.div usec_SC (Dbl.ofInt 1000)),
     Dbl.toInt (Dbl.fmod usec_SC (Dbl.ofInt 1000)),
     Dbl.toInt (Dbl.fmod nsec_SC (Dbl.ofInt 1000)),
     Dbl.toInt (Dbl.fmod e1 (Dbl.ofInt 1000)))

/-- `encodeEPOCH16x3`: the fraction of the day in 15 digits; `none` when the buffer `tmp` is
read without having been written.  The powers `pow (10.0, n)` here are exact. -/
def encodeEPOCH16x3 (k : Epoch16Consts) (epoch : Dbl × Dbl) (width : Nat) :
    Option (List Char) :=
  let f := EPOCH16breakdown k epoch
  let hour := f.2.2.2.1
  let minute := f.2.2.2.2.1
  let second := f.2.2.2.2.2.1
  let msec := f.2.2.2.2.2.2.1
  let usec := f.2.2.2.2.2.2.2.1
  let nsec := f.2.2.2.2.2.2.2.2.1
  let psec := f.2.2.2.2.2.2.2.2.2
  let mmm1 := Dbl.div
    (Dbl.add (Dbl.add (Dbl.mul (Dbl.ofInt hour) (Dbl.ofInt 3600))
      (Dbl.mul (Dbl.ofInt minute) (Dbl.ofInt 60))) (Dbl.ofInt second)) (Dbl.ofInt 86400)
  let mmm2 := Dbl.div
    (Dbl.add (Dbl.add (Dbl.add (Dbl.mul (Dbl.ofInt msec) (Dbl.ofInt 1000000000))
      (Dbl.mul (Dbl.ofInt usec) (Dbl.ofInt 1000000)))
      (Dbl.mul (Dbl.ofInt nsec) (Dbl.ofInt 1000))) (Dbl.ofInt psec))
    (Dbl.mul (Dbl.ofInt 86400) (Dbl.ofInt 1000000000000))
  let mmm3 := Dbl.add mmm1 mmm2
  let tmp : Option (List Char) :=
    if Dbl.le (Dbl.ofInt 1) mmm3 then
      if Dbl.lt (Dbl.ofInt 0) mmm1 || Dbl.lt (Dbl.ofInt 1000000000) mmm2 then
        some "0.999999999999999".data
      else none
    else some ((fmtF 0 15 mmm3).take 17)
  tmp.map fun t => strcpyX (t.drop 2) width

/-- `encodeEPOCH16` (style 0).  The replacement of negative parts by 0 in the array `epoch`
is carried out on the copies used here. -/
def encodeEPOCH16 (k : EpochConsts) (epoch : Double × Double) : List Char :=
  match epoch with
  | (.val e0, .val e1) =>
    if Dbl.beq e0 fillEpoch && Dbl.beq e1 fillEpoch then
      "31-Dec-9999 23:59:59.999.999.999.999".data
    else
      let e0 := if Dbl.lt e0 (Dbl.ofInt 0) then Dbl.ofInt 0 else e0
      let e1 := if Dbl.lt e1 (Dbl.ofInt 0) then Dbl.ofInt 0 else e1
      let epString := encodeEPOCHx k (Dbl.mul e0 (Dbl.ofInt 1000))
        "<dom.02>-<month>-<year> <hour>:<min>:<sec>.<fos>".data
      (strcpyAt epString 21 (encodeEPOCH16x2 e1) 15).take EPOCH16_STRING_LEN
  | _ => "Nan".data

/-- `encodeEPOCH16_1` (style 1); `none` when `encodeEPOCH16x3` reads its buffer unwritten. -/
def encodeEPOCH16_1 (k : EpochConsts) (k16 : Epoch16Consts) (epoch : Double × Double) :
    Option (List Char) :=
  match epoch with
  | (.val e0, .val e1) =>
    if Dbl.beq e0 fillEpoch && Dbl.beq e1 fillEpoch then some "99991231.999999999999999".data
    else
      let epString := encodeEPOCHx k (Dbl.mul e0 (Dbl.ofInt 1000))
        "<year><mm.02><dom.02>.<fod.7>".data
      (encodeEPOCH16x3 k16 (e0, e1) 15).map fun tmp =>
        (strcpyAt epString 9 tmp 15).take EPOCH16_1_STRING_LEN
  | _ => some "Nan".data

/-- `encodeEPOCH16_2` (style 2). -/
def encodeEPOCH16_2 (k : EpochConsts) (epoch : Double × Double) : List Char :=
  match epoch with
  | (.val e0, .val e1) =>
    if Dbl.beq e0 fillEpoch && Dbl.beq e1 fillEpoch then "99991231235959".data
    else encodeEPOCHx k (Dbl.mul e0 (Dbl.ofInt 1000))
      "<year><mm.02><dom.02><hour><min><sec>".data
  | _ => "Nan".data

/-- `encodeEPOCH16_3` (style 3). -/
def encodeEPOCH16_3 (k : EpochConsts) (epoch : Double × Double) : List Char :=
  match epoch with
  | (.val e0, .val e1) =>
    if Dbl.beq e0 fillEpoch && Dbl.beq e1 fillEpoch then
      "9999-12-31T23:59:59.999.999.999.999Z".data
    else
      let tmp := encodeEPOCHx k (Dbl.mul e0 (Dbl.ofInt 1000))
        "<year>-<mm.02>-<dom.02>T<hour>:<min>:<sec>.".data
      let epString := strcpyX tmp 20
      let epString := strcpyAt epString 20 (encodeEPOCH16x2 e1) (EPOCH16_3_STRING_LEN - 20 - 1)
      pokeEnd epString (EPOCH16_3_STRING_LEN - 1) 'Z'
  | _ => "Nan".data

/-- `encodeEPOCH16_4` (style 4). -/
def encodeEPOCH16_4 (k : EpochConsts) (epoch : Double × Double) : List Char :=
  match epoch with
  | (.val e0, .val e1) =>
    if Dbl.beq e0 fillEpoch && Dbl.beq e1 fillEpoch then
      "9999-12-31T23:59:59.999999999999".data
    else
      let tmp := encodeEPOCHx k (Dbl.mul e0 (Dbl.ofInt 1000))
        "<year>-<mm.02>-<dom.02>T<hour>:<min>:<sec>.".data
      let epString := strcpyX tmp 20
      (strcpyAt epString 20 (encodeEPOCH16x4 e1) (EPOCH16_4_STRING_LEN - 20)).take
        EPOCH16_4_STRING_LEN
  | _ => "Nan".data

/-- `toEncodeEPOCH16`: the string of an EPOCH16 in one of the five styles. -/
def toEncodeEPOCH16 (k : EpochConsts) (k16 : Epoch16Consts) (epoch : Double × Double)
    (style : Int) : Option (List Char) :=
  match epoch with
  | (.val _, .val _) =>
    let style := if style < 0 ∨ style > 4 then 4 else style
    if style = 0 then some (encodeEPOCH16 k epoch)
    else if style = 1 then encodeEPOCH16_1 k k16 epoch
    else if style = 2 then some (encodeEPOCH16_2 k epoch)
    else if style = 3 then some (encodeEPOCH16_3 k epoch)
    else some (encodeEPOCH16_4 k epoch)
  | _ => some "Nan".data

/-- The format `"%2ld-%c%c%c-%4ld %2ld:%2ld:%2ld.%3ld.%3ld.%3ld.%3ld"`. -/
def fmtEPOCH16 : List Fmt :=
  [.ld 2, .lit '-', .chr, .chr, .chr, .lit '-', .ld 4, .ws, .ld 2, .lit ':', .ld 2, .lit ':',
   .ld 2, .lit '.', .ld 3, .lit '.', .ld 3, .lit '.', .ld 3, .lit '.', .ld 3]

/-- The format `"%4ld%2ld%2ld.%7ld%8ld"`. -/
def fmtEPOCH16_1 : List Fmt := [.ld 4, .ld 2, .ld 2, .lit '.', .ld 7, .ld 8]

/-- The format `"%4ld-%2ld-%2ld%c%2ld:%2ld:%2ld.%3ld.%3ld.%3ld.%3ld%c"`. -/
def fmtEPOCH16_3 : List Fmt :=
  [.ld 4, .lit '-', .ld 2, .lit '-', .ld 2, .chr, .ld 2, .lit ':', .ld 2, .lit ':', .ld 2,
   .lit '.', .ld 3, .lit '.', .ld 3, .lit '.', .ld 3, .lit '.', .ld 3, .chr]

/-- The format `"%4ld-%2ld-%2ld%c%2ld:%2ld:%2ld.%3ld%3ld%3ld%3ld"`. -/
def fmtEPOCH16_4 : List Fmt :=
  [.ld 4, .lit '-', .ld 2, .lit '-', .ld 2, .chr, .ld 2, .lit ':', .ld 2, .lit ':', .ld 2,
   .lit '.', .ld 3, .ld 3, .ld 3, .ld 3]

/-- The integers `sscanf` stored from position `i` on, 0 where it stored none (the
variables `msec`, `usec`, `nsec`, `psec` start as 0). -/
def svalInt (v : List SVal) (i : Nat) : Int :=
  match v.get? i with
  | some (.int n) => n
  | _ => 0

/-- The fill date with all sub-second fields 999. -/
def isFill16 (year month day hour minute second msec usec nsec psec : Int) : Bool :=
  decide (year = 9999 ∧ month = 12 ∧ day = 31 ∧ hour = 23 ∧ minute = 59 ∧ second = 59
    ∧ msec = 999 ∧ usec = 999 ∧ nsec = 999 ∧ psec = 999)

/-- `parseEPOCH16` (style 0): the return value and the array `epoch`, which is left as it
was when the string is rejected. -/
def parseEPOCH16 (ig : List Char → List Char → Bool) (k : EpochConsts) (inString : List Char)
    (epoch : Double × Double) : Dbl × (Double × Double) :=
  if ig inString "nan".data then (Dbl.ofInt 0, (.nan, .nan))
  else
    let v := sscanf fmtEPOCH16 inString
    match v with
    | .int day :: .chr c0 :: .chr c1 :: .chr c2 :: .int year :: .int hour :: .int minute
        :: .int second :: _ =>
      let msec := svalInt v 8
      let usec := svalInt v 9
      let nsec := svalInt v 10
      let psec := svalInt v 11
      let month := monthOfToken [MakeUpper c0, MakeLower c1, MakeLower c2]
      if month = 0 then (k.ILLEGAL_EPOCH_VALUE, epoch)
      else
        let mmm := computeEPOCH k year month day hour minute second 0
        if Dbl.beq mmm k.ILLEGAL_EPOCH_VALUE then (k.ILLEGAL_EPOCH_VALUE, epoch)
        else if msec < 0 ∨ msec > 999 then (k.ILLEGAL_EPOCH_VALUE, epoch)
        else if usec < 0 ∨ usec > 999 then (k.ILLEGAL_EPOCH_VALUE, epoch)
        else if nsec < 0 ∨ nsec > 999 then (k.ILLEGAL_EPOCH_VALUE, epoch)
        else if psec < 0 ∨ psec > 999 then (k.ILLEGAL_EPOCH_VALUE, epoch)
        else if isFill16 year month day hour minute second msec usec nsec psec then
          (Dbl.ofInt 0, (.val fillEpoch, .val fillEpoch))
        else
          (Dbl.ofInt 0,
           (.val (Dbl.div mmm (Dbl.ofInt 1000)),
            .val (Dbl.add (Dbl.add (Dbl.add (Dbl.mul (Dbl.ofInt msec) (Dbl.ofInt 1000000000))
              (Dbl.mul (Dbl.ofInt usec) (Dbl.ofInt 1000000)))
              (Dbl.mul (Dbl.ofInt nsec) (Dbl.ofInt 1000))) (Dbl.ofInt psec))))
    | _ => (k.ILLEGAL_EPOCH_VALUE, epoch)

/-- `parseEPOCH16_1` (style 1).  `pow (10.0, 8.0)` and `pow (10.0, 12.0)` are exact;
`pow (10.0, -15.0)` is taken as the double nearest to `10^-15`. -/
def parseEPOCH16_1 (ig : List Char → List Char → Bool) (k : EpochConsts)
    (inString : List Char) (epoch : Double × Double) : Dbl × (Double × Double) :=
  if ig inString "nan".data then (Dbl.ofInt 0, (.nan, .nan))
  else if inString = "99991231.999999999999999".data then
    (Dbl.ofInt 0, (.val fillEpoch, .val fillEpoch))
  else
    let temp := strcpyX inString EPOCH16_1_STRING_LEN
    let temp := temp ++ List.replicate (EPOCH16_1_STRING_LEN - temp.length) '0'
    match sscanf fmtEPOCH16_1 temp with
    | [.int year, .int month, .int day, .int fractionL1, .int fractionL2] =>
      let fraction := Dbl.mul
        (Dbl.add (Dbl.mul (Dbl.ofInt fractionL1) (Dbl.ofInt 100000000)) (Dbl.ofInt fractionL2))
        (Dbl.dec 1 15)
      let hour := Dbl.toInt (Dbl.mul fraction (Dbl.ofInt 24))
      let fraction := Dbl.sub fraction (Dbl.div (Dbl.ofInt hour) (Dbl.ofInt 24))
      let minute := Dbl.toInt (Dbl.mul fraction (Dbl.ofInt 1440))
      let fraction := Dbl.sub fraction (Dbl.div (Dbl.ofInt minute) (Dbl.ofInt 1440))
      let second := Dbl.toInt (Dbl.mul fraction (Dbl.ofInt 86400))
      let fraction := Dbl.sub fraction (Dbl.div (Dbl.ofInt second) (Dbl.ofInt 86400))
      let mmm := computeEPOCH k year month day hour minute second 0
      if Dbl.beq mmm k.ILLEGAL_EPOCH_VALUE then (k.ILLEGAL_EPOCH_VALUE, epoch)
      else
        (Dbl.ofInt 0,
         (.val (Dbl.div mmm (Dbl.ofInt 1000)),
          .val (Dbl.mul (Dbl.mul fraction (Dbl.ofInt 86400)) (Dbl.ofInt 1000000000000))))
    | _ => (k.ILLEGAL_EPOCH_VALUE, epoch)

/-- `parseEPOCH16_2` (style 2). -/
def parseEPOCH16_2 (ig : List Char → List Char → Bool) (k : EpochConsts)
    (inString : List Char) (epoch : Double × Double) : Dbl × (Double × Double) :=
  if ig inString "nan".data then (Dbl.ofInt 0, (.nan, .nan))
  else
    match sscanf fmtStyle2 inString with
    | [.int year, .int month, .int day, .int hour, .int minute, .int second] =>
      let mmm := computeEPOCH k year month day hour minute second 0
      if Dbl.beq mmm k.ILLEGAL_EPOCH_VALUE then (k.ILLEGAL_EPOCH_VALUE, epoch)
      else (Dbl.ofInt 0, (.val (Dbl.div mmm (Dbl.ofInt 1000)), .val (Dbl.ofInt 0)))
    | _ => (k.ILLEGAL_EPOCH_VALUE, epoch)

/-- The common end of `parseEPOCH16_3` and `parseEPOCH16_4`, from the values `sscanf`
stored. -/
def parseIso16 (k : EpochConsts) (v : List SVal) (epoch : Double × Double) :
    Dbl × (Double × Double) :=
  match v with
  | .int year :: .int month :: .int day :: .chr _ :: .int hour :: .int minute :: .int second
      :: _ =>
    let msec := svalInt v 7
    let usec := svalInt v 8
    let nsec := svalInt v 9
    let psec := svalInt v 10
    if isFill16 year month day hour minute second msec usec nsec psec then
      (Dbl.ofInt 0, (.val fillEpoch, .val fillEpoch))
    else
      let mmm := computeEPOCH k year month day hour minute second 0
      if Dbl.beq mmm k.ILLEGAL_EPOCH_VALUE then (k.ILLEGAL_EPOCH_VALUE, epoch)
      else
        (Dbl.ofInt 0,
         (.val (Dbl.div mmm (Dbl.ofInt 1000)),
          .val (Dbl.add (Dbl.add (Dbl.add (Dbl.ofInt psec)
            (Dbl.mul (Dbl.ofInt nsec) (Dbl.ofInt 1000)))
            (Dbl.mul (Dbl.ofInt usec) (Dbl.ofInt 1000000)))
            (Dbl.mul (Dbl.ofInt msec) (Dbl.ofInt 1000000000)))))
  | _ => (k.ILLEGAL_EPOCH_VALUE, epoch)

/-- `parseEPOCH16_3` (style 3). -/
def parseEPOCH16_3 (ig : List Char → List Char → Bool) (k : EpochConsts)
    (inString : List Char) (epoch : Double × Double) : Dbl × (Double × Double) :=
  if ig inString "nan".data then (Dbl.ofInt 0, (.nan, .nan))
  else parseIso16 k (sscanf fmtEPOCH16_3 inString) epoch

/-- `parseEPOCH16_4` (style 4). -/
def parseEPOCH16_4 (ig : List Char → List Char → Bool) (k : EpochConsts)
    (inString : List Char) (epoch : Double × Double) : Dbl × (Double × Double) :=
  if ig inString "nan".data then (Dbl.ofInt 0, (.nan, .nan))
  else parseIso16 k (sscanf fmtEPOCH16_4 inString) epoch

/-- `toParseEPOCH16`: the return value and the array `epoch16` after the call, for a string
in one of the five styles; `none` when the trimming or a test reads beyond the end of the
string. -/
def toParseEPOCH16 (ig : List Char → List Char → Bool) (k : EpochConsts)
    (inString : List Char) (epoch16 : Double × Double) : Option (Dbl × (Double × Double)) :=
  if ig inString "nan".data then some (Dbl.ofInt 0, (.nan, .nan))
  else
    (trimC inString).bind fun tmpPtr =>
    let len := tmpPtr.length
    let isSep (c : Char) : Bool := c = 'T' || c = 't' || c = ' ' || c = '/'
    let isSep3 (c : Char) : Bool := c = 'T' || c = 't' || c = ' '
    let endsZ : Bool := tmpPtr.getLast? = some 'Z' || tmpPtr.getLast? = some 'z'
    let illegal : Dbl × (Double × Double) :=
      (k.ILLEGAL_EPOCH_VALUE, (.val fillEpoch, .val fillEpoch))
    if len = EPOCH16_STRING_LEN then
      if tmpPtr.get? 11 = some ' ' then some (parseEPOCH16 ig k tmpPtr epoch16)
      else if (tmpPtr.get? 10).any isSep then some (parseEPOCH16_3 ig k tmpPtr epoch16)
      else some illegal
    else if len = EPOCH16_1_STRING_LEN ∧ tmpPtr.get? 8 = some '.' then
      some (parseEPOCH16_1 ig k tmpPtr epoch16)
    else if len = EPOCH16_2_STRING_LEN ∧ (sscanf [.ld 8] tmpPtr).length = 1 then
      some (parseEPOCH16_2 ig k tmpPtr epoch16)
    else if len = EPOCH16_4_STRING_LEN ∧ (tmpPtr.get? 10).any isSep3 then
      some (parseEPOCH16_4 ig k tmpPtr epoch16)
    else if len < EPOCH16_STRING_LEN then
      (chAt tmpPtr 11).bind fun c11 =>
        if c11 = ' ' then some (parseEPOCH16 ig k tmpPtr epoch16)
        else
          (chAt tmpPtr 10).map fun c10 =>
            if isSep c10 then
              if endsZ then parseEPOCH16_4 ig k tmpPtr.dropLast epoch16
              else if len = EPOCH16_3_STRING_LEN - 1 then parseEPOCH16_3 ig k tmpPtr epoch16
              else parseEPOCH16_4 ig k tmpPtr epoch16
            else illegal
    else
      (chAt tmpPtr 11).bind fun c11 =>
        if c11 = ' ' then some (parseEPOCH16 ig k tmpPtr epoch16)
        else
          (chAt tmpPtr 10).map fun c10 =>
            if isSep c10 then
              if endsZ then parseEPOCH16_3 ig k tmpPtr epoch16
              else parseEPOCH16_4 ig k tmpPtr epoch16
            else illegal

/-- The fifteen characters `mmm.uuu.nnn.ppp` of the sub-second fields. -/
def fracDots (ms us ns ps : Int) : List Char :=
  [dig ms 2, dig ms 1, dig ms 0, '.', dig us 2, dig us 1, dig us 0, '.',
   dig ns 2, dig ns 1, dig ns 0, '.', dig ps 2, dig ps 1, dig ps 0]

/-- The twelve digits `mmmuuunnnppp` of the sub-second fields. -/
def fracRun (ms us ns ps : Int) : List Char :=
  [dig ms 2, dig ms 1, dig ms 0, dig us 2, dig us 1, dig us 0,
   dig ns 2, dig ns 1, dig ns 0, dig ps 2, dig ps 1, dig ps 0]

/-- The EPOCH16 string of style 0 for fields within their ranges. -/
def epoch16Dmy (t0 t1 t2 : Char) (y d hh mn ss ms us ns ps : Int) : List Char :=
  [dig d 1, dig d 0, '-', t0, t1, t2, '-', dig y 3, dig y 2, dig y 1, dig y 0, ' ',
   dig hh 1, dig hh 0, ':', dig mn 1, dig mn 0, ':', dig ss 1, dig ss 0, '.']
    ++ fracDots ms us ns ps

/-- The EPOCH16 strings of styles 3 and 4 for fields within their ranges, from the
sub-second text `frac` on. -/
def epoch16Iso (y m d hh mn ss : Int) (frac : List Char) : List Char :=
  [dig y 3, dig y 2, dig y 1, dig y 0, '-', dig m 1, dig m 0, '-', dig d 1, dig d 0, 'T',
   dig hh 1, dig hh 0, ':', dig mn 1, dig mn 0, ':', dig ss 1, dig ss 0, '.'] ++ frac

/-! ## Day of the year and the as-of-table compute (`cdftt2000.c`)

`computeTT2000withBasedLeapDay` takes `long` fields and an `int` day `yymmdd`; its helper
`LeapSecondLastUpdatedinTable` searches the loaded table by row date. -/

/-- Day of the year of the calendar date `(y, m, d)`: the days of the months before `m`, plus
`d`; 1 January is day 1. -/
def dayOfYear (y m d : Int) : Int :=
  ((List.range (m.toNat - 1)).map fun i => daysInMonth y ((i : Int) + 1)).sum + d

/-- The table the day-of-year loop of `computeTT2000` reads: `doys2` in a leap year, `doys1`
otherwise. -/
def doysOf (lyear : Bool) : List Int := if lyear then doys2 else doys1

/-- The 32-bit value of an `int` expression (two's complement). -/
def wrap32 (x : Int) : Int := (x + 2147483648) % 4294967296 - 2147483648

/-- The date of a table row as `LeapSecondLastUpdatedinTable` reads it:
`(int) (10000*LTD[i][0] + 100*LTD[i][1] + LTD[i][2])`, that is yyyymmdd. -/
def rowDate (r : Row) : Int :=
  Dbl.toInt (Dbl.add (Dbl.add (Dbl.mul (Dbl.ofInt 10000) r.c0) (Dbl.mul (Dbl.ofInt 100) r.c1))
    r.c2)

/-- The search loop of `LeapSecondLastUpdatedinTable`, `i` running down from `k - 1` to 0: the
first `i` whose row date is not after `leapSecondLastUpdated`, or 0. -/
def lastUpdatedIndex (s : TTState) (leapSecondLastUpdated : Int) : Nat → Int
  | 0 => 0
  | i + 1 =>
    if leapSecondLastUpdated ≥ rowDate (s.row i) then (i : Int)
    else lastUpdatedIndex s leapSecondLastUpdated i

/-- `LeapSecondLastUpdatedinTable`: the index of the last table row dated on or before the
day `leapSecondLastUpdated` (yyyymmdd). -/
def LeapSecondLastUpdatedinTable (h : Host) (s : TTState) (leapSecondLastUpdated : Int) :
    Int × TTState :=
  let s := if s.LTD.isNull then LoadLeapSecondsTable h s else s
  (lastUpdatedIndex s leapSecondLastUpdated s.entryCnt.toNat, s)

/-- `computeTT2000withBasedLeapDay`: `computeTT2000` on nine `long` fields, less one second
for every table row between the row of the day `yymmdd` and the row of the date when the date
is after that day.  The `long` and `int` expressions are reduced to 64 and 32 bits. -/
def computeTT2000withBasedLeapDay (c : Sentinels) (h : Host) (s : TTState)
    (yy mm dd hh mn ss ms us ns : Int) (yymmdd : Int) : Int × TTState :=
  if yy < 0 ∨ mm < 0 ∨ dd < 0 ∨ hh < 0 ∨ mn < 0 ∨ ss < 0 ∨ ms < 0 ∨ us < 0 ∨ ns < 0 then
    (c.ILLEGAL_TT2000_VALUE, s)
  else
    let mm := if mm = 0 then 1 else mm
    let r := computeTT2000I c h s yy mm dd hh mn ss ms us ns
    if yymmdd ≤ 0 ∨ wrap64 (yy * 10000 + mm * 100 + dd) < yymmdd
        ∨ (wrap64 (yy * 10000 + mm * 100 + dd) = yymmdd
            ∧ wrap64 (hh * 10000 + mn * 100 + ss) < 235960) then r
    else
      let ix := LeapSecondLastUpdatedinTable h r.2 yymmdd
      let iy := LeapSecondLastUpdatedinTable h ix.2 (wrap32 (yy * 10000 + mm * 100 + dd))
      (wrap64 (r.1 - wrap64 ((iy.1 - ix.1) * 1000000000)), iy.2)

/-- The module state right after loading the leap-second table that ends with row `k` of the
built-in table (the table as it was before the later rows were added). -/
def olderTable (k : Nat) : TTState :=
  { TTState.init with LTD := .live (LTS.take (k + 1)), entryCnt := (k : Int) + 1,
                      tableChecked := 1, fromFile := 1 }

/-- Check of the rows from 1972 on: the row date is the first of the month of the row. -/
def rowDatesOK : Bool :=
  (List.range 28).all fun j =>
    decide (rowDate (ltsRowAt (j + 14)) = 10000 * ltsYear (j + 14) + 100 * ltsMonth (j + 14) + 1)

/-! ## Template fields of `encodeEPOCHx`, in the words of the specification -/

/-- The field `AppendPart` appends, in the words of the specification: the part unchanged for
width 0; otherwise `w` characters, asterisks when the part is longer than `w`, else the part
padded on the left with `'0'` (leading zeros wanted) or `' '`. -/
def paddedField (p : List Char) (w : Nat) (leading0 : Bool) : List Char :=
  if w = 0 then p
  else if p.length > w then List.replicate w '*'
  else List.replicate (w - p.length) (if leading0 then '0' else ' ') ++ p

/-! ## The two-key range search `RangeSearchForEPOCH16` (`bsearcho.c`)

The array holds pairs of `double`s, pair `i` in the elements `2 * i` and `2 * i + 1`; `start`
and `stop` point to pairs.  The C operators `||` and `&&` evaluate their right operand only
when needed, so the second word of a pair is read only when the first words are equal. -/

/-- The test `*(array+2*i) > *key || (*(array+2*i) == *key && *(array+2*i+1) > *(key+1))`:
pair `i` of the array is above the key. -/
def gt16 (a : List Dbl) (i : Int) (key : Dbl × Dbl) : Option Bool :=
  (rd a (2 * i)).bind fun x =>
    if x > key.1 then some true
    else if x = key.1 then (rd a (2 * i + 1)).map fun y => decide (y > key.2)
    else some false

/-- The test `*(array+2*i) < *key || (*(array+2*i) == *key && *(array+2*i+1) < *(key+1))`:
pair `i` of the array is below the key. -/
def lt16 (a : List Dbl) (i : Int) (key : Dbl × Dbl) : Option Bool :=
  (rd a (2 * i)).bind fun x =>
    if x < key.1 then some true
    else if x = key.1 then (rd a (2 * i + 1)).map fun y => decide (y < key.2)
    else some false

/-- The first bisection loop of `RangeSearchForEPOCH16` (searching `start`), entered with
`middle` computed: the value it leaves in `beginning`; `none` when the loop ends without
assigning it.  The first argument bounds the number of rounds. -/
def lowerLoop16 (a : List Dbl) (start : Dbl × Dbl) : Nat → Int → Int → Int → Option Int
  | 0, _, _, _ => none
  | k + 1, first, last, middle =>
    if first ≤ last then
      (gt16 a middle start).bind fun above =>
        if above then
          let last := middle - 1
          if last - first ≤ 1 then
            (lt16 a last start).bind fun below =>
              if below then some middle
              else lowerLoop16 a start k first last (Int.tdiv (first + last) 2)
          else lowerLoop16 a start k first last (Int.tdiv (first + last) 2)
        else
          (lt16 a middle start).bind fun below =>
            if below then
              let first := middle + 1
              if last - first ≤ 1 then
                (gt16 a first start).bind fun above =>
                  if above then some first
                  else lowerLoop16 a start k first last (Int.tdiv (first + last) 2)
              else lowerLoop16 a start k first last (Int.tdiv (first + last) 2)
            else some middle
    else none

/-- The second bisection loop of `RangeSearchForEPOCH16` (searching `stop`): the value it
leaves in `ending`. -/
def upperLoop16 (a : List Dbl) (stop : Dbl × Dbl) : Nat → Int → Int → Int → Option Int
  | 0, _, _, _ => none
  | k + 1, first, last, middle =>
    if first ≤ last then
      (lt16 a middle stop).bind fun below =>
        if below then
          let first := middle + 1
          if last - first ≤ 1 then
            (gt16 a first stop).bind fun above =>
              if above then some middle
              else upperLoop16 a stop k first last (Int.tdiv (first + last) 2)
          else upperLoop16 a stop k first last (Int.tdiv (first + last) 2)
        else
          (gt16 a middle stop).bind fun above =>
            if above then
              let last := middle - 1
              if last - first ≤ 1 then
                (lt16 a last stop).bind fun below =>
                  if below then some last
                  else upperLoop16 a stop k first last (Int.tdiv (first + last) 2)
              else upperLoop16 a stop k first last (Int.tdiv (first + last) 2)
            else some middle
    else none

/-- The part of `RangeSearchForEPOCH16` after the early return: the shortcut
`*start < *array || (*start == *array && *(start+1) <= *(array+1))` or the first bisection,
the shortcut on the last pair (a strict comparison with `stop`) or the second bisection, and
the final `if (beginning > ending)`.  The loops get as many rounds as the array has pairs,
plus two. -/
def searchBody16 (a : List Dbl) (first last : Int) (start stop : Dbl × Dbl) :
    Option (Int × Int) :=
  let total := last - first + 1
  let fuel := a.length / 2 + 2
  (rd a 0).bind fun a0 =>
    (if start.1 < a0 then some true
     else if start.1 = a0 then (rd a 1).map fun a1 => decide (start.2 ≤ a1)
     else some false).bind fun atStart =>
      (if atStart then some 0
       else lowerLoop16 a start fuel first last (Int.tdiv (first + last) 2)).bind fun beginning =>
        (lt16 a (total - 1) stop).bind fun lastBelow =>
          (if lastBelow then some (total - 1)
           else upperLoop16 a stop fuel beginning (total - 1)
                  (Int.tdiv (beginning + (total - 1)) 2)).bind fun ending =>
            if beginning > ending then some (-1, -1) else some (beginning, ending)

/-- `RangeSearchForEPOCH16`: the pair written to `elements[0], elements[1]`. -/
def RangeSearchForEPOCH16 (array : List Dbl) (first last : Int) (start stop : Dbl × Dbl) :
    Option (Int × Int) :=
  let total := last - first + 1
  if start.1 > stop.1 ∨ (start.1 = stop.1 ∧ start.2 > stop.2) then some (-1, -1)
  else
    (rd array (2 * total - 2)).bind fun an =>
      if start.1 > an then some (-1, -1)
      else
        (rd array 0).bind fun a0 =>
          if stop.1 < a0 then some (-1, -1)
          else
            (if stop.1 = a0 then (rd array 1).map fun a1 => decide (stop.2 < a1)
             else some false).bind fun stopBelow =>
              if stopBelow then some (-1, -1)
              else
                (if start.1 = an then
                   (rd array (2 * total - 1)).map fun an1 => decide (start.2 > an1)
                 else some false).bind fun startAbove =>
                  if startAbove then some (-1, -1)
                  else searchBody16 array first last start stop

/-- The pairs `(a[0], 0.0), (a[1], 0.0), ...` laid out as `RangeSearchForEPOCH16` reads
them. -/
def pairsWithZero : List Dbl → List Dbl
  | [] => []
  | x :: xs => x :: ⟨0⟩ :: pairsWithZero xs

/-! # Theorems -/

/-! ## Rounding to binary64 -/

theorem SC_eq : SC = 2 ^ 1074 := by unfold SC; rfl

theorem SC_pos : 0 < SC := by rw [SC_eq]; exact pow_pos (by decide) _

theorem ilog2Aux_spec (s : Nat) : ∀ lo n : Nat, 2 ^ lo ≤ n → n < 2 ^ (lo + 2 ^ s) →
    2 ^ ilog2Aux s lo n ≤ n ∧ n < 2 ^ (ilog2Aux s lo n + 1) := by
  induction s with
  | zero =>
    intro lo n h1 h2
    simpa [ilog2Aux] using ⟨h1, h2⟩
  | succ s ih =>
    intro lo n h1 h2
    unfold ilog2Aux
    split
    · rename_i hge
      apply ih _ _ hge
      have : lo + 2 ^ s + 2 ^ s = lo + 2 ^ (s + 1) := by rw [pow_succ]; omega
      rw [this]; exact h2
    · rename_i hlt
      exact ih _ _ h1 (by omega)

theorem ilog2_spec (n : Nat) (h0 : 0 < n) (h : n < 2 ^ 8192) :
    2 ^ ilog2 n ≤ n ∧ n < 2 ^ (ilog2 n + 1) := by
  unfold ilog2
  apply ilog2Aux_spec
  · rw [pow_zero]; exact h0
  · have e : 0 + 2 ^ 13 = 8192 := by decide
    rw [e]; exact h

set_option maxRecDepth 100000 in
theorem ilog2_zero : ilog2 0 = 0 := by decide!

theorem roundNE_ge (n d h : Nat) (hd : 0 < d) (hh : h * d ≤ n) : h ≤ roundNE n d := by
  have hq : h ≤ n / d := (Nat.le_div_iff_mul_le hd).2 hh
  unfold roundNE
  dsimp only
  split
  · exact hq
  · split
    · omega
    · split <;> omega

theorem roundNE_le (n d h : Nat) (hd : 0 < d) (hh : n ≤ h * d) : roundNE n d ≤ h := by
  have hq : n / d ≤ h := by
    calc n / d ≤ h * d / d := Nat.div_le_div_right hh
      _ = h := Nat.mul_div_cancel _ hd
  rcases Nat.eq_or_lt_of_le hh with heq | hlt
  · have hr : n % d = 0 := by rw [heq]; exact Nat.mul_mod_left _ _
    have hq' : n / d = h := by rw [heq]; exact Nat.mul_div_cancel _ hd
    unfold roundNE
    dsimp only
    rw [hr, hq']
    simp [hd]
  · have hq' : n / d < h := (Nat.div_lt_iff_lt_mul hd).2 hlt
    unfold roundNE
    dsimp only
    split
    · omega
    · split
      · omega
      · split <;> omega

theorem flN_def (n d : Nat) :
    flN n d = roundNE n (d * 2 ^ (ilog2 (n / d) - 52)) * 2 ^ (ilog2 (n / d) - 52) := by
  unfold flN; rfl

theorem flN_ge (n d L : Nat) (hd : 0 < d) (hn : n / d < 2 ^ 8192) (hL : Rep L)
    (h : L * d ≤ n) : L ≤ flN n d := by
  obtain ⟨m, j, hm, rfl⟩ := hL
  rw [flN_def]
  generalize hk : ilog2 (n / d) - 52 = k
  have hdk : 0 < d * 2 ^ k := by positivity
  by_cases hjk : k ≤ j
  · have hsplit : m * 2 ^ j = m * 2 ^ (j - k) * 2 ^ k := by
      rw [mul_assoc, ← pow_add]; congr 2; omega
    rw [hsplit]
    apply Nat.mul_le_mul_right
    apply roundNE_ge _ _ _ hdk
    calc m * 2 ^ (j - k) * (d * 2 ^ k) = m * 2 ^ j * d := by rw [hsplit]; ring
      _ ≤ n := h
  · push_neg at hjk
    have hpos : 0 < n / d := by
      rcases Nat.eq_zero_or_pos (n / d) with hz | hz
      · rw [hz, ilog2_zero] at hk
        omega
      · exact hz
    have hspec := (ilog2_spec (n / d) hpos hn).1
    have hlog : ilog2 (n / d) = k + 52 := by omega
    rw [hlog] at hspec
    have h52 : 2 ^ 52 * (d * 2 ^ k) ≤ n := by
      have : 2 ^ (k + 52) * d ≤ n := (Nat.le_div_iff_mul_le hd).1 hspec
      calc 2 ^ 52 * (d * 2 ^ k) = 2 ^ (k + 52) * d := by rw [pow_add]; ring
        _ ≤ n := this
    have hr := roundNE_ge n (d * 2 ^ k) (2 ^ 52) hdk h52
    calc m * 2 ^ j ≤ 2 ^ 53 * 2 ^ j := Nat.mul_le_mul_right _ hm
      _ = 2 ^ (53 + j) := by rw [pow_add]
      _ ≤ 2 ^ (52 + k) := Nat.pow_le_pow_right (by norm_num) (by omega)
      _ = 2 ^ 52 * 2 ^ k := by rw [pow_add]
      _ ≤ roundNE n (d * 2 ^ k) * 2 ^ k := Nat.mul_le_mul_right _ hr

theorem flN_le (n d H : Nat) (hd : 0 < d) (hn : n / d < 2 ^ 8192) (hH : Rep H)
    (h : n ≤ H * d) : flN n d ≤ H := by
  obtain ⟨m, j, hm, rfl⟩ := hH
  rw [flN_def]
  generalize hk : ilog2 (n / d) - 52 = k
  have hdk : 0 < d * 2 ^ k := by positivity
  by_cases hjk : k ≤ j
  · have hsplit : m * 2 ^ j = m * 2 ^ (j - k) * 2 ^ k := by
      rw [mul_assoc, ← pow_add]; congr 2; omega
    rw [hsplit]
    apply Nat.mul_le_mul_right
    apply roundNE_le _ _ _ hdk
    calc n ≤ m * 2 ^ j * d := h
      _ = m * 2 ^ (j - k) * (d * 2 ^ k) := by rw [hsplit]; ring
  · push_neg at hjk
    have hpos : 0 < n / d := by
      rcases Nat.eq_zero_or_pos (n / d) with hz | hz
      · rw [hz, ilog2_zero] at hk
        omega
      · exact hz
    have hspec := (ilog2_spec (n / d) hpos hn).1
    have hlog : ilog2 (n / d) = k + 52 := by omega
    rw [hlog] at hspec
    have hlow : 2 ^ (k + 52) * d ≤ n := (Nat.le_div_iff_mul_le hd).1 hspec
    have hup : m * 2 ^ j ≤ 2 ^ (52 + k) := by
      calc m * 2 ^ j ≤ 2 ^ 53 * 2 ^ j := Nat.mul_le_mul_right _ hm
        _ = 2 ^ (53 + j) := by rw [pow_add]
        _ ≤ 2 ^ (52 + k) := Nat.pow_le_pow_right (by norm_num) (by omega)
    have hHge : 2 ^ (52 + k) ≤ m * 2 ^ j := by
      have : 2 ^ (k + 52) * d ≤ m * 2 ^ j * d := le_trans hlow h
      have := Nat.le_of_mul_le_mul_right this hd
      rwa [add_comm] at this
    have hr : roundNE n (d * 2 ^ k) ≤ 2 ^ 52 := by
      apply roundNE_le _ _ _ hdk
      calc n ≤ m * 2 ^ j * d := h
        _ ≤ 2 ^ (52 + k) * d := Nat.mul_le_mul_right _ hup
        _ = 2 ^ 52 * (d * 2 ^ k) := by rw [pow_add]; ring
    calc roundNE n (d * 2 ^ k) * 2 ^ k ≤ 2 ^ 52 * 2 ^ k := Nat.mul_le_mul_right _ hr
      _ = 2 ^ (52 + k) := by rw [pow_add]
      _ ≤ m * 2 ^ j := hHge

theorem flN_zero (d : Nat) : flN 0 d = 0 := by
  rw [flN_def]; simp [roundNE]

/-- An exactly representable quotient is returned unchanged. -/
theorem flN_exact (q d : Nat) (hd : 0 < d) (hq : q < 2 ^ 8192) (hR : Rep q) :
    flN (q * d) d = q := by
  have hn : q * d / d < 2 ^ 8192 := by rw [Nat.mul_div_cancel _ hd]; exact hq
  exact le_antisymm (flN_le _ _ _ hd hn hR le_rfl) (flN_ge _ _ _ hd hn hR le_rfl)

theorem flZ_neg (n : Int) (d : Nat) : flZ (-n) d = -flZ n d := by
  unfold flZ
  rcases lt_trichotomy n 0 with h | h | h
  · have h1 : ¬ (-n < 0) := by omega
    simp [h, h1]
  · subst h; simp [flN_zero]
  · have h1 : -n < 0 := by omega
    have h2 : ¬ (n < 0) := by omega
    simp [h1, h2]

theorem flZ_ofNat (n d : Nat) : flZ (n : Int) d = (flN n d : Nat) := by
  unfold flZ
  have : ¬ ((n : Int) < 0) := by omega
  simp [this]

theorem two_pow_mul_lt (a b c : Nat) (h : a + b < c) : (2 : Nat) ^ a * 2 ^ b < 2 ^ c := by
  rw [← pow_add]; exact Nat.pow_lt_pow_right (by omega) h

theorem pow53_lt : (2 : Nat) ^ 53 * 2 ^ 1074 < 2 ^ 8192 :=
  two_pow_mul_lt 53 1074 8192 (by omega)

/-- Integers of magnitude at most `2^53` times the unit are rounded to themselves. -/
theorem flZ_int (k : Int) (hk : k.natAbs ≤ 2 ^ 53) : flZ (k * SC) 1 = k * SC := by
  have key : ∀ m : Nat, m ≤ 2 ^ 53 → flZ ((m : Int) * SC) 1 = (m : Int) * SC := by
    intro m hm
    have e : ((m : Int) * (SC : Int)) = ((m * SC : Nat) : Int) := by push_cast; rfl
    rw [e, flZ_ofNat]
    have hq : m * SC < 2 ^ 8192 := by
      rw [SC_eq]
      exact lt_of_le_of_lt (Nat.mul_le_mul_right _ hm) pow53_lt
    have := flN_exact (m * SC) 1 (by decide) hq ⟨m, 1074, hm, by rw [SC_eq]⟩
    rw [Nat.mul_one] at this
    rw [this]
  rcases Int.natAbs_eq k with h | h
  · rw [h]; exact key _ hk
  · rw [h, Int.neg_mul, flZ_neg, key _ hk]

theorem Dbl.ofInt_raw (n : Int) (h : n.natAbs ≤ 2 ^ 53) : (Dbl.ofInt n).raw = n * SC := by
  unfold Dbl.ofInt; exact flZ_int n h

theorem Dbl.toInt_ofInt (n : Int) (h : n.natAbs ≤ 2 ^ 53) : Dbl.toInt (Dbl.ofInt n) = n := by
  unfold Dbl.toInt
  rw [Dbl.ofInt_raw n h]
  exact Int.mul_tdiv_cancel _ (by have := SC_pos; omega)

/-! ## Concrete evaluations of computeTT2000 -/

/-- The value `coreArith` returns is the last entry of `coreSteps`, wrapped to 64 bits. -/
theorem coreArith_eq_last (jd subDay t2 : Int) :
    coreArith jd subDay t2 = wrap64 ((coreSteps jd subDay t2).getLastD 0) := by
  unfold coreArith coreSteps
  by_cases hn : wrap64 (wrap64 (jd * DAYinNanoSecs) + subDay) < 0
  · simp only [hn, if_true]; rfl
  · simp only [hn, if_false]; rfl

theorem TTRes.toInt_of_eq_value (c : Sentinels) (r : TTRes) (n : Int) (h : r = .value n) :
    r.toInt c = n := by
  subst h; rfl

set_option maxRecDepth 100000 in
theorem compute_2017_first :
    (computeTT2000Sym Host.plain TTState.init (Dbl.ofInt 2017) (Dbl.ofInt 1) (Dbl.ofInt 1)
      (Dbl.ofInt 0) (Dbl.ofInt 0) (Dbl.ofInt 0) (Dbl.ofInt 0) (Dbl.ofInt 0) (Dbl.ofInt 0)).1
      = .value 536500869184000000 := by decide!

set_option maxRecDepth 100000 in
theorem compute_2016_second :
    (computeTT2000Sym Host.plain
      (computeTT2000Sym Host.plain TTState.init (Dbl.ofInt 2017) (Dbl.ofInt 1) (Dbl.ofInt 1)
        (Dbl.ofInt 0) (Dbl.ofInt 0) (Dbl.ofInt 0) (Dbl.ofInt 0) (Dbl.ofInt 0) (Dbl.ofInt 0)).2
      (Dbl.ofInt 2016) (Dbl.ofInt 12) (Dbl.ofInt 31) (Dbl.ofInt 23) (Dbl.ofInt 59)
      (Dbl.ofInt 59) (Dbl.ofInt 0) (Dbl.ofInt 0) (Dbl.ofInt 0)).1
      = .value 536500867184000000 := by decide!

set_option maxRecDepth 100000 in
theorem compute_2016_first :
    (computeTT2000Sym Host.plain TTState.init (Dbl.ofInt 2016) (Dbl.ofInt 12) (Dbl.ofInt 31)
      (Dbl.ofInt 23) (Dbl.ofInt 59) (Dbl.ofInt 59) (Dbl.ofInt 0) (Dbl.ofInt 0) (Dbl.ofInt 0)).1
      = .value 536500867184000000 := by decide!

set_option maxRecDepth 100000 in
theorem compute_2017_second :
    (computeTT2000Sym Host.plain
      (computeTT2000Sym Host.plain TTState.init (Dbl.ofInt 2016) (Dbl.ofInt 12) (Dbl.ofInt 31)
        (Dbl.ofInt 23) (Dbl.ofInt 59) (Dbl.ofInt 59) (Dbl.ofInt 0) (Dbl.ofInt 0)
        (Dbl.ofInt 0)).2
      (Dbl.ofInt 2017) (Dbl.ofInt 1) (Dbl.ofInt 1) (Dbl.ofInt 0) (Dbl.ofInt 0) (Dbl.ofInt 0)
      (Dbl.ofInt 0) (Dbl.ofInt 0) (Dbl.ofInt 0)).1
      = .value 536500869184000000 := by decide!

/-- C2. Leap-second exactness: with the built-in table (no leap-second file configured,
state at program start, the second call continuing from the state the first one leaves, in
either order) `computeTT2000 (2017,1,1,0,0,0,0,0,0)` minus
`computeTT2000 (2016,12,31,23,59,59,0,0,0)` is exactly 2,000,000,000 ns, whatever the values
of the reserved constants. -/
theorem C2_leap_second_exactness (c : Sentinels) :
    (computeTT2000I c Host.plain TTState.init 2017 1 1 0 0 0 0 0 0).1
      - (computeTT2000I c Host.plain
          (computeTT2000I c Host.plain TTState.init 2017 1 1 0 0 0 0 0 0).2
          2016 12 31 23 59 59 0 0 0).1 = 2000000000 ∧
    (computeTT2000I c Host.plain
        (computeTT2000I c Host.plain TTState.init 2016 12 31 23 59 59 0 0 0).2
        2017 1 1 0 0 0 0 0 0).1
      - (computeTT2000I c Host.plain TTState.init 2016 12 31 23 59 59 0 0 0).1
      = 2000000000 := by
  have e1 : (computeTT2000I c Host.plain TTState.init 2017 1 1 0 0 0 0 0 0).1
      = 536500869184000000 := TTRes.toInt_of_eq_value c _ _ compute_2017_first
  have e2 : (computeTT2000I c Host.plain
      (computeTT2000I c Host.plain TTState.init 2017 1 1 0 0 0 0 0 0).2
      2016 12 31 23 59 59 0 0 0).1 = 536500867184000000 :=
    TTRes.toInt_of_eq_value c _ _ compute_2016_second
  have e3 : (computeTT2000I c Host.plain TTState.init 2016 12 31 23 59 59 0 0 0).1
      = 536500867184000000 := TTRes.toInt_of_eq_value c _ _ compute_2016_first
  have e4 : (computeTT2000I c Host.plain
      (computeTT2000I c Host.plain TTState.init 2016 12 31 23 59 59 0 0 0).2
      2017 1 1 0 0 0 0 0 0).1 = 536500869184000000 :=
    TTRes.toInt_of_eq_value c _ _ compute_2017_second
  rw [e1, e2, e3, e4]
  exact ⟨rfl, rfl⟩

set_option maxRecDepth 100000 in
/-- C9 (failing input). On the last day of the window, 2292-04-11 (accepted by
`ValidateYMD`, Julian day 2558297), at 00:00:00, the first product of the closing arithmetic,
`(long long) jd * DAYinNanoSecs = 106752 * 86400000000000 = 9223372800000000000`, is above
`INT64_MAX`; on the first day, 1707-09-22, at 13:00:00, it is `-9223372800000000000`, below
`INT64_MIN`.  The values returned are the exact ones only because the machine wraps. -/
theorem C9_product_overflows_at_window_edges :
    ValidateYMD 2292 4 11 = 1 ∧ JulianDay12hL 2292 4 11 = JDY22920411 ∧
    coreSteps (JDY22920411 - JulianDateJ2000_12h) 0 37000000000
      = [9223372800000000000, -9223371273709551616, -9223371236709551616,
         -9223371204525551616, -9223414404525551616] ∧
    INT64_MAX < 9223372800000000000 ∧
    (computeTT2000Sym Host.plain TTState.init (Dbl.ofInt 2292) (Dbl.ofInt 4) (Dbl.ofInt 11)
      (Dbl.ofInt 0) (Dbl.ofInt 0) (Dbl.ofInt 0) (Dbl.ofInt 0) (Dbl.ofInt 0) (Dbl.ofInt 0)).1
      = .value 9223329669184000000 ∧
    ValidateYMD 1707 9 22 = 1 ∧ JulianDay12hL 1707 9 22 = JDY17070922 ∧
    (coreSteps (JDY17070922 - JulianDateJ2000_12h) 46800000000000 0).head?
      = some (-9223372800000000000) ∧
    (-9223372800000000000 : Int) < INT64_MIN ∧
    (computeTT2000Sym Host.plain TTState.init (Dbl.ofInt 1707) (Dbl.ofInt 9) (Dbl.ofInt 22)
      (Dbl.ofInt 13) (Dbl.ofInt 0) (Dbl.ofInt 0) (Dbl.ofInt 0) (Dbl.ofInt 0) (Dbl.ofInt 0)).1
      = .value (-9223369167816000000) := by
  refine ⟨by decide!, by decide!, by decide!, by decide!, by decide!, by decide!, by decide!,
    by decide!, by decide!, by decide!⟩

/-! ## Loading the leap-second table -/

/-- From a state whose provenance flag is 0 (as at program start) and whose table is not
yet checked, a configured file with a row that does not convert as six columns leaves
exactly the built-in table, with provenance 0. -/
theorem LoadLeapSecondsTable_malformed_fresh (h : Host) (s : TTState) (path : String)
    (lines : List String) (h0 : s.tableChecked = 0) (hf : s.fromFile = 0)
    (henv : CDFgetLeapSecondsTableEnvVar h s = some path) (hlen : path.length > 0)
    (hopen : h.fopen path = some lines) (hbad : scanRows h lines [] = none) :
    (LoadLeapSecondsTable h s).LTD = .live LTS ∧ (LoadLeapSecondsTable h s).fromFile = 0 ∧
    (LoadLeapSecondsTable h s).entryCnt = NDAT ∧ (LoadLeapSecondsTable h s).tableChecked = 1 := by
  simp [LoadLeapSecondsTable, h0, henv, hlen, hopen, hbad, hf]

set_option maxRecDepth 100000 in
/-- C10 (failing input). A table is loaded from the well-formed file `good.dat`, cleared
with `CDFClearLeapSecondsTable`, and loaded again with the malformed file `bad.dat`
configured: `fromFile` is still 1, the built-in table is not installed, `LTD` is left
pointing at the rows just freed and `entryCnt` keeps the count of the earlier file. -/
theorem C10_malformed_reload_keeps_file_flag :
    (LoadLeapSecondsTable hostGood TTState.init).fromFile = 1 ∧
    (CDFClearLeapSecondsTable (LoadLeapSecondsTable hostGood TTState.init)).LTD = .null ∧
    (CDFClearLeapSecondsTable (LoadLeapSecondsTable hostGood TTState.init)).tableChecked = 0 ∧
    scanRows hostBad ["2017 1 1 37.0 0.0"] [] = none ∧
    (LoadLeapSecondsTable hostBad
      (CDFClearLeapSecondsTable (LoadLeapSecondsTable hostGood TTState.init))).fromFile = 1 ∧
    (LoadLeapSecondsTable hostBad
      (CDFClearLeapSecondsTable (LoadLeapSecondsTable hostGood TTState.init))).LTD = .freed ∧
    (LoadLeapSecondsTable hostBad
      (CDFClearLeapSecondsTable (LoadLeapSecondsTable hostGood TTState.init))).LTD
        ≠ .live LTS ∧
    (LoadLeapSecondsTable hostBad
      (CDFClearLeapSecondsTable (LoadLeapSecondsTable hostGood TTState.init))).entryCnt = 1 := by
  refine ⟨by decide!, by decide!, by decide!, by decide!, by decide!, by decide!, by decide!,
    by decide!⟩

/-! ## Range search -/

theorem mid_bounds (first last : Int) (h0 : 0 ≤ first) (h : first ≤ last) :
    first ≤ Int.tdiv (first + last) 2 ∧ Int.tdiv (first + last) 2 ≤ last := by
  rw [Int.tdiv_eq_ediv (by omega) (by decide)]
  omega

/-- The first bisection returns an index `b ≥ 1` whose element is at least `start` and
either equals `start` or follows an element below `start`. -/
theorem lowerLoop_spec {α : Type} [LinearOrder α] (a : List α) (f : Int → α) (start : α)
    (hf : ∀ i : Int, 0 ≤ i → i < (a.length : Int) → rd a i = some (f i))
    (hmono : ∀ i j : Int, 0 ≤ i → i ≤ j → j < (a.length : Int) → f i ≤ f j)
    (h0 : f 0 < start) (hn : start ≤ f ((a.length : Int) - 1)) :
    ∀ (k : Nat) (first last : Int), 0 ≤ first → first ≤ last → last < (a.length : Int) →
      (∀ i : Int, 0 ≤ i → i < first → f i < start) →
      (∀ i : Int, last < i → i < (a.length : Int) → start < f i) →
      last - first < (k : Int) →
      ∃ b, lowerLoop a start k first last (Int.tdiv (first + last) 2) = some b ∧
        0 < b ∧ b < (a.length : Int) ∧ start ≤ f b ∧ (f b = start ∨ f (b - 1) < start) := by
  have hpos : ∀ b : Int, 0 ≤ b → start ≤ f b → 0 < b := by
    intro b hb hsb
    rcases lt_or_eq_of_le hb with h | h
    · exact h
    · rw [← h] at hsb; exact absurd (lt_of_lt_of_le h0 hsb) (lt_irrefl _)
  intro k
  induction k with
  | zero => intro first last _ h2 _ _ _ hk; simp at hk; omega
  | succ k ih =>
    intro first last h1 h2 h3 hL hR hk
    obtain ⟨hm1, hm2⟩ := mid_bounds first last h1 h2
    generalize Int.tdiv (first + last) 2 = mid at hm1 hm2
    have hrm : rd a mid = some (f mid) := hf mid (by omega) (by omega)
    unfold lowerLoop
    rw [if_pos h2, hrm]
    simp only [Option.bind]
    by_cases hgt : f mid > start
    · -- element above start: shrink from the right
      rw [if_pos hgt]
      have hR' : ∀ i : Int, mid - 1 < i → i < (a.length : Int) → start < f i := by
        intro i hi1 hi2
        exact lt_of_lt_of_le hgt (hmono mid i (by omega) (by omega) hi2)
      have hmf : first < mid ∨ (mid = first ∧ 0 < first ∧ f (mid - 1) < start) := by
        rcases lt_or_eq_of_le hm1 with h | h
        · exact Or.inl h
        · right
          have hfp : 0 < first := by
            rcases lt_or_eq_of_le h1 with h' | h'
            · exact h'
            · exfalso
              have : mid = 0 := by omega
              rw [this] at hgt
              exact absurd (lt_trans h0 hgt) (lt_irrefl _)
          exact ⟨h.symm, hfp, hL (mid - 1) (by omega) (by omega)⟩
      have hcont : first ≤ mid - 1 →
          ∃ b, lowerLoop a start k first (mid - 1) (Int.tdiv (first + (mid - 1)) 2) = some b ∧
            0 < b ∧ b < (a.length : Int) ∧ start ≤ f b ∧ (f b = start ∨ f (b - 1) < start) :=
        fun hle => ih first (mid - 1) h1 hle (by omega) hL hR' (by push_cast at hk; omega)
      by_cases hw : mid - 1 - first ≤ 1
      · rw [if_pos hw]
        have hml : 0 ≤ mid - 1 := by rcases hmf with h | ⟨_, h, _⟩ <;> omega
        rw [hf (mid - 1) hml (by omega)]
        simp only [Option.bind]
        by_cases hlt : f (mid - 1) < start
        · rw [if_pos hlt]
          exact ⟨mid, rfl, by omega, by omega, le_of_lt hgt, Or.inr hlt⟩
        · rw [if_neg hlt]
          rcases hmf with h | ⟨_, _, h⟩
          · exact hcont (by omega)
          · exact absurd h hlt
      · rw [if_neg hw]
        exact hcont (by omega)
    · rw [if_neg hgt]
      by_cases hlt : f mid < start
      · -- element below start: shrink from the left
        rw [if_pos hlt]
        have hL' : ∀ i : Int, 0 ≤ i → i < mid + 1 → f i < start := by
          intro i hi1 hi2
          exact lt_of_le_of_lt (hmono i mid hi1 (by omega) (by omega)) hlt
        have hmn : mid + 1 < (a.length : Int) := by
          by_contra hcon
          have : mid = (a.length : Int) - 1 := by omega
          rw [this] at hlt
          exact absurd (lt_of_lt_of_le hlt hn) (lt_irrefl _)
        have hcont : mid + 1 ≤ last →
            ∃ b, lowerLoop a start k (mid + 1) last (Int.tdiv (mid + 1 + last) 2) = some b ∧
              0 < b ∧ b < (a.length : Int) ∧ start ≤ f b ∧ (f b = start ∨ f (b - 1) < start) :=
          fun hle => ih (mid + 1) last (by omega) hle h3 hL' hR (by push_cast at hk; omega)
        by_cases hw : last - (mid + 1) ≤ 1
        · rw [if_pos hw]
          rw [hf (mid + 1) (by omega) hmn]
          simp only [Option.bind]
          by_cases hg : f (mid + 1) > start
          · rw [if_pos hg]
            refine ⟨mid + 1, rfl, by omega, hmn, le_of_lt hg, Or.inr ?_⟩
            have : mid + 1 - 1 = mid := by omega
            rw [this]; exact hlt
          · rw [if_neg hg]
            apply hcont
            by_contra hcon
            exact hg (hR (mid + 1) (by omega) hmn)
        · rw [if_neg hw]
          exact hcont (by omega)
      · rw [if_neg hlt]
        have heq : f mid = start := le_antisymm (not_lt.1 hgt) (not_lt.1 hlt)
        exact ⟨mid, rfl, hpos mid (by omega) (le_of_eq heq.symm), by omega,
          le_of_eq heq.symm, Or.inl heq⟩
theorem rd_getD {α : Type} (a : List α) (d : α) (i : Int) (h0 : 0 ≤ i)
    (h1 : i < (a.length : Int)) : rd a i = some (a.getD i.toNat d) := by
  have hlt : i.toNat < a.length := by omega
  unfold rd
  rw [if_neg (by omega), List.get?_eq_getElem?, List.getElem?_eq_getElem hlt,
    List.getD_eq_getElem _ _ hlt]

theorem getD_mono {α : Type} [LinearOrder α] (a : List α) (d : α) (hs : a.Sorted (· ≤ ·)) :
    ∀ i j : Int, 0 ≤ i → i ≤ j → j < (a.length : Int) →
      a.getD i.toNat d ≤ a.getD j.toNat d := by
  intro i j h0 hij hj
  have hi' : i.toNat < a.length := by omega
  have hj' : j.toNat < a.length := by omega
  rw [List.getD_eq_getElem _ _ hi', List.getD_eq_getElem _ _ hj']
  rcases Nat.eq_or_lt_of_le (show i.toNat ≤ j.toNat by omega) with h | h
  · simp [h]
  · exact (List.pairwise_iff_getElem.1 hs) _ _ hi' hj' h

theorem pow64_lt : (2 : Nat) ^ 64 * 2 ^ 1074 < 2 ^ 8192 := two_pow_mul_lt 64 1074 8192 (by omega)

/-- Values up to `2^64` units of scale are within the range the rounding handles. -/
theorem lt_big (x : Nat) (h : x ≤ 2 ^ 64 * SC) : x < 2 ^ 8192 := by
  rw [SC_eq] at h
  exact lt_of_le_of_lt h pow64_lt

theorem Rep_int (m : Nat) (hm : m ≤ 2 ^ 53) : Rep (m * SC) :=
  ⟨m, 1074, hm, by rw [SC_eq]⟩

theorem SC_posZ : (0 : Int) < (SC : Int) := by exact_mod_cast SC_pos

theorem flZ_nonneg (n : Int) (d : Nat) (h : 0 ≤ n) : 0 ≤ flZ n d := by
  unfold flZ
  rw [if_neg (by omega)]
  exact Int.natCast_nonneg _

/-- Lower bracket: a representable `L` not above the exact quotient is not above the rounded
one. -/
theorem flZ_ge (n : Int) (d L : Nat) (hn0 : 0 ≤ n) (hd : 0 < d) (hbig : n.toNat / d < 2 ^ 8192)
    (hL : Rep L) (h : (L : Int) * d ≤ n) : (L : Int) ≤ flZ n d := by
  unfold flZ
  rw [if_neg (by omega)]
  have e : n.natAbs = n.toNat := by omega
  rw [e]
  have : L * d ≤ n.toNat := by
    have : ((L * d : Nat) : Int) ≤ n := by push_cast; exact h
    omega
  exact_mod_cast flN_ge _ _ _ hd hbig hL this

/-- Upper bracket. -/
theorem flZ_le (n : Int) (d H : Nat) (hn0 : 0 ≤ n) (hd : 0 < d) (hbig : n.toNat / d < 2 ^ 8192)
    (hH : Rep H) (h : n ≤ (H : Int) * d) : flZ n d ≤ (H : Int) := by
  unfold flZ
  rw [if_neg (by omega)]
  have e : n.natAbs = n.toNat := by omega
  rw [e]
  have : n.toNat ≤ H * d := by
    have : n ≤ ((H * d : Nat) : Int) := by push_cast; exact h
    omega
  exact_mod_cast flN_le _ _ _ hd hbig hH this

namespace Dbl

theorem ext_raw {a b : Dbl} (h : a.raw = b.raw) : a = b := by
  cases a; cases b; simp at h; rw [h]

theorem ofInt_zero : Dbl.ofInt 0 = ⟨0⟩ := by
  apply ext_raw
  rw [ofInt_raw 0 (by simp)]; simp

theorem ofInt_neg (n : Int) : (Dbl.ofInt (-n)).raw = -(Dbl.ofInt n).raw := by
  unfold Dbl.ofInt
  show flZ (-n * SC) 1 = -flZ (n * SC) 1
  rw [Int.neg_mul, flZ_neg]

theorem ofInt_nonneg (n : Int) (h : 0 ≤ n) : 0 ≤ (Dbl.ofInt n).raw := by
  unfold Dbl.ofInt
  exact flZ_nonneg _ _ (mul_nonneg h (le_of_lt SC_posZ))

/-- Lower bracket for the conversion of a non-negative integer below `2^64`. -/
theorem ofInt_ge (n : Int) (L : Nat) (hn0 : 0 ≤ n) (hn : n ≤ 2 ^ 64) (hL : Rep (L * SC))
    (h : (L : Int) ≤ n) : ((L * SC : Nat) : Int) ≤ (Dbl.ofInt n).raw := by
  unfold Dbl.ofInt
  have hnn : 0 ≤ n * SC := mul_nonneg hn0 (le_of_lt SC_posZ)
  apply flZ_ge _ _ _ hnn (by decide) _ hL
  · push_cast
    nlinarith [SC_posZ]
  · rw [Nat.div_one]
    apply lt_big
    have : ((n * SC).toNat : Int) ≤ ((2 ^ 64 * SC : Nat) : Int) := by
      rw [Int.toNat_of_nonneg hnn]; push_cast
      exact mul_le_mul_of_nonneg_right hn (le_of_lt SC_posZ)
    exact_mod_cast this

/-- Upper bracket for the conversion of a non-negative integer below `2^64`. -/
theorem ofInt_le (n : Int) (H : Nat) (hn0 : 0 ≤ n) (hn : n ≤ 2 ^ 64) (hH : Rep (H * SC))
    (h : n ≤ (H : Int)) : (Dbl.ofInt n).raw ≤ ((H * SC : Nat) : Int) := by
  unfold Dbl.ofInt
  have hnn : 0 ≤ n * SC := mul_nonneg hn0 (le_of_lt SC_posZ)
  apply flZ_le _ _ _ hnn (by decide) _ hH
  · push_cast
    nlinarith [SC_posZ]
  · rw [Nat.div_one]
    apply lt_big
    have : ((n * SC).toNat : Int) ≤ ((2 ^ 64 * SC : Nat) : Int) := by
      rw [Int.toNat_of_nonneg hnn]; push_cast
      exact mul_le_mul_of_nonneg_right hn (le_of_lt SC_posZ)
    exact_mod_cast this

/-- The quotient by a positive integer-valued double, in raw units. -/
theorem div_raw (x : Dbl) (b : Int) (hb0 : 0 < b) (hb : b.natAbs ≤ 2 ^ 53) :
    (Dbl.div x (Dbl.ofInt b)).raw = flZ (x.raw * SC) (b.toNat * SC) := by
  have hr : (Dbl.ofInt b).raw = b * SC := ofInt_raw b hb
  have hpos : 0 < (Dbl.ofInt b).raw := by rw [hr]; exact mul_pos hb0 SC_posZ
  unfold Dbl.div
  rw [if_neg (by omega), if_pos hpos, hr]
  have : (b * (SC : Int)).natAbs = b.toNat * SC := by
    rw [Int.natAbs_mul]
    have : b.natAbs = b.toNat := by omega
    rw [this]; simp
  rw [this]

theorem div_ge (x : Dbl) (b : Int) (L : Nat) (hb0 : 0 < b) (hb : b.natAbs ≤ 2 ^ 53)
    (hx0 : 0 ≤ x.raw) (hx : x.raw ≤ 2 ^ 64 * SC) (hL : Rep L) (h : (L : Int) * b ≤ x.raw) :
    (L : Int) ≤ (Dbl.div x (Dbl.ofInt b)).raw := by
  rw [div_raw x b hb0 hb]
  have hbn : 0 < b.toNat := by omega
  have hd : 0 < b.toNat * SC := Nat.mul_pos hbn SC_pos
  apply flZ_ge _ _ _ (mul_nonneg hx0 (le_of_lt SC_posZ)) hd _ hL
  · push_cast
    rw [Int.toNat_of_nonneg (le_of_lt hb0)]
    nlinarith [SC_posZ]
  · apply lt_big
    have h1 : (x.raw * SC).toNat / (b.toNat * SC) ≤ x.raw.toNat := by
      have : (x.raw * SC).toNat = x.raw.toNat * SC := by
        have h1 : ((x.raw * SC).toNat : Int) = ((x.raw.toNat * SC : Nat) : Int) := by
          rw [Int.toNat_of_nonneg (mul_nonneg hx0 (le_of_lt SC_posZ))]
          push_cast; rw [Int.toNat_of_nonneg hx0]
        exact_mod_cast h1
      rw [this, Nat.mul_comm b.toNat SC, ← Nat.div_div_eq_div_mul, Nat.mul_div_cancel _ SC_pos]
      exact Nat.div_le_self _ _
    have h2 : x.raw.toNat ≤ 2 ^ 64 * SC := by
      have : (x.raw.toNat : Int) ≤ ((2 ^ 64 * SC : Nat) : Int) := by
        rw [Int.toNat_of_nonneg hx0]; push_cast; exact hx
      exact_mod_cast this
    exact le_trans h1 h2

theorem div_le (x : Dbl) (b : Int) (H : Nat) (hb0 : 0 < b) (hb : b.natAbs ≤ 2 ^ 53)
    (hx0 : 0 ≤ x.raw) (hx : x.raw ≤ 2 ^ 64 * SC) (hH : Rep H) (h : x.raw ≤ (H : Int) * b) :
    (Dbl.div x (Dbl.ofInt b)).raw ≤ (H : Int) := by
  rw [div_raw x b hb0 hb]
  have hbn : 0 < b.toNat := by omega
  have hd : 0 < b.toNat * SC := Nat.mul_pos hbn SC_pos
  apply flZ_le _ _ _ (mul_nonneg hx0 (le_of_lt SC_posZ)) hd _ hH
  · push_cast
    rw [Int.toNat_of_nonneg (le_of_lt hb0)]
    nlinarith [SC_posZ]
  · apply lt_big
    have h1 : (x.raw * SC).toNat / (b.toNat * SC) ≤ x.raw.toNat := by
      have : (x.raw * SC).toNat = x.raw.toNat * SC := by
        have h1 : ((x.raw * SC).toNat : Int) = ((x.raw.toNat * SC : Nat) : Int) := by
          rw [Int.toNat_of_nonneg (mul_nonneg hx0 (le_of_lt SC_posZ))]
          push_cast; rw [Int.toNat_of_nonneg hx0]
        exact_mod_cast h1
      rw [this, Nat.mul_comm b.toNat SC, ← Nat.div_div_eq_div_mul, Nat.mul_div_cancel _ SC_pos]
      exact Nat.div_le_self _ _
    have h2 : x.raw.toNat ≤ 2 ^ 64 * SC := by
      have : (x.raw.toNat : Int) ≤ ((2 ^ 64 * SC : Nat) : Int) := by
        rw [Int.toNat_of_nonneg hx0]; push_cast; exact hx
      exact_mod_cast this
    exact le_trans h1 h2

theorem div_nonneg (x : Dbl) (b : Int) (hb0 : 0 < b) (hb : b.natAbs ≤ 2 ^ 53)
    (hx0 : 0 ≤ x.raw) : 0 ≤ (Dbl.div x (Dbl.ofInt b)).raw := by
  rw [div_raw x b hb0 hb]
  exact flZ_nonneg _ _ (mul_nonneg hx0 (le_of_lt SC_posZ))

/-- Division commutes with negation of the dividend. -/
theorem div_neg (x : Dbl) (b : Int) (hb0 : 0 < b) (hb : b.natAbs ≤ 2 ^ 53) :
    (Dbl.div ⟨-x.raw⟩ (Dbl.ofInt b)).raw = -(Dbl.div x (Dbl.ofInt b)).raw := by
  rw [div_raw _ b hb0 hb, div_raw _ b hb0 hb]
  show flZ (-x.raw * SC) _ = _
  rw [Int.neg_mul, flZ_neg]

/-- Truncation of a non-negative value lying between `q` and `q + 1`. -/
theorem toInt_eq (x : Dbl) (q : Int) (hq : 0 ≤ q) (h1 : q * SC ≤ x.raw)
    (h2 : x.raw < (q + 1) * SC) : x.toInt = q := by
  unfold Dbl.toInt
  rw [Int.tdiv_eq_ediv (le_trans (mul_nonneg hq (le_of_lt SC_posZ)) h1) (le_of_lt SC_posZ)]
  exact ((Int.ediv_emod_unique SC_posZ).2
    ⟨by ring, by linarith, by linarith⟩ : x.raw / SC = q ∧ x.raw % SC = x.raw - q * SC).1

theorem toInt_neg (x : Dbl) : (⟨-x.raw⟩ : Dbl).toInt = -x.toInt := by
  unfold Dbl.toInt
  exact Int.neg_tdiv _ _

theorem floor_ofInt (n : Int) (h : n.natAbs ≤ 2 ^ 53) : Dbl.floor (Dbl.ofInt n) = Dbl.ofInt n := by
  apply ext_raw
  unfold Dbl.floor
  rw [ofInt_raw n h]
  show n * SC / SC * SC = n * SC
  rw [Int.mul_ediv_cancel _ (ne_of_gt SC_posZ)]

theorem lt_ofInt (a b : Int) (ha : a.natAbs ≤ 2 ^ 53) (hb : b.natAbs ≤ 2 ^ 53) :
    Dbl.lt (Dbl.ofInt a) (Dbl.ofInt b) = decide (a < b) := by
  unfold Dbl.lt
  rw [ofInt_raw a ha, ofInt_raw b hb]
  congr 1
  exact propext (mul_lt_mul_right SC_posZ)

theorem le_ofInt (a b : Int) (ha : a.natAbs ≤ 2 ^ 53) (hb : b.natAbs ≤ 2 ^ 53) :
    Dbl.le (Dbl.ofInt a) (Dbl.ofInt b) = decide (a ≤ b) := by
  unfold Dbl.le
  rw [ofInt_raw a ha, ofInt_raw b hb]
  congr 1
  exact propext (mul_le_mul_right SC_posZ)

theorem beq_ofInt (a b : Int) (ha : a.natAbs ≤ 2 ^ 53) (hb : b.natAbs ≤ 2 ^ 53) :
    Dbl.beq (Dbl.ofInt a) (Dbl.ofInt b) = decide (a = b) := by
  unfold Dbl.beq
  rw [ofInt_raw a ha, ofInt_raw b hb]
  congr 1
  exact propext ⟨fun h => mul_right_cancel₀ (ne_of_gt SC_posZ) h, fun h => by rw [h]⟩

theorem add_ofInt (a b : Int) (ha : a.natAbs ≤ 2 ^ 53) (hb : b.natAbs ≤ 2 ^ 53)
    (hab : (a + b).natAbs ≤ 2 ^ 53) : Dbl.add (Dbl.ofInt a) (Dbl.ofInt b) = Dbl.ofInt (a + b) := by
  apply ext_raw
  unfold Dbl.add
  rw [ofInt_raw a ha, ofInt_raw b hb, ofInt_raw _ hab]
  show flZ (a * SC + b * SC) 1 = _
  rw [← add_mul]
  exact flZ_int _ hab

theorem sub_ofInt (a b : Int) (ha : a.natAbs ≤ 2 ^ 53) (hb : b.natAbs ≤ 2 ^ 53)
    (hab : (a - b).natAbs ≤ 2 ^ 53) : Dbl.sub (Dbl.ofInt a) (Dbl.ofInt b) = Dbl.ofInt (a - b) := by
  apply ext_raw
  unfold Dbl.sub
  rw [ofInt_raw a ha, ofInt_raw b hb, ofInt_raw _ hab]
  show flZ (a * SC - b * SC) 1 = _
  rw [← sub_mul]
  exact flZ_int _ hab

/-- Exactly representable integer products are exact. -/
theorem flZ_mul_int (k : Int) (hk : k.natAbs ≤ 2 ^ 53) : flZ (k * SC * SC) SC = k * SC := by
  have key : ∀ m : Nat, m ≤ 2 ^ 53 → flZ ((m : Int) * SC * SC) SC = (m : Int) * SC := by
    intro m hm
    have e : ((m : Int) * (SC : Int) * (SC : Int)) = ((m * SC * SC : Nat) : Int) := by
      push_cast; rfl
    rw [e, flZ_ofNat]
    have hq : m * SC < 2 ^ 8192 := by
      rw [SC_eq]
      exact lt_of_le_of_lt (Nat.mul_le_mul_right _ hm) pow53_lt
    rw [flN_exact (m * SC) SC SC_pos hq (Rep_int m hm)]
    push_cast; rfl
  rcases Int.natAbs_eq k with h | h
  · rw [h]; exact key _ hk
  · rw [h]
    have : -(k.natAbs : Int) * SC * SC = -((k.natAbs : Int) * SC * SC) := by ring
    rw [this, flZ_neg, key _ hk]; ring

theorem mul_ofInt (a b : Int) (ha : a.natAbs ≤ 2 ^ 53) (hb : b.natAbs ≤ 2 ^ 53)
    (hab : (a * b).natAbs ≤ 2 ^ 53) : Dbl.mul (Dbl.ofInt a) (Dbl.ofInt b) = Dbl.ofInt (a * b) := by
  apply ext_raw
  unfold Dbl.mul
  rw [ofInt_raw a ha, ofInt_raw b hb, ofInt_raw _ hab]
  show flZ (a * SC * (b * SC)) SC = _
  have : a * (SC : Int) * (b * SC) = a * b * SC * SC := by ring
  rw [this]
  exact flZ_mul_int _ hab

end Dbl

namespace Dbl

theorem toInt_ge (x : Dbl) (g : Int) (hg : 0 ≤ g) (h : g * SC ≤ x.raw) : g ≤ x.toInt := by
  unfold Dbl.toInt
  have hx : 0 ≤ x.raw := le_trans (mul_nonneg hg (le_of_lt SC_posZ)) h
  rw [Int.tdiv_eq_ediv hx (le_of_lt SC_posZ)]
  exact (Int.le_ediv_iff_mul_le SC_posZ).2 h

theorem toInt_le (x : Dbl) (g : Int) (hx : 0 ≤ x.raw) (h : x.raw < (g + 1) * SC) :
    x.toInt ≤ g := by
  unfold Dbl.toInt
  rw [Int.tdiv_eq_ediv hx (le_of_lt SC_posZ)]
  have := (Int.ediv_lt_iff_lt_mul SC_posZ).2 h
  omega

theorem toInt_nonneg (x : Dbl) (hx : 0 ≤ x.raw) : 0 ≤ x.toInt := by
  unfold Dbl.toInt
  rw [Int.tdiv_eq_ediv hx (le_of_lt SC_posZ)]
  exact Int.ediv_nonneg hx (le_of_lt SC_posZ)

/-- Bracket of a conversion by integers of the form `k * 2^j`, `k ≤ 2^53`. -/
theorem ofInt_ge_pow (n L : Int) (k j : Nat) (hk : k ≤ 2 ^ 53) (hL : L = (k : Int) * 2 ^ j)
    (hLn : L ≤ n) (hn : n ≤ 2 ^ 64) : L * SC ≤ (Dbl.ofInt n).raw := by
  have hL0 : 0 ≤ L := by rw [hL]; positivity
  have hrep : Rep (k * 2 ^ j * SC) := ⟨k, j + 1074, hk, by rw [SC_eq, pow_add]; ring⟩
  have := ofInt_ge n (k * 2 ^ j) (le_trans hL0 hLn) hn hrep (by rw [hL] at hLn; exact_mod_cast hLn)
  rw [hL]
  push_cast at this ⊢
  exact this

theorem ofInt_le_pow (n H : Int) (k j : Nat) (hk : k ≤ 2 ^ 53) (hH : H = (k : Int) * 2 ^ j)
    (hn0 : 0 ≤ n) (hHn : n ≤ H) (hn : n ≤ 2 ^ 64) : (Dbl.ofInt n).raw ≤ H * SC := by
  have hrep : Rep (k * 2 ^ j * SC) := ⟨k, j + 1074, hk, by rw [SC_eq, pow_add]; ring⟩
  have := ofInt_le n (k * 2 ^ j) hn0 hn hrep (by rw [hH] at hHn; exact_mod_cast hHn)
  rw [hH]
  push_cast at this ⊢
  exact this

/-- The quotient is at least the integer `g` when the dividend is at least `g * b`. -/
theorem div_ge_int (x : Dbl) (b g : Int) (hb0 : 0 < b) (hb : b.natAbs ≤ 2 ^ 53)
    (hg0 : 0 ≤ g) (hg : g ≤ 2 ^ 53) (hx : x.raw ≤ 2 ^ 64 * SC) (h : g * b * SC ≤ x.raw) :
    g * SC ≤ (Dbl.div x (Dbl.ofInt b)).raw := by
  have hx0 : 0 ≤ x.raw :=
    le_trans (mul_nonneg (mul_nonneg hg0 (le_of_lt hb0)) (le_of_lt SC_posZ)) h
  have hgn : g.toNat ≤ 2 ^ 53 := by
    have : (g.toNat : Int) ≤ ((2 ^ 53 : Nat) : Int) := by
      rw [Int.toNat_of_nonneg hg0]; push_cast; exact hg
    exact_mod_cast this
  have := div_ge x b (g.toNat * SC) hb0 hb hx0 hx (Rep_int _ hgn)
    (by push_cast; rw [Int.toNat_of_nonneg hg0]; linarith)
  push_cast at this
  rw [Int.toNat_of_nonneg hg0] at this
  exact this

theorem SC_half : (SC : Int) = 2 * 2 ^ 1073 := by
  have : SC = 2 * 2 ^ 1073 := by rw [SC_eq]; exact pow_succ' 2 1073
  exact_mod_cast this

/-- The quotient is below `g + 1` when the dividend is at most `(g + 1/2) * b`. -/
theorem div_le_int (x : Dbl) (b g : Int) (hb0 : 0 < b) (hb : b.natAbs ≤ 2 ^ 53)
    (hg0 : 0 ≤ g) (hg : g ≤ 2 ^ 52 - 1) (hx0 : 0 ≤ x.raw) (hx : x.raw ≤ 2 ^ 64 * SC)
    (h : 2 * x.raw ≤ (2 * g + 1) * b * SC) :
    (Dbl.div x (Dbl.ofInt b)).raw < (g + 1) * SC := by
  have hm : (2 * g + 1).toNat ≤ 2 ^ 53 := by
    have : ((2 * g + 1).toNat : Int) ≤ ((2 ^ 53 : Nat) : Int) := by
      rw [Int.toNat_of_nonneg (by omega)]; push_cast; omega
    exact_mod_cast this
  have hrep : Rep ((2 * g + 1).toNat * 2 ^ 1073) := ⟨_, 1073, hm, rfl⟩
  have := div_le x b ((2 * g + 1).toNat * 2 ^ 1073) hb0 hb hx0 hx hrep (by
    push_cast
    rw [Int.toNat_of_nonneg (by omega)]
    have e := SC_half
    nlinarith [SC_posZ])
  push_cast at this
  rw [Int.toNat_of_nonneg (by omega)] at this
  have e := SC_half
  have hp : (0 : Int) < 2 ^ 1073 := by positivity
  nlinarith

end Dbl

theorem SECinNanoSecsD_eq : SECinNanoSecsD = Dbl.ofInt 1000000000 := rfl

theorem natAbs_le_of_bounds (x : Int) (b : Nat) (h1 : -(b : Int) ≤ x) (h2 : x ≤ b) :
    x.natAbs ≤ b := by omega

theorem e9_small : (1000000000 : Int).natAbs ≤ 2 ^ 53 := by decide

/-- The seconds `(long long) ((double) p / 1e9)` of a non-negative count below `2^60`:
the exact quotient, or one more when the count is not a whole number of seconds. -/
theorem secOf_small (p : Int) (hp0 : 0 ≤ p) (hp : p < 2 ^ 60) :
    Dbl.toInt (Dbl.div (Dbl.ofInt p) SECinNanoSecsD) = p / 1000000000 ∨
    (Dbl.toInt (Dbl.div (Dbl.ofInt p) SECinNanoSecsD) = p / 1000000000 + 1 ∧
      p % 1000000000 ≠ 0) := by
  rw [SECinNanoSecsD_eq]
  have hq0 : 0 ≤ p / 1000000000 := Int.ediv_nonneg hp0 (by decide)
  generalize hq : p / 1000000000 = q at hq0
  have hql : q * 1000000000 ≤ p := by omega
  have hqu : p < (q + 1) * 1000000000 := by omega
  have hqb : q < 1152921505 := by omega
  -- brackets of the conversion
  have h1 : q * 1000000000 * SC ≤ (Dbl.ofInt p).raw :=
    Dbl.ofInt_ge_pow p (q * 1000000000) (q * 1953125).toNat 9 (by omega)
      (by rw [Int.toNat_of_nonneg (by omega)]; ring) hql (by omega)
  have h2 : (Dbl.ofInt p).raw ≤ (q + 1) * 1000000000 * SC :=
    Dbl.ofInt_le_pow p ((q + 1) * 1000000000) ((q + 1) * 1953125).toNat 9 (by omega)
      (by rw [Int.toNat_of_nonneg (by omega)]; ring) hp0 (by omega) (by omega)
  have hx0 : 0 ≤ (Dbl.ofInt p).raw := Dbl.ofInt_nonneg p hp0
  have hxb : (Dbl.ofInt p).raw ≤ 2 ^ 64 * SC := by
    refine le_trans h2 ?_
    exact mul_le_mul_of_nonneg_right (by omega) (le_of_lt SC_posZ)
  have h3 : q * SC ≤ (Dbl.div (Dbl.ofInt p) (Dbl.ofInt 1000000000)).raw :=
    Dbl.div_ge_int _ _ q (by decide) e9_small hq0 (by omega) hxb h1
  have h4 : (Dbl.div (Dbl.ofInt p) (Dbl.ofInt 1000000000)).raw ≤ (q + 1) * SC := by
    have := Dbl.div_le (Dbl.ofInt p) 1000000000 ((q + 1).toNat * SC) (by decide) e9_small hx0 hxb
      (Rep_int _ (by omega)) (by
        push_cast; rw [Int.toNat_of_nonneg (by omega)]; linarith)
    push_cast at this
    rw [Int.toNat_of_nonneg (by omega)] at this
    exact this
  rcases lt_or_eq_of_le h4 with h5 | h5
  · exact Or.inl (Dbl.toInt_eq _ q hq0 h3 h5)
  · rcases Decidable.em (p % 1000000000 = 0) with hr | hr
    · -- a whole number of seconds converts and divides exactly
      exfalso
      have hpe : p = q * 1000000000 := by omega
      have h2' : (Dbl.ofInt p).raw ≤ q * 1000000000 * SC :=
        Dbl.ofInt_le_pow p (q * 1000000000) (q * 1953125).toNat 9 (by omega)
          (by rw [Int.toNat_of_nonneg (by omega)]; ring) hp0 (by omega) (by omega)
      have := Dbl.div_le (Dbl.ofInt p) 1000000000 (q.toNat * SC) (by decide) e9_small hx0 hxb
        (Rep_int _ (by omega)) (by
          push_cast; rw [Int.toNat_of_nonneg (by omega)]; linarith)
      push_cast at this
      rw [Int.toNat_of_nonneg (by omega)] at this
      have hsc := SC_posZ
      nlinarith
    · refine Or.inr ⟨?_, hr⟩
      apply Dbl.toInt_eq _ (q + 1) (by omega)
      · rw [h5]
      · rw [h5]; nlinarith [SC_posZ]

/-- Conversion, division and truncation commute with negation. -/
theorem secOf_neg (p : Int) :
    Dbl.toInt (Dbl.div (Dbl.ofInt (-p)) SECinNanoSecsD)
      = -Dbl.toInt (Dbl.div (Dbl.ofInt p) SECinNanoSecsD) := by
  rw [SECinNanoSecsD_eq]
  have e1 : Dbl.ofInt (-p) = ⟨-(Dbl.ofInt p).raw⟩ := Dbl.ext_raw (Dbl.ofInt_neg p)
  rw [e1]
  have e2 : Dbl.div ⟨-(Dbl.ofInt p).raw⟩ (Dbl.ofInt 1000000000)
      = ⟨-(Dbl.div (Dbl.ofInt p) (Dbl.ofInt 1000000000)).raw⟩ :=
    Dbl.ext_raw (Dbl.div_neg _ _ (by decide) e9_small)
  rw [e2, Dbl.toInt_neg]

/-- For counts of magnitude below `2^60` the split followed by the sign adjustment is the
floor division by `10^9`. -/
theorem fixNeg_splitSec_small (n : Int) (h1 : -(2 ^ 60) < n) (h2 : n < 2 ^ 60) :
    fixNeg (splitSec n) = (n / 1000000000, n % 1000000000) := by
  unfold fixNeg splitSec wrap64 SECinNanoSecs
  rcases le_or_lt 0 n with hn | hn
  · rcases secOf_small n hn h2 with h | ⟨h, hr⟩
    · simp only [h]
      rw [if_neg (by omega)]
      ext <;> simp only [] <;> omega
    · simp only [h]
      rw [if_pos (by omega)]
      ext <;> simp only [] <;> omega
  · have hs := secOf_neg (-n)
    rw [neg_neg] at hs
    rcases secOf_small (-n) (by omega) (by omega) with h | ⟨h, hr⟩
    · rw [h] at hs
      simp only [hs]
      rcases Decidable.em (n % 1000000000 = 0) with hz | hz
      · rw [if_neg (by omega)]
        ext <;> simp only [] <;> omega
      · rw [if_pos (by omega)]
        ext <;> simp only [] <;> omega
    · rw [h] at hs
      simp only [hs]
      rw [if_neg (by omega)]
      ext <;> simp only [] <;> omega

/-- The seconds `(long long) ((double) t / 1e9)` of a non-negative count below `2^63`: the
conversion rounds to a multiple of 1024 at most, so the result is the exact quotient or a
neighbour of it, a neighbour only when the remainder is close to a whole second. -/
theorem secOf_big (t : Int) (h0 : 0 ≤ t) (h1 : t < 2 ^ 63) :
    t / 1000000000 - 1 ≤ Dbl.toInt (Dbl.div (Dbl.ofInt t) SECinNanoSecsD) ∧
    (1023 ≤ t % 1000000000 →
      t / 1000000000 ≤ Dbl.toInt (Dbl.div (Dbl.ofInt t) SECinNanoSecsD)) ∧
    Dbl.toInt (Dbl.div (Dbl.ofInt t) SECinNanoSecsD) ≤ t / 1000000000 + 1 ∧
    (t % 1000000000 ≤ 490000000 →
      Dbl.toInt (Dbl.div (Dbl.ofInt t) SECinNanoSecsD) ≤ t / 1000000000) := by
  rw [SECinNanoSecsD_eq]
  have hq0 : 0 ≤ t / 1000000000 := Int.ediv_nonneg h0 (by decide)
  -- brackets of the conversion by multiples of 1024
  have hlo : t / 1024 * 1024 * SC ≤ (Dbl.ofInt t).raw :=
    Dbl.ofInt_ge_pow t (t / 1024 * 1024) (t / 1024).toNat 10 (by omega)
      (by rw [Int.toNat_of_nonneg (by omega)]; norm_num) (by omega) (by omega)
  have hhi : (Dbl.ofInt t).raw ≤ (t + 1023) / 1024 * 1024 * SC :=
    Dbl.ofInt_le_pow t ((t + 1023) / 1024 * 1024) ((t + 1023) / 1024).toNat 10 (by omega)
      (by rw [Int.toNat_of_nonneg (by omega)]; norm_num) h0 (by omega) (by omega)
  have hx0 : 0 ≤ (Dbl.ofInt t).raw := Dbl.ofInt_nonneg t h0
  have hxb : (Dbl.ofInt t).raw ≤ 2 ^ 64 * SC := by
    refine le_trans hhi ?_
    exact mul_le_mul_of_nonneg_right (by omega) (le_of_lt SC_posZ)
  have hsc := SC_posZ
  -- lower bound by the seconds in the lower bracket
  have hge : ∀ g : Int, 0 ≤ g → g * 1000000000 ≤ t / 1024 * 1024 →
      g ≤ Dbl.toInt (Dbl.div (Dbl.ofInt t) (Dbl.ofInt 1000000000)) := by
    intro g hg0 hg
    apply Dbl.toInt_ge _ g hg0
    apply Dbl.div_ge_int _ _ g (by decide) e9_small hg0 (by omega) hxb
    exact le_trans (mul_le_mul_of_nonneg_right hg (le_of_lt hsc)) hlo
  have hle : ∀ g : Int, 0 ≤ g → (t + 1023) / 1024 * 1024 ≤ g * 1000000000 + 500000000 →
      g ≤ 9223372037 →
      Dbl.toInt (Dbl.div (Dbl.ofInt t) (Dbl.ofInt 1000000000)) ≤ g := by
    intro g hg0 hg hgb
    apply Dbl.toInt_le _ g (Dbl.div_nonneg _ _ (by decide) e9_small hx0)
    apply Dbl.div_le_int _ _ g (by decide) e9_small hg0 (by omega) hx0 hxb
    have : 2 * ((t + 1023) / 1024 * 1024) ≤ (2 * g + 1) * 1000000000 := by omega
    calc 2 * (Dbl.ofInt t).raw ≤ 2 * ((t + 1023) / 1024 * 1024 * SC) := by linarith
      _ = 2 * ((t + 1023) / 1024 * 1024) * SC := by ring
      _ ≤ (2 * g + 1) * 1000000000 * SC := mul_le_mul_of_nonneg_right this (le_of_lt hsc)
  refine ⟨?_, ?_, ?_, ?_⟩
  · rcases le_or_lt (t / 1000000000) 0 with hz | hz
    · have := Dbl.toInt_nonneg _ (Dbl.div_nonneg (Dbl.ofInt t) 1000000000 (by decide) e9_small hx0)
      omega
    · have := hge (t / 1000000000 - 1) (by omega) (by omega)
      omega
  · intro hr
    exact hge (t / 1000000000) hq0 (by omega)
  · exact hle (t / 1000000000 + 1) (by omega) (by omega) (by omega)
  · intro hr
    exact hle (t / 1000000000) hq0 (by omega) (by omega)

/-- The branch `nanoSecSinceJ2000 > 0` of `breakdownTT2000`, with the sign adjustment:
seconds and nanoseconds of `t + 12 h - 32.184 s`, by floor division. -/
theorem split_pos (t : Int) (h0 : 0 < t) (h1 : t ≤ INT64_MAX) :
    fixNeg ((splitSec t).1 - 32 + 43200, (splitSec t).2 - 184000000)
      = ((t + 43167816000000) / 1000000000, (t + 43167816000000) % 1000000000) := by
  unfold INT64_MAX at h1
  obtain ⟨b1, b2, b3, b4⟩ := secOf_big t (le_of_lt h0) (by omega)
  unfold fixNeg splitSec wrap64 SECinNanoSecs
  generalize Dbl.toInt (Dbl.div (Dbl.ofInt t) SECinNanoSecsD) = s at b1 b2 b3 b4
  simp only []
  have hs : s = t / 1000000000 - 1 ∨ s = t / 1000000000 ∨ s = t / 1000000000 + 1 := by omega
  rcases hs with hs | hs | hs
  · have hr : t % 1000000000 < 1023 := by
      by_contra hc
      have := b2 (by omega)
      omega
    subst hs
    rw [if_neg (by omega)]
    ext <;> simp only [] <;> omega
  · subst hs
    by_cases hneg : t % 1000000000 < 184000000
    · rw [if_pos (by omega)]
      ext <;> simp only [] <;> omega
    · rw [if_neg (by omega)]
      ext <;> simp only [] <;> omega
  · have hr : 490000000 < t % 1000000000 := by
      by_contra hc
      have := b4 (by omega)
      omega
    subst hs
    rw [if_pos (by omega)]
    ext <;> simp only [] <;> omega

/-- The branch `nanoSecSinceJ2000 <= 0` of `breakdownTT2000`, for values not below
`-2^60`. -/
theorem split_nonpos (t : Int) (h0 : t ≤ 0) (h1 : -(2 ^ 60) ≤ t) :
    fixNeg (splitSec (wrap64 (wrap64 (t + T12hinNanoSecs) - dTinNanoSecs)))
      = ((t + 43167816000000) / 1000000000, (t + 43167816000000) % 1000000000) := by
  have e : wrap64 (wrap64 (t + T12hinNanoSecs) - dTinNanoSecs) = t + 43167816000000 := by
    unfold wrap64 T12hinNanoSecs dTinNanoSecs; omega
  rw [e]
  exact fixNeg_splitSec_small _ (by omega) (by omega)

theorem SC_split (e : Nat) (he : e ≤ 1074) : (SC : Int) = 2 ^ (1074 - e) * 2 ^ e := by
  have : SC = 2 ^ (1074 - e) * 2 ^ e := by
    rw [SC_eq, ← pow_add]; congr 1; omega
  exact_mod_cast this

theorem Below_ofInt (a : Int) (ha : a.natAbs ≤ 2 ^ 53) : Below (Dbl.ofInt a) a 1074 := by
  unfold Below
  rw [Dbl.ofInt_raw a ha]
  have : (SC : Int) = 2 ^ 1074 := by exact_mod_cast SC_eq
  constructor
  · exact le_refl _
  · rw [← this]; linarith

theorem Below.toInt {x : Dbl} {q : Int} {e : Nat} (h : Below x q e) (hq : 0 ≤ q) :
    x.toInt = q := by
  apply Dbl.toInt_eq x q hq h.1
  have : (0 : Int) < 2 ^ e := by positivity
  linarith [h.2]

/-- Division of a value with integer part `q` by the integer `b ≤ 2^r` gives a value with
integer part `q / b`; the margin shrinks by `r` bits. -/
theorem Below.div {x : Dbl} {q : Int} {e : Nat} (h : Below x q e) (hq : 0 ≤ q) (b : Int)
    (r : Nat) (hb0 : 0 < b) (hb : b ≤ 2 ^ r) (hr : r ≤ e) (he : e ≤ 1074) (hr53 : r ≤ 53)
    (hq64 : q + 1 ≤ 2 ^ 53)
    (hm : (q / b + 1) * 2 ^ (1074 - (e - r)) ≤ 2 ^ 53) :
    Below (Dbl.div x (Dbl.ofInt b)) (q / b) (e - r) := by
  have hsc := SC_posZ
  have hbn : b.natAbs ≤ 2 ^ 53 := by
    have h1 : (2 : Int) ^ r ≤ 2 ^ 53 := pow_le_pow_right₀ (by norm_num) hr53
    have h3 : (b.natAbs : Int) = b := Int.natAbs_of_nonneg (le_of_lt hb0)
    have h2 : (b.natAbs : Int) ≤ 2 ^ 53 := by
      rw [h3]; exact le_trans hb h1
    exact_mod_cast h2
  have hg0 : 0 ≤ q / b := Int.ediv_nonneg hq (le_of_lt hb0)
  have hgq : q / b * b ≤ q := Int.ediv_mul_le q (ne_of_gt hb0)
  have hgq' : q + 1 ≤ (q / b + 1) * b := by
    have := Int.lt_ediv_add_one_mul_self q hb0
    linarith
  have hgle : q / b ≤ q := Int.ediv_le_self _ hq
  have hx0 : 0 ≤ x.raw := le_trans (mul_nonneg hq (le_of_lt hsc)) h.1
  have hpe : (0 : Int) < 2 ^ e := by positivity
  have hxb : x.raw ≤ 2 ^ 64 * SC := by
    have : x.raw ≤ (q + 1) * SC := by linarith [h.2]
    refine le_trans this (mul_le_mul_of_nonneg_right ?_ (le_of_lt hsc))
    exact le_trans hq64 (pow_le_pow_right₀ (by norm_num) (by norm_num))
  constructor
  · apply Dbl.div_ge_int x b (q / b) hb0 hbn hg0 (by omega) hxb
    calc q / b * b * SC ≤ q * SC := mul_le_mul_of_nonneg_right hgq (le_of_lt hsc)
      _ ≤ x.raw := h.1
  · -- the upper bracket `(q / b + 1) * SC - 2^(e - r)`
    have hsplit := SC_split (e - r) (by omega)
    have hpos1 : (0 : Int) < 2 ^ (1074 - (e - r)) := by positivity
    have hpos2 : (0 : Int) < 2 ^ (e - r) := by positivity
    have hmn : 0 ≤ (q / b + 1) * 2 ^ (1074 - (e - r)) - 1 := by nlinarith
    have hrep : Rep (((q / b + 1) * 2 ^ (1074 - (e - r)) - 1).toNat * 2 ^ (e - r)) := by
      refine ⟨_, e - r, ?_, rfl⟩
      have : ((((q / b + 1) * 2 ^ (1074 - (e - r)) - 1).toNat : Nat) : Int)
          ≤ ((2 ^ 53 : Nat) : Int) := by
        rw [Int.toNat_of_nonneg hmn]; push_cast; linarith
      exact_mod_cast this
    have hpow : (2 : Int) ^ e = 2 ^ r * 2 ^ (e - r) := by
      rw [← pow_add]; congr 1; omega
    have hbr : b * 2 ^ (e - r) ≤ 2 ^ e := by
      rw [hpow]; exact mul_le_mul_of_nonneg_right hb (le_of_lt hpos2)
    have key := Dbl.div_le x b _ hb0 hbn hx0 hxb hrep (by
      push_cast
      rw [Int.toNat_of_nonneg hmn]
      have e1 : ((q / b + 1) * 2 ^ (1074 - (e - r)) - 1) * 2 ^ (e - r) * b
          = (q / b + 1) * b * SC - b * 2 ^ (e - r) := by
        rw [hsplit]; ring
      rw [e1]
      have : (q + 1) * SC ≤ (q / b + 1) * b * SC :=
        mul_le_mul_of_nonneg_right hgq' (le_of_lt hsc)
      linarith [h.2])
    push_cast at key
    rw [Int.toNat_of_nonneg hmn] at key
    have e2 : ((q / b + 1) * 2 ^ (1074 - (e - r)) - 1) * 2 ^ (e - r)
        = (q / b + 1) * SC - 2 ^ (e - r) := by
      rw [hsplit]; ring
    rw [e2] at key
    linarith

/-- The truncated `fmod` of a value with integer part `q` by the integer `b`. -/
theorem Below.toInt_fmod {x : Dbl} {q : Int} {e : Nat} (h : Below x q e) (hq : 0 ≤ q) (b : Int)
    (hb0 : 0 < b) (hb : b.natAbs ≤ 2 ^ 53) :
    Dbl.toInt (Dbl.fmod x (Dbl.ofInt b)) = q % b := by
  have hsc := SC_posZ
  have hpe : (0 : Int) < 2 ^ e := by positivity
  have hx0 : 0 ≤ x.raw := le_trans (mul_nonneg hq (le_of_lt hsc)) h.1
  have hbs : 0 < b * SC := mul_pos hb0 hsc
  have hm0 : 0 ≤ q % b := Int.emod_nonneg _ (ne_of_gt hb0)
  have hm1 : q % b < b := Int.emod_lt_of_pos _ hb0
  have hqd : b * (q / b) + q % b = q := Int.ediv_add_emod q b
  have hrem : x.raw % (b * SC) = q % b * SC + (x.raw - q * SC) := by
    refine ((Int.ediv_emod_unique hbs).2 ⟨?_, ?_, ?_⟩ :
      x.raw / (b * SC) = q / b ∧ x.raw % (b * SC) = q % b * SC + (x.raw - q * SC)).2
    · have : q % b * SC + b * (q / b) * SC = q * SC := by rw [← add_mul]; congr 1; linarith
      linarith
    · have := mul_nonneg hm0 (le_of_lt hsc)
      linarith [h.1]
    · have : (q % b + 1) * SC ≤ b * SC := mul_le_mul_of_nonneg_right (by omega) (le_of_lt hsc)
      linarith [h.2]
  apply Dbl.toInt_eq _ _ hm0
  · show q % b * SC ≤ Int.tmod x.raw (Dbl.ofInt b).raw
    rw [Dbl.ofInt_raw b hb, Int.tmod_eq_emod hx0 (le_of_lt hbs), hrem]
    linarith [h.1]
  · show Int.tmod x.raw (Dbl.ofInt b).raw < (q % b + 1) * SC
    rw [Dbl.ofInt_raw b hb, Int.tmod_eq_emod hx0 (le_of_lt hbs), hrem]
    linarith [h.2]

theorem carryNanos_skip (v : Loc) (h : Dbl.le (Dbl.ofInt 1000) v.la = false) :
    carryNanos v = v := by
  unfold carryNanos; rw [if_neg (by rw [h]; decide)]

theorem carryMicros_skip (v : Loc) (h : Dbl.le (Dbl.ofInt 1000) v.lu = false) :
    carryMicros v = v := by
  unfold carryMicros; rw [if_neg (by rw [h]; decide)]

theorem carryMillis_skip (v : Loc) (h : Dbl.le (Dbl.ofInt 1000) v.ll = false) :
    carryMillis v = v := by
  unfold carryMillis; rw [if_neg (by rw [h]; decide)]

theorem carrySeconds_skip (h : Host) (s : TTState) (v : Loc)
    (hv : Dbl.le (Dbl.ofInt 60) v.ls = false) : carrySeconds h s v = (v, s) := by
  unfold carrySeconds; rw [if_neg (by rw [hv]; decide)]

theorem carryMinutes_skip (v : Loc) (h : Dbl.le (Dbl.ofInt 60) v.ln = false) :
    carryMinutes v = v := by
  unfold carryMinutes; rw [if_neg (by rw [h]; decide)]

theorem carryHours_skip (v : Loc) (h : Dbl.le (Dbl.ofInt 24) v.lh = false) :
    carryHours v = v := by
  unfold carryHours; rw [if_neg (by rw [h]; decide)]

theorem Dbl.sub_self (x : Dbl) : Dbl.sub x x = Dbl.ofInt 0 := by
  rw [Dbl.ofInt_zero]
  apply Dbl.ext_raw
  show flZ (x.raw - x.raw) 1 = 0
  rw [Int.sub_self]
  unfold flZ
  rw [if_neg (by decide)]
  show ((flN 0 1 : Nat) : Int) = 0
  rw [flN_zero]; rfl

/-- The body of `computeTT2000` on nine integer fields below the carry thresholds: no carry
block is entered, and the fields go to `computeFields` unchanged. -/
theorem computeTT2000Sym_ints (h : Host) (s : TTState) (y m d hh mn ss ms us ns : Int)
    (hy : y.natAbs ≤ 2 ^ 53) (hm : m.natAbs ≤ 2 ^ 53) (hm0 : m ≠ 0) (hd : d.natAbs ≤ 2 ^ 53)
    (h1 : 0 ≤ hh ∧ hh < 24) (h2 : 0 ≤ mn ∧ mn < 60) (h3 : 0 ≤ ss ∧ ss < 60)
    (h4 : 0 ≤ ms ∧ ms < 1000) (h5 : 0 ≤ us ∧ us < 1000) (h6 : 0 ≤ ns ∧ ns < 1000) :
    computeTT2000Sym h s (Dbl.ofInt y) (Dbl.ofInt m) (Dbl.ofInt d) (Dbl.ofInt hh) (Dbl.ofInt mn)
      (Dbl.ofInt ss) (Dbl.ofInt ms) (Dbl.ofInt us) (Dbl.ofInt ns) =
    computeFields h s y m d hh mn ss ms us ns := by
  have b1 : hh.natAbs ≤ 2 ^ 53 := by omega
  have b2 : mn.natAbs ≤ 2 ^ 53 := by omega
  have b3 : ss.natAbs ≤ 2 ^ 53 := by omega
  have b4 : ms.natAbs ≤ 2 ^ 53 := by omega
  have b5 : us.natAbs ≤ 2 ^ 53 := by omega
  have b6 : ns.natAbs ≤ 2 ^ 53 := by omega
  have z : (0 : Int).natAbs ≤ 2 ^ 53 := by decide
  have k1 : (1000 : Int).natAbs ≤ 2 ^ 53 := by decide
  have k2 : (60 : Int).natAbs ≤ 2 ^ 53 := by decide
  have k3 : (24 : Int).natAbs ≤ 2 ^ 53 := by decide
  have n1 : ¬ hh < 0 := by omega
  have n2 : ¬ mn < 0 := by omega
  have n3 : ¬ ss < 0 := by omega
  have n4 : ¬ ms < 0 := by omega
  have n5 : ¬ us < 0 := by omega
  have n6 : ¬ ns < 0 := by omega
  unfold computeTT2000Sym
  rw [← Dbl.ofInt_zero]
  simp only [Dbl.beq_ofInt _ _ hm z, Dbl.floor_ofInt _ hy, Dbl.floor_ofInt _ hm,
    Dbl.floor_ofInt _ hd, Dbl.floor_ofInt _ b1, Dbl.floor_ofInt _ b2, Dbl.floor_ofInt _ b3,
    Dbl.floor_ofInt _ b4, Dbl.floor_ofInt _ b5, Dbl.lt_ofInt _ _ b1 z, Dbl.lt_ofInt _ _ b2 z,
    Dbl.lt_ofInt _ _ b3 z, Dbl.lt_ofInt _ _ b4 z, Dbl.lt_ofInt _ _ b5 z, Dbl.lt_ofInt _ _ b6 z,
    Dbl.sub_self, Dbl.beq_ofInt 0 0 z z, hm0, n1, n2, n3, n4, n5, n6, decide_False, decide_True,
    Bool.or_self, Bool.not_true, Bool.false_eq_true, if_false]
  rw [carryNanos_skip _ (by show Dbl.le _ (Dbl.ofInt ns) = false; rw [Dbl.le_ofInt _ _ k1 b6]; simp; omega)]
  rw [carryMicros_skip _ (by show Dbl.le _ (Dbl.ofInt us) = false; rw [Dbl.le_ofInt _ _ k1 b5]; simp; omega)]
  rw [carryMillis_skip _ (by show Dbl.le _ (Dbl.ofInt ms) = false; rw [Dbl.le_ofInt _ _ k1 b4]; simp; omega)]
  rw [carrySeconds_skip _ _ _ (by show Dbl.le _ (Dbl.ofInt ss) = false; rw [Dbl.le_ofInt _ _ k2 b3]; simp; omega)]
  simp only []
  rw [carryMinutes_skip _ (by show Dbl.le _ (Dbl.ofInt mn) = false; rw [Dbl.le_ofInt _ _ k2 b2]; simp; omega)]
  rw [carryHours_skip _ (by show Dbl.le _ (Dbl.ofInt hh) = false; rw [Dbl.le_ofInt _ _ k3 b1]; simp; omega)]
  unfold Loc.settle
  simp only [and_self, if_true, Dbl.toInt_ofInt _ hy, Dbl.toInt_ofInt _ hm, Dbl.toInt_ofInt _ hd,
    Dbl.toInt_ofInt _ b1, Dbl.toInt_ofInt _ b2, Dbl.toInt_ofInt _ b3, Dbl.toInt_ofInt _ b4,
    Dbl.toInt_ofInt _ b5, Dbl.toInt_ofInt _ b6]

/-- Claim C7.  Sentinel idempotence for TT2000, from any state of the module and with any
host: `computeTT2000 (9999,12,31,23,59,59,999,999,999)` returns `FILLED_TT2000_VALUE` and
`breakdownTT2000 (FILLED_TT2000_VALUE)` writes exactly `(9999,12,31,23,59,59,999,999,999)`;
`computeTT2000 (0,1,1,0,0,0,0,0,0)` returns `DEFAULT_TT2000_PADVALUE` and
`breakdownTT2000 (DEFAULT_TT2000_PADVALUE)` writes exactly `(0,1,1,0,0,0,0,0,0)`.  Neither call
changes the module state.  The two reserved constants are distinct values. -/
theorem C7_sentinel_idempotence (c : Sentinels) (h : Host) (s : TTState)
    (hne : c.DEFAULT_TT2000_PADVALUE ≠ c.FILLED_TT2000_VALUE) :
    computeTT2000I c h s 9999 12 31 23 59 59 999 999 999 = (c.FILLED_TT2000_VALUE, s) ∧
    breakdownTT2000 c h s c.FILLED_TT2000_VALUE
      = (Parts.ofInts 9999 12 31 23 59 59 999 999 999, s) ∧
    computeTT2000I c h s 0 1 1 0 0 0 0 0 0 = (c.DEFAULT_TT2000_PADVALUE, s) ∧
    breakdownTT2000 c h s c.DEFAULT_TT2000_PADVALUE = (Parts.ofInts 0 1 1 0 0 0 0 0 0, s) := by
  refine ⟨?_, ?_, ?_, ?_⟩
  · unfold computeTT2000I computeTT2000
    rw [computeTT2000Sym_ints h s 9999 12 31 23 59 59 999 999 999 (by decide) (by decide)
      (by decide) (by decide) (by decide) (by decide) (by decide) (by decide) (by decide)
      (by decide)]
    unfold computeFields
    rw [if_pos (by decide)]
    rfl
  · unfold breakdownTT2000
    rw [if_pos rfl]
  · unfold computeTT2000I computeTT2000
    rw [computeTT2000Sym_ints h s 0 1 1 0 0 0 0 0 0 (by decide) (by decide)
      (by decide) (by decide) (by decide) (by decide) (by decide) (by decide) (by decide)
      (by decide)]
    unfold computeFields
    rw [if_neg (by decide), if_pos (by decide)]
    rfl
  · unfold breakdownTT2000
    rw [if_neg hne, if_pos rfl]

theorem C7_sentinel_idempotence_witness :
    cdfSentinels.DEFAULT_TT2000_PADVALUE ≠ cdfSentinels.FILLED_TT2000_VALUE ∧
    computeTT2000I cdfSentinels Host.plain TTState.init 9999 12 31 23 59 59 999 999 999
      = (cdfSentinels.FILLED_TT2000_VALUE, TTState.init) ∧
    breakdownTT2000 cdfSentinels Host.plain TTState.init cdfSentinels.FILLED_TT2000_VALUE
      = (Parts.ofInts 9999 12 31 23 59 59 999 999 999, TTState.init) ∧
    computeTT2000I cdfSentinels Host.plain TTState.init 0 1 1 0 0 0 0 0 0
      = (cdfSentinels.DEFAULT_TT2000_PADVALUE, TTState.init) ∧
    breakdownTT2000 cdfSentinels Host.plain TTState.init cdfSentinels.DEFAULT_TT2000_PADVALUE
      = (Parts.ofInts 0 1 1 0 0 0 0 0 0, TTState.init) :=
  ⟨by decide, C7_sentinel_idempotence cdfSentinels Host.plain TTState.init (by decide)⟩

set_option maxRecDepth 100000 in
theorem marchYearsOK_window : marchYearsOK 1706 588 = true := by decide!

theorem marchYearOK_window (Y : Int) (h1 : 1706 ≤ Y) (h2 : Y ≤ 2293) : marchYearOK Y = true := by
  have h := marchYearsOK_window
  unfold marchYearsOK at h
  rw [List.all_eq_true] at h
  have := h (Y - 1706).toNat (by rw [List.mem_range]; omega)
  have e : (1706 : Int) + ((Y - 1706).toNat : Int) = Y := by omega
  rw [e] at this
  exact this

/-- Truncating division is monotone on non-negative arguments: a quotient that agrees at both
ends of an interval is constant on it. -/
theorem tdiv_between (a b c d : Int) (ha : 0 ≤ a) (hab : a ≤ b) (hbc : b ≤ c) (hd : 0 < d)
    (h : Int.tdiv c d = Int.tdiv a d) : Int.tdiv b d = Int.tdiv a d := by
  rw [Int.tdiv_eq_ediv ha (le_of_lt hd)] at h ⊢
  rw [Int.tdiv_eq_ediv (by omega) (le_of_lt hd)] at h ⊢
  have h1 : a / d ≤ b / d := Int.ediv_le_ediv hd hab
  have h2 : b / d ≤ c / d := Int.ediv_le_ediv hd hbc
  omega

/-- Decoding inside one March-based year: day `t` of the year starting 1 March of `Y`. -/
theorem dateFromL_block (Y t : Int) (hok : marchYearOK Y = true) (ht0 : 0 ≤ t)
    (ht : t < yearLen Y) :
    dateFromL (marchStart Y + t) = (Y + (tailOf t).1, (tailOf t).2.1, (tailOf t).2.2) := by
  unfold marchYearOK at hok
  simp only [Bool.and_eq_true, decide_eq_true_eq] at hok
  obtain ⟨⟨⟨⟨⟨⟨-, hS⟩, hc⟩, hn⟩, hi⟩, hz⟩, hy⟩ := hok
  have en : Int.tdiv (4 * (marchStart Y + t)) 146097 = Int.tdiv (4 * marchStart Y) 146097 :=
    tdiv_between _ _ _ _ (by omega) (by omega)
      (by show 4 * (marchStart Y + t) ≤ 4 * (marchStart Y + yearLen Y - 1); omega)
      (by decide) hn
  unfold dateFromL tailOf
  simp only [en]
  generalize Int.tdiv (4 * marchStart Y) 146097 = n at *
  generalize Int.tdiv (146097 * n + 3) 4 = c at *
  have ei : Int.tdiv (4000 * (marchStart Y + t - c + 1)) 1461001
      = Int.tdiv (4000 * (marchStart Y - c + 1)) 1461001 :=
    tdiv_between _ _ _ _ (by omega) (by omega)
      (by show 4000 * (marchStart Y + t - c + 1) ≤ 4000 * (marchStart Y + yearLen Y - 1 - c + 1)
          omega)
      (by decide) hi
  simp only [ei]
  generalize Int.tdiv (4000 * (marchStart Y - c + 1)) 1461001 = i at *
  generalize hq : Int.tdiv (1461 * i) 4 = q at *
  have el : marchStart Y + t - c - q + 31 = t + 31 := by omega
  simp only [el]
  have hy2 : 100 * (n - 49) + i = Y := hy
  simp only [hy2]

theorem tdiv_bounds (a d : Int) (hd : 0 < d) :
    a - (d - 1) ≤ d * Int.tdiv a d ∧ d * Int.tdiv a d ≤ a + (d - 1) := by
  rcases le_or_lt 0 a with h | h
  · rw [Int.tdiv_eq_ediv h (le_of_lt hd)]
    have h1 := Int.emod_nonneg a (ne_of_gt hd)
    have h2 := Int.emod_lt_of_pos a hd
    have h3 := Int.ediv_add_emod a d
    constructor <;> linarith
  · have e : Int.tdiv a d = -Int.tdiv (-a) d := by rw [Int.neg_tdiv, neg_neg]
    rw [e, Int.tdiv_eq_ediv (by omega) (le_of_lt hd)]
    have h1 := Int.emod_nonneg (-a) (ne_of_gt hd)
    have h2 := Int.emod_lt_of_pos (-a) hd
    have h3 := Int.ediv_add_emod (-a) d
    constructor <;> linarith

theorem marchStart_eq (Y : Int) :
    marchStart Y = 367 * Y - Int.tdiv (7 * (Y + 1)) 4
      - Int.tdiv (3 * (Int.tdiv Y 100 + 1)) 4 + 1789690 := by
  unfold marchStart JulianDay12hL
  have e1 : Int.tdiv ((3 : Int) + 9) 12 = 1 := by decide
  have e2 : Int.tdiv ((3 : Int) - 9) 7 = 0 := by decide
  have e3 : Int.tdiv (275 * (3 : Int)) 9 = 91 := by decide
  simp only [show ((3 : Int) = 0) = False from by decide, if_false, e1, e2, e3, add_zero]
  ring

theorem month_terms (m : Int) (hm1 : 1 ≤ m) (hm2 : m ≤ 12) :
    Int.tdiv (m + 9) 12 = (if m ≤ 2 then 0 else 1) ∧
    Int.tdiv (m - 9) 7 = (if m ≤ 2 then -1 else 0) ∧
    Int.tdiv (275 * m) 9 = marchOffset m + (if m ≤ 2 then -276 else 91) := by
  interval_cases m <;> decide

/-- The day number of a date, by March-based year and day within it. -/
theorem JulianDay12hL_march (y m d : Int) (hm1 : 1 ≤ m) (hm2 : m ≤ 12) :
    JulianDay12hL y m d + 68569
      = marchStart (y - (if m ≤ 2 then 1 else 0)) + (marchOffset m + d - 1) := by
  rw [marchStart_eq]
  unfold JulianDay12hL
  have hm0 : ¬ m = 0 := by omega
  obtain ⟨e1, e2, e3⟩ := month_terms m hm1 hm2
  simp only [hm0, if_false, e1, e2, e3]
  by_cases h : m ≤ 2
  · simp only [h, if_true, add_zero, sub_add_cancel, ← sub_eq_add_neg]
    generalize marchOffset m = o
    generalize Int.tdiv (7 * y) 4 = a
    generalize Int.tdiv (3 * (Int.tdiv (y - 1) 100 + 1)) 4 = b
    omega
  · simp only [h, if_false, add_zero, sub_zero]
    generalize marchOffset m = o
    generalize Int.tdiv (7 * (y + 1)) 4 = a
    generalize Int.tdiv (3 * (Int.tdiv y 100 + 1)) 4 = b
    omega

theorem tailForwardOK_true : tailForwardOK = true := by decide!

/-- The last steps of `dateFromL` recover month and day from the day within the March-based
year. -/
theorem tail_forward (m d : Int) (hm1 : 1 ≤ m) (hm2 : m ≤ 12) (hd1 : 1 ≤ d)
    (hd2 : d ≤ tbl daym2 (m - 1)) :
    tailOf (marchOffset m + d - 1) = ((if m ≤ 2 then 1 else 0), m, d) := by
  have hd31 : d ≤ 31 := by
    refine le_trans hd2 ?_
    interval_cases m <;> decide
  have h := tailForwardOK_true
  unfold tailForwardOK at h
  rw [List.all_eq_true] at h
  have h1 := h (m - 1).toNat (by rw [List.mem_range]; omega)
  rw [List.all_eq_true] at h1
  have h2 := h1 (d - 1).toNat (by rw [List.mem_range]; omega)
  rw [decide_eq_true_eq] at h2
  have em : (((m - 1).toNat : Nat) : Int) = m - 1 := by omega
  have ed : (((d - 1).toNat : Nat) : Int) = d - 1 := by omega
  rw [ed, em] at h2
  simp only [sub_add_cancel] at h2
  exact h2 hd2

theorem tailBackwardOK_true : tailBackwardOK = true := by decide!

/-- Month and day of day `t` of a March-based year form a date of the calendar, which counts
back to `t`. -/
theorem tail_backward (t : Int) (h0 : 0 ≤ t) (h1 : t ≤ 365) :
    1 ≤ (tailOf t).2.1 ∧ (tailOf t).2.1 ≤ 12 ∧ 1 ≤ (tailOf t).2.2 ∧
    (tailOf t).2.2 ≤ tbl daym2 ((tailOf t).2.1 - 1) ∧
    (tailOf t).1 = (if (tailOf t).2.1 ≤ 2 then 1 else 0) ∧
    marchOffset (tailOf t).2.1 + (tailOf t).2.2 - 1 = t ∧
    (t = 365 ↔ ((tailOf t).2.1 = 2 ∧ (tailOf t).2.2 = 29)) := by
  have h := tailBackwardOK_true
  unfold tailBackwardOK at h
  rw [List.all_eq_true] at h
  have h2 := h t.toNat (by rw [List.mem_range]; omega)
  have et : ((t.toNat : Nat) : Int) = t := by omega
  simp only [Bool.and_eq_true, decide_eq_true_eq, et] at h2
  obtain ⟨⟨⟨⟨⟨⟨⟨a1, a2⟩, a3⟩, a4⟩, a5⟩, a6⟩, a7⟩, a8⟩ := h2
  refine ⟨a1, a2, a3, a4, a5, a6, ⟨fun e => a7 (by omega), fun e => ?_⟩⟩
  have := a8 e
  omega

theorem yearLen_cases (Y : Int) : yearLen Y = 365 ∨ yearLen Y = 366 := by
  unfold yearLen; split <;> simp

/-- A day number inside the supported window belongs to a March-based year 1707 .. 2292. -/
theorem marchYear_bounds (Y t : Int) (h0 : 0 ≤ t) (h1 : t ≤ 365)
    (lo : 2344793 + 68569 ≤ marchStart Y + t) (hi : marchStart Y + t ≤ 2558297 + 68569) :
    1707 ≤ Y ∧ Y ≤ 2292 := by
  rw [marchStart_eq] at lo hi
  have b1 := tdiv_bounds (7 * (Y + 1)) 4 (by decide)
  have b2 := tdiv_bounds Y 100 (by decide)
  have b3 := tdiv_bounds (3 * (Int.tdiv Y 100 + 1)) 4 (by decide)
  generalize Int.tdiv (7 * (Y + 1)) 4 = a at *
  generalize Int.tdiv (3 * (Int.tdiv Y 100 + 1)) 4 = b at *
  generalize Int.tdiv Y 100 = c at *
  omega

theorem month_tables (m : Int) (hm1 : 1 ≤ m) (hm2 : m ≤ 12) :
    tbl daym1 (m - 1) ≤ tbl daym2 (m - 1) ∧
    (m ≠ 2 → tbl daym1 (m - 1) = tbl daym2 (m - 1) ∧ marchOffset m + tbl daym2 (m - 1) ≤ 337) ∧
    (m = 2 → tbl daym1 (m - 1) = 28 ∧ tbl daym2 (m - 1) = 29 ∧ marchOffset m = 337) ∧
    (m ≠ 2 → m ≠ 12 → marchOffset (m + 1) = marchOffset m + tbl daym2 (m - 1)) ∧
    (m = 12 → marchOffset m = 275 ∧ tbl daym2 (m - 1) = 31) ∧ 0 ≤ marchOffset m := by
  interval_cases m <;> decide

/-- A date of the calendar lies inside its March-based year. -/
theorem valid_in_year (y m d : Int) (hm1 : 1 ≤ m) (hm2 : m ≤ 12) (hd1 : 1 ≤ d)
    (hd2 : d ≤ daysInMonth y m) :
    d ≤ tbl daym2 (m - 1) ∧ 0 ≤ marchOffset m + d - 1 ∧
    marchOffset m + d - 1 < yearLen (y - (if m ≤ 2 then 1 else 0)) := by
  obtain ⟨t1, t2, t3, -, -, t6⟩ := month_tables m hm1 hm2
  have hL := yearLen_cases (y - (if m ≤ 2 then 1 else 0))
  unfold daysInMonth at hd2
  refine ⟨?_, by omega, ?_⟩
  · split at hd2 <;> omega
  · by_cases h2 : m = 2
    · obtain ⟨u1, u2, u3⟩ := t3 h2
      subst h2
      simp only [show (2 : Int) ≤ 2 from le_refl _, if_true] at hL ⊢
      unfold yearLen at hL ⊢
      rw [sub_add_cancel] at hL ⊢
      split at hd2
      · rename_i hl; rw [if_pos hl]; omega
      · rename_i hl; rw [if_neg hl]; omega
    · obtain ⟨u1, u2⟩ := t2 h2
      split at hd2 <;> omega

theorem marchStart_succ (Y : Int) (h1 : 1706 ≤ Y) (h2 : Y ≤ 2293) :
    marchStart (Y + 1) = marchStart Y + yearLen Y := by
  have hok := marchYearOK_window Y h1 h2
  unfold marchYearOK at hok
  simp only [Bool.and_eq_true, decide_eq_true_eq] at hok
  exact hok.1.1.1.1.1.1

/-- Later March-based years start after the last day of earlier ones. -/
theorem marchStart_mono (Y : Int) (k : Nat) (h1 : 1706 ≤ Y) (h2 : Y + k ≤ 2293) :
    marchStart Y + yearLen Y ≤ marchStart (Y + k + 1) := by
  induction k with
  | zero => simp only [Nat.cast_zero, add_zero]; rw [marchStart_succ Y h1 (by omega)]
  | succ k ih =>
    have ih2 := ih (by push_cast at h2; omega)
    have e : Y + ((k + 1 : Nat) : Int) + 1 = (Y + k + 1) + 1 := by push_cast; ring
    rw [e, marchStart_succ (Y + k + 1) (by omega) (by push_cast at h2; omega)]
    have := yearLen_cases (Y + k + 1)
    omega

theorem JulianDay12h_raw (y m d : Int) (h : (JulianDay12hL y m d).natAbs ≤ 2 ^ 53) :
    Dbl.toInt (JulianDay12h y m d) = JulianDay12hL y m d :=
  Dbl.toInt_ofInt _ h

/-- The round trip through the day number, for a date inside a checked March-based year. -/
theorem dateFromL_JulianDay12hL (y m d : Int) (hm1 : 1 ≤ m) (hm2 : m ≤ 12) (hd1 : 1 ≤ d)
    (hd2 : d ≤ daysInMonth y m) (hy1 : 1706 ≤ y - (if m ≤ 2 then 1 else 0))
    (hy2 : y - (if m ≤ 2 then 1 else 0) ≤ 2293) :
    dateFromL (68569 + JulianDay12hL y m d) = (y, m, d) := by
  obtain ⟨v1, v2, v3⟩ := valid_in_year y m d hm1 hm2 hd1 hd2
  rw [add_comm, JulianDay12hL_march y m d hm1 hm2,
    dateFromL_block _ _ (marchYearOK_window _ hy1 hy2) v2 v3,
    tail_forward m d hm1 hm2 hd1 v1]
  simp only [sub_add_cancel]

/-- The March-based year of a date in the supported window, and its day number in it. -/
theorem window_year (y m d : Int) (hm1 : 1 ≤ m) (hm2 : m ≤ 12) (hd1 : 1 ≤ d)
    (hd2 : d ≤ daysInMonth y m) (lo : 2344793 ≤ JulianDay12hL y m d)
    (hi : JulianDay12hL y m d ≤ 2558297) :
    1707 ≤ y - (if m ≤ 2 then 1 else 0) ∧ y - (if m ≤ 2 then 1 else 0) ≤ 2292 := by
  obtain ⟨v1, v2, v3⟩ := valid_in_year y m d hm1 hm2 hd1 hd2
  have e := JulianDay12hL_march y m d hm1 hm2
  have hL := yearLen_cases (y - (if m ≤ 2 then 1 else 0))
  exact marchYear_bounds _ (marchOffset m + d - 1) v2 (by omega) (by omega) (by omega)

/-- The day after a date of the calendar has the next day number. -/
theorem JulianDay12hL_nextDay (y m d : Int) (hm1 : 1 ≤ m) (hm2 : m ≤ 12)
    (hd2 : d ≤ daysInMonth y m) (hy1 : 1707 ≤ y - (if m ≤ 2 then 1 else 0))
    (hy2 : y - (if m ≤ 2 then 1 else 0) ≤ 2292) :
    JulianDay12hL (nextDay y m d).1 (nextDay y m d).2.1 (nextDay y m d).2.2
      = JulianDay12hL y m d + 1 := by
  obtain ⟨t1, t2, t3, t4, t5, t6⟩ := month_tables m hm1 hm2
  have e := JulianDay12hL_march y m d hm1 hm2
  unfold nextDay
  by_cases c1 : d < daysInMonth y m
  · rw [if_pos c1]
    have e2 := JulianDay12hL_march y m (d + 1) hm1 hm2
    show JulianDay12hL y m (d + 1) = _
    omega
  · rw [if_neg c1]
    have hd : d = daysInMonth y m := by omega
    by_cases c2 : m < 12
    · rw [if_pos c2]
      show JulianDay12hL y (m + 1) 1 = _
      have e2 := JulianDay12hL_march y (m + 1) 1 (by omega) (by omega)
      by_cases h2 : m = 2
      · obtain ⟨u1, u2, u3⟩ := t3 h2
        subst h2
        simp only [show (2 : Int) ≤ 2 from le_refl _, if_true,
          show ¬ ((2 : Int) + 1 ≤ 2) from by decide, if_false, sub_zero] at e e2 hy1 hy2
        have hs := marchStart_succ (y - 1) (by omega) (by omega)
        rw [sub_add_cancel] at hs
        have o3 : marchOffset (2 + 1) = 0 := by decide
        unfold yearLen at hs
        rw [sub_add_cancel] at hs
        unfold daysInMonth at hd
        by_cases hl : lyearOf y = true
        · rw [if_pos hl] at hs hd; omega
        · rw [if_neg hl] at hs hd; omega
      · obtain ⟨u1, u2⟩ := t2 h2
        have o := t4 h2 (by omega)
        have hdm : d = tbl daym2 (m - 1) := by
          unfold daysInMonth at hd
          split at hd <;> omega
        have ec : (if m + 1 ≤ 2 then (1 : Int) else 0) = (if m ≤ 2 then 1 else 0) := by
          by_cases h1 : m = 1
          · subst h1; decide
          · rw [if_neg (by omega), if_neg (by omega)]
        rw [ec] at e2
        omega
    · rw [if_neg c2]
      show JulianDay12hL (y + 1) 1 1 = _
      have h12 : m = 12 := by omega
      obtain ⟨u1, u2⟩ := t5 h12
      obtain ⟨w1, w2⟩ := t2 (by omega)
      have hdm : d = tbl daym2 (m - 1) := by
        unfold daysInMonth at hd
        split at hd <;> omega
      have e2 := JulianDay12hL_march (y + 1) 1 1 (by decide) (by decide)
      subst h12
      simp only [show ¬ ((12 : Int) ≤ 2) from by decide, if_false,
        show ((1 : Int) ≤ 2) from by decide, if_true, sub_zero, add_sub_cancel_right] at e e2
      have o1 : marchOffset 1 = 306 := by decide
      omega

/-- Day numbers follow the calendar order. -/
theorem JulianDay12hL_lt (y m d y2 m2 d2 : Int) (hm1 : 1 ≤ m) (hm2 : m ≤ 12) (hd1 : 1 ≤ d)
    (hd2 : d ≤ daysInMonth y m) (hy1 : 1707 ≤ y - (if m ≤ 2 then 1 else 0))
    (gm1 : 1 ≤ m2) (gm2 : m2 ≤ 12) (gd1 : 1 ≤ d2)
    (gy2 : y2 - (if m2 ≤ 2 then 1 else 0) ≤ 2292)
    (hlt : dateLt y m d y2 m2 d2) :
    JulianDay12hL y m d < JulianDay12hL y2 m2 d2 := by
  obtain ⟨v1, v2, v3⟩ := valid_in_year y m d hm1 hm2 hd1 hd2
  have e := JulianDay12hL_march y m d hm1 hm2
  have e2 := JulianDay12hL_march y2 m2 d2 gm1 gm2
  obtain ⟨-, -, -, -, -, p6⟩ := month_tables m2 gm1 gm2
  generalize hY : y - (if m ≤ 2 then 1 else 0) = Y at *
  generalize hY2 : y2 - (if m2 ≤ 2 then 1 else 0) = Y2 at *
  have hYY : Y ≤ Y2 := by
    unfold dateLt at hlt
    split at hY <;> split at hY2 <;> omega
  rcases eq_or_lt_of_le hYY with h | h
  · subst h
    have hoff : marchOffset m + d < marchOffset m2 + d2 := by
      unfold dateLt at hlt
      obtain ⟨q1, q2, q3, q4, q5, q6⟩ := month_tables m hm1 hm2
      have hmm : (m ≤ 2 ∧ m2 ≤ 2 ∧ y = y2) ∨ (2 < m ∧ 2 < m2 ∧ y = y2)
          ∨ (2 < m ∧ m2 ≤ 2 ∧ y + 1 = y2) := by
        split at hY <;> split at hY2 <;> omega
      have hmono : ∀ a b : Int, 1 ≤ a → a < b → b ≤ 12 → (a ≤ 2 ↔ b ≤ 2) →
          marchOffset a + tbl daym2 (a - 1) ≤ marchOffset b := by
        intro a b ha hab hb hiff
        have ha2 : a ≤ 11 := by omega
        have hb2 : 2 ≤ b := by omega
        interval_cases a <;> interval_cases b <;> first | decide | omega
      have hjan : ∀ a b : Int, 3 ≤ a → a ≤ 12 → 1 ≤ b → b ≤ 2 →
          marchOffset a + tbl daym2 (a - 1) ≤ marchOffset b := by
        intro a b ha1 ha2 hb1 hb2
        interval_cases a <;> interval_cases b <;> decide
      rcases hmm with ⟨a1, a2, a3⟩ | ⟨a1, a2, a3⟩ | ⟨a1, a2, a3⟩
      · rcases hlt with hlt | ⟨-, hlt | ⟨hlt, hlt2⟩⟩
        · omega
        · have := hmono m m2 hm1 hlt gm2 (by omega); omega
        · subst hlt; omega
      · rcases hlt with hlt | ⟨-, hlt | ⟨hlt, hlt2⟩⟩
        · omega
        · have := hmono m m2 hm1 hlt gm2 (by omega); omega
        · subst hlt; omega
      · have := hjan m m2 (by omega) hm2 gm1 a2; omega
    omega
  · have := marchStart_mono Y (Y2 - Y - 1).toNat (by omega) (by omega)
    have e3 : Y + ((Y2 - Y - 1).toNat : Int) + 1 = Y2 := by omega
    rw [e3] at this
    omega

theorem window_natAbs (x : Int) (lo : 2344793 ≤ x) (hi : x ≤ 2558298) : x.natAbs ≤ 2 ^ 53 := by
  have : (2 : Nat) ^ 53 = 9007199254740992 := by norm_num
  omega

/-- Claim C8.  Julian-day round trip: for every date `(y, m, d)` of the proleptic Gregorian
calendar (`1 ≤ m ≤ 12`, `1 ≤ d ≤ daysInMonth y m`) whose Julian day number lies in
2344793 .. 2558297 (1707-09-22 .. 2292-04-11), `DatefromJulianDay (JulianDay12h (y, m, d))`
is `(y, m, d)`; the next calendar day has the Julian day plus exactly 1; and the Julian day of
every later date of the window is strictly larger.  All integer divisions truncate as in C. -/
theorem C8_julian_day_round_trip (y m d : Int) (hm1 : 1 ≤ m) (hm2 : m ≤ 12) (hd1 : 1 ≤ d)
    (hd2 : d ≤ daysInMonth y m) (lo : 2344793 ≤ JulianDay12hL y m d)
    (hi : JulianDay12hL y m d ≤ 2558297) :
    DatefromJulianDay (JulianDay12h y m d) = (y, m, d) ∧
    JulianDay12h (nextDay y m d).1 (nextDay y m d).2.1 (nextDay y m d).2.2
      = Dbl.add (JulianDay12h y m d) (Dbl.ofInt 1) ∧
    ∀ y2 m2 d2 : Int, 1 ≤ m2 → m2 ≤ 12 → 1 ≤ d2 → d2 ≤ daysInMonth y2 m2 →
      2344793 ≤ JulianDay12hL y2 m2 d2 → JulianDay12hL y2 m2 d2 ≤ 2558297 →
      dateLt y m d y2 m2 d2 →
      Dbl.lt (JulianDay12h y m d) (JulianDay12h y2 m2 d2) = true := by
  obtain ⟨b1, b2⟩ := window_year y m d hm1 hm2 hd1 hd2 lo hi
  have hn := window_natAbs _ lo (by omega)
  refine ⟨?_, ?_, ?_⟩
  · unfold DatefromJulianDay
    rw [JulianDay12h_raw y m d hn]
    exact dateFromL_JulianDay12hL y m d hm1 hm2 hd1 hd2 (by omega) (by omega)
  · have e := JulianDay12hL_nextDay y m d hm1 hm2 hd2 b1 b2
    unfold JulianDay12h
    rw [e, Dbl.add_ofInt _ _ hn (by decide) (window_natAbs _ (by omega) (by omega))]
  · intro y2 m2 d2 gm1 gm2 gd1 gd2 lo2 hi2 hlt
    obtain ⟨c1, c2⟩ := window_year y2 m2 d2 gm1 gm2 gd1 gd2 lo2 hi2
    have h := JulianDay12hL_lt y m d y2 m2 d2 hm1 hm2 hd1 hd2 b1 gm1 gm2 gd1 c2 hlt
    unfold JulianDay12h
    rw [Dbl.lt_ofInt _ _ hn (window_natAbs _ lo2 (by omega))]
    exact decide_eq_true h

theorem C8_julian_day_round_trip_witness :
    (1 ≤ (2 : Int) ∧ (2 : Int) ≤ 12 ∧ 1 ≤ (29 : Int) ∧ (29 : Int) ≤ daysInMonth 2016 2 ∧
      2344793 ≤ JulianDay12hL 2016 2 29 ∧ JulianDay12hL 2016 2 29 ≤ 2558297) ∧
    (DatefromJulianDay (JulianDay12h 2016 2 29) = (2016, 2, 29) ∧
    JulianDay12h (nextDay 2016 2 29).1 (nextDay 2016 2 29).2.1 (nextDay 2016 2 29).2.2
      = Dbl.add (JulianDay12h 2016 2 29) (Dbl.ofInt 1) ∧
    ∀ y2 m2 d2 : Int, 1 ≤ m2 → m2 ≤ 12 → 1 ≤ d2 → d2 ≤ daysInMonth y2 m2 →
      2344793 ≤ JulianDay12hL y2 m2 d2 → JulianDay12hL y2 m2 d2 ≤ 2558297 →
      dateLt 2016 2 29 y2 m2 d2 →
      Dbl.lt (JulianDay12h 2016 2 29) (JulianDay12h y2 m2 d2) = true) :=
  ⟨by decide, C8_julian_day_round_trip 2016 2 29 (by decide) (by decide) (by decide) (by decide)
    (by decide) (by decide)⟩

theorem natAbs_le_pow53 (x : Int) (h0 : 0 ≤ x) (h1 : x ≤ 9007199254740992) :
    x.natAbs ≤ 2 ^ 53 := by
  have : (2 : Nat) ^ 53 = 9007199254740992 := by norm_num
  omega

/-- `EPOCHbreakdownTT2000` on a whole number of seconds: the day number goes through
`dateFromL`, the time of day is exact. -/
theorem EPOCHbreakdownTT2000_ofInt (E : Int) (h0 : 0 ≤ E) (h1 : E < 100000000000) :
    EPOCHbreakdownTT2000 (Dbl.ofInt E)
      = ((dateFromL (1721060 + E / 86400 + 68569)).1,
         (dateFromL (1721060 + E / 86400 + 68569)).2.1,
         (dateFromL (1721060 + E / 86400 + 68569)).2.2,
         E / 3600 % 24, E / 60 % 60, E % 60) := by
  have hE := natAbs_le_pow53 E h0 (by omega)
  have x0 : Below (Dbl.ofInt E) E 1074 := Below_ofInt E hE
  have p53 : (2 : Int) ^ 53 = 9007199254740992 := by norm_num
  have q1 : 0 ≤ E / 60 := Int.ediv_nonneg h0 (by decide)
  have q1' : E / 60 ≤ E := Int.ediv_le_self _ h0
  have x1 : Below (Dbl.div (Dbl.ofInt E) (Dbl.ofInt 60)) (E / 60) (1074 - 6) :=
    x0.div h0 60 6 (by decide) (by norm_num) (by norm_num) (by norm_num) (by norm_num)
      (by rw [p53]; omega) (by rw [p53]; norm_num; omega)
  have e2 : E / 60 / 60 = E / 3600 := by omega
  have q2 : 0 ≤ E / 3600 := Int.ediv_nonneg h0 (by decide)
  have x2 : Below (Dbl.div (Dbl.div (Dbl.ofInt E) (Dbl.ofInt 60)) (Dbl.ofInt 60)) (E / 3600)
      (1074 - 6 - 6) := by
    have := x1.div q1 60 6 (by decide) (by norm_num) (by norm_num) (by norm_num) (by norm_num)
      (by rw [p53]; omega) (by rw [p53, e2]; norm_num; omega)
    rw [e2] at this
    exact this
  have e3 : E / 3600 / 24 = E / 86400 := by omega
  have q3 : 0 ≤ E / 86400 := Int.ediv_nonneg h0 (by decide)
  have x3 : Below (Dbl.div (Dbl.div (Dbl.div (Dbl.ofInt E) (Dbl.ofInt 60)) (Dbl.ofInt 60))
      (Dbl.ofInt 24)) (E / 86400) (1074 - 6 - 6 - 5) := by
    have := x2.div q2 24 5 (by decide) (by norm_num) (by norm_num) (by norm_num) (by norm_num)
      (by rw [p53]; omega) (by rw [p53, e3]; norm_num; omega)
    rw [e3] at this
    exact this
  unfold EPOCHbreakdownTT2000
  simp only [x3.toInt q3, x2.toInt_fmod q2 24 (by decide) (by decide),
    x1.toInt_fmod q1 60 (by decide) (by decide), x0.toInt_fmod h0 60 (by decide) (by decide)]

/-- The sub-second fields of `breakdownTT2000` from the nanoseconds `0 ≤ nan < 10^9`. -/
theorem subsecond_fields (nan : Int) (h0 : 0 ≤ nan) :
    Int.tdiv nan 1000000 = nan / 1000000 ∧
    Dbl.toInt (Dbl.div (Dbl.ofInt (nan - 1000000 * Int.tdiv nan 1000000)) (Dbl.ofInt 1000))
      = nan / 1000 % 1000 ∧
    Dbl.toInt (Dbl.sub (Dbl.ofInt (nan - 1000000 * Int.tdiv nan 1000000))
      (Dbl.ofInt (1000 * Dbl.toInt (Dbl.div (Dbl.ofInt (nan - 1000000 * Int.tdiv nan 1000000))
        (Dbl.ofInt 1000))))) = nan % 1000 := by
  have p53 : (2 : Int) ^ 53 = 9007199254740992 := by norm_num
  have e1 : Int.tdiv nan 1000000 = nan / 1000000 := Int.tdiv_eq_ediv h0 (by decide)
  rw [e1]
  have ew : nan - 1000000 * (nan / 1000000) = nan % 1000000 := by omega
  rw [ew]
  have w0 : 0 ≤ nan % 1000000 := by omega
  have w1 : nan % 1000000 < 1000000 := by omega
  have hw := natAbs_le_pow53 (nan % 1000000) w0 (by omega)
  have x0 : Below (Dbl.ofInt (nan % 1000000)) (nan % 1000000) 1074 := Below_ofInt _ hw
  have x1 := x0.div w0 1000 10 (by decide) (by norm_num) (by norm_num) (by norm_num)
    (by norm_num) (by rw [p53]; omega) (by rw [p53]; norm_num; omega)
  have q1 : 0 ≤ nan % 1000000 / 1000 := Int.ediv_nonneg w0 (by decide)
  have e2 := x1.toInt q1
  rw [e2]
  refine ⟨rfl, by omega, ?_⟩
  rw [Dbl.sub_ofInt _ _ hw (natAbs_le_pow53 _ (by omega) (by omega))
    (natAbs_le_pow53 _ (by omega) (by omega)),
    Dbl.toInt_ofInt _ (natAbs_le_pow53 _ (by omega) (by omega))]
  omega

set_option maxRecDepth 100000 in
theorem leapTableOK_true : leapTableOK = true := by decide!

theorem NST2_copy : (List.range NDAT.toNat).map (fun i => NST2.getD i 0) = NST2 := by decide

theorem leapRow_ok (i : Nat) (h1 : 14 ≤ i) (h2 : i < 42) : leapRowOK i = true := by
  have h := leapTableOK_true
  unfold leapTableOK at h
  rw [List.all_eq_true] at h
  have := h (i - 14) (by rw [List.mem_range]; omega)
  have e : i - 14 + 14 = i := by omega
  rw [e] at this
  exact this

/-- The facts `leapRowOK` checks, as propositions. -/
theorem leapRow_facts (i : Nat) (h1 : 14 ≤ i) (h2 : i < 42) :
    (ltsRowAt i).c3 = Dbl.ofInt ((i : Int) - 4) ∧
    (ltsRowAt i).c0 = Dbl.ofInt (ltsYear i) ∧
    (ltsRowAt i).c1 = Dbl.ofInt (ltsMonth i) ∧
    (ltsRowAt i).c2 = Dbl.ofInt 1 ∧
    ltsKey i = 12 * ltsYear i + ltsMonth i ∧
    1 ≤ ltsMonth i ∧ ltsMonth i ≤ 12 ∧ 1972 ≤ ltsYear i ∧ ltsYear i ≤ 2017 ∧
    NST2.getD i 0 + 43167816000000
        = ((ltsDay i - 1721060) * 86400 - 63113904000 + ((i : Int) - 4)) * 1000000000 ∧
    (i + 1 < 42 → NST2.getD i 0 + 1000000000 < NST2.getD (i + 1) 0
        ∧ ltsKey i < ltsKey (i + 1)) ∧
    2441318 ≤ ltsDay i ∧ ltsDay i ≤ 2457755 := by
  have h := leapRow_ok i h1 h2
  unfold leapRowOK at h
  simp only [Bool.and_eq_true, decide_eq_true_eq] at h
  obtain ⟨⟨⟨⟨⟨⟨⟨⟨⟨⟨⟨⟨a1, a2⟩, a3⟩, a4⟩, a5⟩, a6⟩, a7⟩, a8⟩, a9⟩, a10⟩, a11⟩, a12⟩, a13⟩ := h
  exact ⟨a1, a2, a3, a4, a5, a6, a7, a8, a9, a10, a11, a12, a13⟩

theorem ltsKey_mono (i j : Nat) (h1 : 14 ≤ i) (hij : i < j) (h2 : j < 42) :
    ltsKey i < ltsKey j := by
  induction j with
  | zero => omega
  | succ j ih =>
    have hs := (leapRow_facts j (by omega) (by omega)).2.2.2.2.2.2.2.2.2.2.1 h2
    rcases Nat.lt_succ_iff_lt_or_eq.mp hij with h | h
    · exact lt_trans (ih h (by omega)) hs.2
    · rw [h]; exact hs.2

/-- The largest index of a range whose entry does not exceed `t`. -/
theorem exists_last_le (f : Nat → Int) (t : Int) (lo : Nat) :
    ∀ hi : Nat, lo < hi → f lo ≤ t →
      ∃ i, lo ≤ i ∧ i < hi ∧ f i ≤ t ∧ ∀ j, i < j → j < hi → t < f j := by
  intro hi
  induction hi with
  | zero => intro h; omega
  | succ k ih =>
    intro hlo hf
    by_cases hk : f k ≤ t
    · exact ⟨k, by omega, by omega, hk, fun j h1 h2 => by omega⟩
    · have hlk : lo < k := by
        rcases Nat.lt_succ_iff_lt_or_eq.mp hlo with h | h
        · exact h
        · rw [h] at hf; exact absurd hf hk
      obtain ⟨i, i1, i2, i3, i4⟩ := ih hlk hf
      refine ⟨i, i1, by omega, i3, fun j h1 h2 => ?_⟩
      rcases Nat.lt_succ_iff_lt_or_eq.mp h2 with h | h
      · exact i4 j h1 h
      · rw [h]; omega

theorem j2000Index_found (s : TTState) (t : Int) (i : Nat) (hi : 14 ≤ i) (hge : s.nst i ≤ t) :
    ∀ k : Nat, i < k → (∀ j, i < j → j < k → t < s.nst j) →
      j2000Index s t k = ((i : Int),
        if (i : Int) < s.entryCnt - 1 ∧ wrap64 (t + 1000000000) ≥ s.nst (i + 1) then 1 else 0) := by
  intro k
  induction k with
  | zero => intro h; omega
  | succ k ih =>
    intro hik hlt
    unfold j2000Index
    have h14 : ¬ ((k : Int) < NERA1) := by unfold NERA1; omega
    rw [if_neg h14]
    rcases Nat.lt_succ_iff_lt_or_eq.mp hik with h | h
    · have := hlt k h (by omega)
      rw [if_neg (by omega)]
      exact ih h (fun j h1 h2 => hlt j h1 (by omega))
    · subst h
      rw [if_pos hge]

theorem ymdIndex_found (s : TTState) (m : Int) (i : Nat)
    (hge : Dbl.toInt (Dbl.add (Dbl.mul (Dbl.ofInt 12) (s.row i).c0) (s.row i).c1) ≤ m) :
    ∀ k : Nat, i < k →
      (∀ j, i < j → j < k →
        m < Dbl.toInt (Dbl.add (Dbl.mul (Dbl.ofInt 12) (s.row j).c0) (s.row j).c1)) →
      ymdIndex s m k = (i : Int) := by
  intro k
  induction k with
  | zero => intro h; omega
  | succ k ih =>
    intro hik hlt
    unfold ymdIndex
    rcases Nat.lt_succ_iff_lt_or_eq.mp hik with h | h
    · have := hlt k h (by omega)
      simp only []
      rw [if_neg (by omega)]
      exact ih h (fun j h1 h2 => hlt j h1 (by omega))
    · subst h
      simp only []
      rw [if_pos hge]

theorem Loaded.row {s : TTState} (hs : Loaded s) (i : Nat) : s.row i = ltsRowAt i := by
  unfold TTState.row ltsRowAt
  rw [hs.1]; rfl

theorem Loaded.nst {s : TTState} (hs : Loaded s) (i : Nat) : s.nst i = NST2.getD i 0 := by
  unfold TTState.nst
  rw [hs.2.2]; rfl

/-- With the built-in table loaded, a date whose month lies in the validity of row `i`
(from 1972 on) has `i - 4` leap seconds. -/
theorem LeapSecondsfromYMD_loaded (h : Host) (s : TTState) (hs : Loaded s) (y m d : Int)
    (i : Nat) (h1 : 14 ≤ i) (h2 : i < 42) (hge : ltsKey i ≤ 12 * y + m)
    (hlt : i + 1 < 42 → 12 * y + m < ltsKey (i + 1)) :
    LeapSecondsfromYMD h s y m d = (Dbl.ofInt ((i : Int) - 4), s) := by
  unfold LeapSecondsfromYMD
  have hnull : s.LTD.isNull = false := by rw [hs.1]; rfl
  simp only [hnull, Bool.false_eq_true, if_false]
  have hcnt : s.entryCnt.toNat = 42 := by rw [hs.2.1]; decide
  have hidx : ymdIndex s (12 * y + m) 42 = (i : Int) := by
    apply ymdIndex_found s _ i (by rw [hs.row]; exact hge) 42 h2
    intro j hj1 hj2
    rw [hs.row]
    show 12 * y + m < ltsKey j
    have hh := hlt (by omega)
    rcases Nat.lt_or_ge (i + 1) j with h3 | h3
    · exact lt_trans hh (ltsKey_mono (i + 1) j (by omega) h3 hj2)
    · have : j = i + 1 := by omega
      rw [this]; exact hh
  rw [hcnt, hidx]
  have hne : ¬ ((i : Int) = -1) := by omega
  have h14 : ¬ ((i : Int) < NERA1) := by unfold NERA1; omega
  simp only [hne, if_false, h14, Int.toNat_ofNat]
  rw [hs.row, (leapRow_facts i h1 h2).1]

theorem Dbl.beq_self (x : Dbl) : Dbl.beq x x = true := by
  unfold Dbl.beq; simp

/-- Loading the thresholds when the built-in table is in place copies `NST2`. -/
theorem LoadLeapNanoSecondsTable_builtin (c : Sentinels) (h : Host) (s : TTState)
    (hL : s.LTD = .live LTS) (hE : s.entryCnt = NDAT) :
    LoadLeapNanoSecondsTable c h s = { s with NST := .live NST2 } := by
  unfold LoadLeapNanoSecondsTable
  have hnull : s.LTD.isNull = false := by rw [hL]; rfl
  simp only [hnull, Bool.false_eq_true, if_false, hE, NST2_copy]
  have hrow : (s.row (NDAT.toNat - 1)).c0
      = (LTS.getD (NDAT.toNat - 1) ⟨⟨0⟩, ⟨0⟩, ⟨0⟩, ⟨0⟩, ⟨0⟩, ⟨0⟩⟩).c0 := by
    unfold TTState.row; rw [hL]; rfl
  rw [hrow, Dbl.beq_self]
  simp only [if_true, ite_self]

/-- The state after the threshold lookup of `breakdownTT2000`. -/
theorem LeapSecondsfromJ2000_state (c : Sentinels) (h : Host) (s : TTState)
    (hL : s.LTD = .live LTS) (hE : s.entryCnt = NDAT)
    (hN : s.NST = .null ∨ s.NST = .live NST2) :
    (if s.NST.isNull then LoadLeapNanoSecondsTable c h s else s) = { s with NST := .live NST2 } := by
  rcases hN with hN | hN
  · rw [show s.NST.isNull = true from by rw [hN]; rfl, if_pos rfl]
    exact LoadLeapNanoSecondsTable_builtin c h s hL hE
  · rw [show s.NST.isNull = false from by rw [hN]; rfl, if_neg (by decide)]
    cases s
    simp only at hN
    subst hN
    rfl

/-- The threshold lookup of `breakdownTT2000` with the built-in table: at a value `t` from
threshold `i` on and below every later threshold, `i - 4` leap seconds; the flag tells that
`t` lies in the second before the next threshold. -/
theorem LeapSecondsfromJ2000_builtin (c : Sentinels) (h : Host) (s : TTState)
    (hL : s.LTD = .live LTS) (hE : s.entryCnt = NDAT)
    (hN : s.NST = .null ∨ s.NST = .live NST2) (t : Int) (i : Nat) (h1 : 14 ≤ i) (h2 : i < 42)
    (hge : NST2.getD i 0 ≤ t) (hlt : ∀ j, i < j → j < 42 → t < NST2.getD j 0) :
    LeapSecondsfromJ2000 c h s t
      = (Dbl.ofInt ((i : Int) - 4),
         (if (i : Int) < 41 ∧ wrap64 (t + 1000000000) ≥ NST2.getD (i + 1) 0 then 1 else 0),
         { s with NST := .live NST2 }) := by
  unfold LeapSecondsfromJ2000
  simp only [LeapSecondsfromJ2000_state c h s hL hE hN]
  have hs0 : Loaded { s with NST := .live NST2 } := ⟨hL, hE, rfl⟩
  generalize ({ s with NST := .live NST2 } : TTState) = s2 at hs0 ⊢
  have hcnt : s.entryCnt.toNat = 42 := by rw [hE]; decide
  rw [hcnt, j2000Index_found _ t i h1 (by rw [hs0.nst]; exact hge) 42 h2
    (fun j a b => by rw [hs0.nst]; exact hlt j a b)]
  have hne : ¬ ((i : Int) = -1) := by omega
  simp only [hne, if_false, Int.toNat_ofNat, hs0.row, (leapRow_facts i h1 h2).1, hs0.nst,
    hs0.2.1]
  rfl

/-- Every day number between the starts of two March-based years lies in one of the years
between. -/
theorem exists_marchYear (l lo : Int) (h1 : 1706 ≤ lo) :
    ∀ k : Nat, lo + k ≤ 2294 → marchStart lo ≤ l → l < marchStart (lo + k) →
      ∃ Y t, lo ≤ Y ∧ Y < lo + k ∧ 0 ≤ t ∧ t < yearLen Y ∧ l = marchStart Y + t := by
  intro k
  induction k with
  | zero => intro _ a b; simp only [Nat.cast_zero, add_zero] at b; omega
  | succ k ih =>
    intro hk a b
    push_cast at hk b
    by_cases c : l < marchStart (lo + k)
    · obtain ⟨Y, t, p1, p2, p3, p4, p5⟩ := ih (by omega) a c
      exact ⟨Y, t, p1, by push_cast; omega, p3, p4, p5⟩
    · have hs := marchStart_succ (lo + k) (by omega) (by omega)
      rw [show lo + (k : Int) + 1 = lo + (k + 1 : Int) from by ring] at hs
      refine ⟨lo + k, l - marchStart (lo + k), by omega, by push_cast; omega, by omega, ?_, by omega⟩
      rw [← add_assoc] at b
      rw [← add_assoc] at hs
      omega

/-- Decoding a day number of the window 1707-03-01 .. 2293-02-28 gives a date of the
calendar whose day number it is. -/
theorem decode_window (J : Int) (h1 : 2344594 ≤ J) (h2 : J ≤ 2558620) :
    1 ≤ (dateFromL (J + 68569)).2.1 ∧ (dateFromL (J + 68569)).2.1 ≤ 12 ∧
    1 ≤ (dateFromL (J + 68569)).2.2 ∧
    (dateFromL (J + 68569)).2.2 ≤ daysInMonth (dateFromL (J + 68569)).1 (dateFromL (J + 68569)).2.1 ∧
    JulianDay12hL (dateFromL (J + 68569)).1 (dateFromL (J + 68569)).2.1
      (dateFromL (J + 68569)).2.2 = J ∧
    1707 ≤ (dateFromL (J + 68569)).1 - (if (dateFromL (J + 68569)).2.1 ≤ 2 then 1 else 0) ∧
    (dateFromL (J + 68569)).1 - (if (dateFromL (J + 68569)).2.1 ≤ 2 then 1 else 0) ≤ 2292 := by
  have s1 : marchStart 1707 = 2344588 + 68569 := by decide
  have s2 : marchStart (1707 + ((586 : Nat) : Int)) = 2558621 + 68569 := by decide
  obtain ⟨Y, t, p1, p2, p3, p4, p5⟩ := exists_marchYear (J + 68569) 1707 (by decide) 586
    (by decide) (by omega) (by omega)
  have hL := yearLen_cases Y
  have hb := dateFromL_block Y t (marchYearOK_window Y (by omega) (by push_cast at p2; omega)) p3 p4
  obtain ⟨a1, a2, a3, a4, a5, a6, a7⟩ := tail_backward t p3 (by omega)
  rw [p5, hb]
  generalize tailOf t = r at *
  obtain ⟨cy, m, d⟩ := r
  simp only at a1 a2 a3 a4 a5 a6 a7 ⊢
  have e := JulianDay12hL_march (Y + cy) m d a1 a2
  rw [a5] at e ⊢
  rw [add_sub_cancel_right] at e
  obtain ⟨t1, t2, t3, -, -, -⟩ := month_tables m a1 a2
  refine ⟨a1, a2, a3, ?_, by omega, by omega, by push_cast at p2; omega⟩
  unfold daysInMonth
  by_cases h2 : m = 2
  · obtain ⟨u1, u2, u3⟩ := t3 h2
    subst h2
    simp only [show (2 : Int) ≤ 2 from le_refl _, if_true] at *
    by_cases hl : lyearOf (Y + 1) = true
    · rw [if_pos hl]; exact a4
    · rw [if_neg hl, u1]
      unfold yearLen at p4
      rw [if_neg hl] at p4
      have : ¬ (d = 29) := fun h29 => by
        have := a7.2 ⟨trivial, h29⟩
        omega
      omega
  · obtain ⟨u1, u2⟩ := t2 h2
    split <;> omega

/-- The closing arithmetic of `computeTT2000` is the exact sum modulo `2^64`, whichever order
the sign test selects. -/
theorem coreArith_wrap (jd subDay t2 : Int) :
    coreArith jd subDay t2
      = wrap64 (jd * DAYinNanoSecs + subDay + t2 + dTinNanoSecs - T12hinNanoSecs) := by
  unfold coreArith
  simp only []
  generalize jd * DAYinNanoSecs = a
  unfold dTinNanoSecs T12hinNanoSecs wrap64
  split <;> omega

theorem wrap64_id (x : Int) (h1 : INT64_MIN ≤ x) (h2 : x ≤ INT64_MAX) : wrap64 x = x := by
  unfold INT64_MIN at h1
  unfold INT64_MAX at h2
  unfold wrap64
  omega

/-- A date whose day number lies in the supported window passes `ValidateYMD`. -/
theorem ValidateYMD_window (y m d : Int) (hy : 0 < y) (hm : 0 ≤ m) (hd : 0 ≤ d)
    (lo : 2344793 ≤ JulianDay12hL y m d) (hi : JulianDay12hL y m d ≤ 2558297) :
    ValidateYMD y m d = 1 := by
  unfold ValidateYMD
  rw [if_neg (by omega)]
  unfold JulianDay12h JDY17070922 JDY22920411
  have hn := window_natAbs _ lo (by omega)
  have e1 : Dbl.lt (Dbl.ofInt (JulianDay12hL y m d)) (Dbl.ofInt 2344793) = false := by
    rw [Dbl.lt_ofInt _ 2344793 hn (by decide)]
    exact decide_eq_false (by omega)
  have e2 : Dbl.lt (Dbl.ofInt 2558297) (Dbl.ofInt (JulianDay12hL y m d)) = false := by
    rw [Dbl.lt_ofInt 2558297 _ (by decide) hn]
    exact decide_eq_false (by omega)
  simp only [e1, e2, Bool.or_self, Bool.false_eq_true, if_false]

/-- The month key of a date on or after the first of a month is at least that month's key. -/
theorem key_ge_of_day_ge (y m d Y M : Int) (hm1 : 1 ≤ m) (hm2 : m ≤ 12) (hd1 : 1 ≤ d)
    (hd2 : d ≤ daysInMonth y m) (hy1 : 1707 ≤ y - (if m ≤ 2 then 1 else 0))
    (gm1 : 1 ≤ M) (gm2 : M ≤ 12) (gy2 : Y - (if M ≤ 2 then 1 else 0) ≤ 2292)
    (h : JulianDay12hL Y M 1 ≤ JulianDay12hL y m d) : 12 * Y + M ≤ 12 * y + m := by
  by_contra hc
  have hlt : dateLt y m d Y M 1 := by
    unfold dateLt
    omega
  have := JulianDay12hL_lt y m d Y M 1 hm1 hm2 hd1 hd2 hy1 gm1 gm2 (le_refl _) gy2 hlt
  omega

/-- The month key of a date before the first of a month is below that month's key. -/
theorem key_lt_of_day_lt (y m d Y M : Int) (hm1 : 1 ≤ m) (hm2 : m ≤ 12) (hd1 : 1 ≤ d)
    (hy2 : y - (if m ≤ 2 then 1 else 0) ≤ 2292)
    (gm1 : 1 ≤ M) (gm2 : M ≤ 12) (gy1 : 1707 ≤ Y - (if M ≤ 2 then 1 else 0))
    (h : JulianDay12hL y m d < JulianDay12hL Y M 1) : 12 * y + m < 12 * Y + M := by
  by_contra hc
  have hd0 : 1 ≤ daysInMonth Y M := by
    unfold daysInMonth
    obtain ⟨t1, -, -, -, -, -⟩ := month_tables M gm1 gm2
    have : 1 ≤ tbl daym1 (M - 1) := by interval_cases M <;> decide
    split <;> omega
  by_cases heq : y = Y ∧ m = M
  · obtain ⟨e1, e2⟩ := heq
    subst e1; subst e2
    have a := JulianDay12hL_march y m d hm1 hm2
    have b := JulianDay12hL_march y m 1 hm1 hm2
    omega
  · have hlt : dateLt Y M 1 y m d := by
      unfold dateLt
      omega
    have := JulianDay12hL_lt Y M 1 y m d gm1 gm2 (le_refl _) hd0 gy1 hm1 hm2 hd1 hy2 hlt
    omega

theorem natAbs_small (x : Int) (h0 : -9007199254740992 ≤ x) (h1 : x ≤ 9007199254740992) :
    x.natAbs ≤ 2 ^ 53 := by
  have : (2 : Nat) ^ 53 = 9007199254740992 := by norm_num
  omega

theorem daysInMonth_le (y m : Int) (hm1 : 1 ≤ m) (hm2 : m ≤ 12) : daysInMonth y m ≤ 31 := by
  unfold daysInMonth
  have : tbl daym1 (m - 1) ≤ 31 ∧ tbl daym2 (m - 1) ≤ 31 := by interval_cases m <;> decide
  split <;> omega

/-- The body of `computeTT2000` on nine integer fields when the seconds block leaves the
fields as they are (it may change the state): the fields go to `computeFields`. -/
theorem computeTT2000Sym_fields (h : Host) (s s2 : TTState) (y m d hh mn ss ms us ns : Int)
    (hy : y.natAbs ≤ 2 ^ 53) (hm : m.natAbs ≤ 2 ^ 53) (hm0 : m ≠ 0) (hd : d.natAbs ≤ 2 ^ 53)
    (h1 : 0 ≤ hh ∧ hh < 24) (h2 : 0 ≤ mn ∧ mn < 60) (h3 : 0 ≤ ss ∧ ss ≤ 60)
    (h4 : 0 ≤ ms ∧ ms < 1000) (h5 : 0 ≤ us ∧ us < 1000) (h6 : 0 ≤ ns ∧ ns < 1000)
    (hcs : carrySeconds h s (Loc.ofInts y m d hh mn ss ms us ns)
      = (Loc.ofInts y m d hh mn ss ms us ns, s2)) :
    computeTT2000Sym h s (Dbl.ofInt y) (Dbl.ofInt m) (Dbl.ofInt d) (Dbl.ofInt hh) (Dbl.ofInt mn)
      (Dbl.ofInt ss) (Dbl.ofInt ms) (Dbl.ofInt us) (Dbl.ofInt ns) =
    computeFields h s2 y m d hh mn ss ms us ns := by
  have b1 : hh.natAbs ≤ 2 ^ 53 := by omega
  have b2 : mn.natAbs ≤ 2 ^ 53 := by omega
  have b3 : ss.natAbs ≤ 2 ^ 53 := by omega
  have b4 : ms.natAbs ≤ 2 ^ 53 := by omega
  have b5 : us.natAbs ≤ 2 ^ 53 := by omega
  have b6 : ns.natAbs ≤ 2 ^ 53 := by omega
  have z : (0 : Int).natAbs ≤ 2 ^ 53 := by decide
  have k1 : (1000 : Int).natAbs ≤ 2 ^ 53 := by decide
  have k2 : (60 : Int).natAbs ≤ 2 ^ 53 := by decide
  have k3 : (24 : Int).natAbs ≤ 2 ^ 53 := by decide
  have n1 : ¬ hh < 0 := by omega
  have n2 : ¬ mn < 0 := by omega
  have n3 : ¬ ss < 0 := by omega
  have n4 : ¬ ms < 0 := by omega
  have n5 : ¬ us < 0 := by omega
  have n6 : ¬ ns < 0 := by omega
  unfold Loc.ofInts at hcs
  unfold computeTT2000Sym
  rw [← Dbl.ofInt_zero]
  simp only [Dbl.beq_ofInt _ _ hm z, Dbl.floor_ofInt _ hy, Dbl.floor_ofInt _ hm,
    Dbl.floor_ofInt _ hd, Dbl.floor_ofInt _ b1, Dbl.floor_ofInt _ b2, Dbl.floor_ofInt _ b3,
    Dbl.floor_ofInt _ b4, Dbl.floor_ofInt _ b5, Dbl.lt_ofInt _ _ b1 z, Dbl.lt_ofInt _ _ b2 z,
    Dbl.lt_ofInt _ _ b3 z, Dbl.lt_ofInt _ _ b4 z, Dbl.lt_ofInt _ _ b5 z, Dbl.lt_ofInt _ _ b6 z,
    Dbl.sub_self, Dbl.beq_ofInt 0 0 z z, hm0, n1, n2, n3, n4, n5, n6, decide_False, decide_True,
    Bool.or_self, Bool.not_true, Bool.false_eq_true, if_false]
  rw [carryNanos_skip _ (by show Dbl.le _ (Dbl.ofInt ns) = false; rw [Dbl.le_ofInt _ _ k1 b6]; simp; omega)]
  rw [carryMicros_skip _ (by show Dbl.le _ (Dbl.ofInt us) = false; rw [Dbl.le_ofInt _ _ k1 b5]; simp; omega)]
  rw [carryMillis_skip _ (by show Dbl.le _ (Dbl.ofInt ms) = false; rw [Dbl.le_ofInt _ _ k1 b4]; simp; omega)]
  rw [hcs]
  simp only []
  rw [carryMinutes_skip _ (by show Dbl.le _ (Dbl.ofInt mn) = false; rw [Dbl.le_ofInt _ _ k2 b2]; simp; omega)]
  rw [carryHours_skip _ (by show Dbl.le _ (Dbl.ofInt hh) = false; rw [Dbl.le_ofInt _ _ k3 b1]; simp; omega)]
  unfold Loc.settle
  simp only [and_self, if_true, Dbl.toInt_ofInt _ hy, Dbl.toInt_ofInt _ hm, Dbl.toInt_ofInt _ hd,
    Dbl.toInt_ofInt _ b1, Dbl.toInt_ofInt _ b2, Dbl.toInt_ofInt _ b3, Dbl.toInt_ofInt _ b4,
    Dbl.toInt_ofInt _ b5, Dbl.toInt_ofInt _ b6]

/-- The seconds block of `computeTT2000` at second 60 of the day before the date of row
`i + 1` of the built-in table: the day has one second more (`toPlus = 1`), so second 60 is
kept. -/
theorem carrySeconds_leap (h : Host) (s : TTState) (hs : Loaded s)
    (y m d hh mn ms us ns : Int) (i : Nat) (h1 : 14 ≤ i) (h2 : i + 1 < 42)
    (hy : y.natAbs ≤ 2 ^ 53) (hm : m.natAbs ≤ 2 ^ 53) (hd : d.natAbs ≤ 2 ^ 53)
    (lo : 2344793 ≤ JulianDay12hL y m d)
    (hnext : JulianDay12hL y m d + 1 = ltsDay (i + 1))
    (hge : ltsKey i ≤ 12 * y + m) (hlt : 12 * y + m < ltsKey (i + 1)) :
    carrySeconds h s (Loc.ofInts y m d hh mn 60 ms us ns)
      = (Loc.ofInts y m d hh mn 60 ms us ns, { s with toPlus := 1 }) := by
  obtain ⟨f1, f2, f3, f4, f5, f6, f7, f8, f9, f10, f11, f12, f13⟩ :=
    leapRow_facts (i + 1) (by omega) h2
  have hJ : (JulianDay12hL y m d).natAbs ≤ 2 ^ 53 := window_natAbs _ lo (by omega)
  have hJ1 : (JulianDay12hL y m d + 1).natAbs ≤ 2 ^ 53 := window_natAbs _ (by omega) (by omega)
  have k60 : (60 : Int).natAbs ≤ 2 ^ 53 := by decide
  have hdate : DatefromJulianDay (Dbl.add (JulianDay12h y m d) (Dbl.ofInt 1))
      = (ltsYear (i + 1), ltsMonth (i + 1), 1) := by
    unfold DatefromJulianDay JulianDay12h
    rw [Dbl.add_ofInt _ _ hJ (by decide) hJ1, Dbl.toInt_ofInt _ hJ1, hnext]
    unfold ltsDay
    apply dateFromL_JulianDay12hL _ _ _ f6 f7 (le_refl _)
    · unfold daysInMonth
      have : 1 ≤ tbl daym1 (ltsMonth (i + 1) - 1) ∧ 1 ≤ tbl daym2 (ltsMonth (i + 1) - 1) := by
        generalize ltsMonth (i + 1) = M at f6 f7 ⊢
        interval_cases M <;> decide
      split <;> omega
    · split <;> omega
    · split <;> omega
  have hl1 : LeapSecondsfromYMD h s (ltsYear (i + 1)) (ltsMonth (i + 1)) 1
      = (Dbl.ofInt (((i + 1 : Nat) : Int) - 4), s) :=
    LeapSecondsfromYMD_loaded h s hs _ _ _ (i + 1) (by omega) h2 (by omega)
      (fun h3 => by
        have := ltsKey_mono (i + 1) (i + 1 + 1) (by omega) (by omega) h3
        omega)
  have hl0 : LeapSecondsfromYMD h s y m d = (Dbl.ofInt ((i : Int) - 4), s) :=
    LeapSecondsfromYMD_loaded h s hs _ _ _ i h1 (by omega) hge (fun _ => hlt)
  have hsub : Dbl.toInt (Dbl.sub (Dbl.ofInt (((i + 1 : Nat) : Int) - 4)) (Dbl.ofInt ((i : Int) - 4)))
      = 1 := by
    rw [Dbl.sub_ofInt _ _ (natAbs_small _ (by omega) (by omega))
      (natAbs_small _ (by omega) (by omega)) (natAbs_small _ (by omega) (by omega)),
      Dbl.toInt_ofInt _ (natAbs_small _ (by omega) (by omega))]
    push_cast; ring
  have hle : Dbl.le (Dbl.add (Dbl.ofInt 60) (Dbl.ofInt 1)) (Dbl.ofInt 60) = false := by
    rw [Dbl.add_ofInt 60 1 (by decide) (by decide) (by decide),
      Dbl.le_ofInt _ _ (by decide) (by decide)]
    decide
  unfold carrySeconds Loc.ofInts
  simp only [Dbl.le_ofInt 60 60 k60 k60, decide_True, if_true, Dbl.toInt_ofInt _ hy,
    Dbl.toInt_ofInt _ hm, Dbl.toInt_ofInt _ hd, hdate, hl1, hl0, hsub, hle, Bool.false_eq_true,
    if_false, le_refl]

/-- Both branches of the split of `breakdownTT2000` into seconds and nanoseconds give the
quotient and the remainder of `t + 43167816000000` (12 hours less 32.184 s) by `10^9`. -/
theorem breakdown_split (t : Int) (h1 : -(2 ^ 60) ≤ t) (h2 : t ≤ INT64_MAX) :
    fixNeg (if t > 0 then ((splitSec t).1 - 32 + 43200, (splitSec t).2 - 184000000)
            else splitSec (wrap64 (wrap64 (t + T12hinNanoSecs) - dTinNanoSecs)))
      = ((t + 43167816000000) / 1000000000, (t + 43167816000000) % 1000000000) := by
  by_cases h : t > 0
  · rw [if_pos h]; exact split_pos t h h2
  · rw [if_neg h]; exact split_nonpos t (by omega) h1

/-- The fields `breakdownTT2000` writes for a TT2000 value from 1972 on, with the built-in
table: row `i` is the last whose threshold does not exceed `t`. -/
theorem breakdown_eval (c : Sentinels) (h : Host) (s : TTState) (t : Int)
    (hF : t ≠ c.FILLED_TT2000_VALUE) (hP : t ≠ c.DEFAULT_TT2000_PADVALUE)
    (hL : s.LTD = .live LTS) (hE : s.entryCnt = NDAT)
    (hN : s.NST = .null ∨ s.NST = .live NST2) (i : Nat) (h1 : 14 ≤ i) (h2 : i < 42)
    (hge : NST2.getD i 0 ≤ t) (hlt : ∀ j, i < j → j < 42 → t < NST2.getD j 0)
    (ht : t ≤ INT64_MAX) (flag E : Int)
    (hflag : flag = if (i : Int) < 41 ∧ wrap64 (t + 1000000000) ≥ NST2.getD (i + 1) 0 then 1
      else 0)
    (hEdef : E = 63113904000 + (t + 43167816000000) / 1000000000 - ((i : Int) - 4) - flag) :
    breakdownTT2000 c h s t
      = (Parts.ofInts (dateFromL (1721060 + E / 86400 + 68569)).1
          (dateFromL (1721060 + E / 86400 + 68569)).2.1
          (dateFromL (1721060 + E / 86400 + 68569)).2.2
          (E / 3600 % 24) (E / 60 % 60) (E % 60 + flag)
          ((t + 43167816000000) % 1000000000 / 1000000)
          ((t + 43167816000000) % 1000000000 / 1000 % 1000)
          ((t + 43167816000000) % 1000000000 % 1000),
         if E % 60 + flag = 60 then { s with toPlus := 1, NST := .live NST2 }
         else { s with toPlus := 0, NST := .live NST2 }) := by
  have hlo : -883655957816000000 ≤ t := by
    have : NST2.getD 14 0 ≤ NST2.getD i 0 := by
      have hmono : ∀ k : Nat, 14 + k < 42 → NST2.getD 14 0 ≤ NST2.getD (14 + k) 0 := by
        intro k
        induction k with
        | zero => intro _; exact le_refl _
        | succ k ih =>
          intro hk
          have a := ih (by omega)
          have b := ((leapRow_facts (14 + k) (by omega) (by omega)).2.2.2.2.2.2.2.2.2.2.1
            (by omega)).1
          rw [show 14 + (k + 1) = 14 + k + 1 from rfl]
          omega
      have := hmono (i - 14) (by omega)
      rw [show 14 + (i - 14) = i from by omega] at this
      exact this
    have e14 : NST2.getD 14 0 = -883655957816000000 := by decide
    omega
  have hU0 : 0 ≤ 63113904000 + (t + 43167816000000) / 1000000000 - ((i : Int) - 4) - 1 := by
    omega
  have hflag01 : flag = 0 ∨ flag = 1 := by rw [hflag]; split <;> simp
  unfold INT64_MAX at ht
  have hE0 : 0 ≤ E := by omega
  have hE1 : E < 100000000000 := by omega
  have hJ := LeapSecondsfromJ2000_builtin c h { s with toPlus := 0 } hL hE hN t i h1 h2 hge hlt
  rw [← hflag] at hJ
  have hsp := breakdown_split t (by omega) (by unfold INT64_MAX; omega)
  have hi4 : ((i : Int) - 4).natAbs ≤ 2 ^ 53 := natAbs_small _ (by omega) (by omega)
  have hpos : Dbl.lt ⟨0⟩ (Dbl.ofInt ((i : Int) - 4)) = true := by
    rw [← Dbl.ofInt_zero, Dbl.lt_ofInt 0 _ (by decide) hi4]
    exact decide_eq_true (by omega)
  unfold breakdownTT2000
  rw [if_neg hF, if_neg hP]
  simp only [hJ, hsp, hpos, if_true, Dbl.toInt_ofInt _ hi4]
  have hn0 : 0 ≤ (t + 43167816000000) % 1000000000 := by omega
  have hn1 : (t + 43167816000000) % 1000000000 < 1000000000 := by omega
  obtain ⟨g1, g2, g3⟩ := subsecond_fields _ hn0
  rw [g1] at g2 g3
  rw [g2] at g3
  have hml : ¬ ((t + 43167816000000) % 1000000000 / 1000000 > 1000) := by omega
  generalize (t + 43167816000000) % 1000000000 = nan at *
  generalize hsec : (t + 43167816000000) / 1000000000 = sec at *
  have hepoch : Dbl.add J2000Since0AD12hSec (Dbl.ofInt (sec - ((i : Int) - 4)))
      = Dbl.ofInt (63113904000 + (sec - ((i : Int) - 4))) := by
    unfold J2000Since0AD12hSec
    rw [Dbl.add_ofInt _ _ (by decide) (natAbs_small _ (by omega) (by omega))
      (natAbs_small _ (by omega) (by omega))]
  have hepoch1 : Dbl.sub (Dbl.ofInt (63113904000 + (sec - ((i : Int) - 4)))) (Dbl.ofInt 1)
      = Dbl.ofInt (63113904000 + (sec - ((i : Int) - 4)) - 1) := by
    rw [Dbl.sub_ofInt _ _ (natAbs_small _ (by omega) (by omega)) (by decide)
      (natAbs_small _ (by omega) (by omega))]
  rw [hepoch, hepoch1]
  rcases hflag01 with f | f
  · have e : 63113904000 + (sec - ((i : Int) - 4)) = E := by omega
    rw [e]
    simp only [f, if_true, EPOCHbreakdownTT2000_ofInt E hE0 hE1, g1, g2, g3, add_zero]
    have h60 : ¬ (E % 60 = 60) := by omega
    simp only [h60, if_false, hml]
  · have e : 63113904000 + (sec - ((i : Int) - 4)) - 1 = E := by omega
    rw [e]
    have f0 : ¬ (flag = 0) := by omega
    simp only [f0, if_false, EPOCHbreakdownTT2000_ofInt E hE0 hE1, g1, g2, g3, hml]
    rw [f]

/-- The seconds count `E` that `breakdownTT2000` decodes for a value `t` in the validity of
row `i` of the built-in table: its day lies between the dates of rows `i` and `i + 1`; inside
an inserted leap second it is the last second of the day before row `i + 1`. -/
theorem epoch_day_bounds (t : Int) (i : Nat) (h1 : 14 ≤ i) (h2 : i < 42)
    (hge : NST2.getD i 0 ≤ t) (hlt : ∀ j, i < j → j < 42 → t < NST2.getD j 0)
    (ht : t ≤ INT64_MAX) (flag E : Int)
    (hflag : flag = if (i : Int) < 41 ∧ wrap64 (t + 1000000000) ≥ NST2.getD (i + 1) 0 then 1
      else 0)
    (hEdef : E = 63113904000 + (t + 43167816000000) / 1000000000 - ((i : Int) - 4) - flag) :
    0 ≤ E ∧ E < 100000000000 ∧ ltsDay i ≤ 1721060 + E / 86400 ∧ 1721060 + E / 86400 ≤ 2558297 ∧
    (i + 1 < 42 → 1721060 + E / 86400 < ltsDay (i + 1)) ∧
    (flag = 0 ∨ flag = 1) ∧
    (flag = 1 → i + 1 < 42 ∧ 1721060 + E / 86400 + 1 = ltsDay (i + 1) ∧ E % 86400 = 86399) := by
  obtain ⟨-, -, -, -, -, -, -, -, -, f10, f11, f12, f13⟩ := leapRow_facts i h1 h2
  unfold INT64_MAX at ht
  by_cases hi : i + 1 < 42
  · obtain ⟨-, -, -, -, -, -, -, -, -, g10, g11, g12, g13⟩ := leapRow_facts (i + 1) (by omega) hi
    have hnext := hlt (i + 1) (by omega) hi
    have hstep := (f11 hi).1
    have hw : wrap64 (t + 1000000000) = t + 1000000000 := by unfold wrap64; omega
    rw [hw] at hflag
    push_cast at g10
    by_cases hfl : NST2.getD (i + 1) 0 ≤ t + 1000000000
    · rw [if_pos ⟨by omega, hfl⟩] at hflag
      subst hflag
      refine ⟨by omega, by omega, by omega, by omega, fun _ => by omega, Or.inr rfl,
        fun _ => ⟨hi, by omega, by omega⟩⟩
    · rw [if_neg (fun hc => hfl hc.2)] at hflag
      subst hflag
      refine ⟨by omega, by omega, by omega, by omega, fun _ => by omega, Or.inl rfl,
        fun hc => by omega⟩
  · rw [if_neg (fun hc => by omega)] at hflag
    subst hflag
    refine ⟨by omega, by omega, by omega, by omega, fun hc => absurd hc hi, Or.inl rfl,
      fun hc => by omega⟩

theorem CacheOK_of_no_day (s : TTState) (h : s.currentDay = -1) : CacheOK s := by
  intro y m d h1 h2 h3 h4 h5 h6 hk
  omega

theorem row_of_LTD (s : TTState) (hL : s.LTD = .live LTS) (i : Nat) : s.row i = ltsRowAt i := by
  unfold TTState.row ltsRowAt
  rw [hL]; rfl

/-- With the built-in table in place, a date whose month lies in the validity of row `i`
(from 1972 on) has `i - 4` leap seconds. -/
theorem LeapSecondsfromYMD_tab (h : Host) (s : TTState) (hL : s.LTD = .live LTS)
    (hE : s.entryCnt = NDAT) (y m d : Int)
    (i : Nat) (h1 : 14 ≤ i) (h2 : i < 42) (hge : ltsKey i ≤ 12 * y + m)
    (hlt : i + 1 < 42 → 12 * y + m < ltsKey (i + 1)) :
    LeapSecondsfromYMD h s y m d = (Dbl.ofInt ((i : Int) - 4), s) := by
  unfold LeapSecondsfromYMD
  have hnull : s.LTD.isNull = false := by rw [hL]; rfl
  simp only [hnull, Bool.false_eq_true, if_false]
  have hcnt : s.entryCnt.toNat = 42 := by rw [hE]; decide
  have hidx : ymdIndex s (12 * y + m) 42 = (i : Int) := by
    apply ymdIndex_found s _ i (by rw [row_of_LTD s hL]; exact hge) 42 h2
    intro j hj1 hj2
    rw [row_of_LTD s hL]
    show 12 * y + m < ltsKey j
    have hh := hlt (by omega)
    rcases Nat.lt_or_ge (i + 1) j with h3 | h3
    · exact lt_trans hh (ltsKey_mono (i + 1) j (by omega) h3 hj2)
    · have : j = i + 1 := by omega
      rw [this]; exact hh
  rw [hcnt, hidx]
  have hne : ¬ ((i : Int) = -1) := by omega
  have h14 : ¬ ((i : Int) < NERA1) := by unfold NERA1; omega
  simp only [hne, if_false, h14, Int.toNat_ofNat]
  rw [row_of_LTD s hL, (leapRow_facts i h1 h2).1]

theorem leapOfDate_row (y m d : Int) (i : Nat) (h1 : 14 ≤ i) (h2 : i < 42)
    (hge : ltsKey i ≤ 12 * y + m) (hlt : i + 1 < 42 → 12 * y + m < ltsKey (i + 1)) :
    leapOfDate y m d = Dbl.ofInt ((i : Int) - 4) := by
  unfold leapOfDate
  rw [LeapSecondsfromYMD_tab Host.plain builtinState rfl rfl y m d i h1 h2 hge hlt]

/-- Caching a date keeps the cache consistent. -/
theorem CacheOK_set (s : TTState) (y m d : Int) (hm1 : 1 ≤ m) (hm2 : m ≤ 12) (hd1 : 1 ≤ d)
    (hd2 : d ≤ 31) (hy1 : 0 ≤ y) (hy2 : y < 10000) :
    CacheOK { s with currentDay := 10000000 * m + 10000 * d + y,
                     currentLeapSeconds := leapOfDate y m d,
                     currentJDay := JulianDay12h y m d } := by
  intro y2 m2 d2 a1 a2 a3 a4 a5 a6 hk
  simp only at hk
  have e1 : m2 = m := by omega
  have e2 : d2 = d := by omega
  have e3 : y2 = y := by omega
  subst e1; subst e2; subst e3
  exact ⟨rfl, rfl⟩

/-- The second half of `computeTT2000` on a date of the supported window from 1972 on, with
the built-in table in place and a consistent day cache: the value is the exact sum of the day
count, the time of day, the leap seconds of row `i` and the TT offset, reduced modulo `2^64`;
the date is cached afterwards. -/
theorem computeFields_cached (h : Host) (s : TTState) (hL : s.LTD = .live LTS)
    (hE : s.entryCnt = NDAT) (hc : CacheOK s)
    (y m d hh mn ss ms us ns : Int) (i : Nat) (h1 : 14 ≤ i) (h2 : i < 42)
    (hm1 : 1 ≤ m) (hm2 : m ≤ 12) (hd1 : 1 ≤ d) (hd2 : d ≤ daysInMonth y m)
    (hy1 : 1707 ≤ y) (hy2 : y ≤ 2293)
    (lo : 2344793 ≤ JulianDay12hL y m d) (hi : JulianDay12hL y m d ≤ 2558297)
    (hge : ltsKey i ≤ 12 * y + m) (hlt : i + 1 < 42 → 12 * y + m < ltsKey (i + 1)) :
    computeFields h s y m d hh mn ss ms us ns
      = (.value (wrap64 ((JulianDay12hL y m d - 2451545) * DAYinNanoSecs
          + (hh * HOURinNanoSecs + mn * MINUTEinNanoSecs + ss * SECinNanoSecs + ms * 1000000
              + us * 1000 + ns)
          + ((i : Int) - 4) * 1000000000 + dTinNanoSecs - T12hinNanoSecs)),
         { s with currentDay := 10000000 * m + 10000 * d + y,
                  currentLeapSeconds := leapOfDate y m d,
                  currentJDay := JulianDay12h y m d }) := by
  have hd31 : d ≤ 31 := le_trans hd2 (daysInMonth_le y m hm1 hm2)
  have hv := ValidateYMD_window y m d (by omega) (by omega) (by omega) lo hi
  have hn := window_natAbs _ lo (by omega)
  have hleap := leapOfDate_row y m d i h1 h2 hge hlt
  unfold computeFields
  rw [if_neg (by omega), if_neg (by omega), hv]
  simp only [show decide ((1 : Int) = 0) = false from rfl, Bool.and_false, Bool.false_eq_true,
    if_false]
  have c4 : ((!lyearOf y && decide (d > 365)) || (lyearOf y && decide (d > 366))) = false := by
    have a : decide (d > 365) = false := decide_eq_false (by omega)
    have b : decide (d > 366) = false := decide_eq_false (by omega)
    rw [a, b]; simp
  have c5 : ((!lyearOf y && decide (m > 1) && decide (d > tbl daym1 (m - 1)))
      || (lyearOf y && decide (m > 1) && decide (d > tbl daym2 (m - 1)))) = false := by
    unfold daysInMonth at hd2
    by_cases hl : lyearOf y = true
    · rw [if_pos hl] at hd2
      have b : decide (d > tbl daym2 (m - 1)) = false := decide_eq_false (by omega)
      rw [hl, b]; simp
    · rw [if_neg hl] at hd2
      have b : decide (d > tbl daym1 (m - 1)) = false := decide_eq_false (by omega)
      have hl2 : lyearOf y = false := by simpa using hl
      rw [hl2, b]; simp
  rw [c4, c5]
  simp only [Bool.false_eq_true, if_false]
  rw [if_neg (by omega : ¬ (m ≤ 1 ∧ d > 31))]
  simp only []
  have hi4 : ((i : Int) - 4).natAbs ≤ 2 ^ 53 := natAbs_le_pow53 _ (by omega) (by omega)
  have hp : (((i : Int) - 4) * 1000000000).natAbs ≤ 2 ^ 53 :=
    natAbs_le_pow53 _ (by omega) (by omega)
  have harith : coreArith
      (Dbl.toInt (Dbl.sub (JulianDay12h y m d) (Dbl.ofInt JulianDateJ2000_12h)))
      (hh * HOURinNanoSecs + mn * MINUTEinNanoSecs + ss * SECinNanoSecs + ms * 1000000
        + us * 1000 + ns)
      (Dbl.toInt (Dbl.mul (Dbl.ofInt ((i : Int) - 4)) (Dbl.ofInt SECinNanoSecs)))
      = wrap64 ((JulianDay12hL y m d - 2451545) * DAYinNanoSecs
          + (hh * HOURinNanoSecs + mn * MINUTEinNanoSecs + ss * SECinNanoSecs + ms * 1000000
              + us * 1000 + ns)
          + ((i : Int) - 4) * 1000000000 + dTinNanoSecs - T12hinNanoSecs) := by
    unfold JulianDay12h JulianDateJ2000_12h SECinNanoSecs
    rw [Dbl.sub_ofInt _ _ hn (by decide) (natAbs_small _ (by omega) (by omega)),
      Dbl.toInt_ofInt _ (natAbs_small _ (by omega) (by omega)),
      Dbl.mul_ofInt _ _ hi4 (by decide) hp, Dbl.toInt_ofInt _ hp, coreArith_wrap]
  by_cases hk : 10000000 * m + 10000 * d + y ≠ s.currentDay
  · rw [if_pos hk]
    rw [LeapSecondsfromYMD_tab h _ (show ({ s with currentDay := 10000000 * m + 10000 * d + y }
      : TTState).LTD = .live LTS from hL) hE y m d i h1 h2 hge hlt]
    simp only []
    rw [harith, hleap]
  · rw [if_neg hk]
    have hk2 : s.currentDay = 10000000 * m + 10000 * d + y := by
      by_contra hne
      exact hk (fun e => hne e.symm)
    obtain ⟨q1, q2⟩ := hc y m d hm1 hm2 hd1 hd31 (by omega) (by omega) hk2
    rw [q1, q2, hleap, harith]
    congr 1
    cases s
    simp only at hk2 q1 q2
    subst hk2; subst q1; subst q2
    rw [hleap]

/-- The round trip in full: for a TT2000 value `t` from 1972-01-01 on, with the built-in
table in place and a consistent day cache, `breakdownTT2000` writes nine integer fields within
their calendar ranges, the body of `computeTT2000` maps these fields back to `t`, and the
state it leaves satisfies the invariant again. -/
theorem breakdown_fields_1972 (c : Sentinels) (h : Host) (s : TTState) (t : Int)
    (hs : BuiltinOK s)
    (hF : t ≠ c.FILLED_TT2000_VALUE) (hP : t ≠ c.DEFAULT_TT2000_PADVALUE)
    (h1 : -883655957816000000 ≤ t) (h2 : t ≤ INT64_MAX) :
    ∃ y m d hh mn ss ms us ns : Int, ∃ s2 s3 : TTState,
      breakdownTT2000 c h s t = (Parts.ofInts y m d hh mn ss ms us ns, s2) ∧
      1972 ≤ y ∧ y ≤ 2292 ∧ 1 ≤ m ∧ m ≤ 12 ∧ 1 ≤ d ∧ d ≤ daysInMonth y m ∧
      0 ≤ hh ∧ hh < 24 ∧ 0 ≤ mn ∧ mn < 60 ∧ 0 ≤ ss ∧ ss ≤ 60 ∧
      0 ≤ ms ∧ ms < 1000 ∧ 0 ≤ us ∧ us < 1000 ∧ 0 ≤ ns ∧ ns < 1000 ∧
      ValidateYMD y m d = 1 ∧
      computeTT2000Sym h s2 (Dbl.ofInt y) (Dbl.ofInt m) (Dbl.ofInt d) (Dbl.ofInt hh)
        (Dbl.ofInt mn) (Dbl.ofInt ss) (Dbl.ofInt ms) (Dbl.ofInt us) (Dbl.ofInt ns)
        = (.value t, s3) ∧
      BuiltinOK s3 ∧ s3.NST = .live NST2 := by
  obtain ⟨hL, hE, hN, hC⟩ := hs
  have e14 : NST2.getD 14 0 = -883655957816000000 := by decide
  obtain ⟨i, i1, i2, hge, hlt⟩ := exists_last_le (fun j => NST2.getD j 0) t 14 42 (by decide)
    (by show NST2.getD 14 0 ≤ t; omega)
  obtain ⟨E0, E1, d1, d2, d3, fl, d4⟩ := epoch_day_bounds t i i1 i2 hge hlt h2 _ _ rfl rfl
  have hb := breakdown_eval c h s t hF hP hL hE hN i i1 i2 hge hlt h2 _ _ rfl rfl
  generalize hflag : (if (i : Int) < 41 ∧ wrap64 (t + 1000000000) ≥ NST2.getD (i + 1) 0
    then (1 : Int) else 0) = flag at *
  generalize hEdef : 63113904000 + (t + 43167816000000) / 1000000000 - ((i : Int) - 4) - flag
    = E at *
  obtain ⟨f1, f2, f3, f4, f5, f6, f7, f8, f9, f10, f11, f12, f13⟩ := leapRow_facts i i1 i2
  -- the decoded date
  obtain ⟨v1, v2, v3, v4, v5, v6, v7⟩ := decode_window (1721060 + E / 86400) (by omega) (by omega)
  generalize hymd : dateFromL (1721060 + E / 86400 + 68569) = ymd at *
  obtain ⟨y, m, d⟩ := ymd
  simp only at v1 v2 v3 v4 v5 v6 v7 hb
  -- month keys
  have k1 : ltsKey i ≤ 12 * y + m := by
    rw [f5]
    exact key_ge_of_day_ge y m d _ _ v1 v2 v3 v4 v6 f6 f7 (by split <;> omega)
      (by rw [v5]; exact d1)
  have k2 : i + 1 < 42 → 12 * y + m < ltsKey (i + 1) := by
    intro hi
    obtain ⟨-, -, -, -, g5, g6, g7, g8, g9, -, -, -, -⟩ := leapRow_facts (i + 1) (by omega) hi
    rw [g5]
    exact key_lt_of_day_lt y m d _ _ v1 v2 v3 v7 g6 g7 (by split <;> omega)
      (by rw [v5]; exact d3 hi)
  have k14 : ltsKey 14 = 12 * 1972 + 1 := by decide!
  have hk14 : ltsKey 14 ≤ ltsKey i := by
    rcases Nat.lt_or_ge 14 i with a | a
    · exact le_of_lt (ltsKey_mono 14 i (le_refl _) a i2)
    · have : i = 14 := by omega
      rw [this]
  have hy1 : 1972 ≤ y := by omega
  have hy2 : y ≤ 2292 := by
    have e : JulianDay12hL 2293 1 1 = 2558562 := by decide
    have := key_lt_of_day_lt y m d 2293 1 v1 v2 v3 v7 (by decide) (by decide) (by decide)
      (by omega)
    omega
  -- the state after the breakdown
  have hs2 : ∀ p : Int, Loaded { s with toPlus := p, NST := .live NST2 } :=
    fun _ => ⟨hL, hE, rfl⟩
  have hyb : y.natAbs ≤ 2 ^ 53 := natAbs_small _ (by omega) (by omega)
  have hmb : m.natAbs ≤ 2 ^ 53 := natAbs_small _ (by omega) (by omega)
  have hd31 := daysInMonth_le y m v1 v2
  have hdb : d.natAbs ≤ 2 ^ 53 := natAbs_small _ (by omega) (by omega)
  have hsum : wrap64 ((JulianDay12hL y m d - 2451545) * DAYinNanoSecs
      + (E / 3600 % 24 * HOURinNanoSecs + E / 60 % 60 * MINUTEinNanoSecs
          + (E % 60 + flag) * SECinNanoSecs
          + (t + 43167816000000) % 1000000000 / 1000000 * 1000000
          + (t + 43167816000000) % 1000000000 / 1000 % 1000 * 1000
          + (t + 43167816000000) % 1000000000 % 1000)
      + ((i : Int) - 4) * 1000000000 + dTinNanoSecs - T12hinNanoSecs) = t := by
    have : (JulianDay12hL y m d - 2451545) * DAYinNanoSecs
      + (E / 3600 % 24 * HOURinNanoSecs + E / 60 % 60 * MINUTEinNanoSecs
          + (E % 60 + flag) * SECinNanoSecs
          + (t + 43167816000000) % 1000000000 / 1000000 * 1000000
          + (t + 43167816000000) % 1000000000 / 1000 % 1000 * 1000
          + (t + 43167816000000) % 1000000000 % 1000)
      + ((i : Int) - 4) * 1000000000 + dTinNanoSecs - T12hinNanoSecs = t := by
      rw [v5]
      unfold DAYinNanoSecs HOURinNanoSecs MINUTEinNanoSecs SECinNanoSecs dTinNanoSecs
        T12hinNanoSecs
      omega
    rw [this]
    exact wrap64_id t (by unfold INT64_MIN; omega) h2
  have hval := ValidateYMD_window y m d (by omega) (by omega) (by omega) (by omega : 2344793 ≤
    JulianDay12hL y m d) (by omega)
  have hC2 : ∀ p : Int, CacheOK { s with toPlus := p, NST := .live NST2 } := fun _ => hC
  have hinv : ∀ p : Int, BuiltinOK
      { ({ s with toPlus := p, NST := .live NST2 } : TTState) with
        currentDay := 10000000 * m + 10000 * d + y,
        currentLeapSeconds := leapOfDate y m d,
        currentJDay := JulianDay12h y m d } := fun p =>
    ⟨hL, hE, Or.inr rfl, CacheOK_set _ y m d v1 v2 v3 (by omega) (by omega) (by omega)⟩
  rcases fl with fl | fl
  · have hss : ¬ (E % 60 + flag = 60) := by omega
    rw [if_neg hss] at hb
    refine ⟨y, m, d, E / 3600 % 24, E / 60 % 60, E % 60 + flag,
      (t + 43167816000000) % 1000000000 / 1000000,
      (t + 43167816000000) % 1000000000 / 1000 % 1000,
      (t + 43167816000000) % 1000000000 % 1000, _, _, hb, hy1, hy2, v1, v2, v3, v4,
      by omega, by omega, by omega, by omega, by omega, by omega, by omega, by omega, by omega,
      by omega, by omega, by omega, hval, ?_, hinv 0, rfl⟩
    rw [computeTT2000Sym_fields h _ _ y m d _ _ _ _ _ _ hyb hmb (by omega) hdb
      ⟨by omega, by omega⟩ ⟨by omega, by omega⟩ ⟨by omega, by omega⟩ ⟨by omega, by omega⟩
      ⟨by omega, by omega⟩ ⟨by omega, by omega⟩
      (carrySeconds_skip h _ _ (by
        show Dbl.le (Dbl.ofInt 60) (Dbl.ofInt (E % 60 + flag)) = false
        rw [Dbl.le_ofInt 60 _ (by decide) (natAbs_small _ (by omega) (by omega))]
        exact decide_eq_false (by omega)))]
    rw [computeFields_cached h _ (hs2 0).1 (hs2 0).2.1 (hC2 0) y m d _ _ _ _ _ _ i i1 i2 v1 v2
      v3 v4 (by omega) (by omega) (by omega) (by omega) k1 k2, hsum]
  · obtain ⟨hi, hnext, hE86⟩ := d4 fl
    have hss : E % 60 + flag = 60 := by omega
    rw [if_pos hss] at hb
    have hcs := carrySeconds_leap h _ (hs2 1) y m d (E / 3600 % 24) (E / 60 % 60)
      ((t + 43167816000000) % 1000000000 / 1000000)
      ((t + 43167816000000) % 1000000000 / 1000 % 1000)
      ((t + 43167816000000) % 1000000000 % 1000) i i1 hi hyb hmb hdb (by omega)
      (by rw [v5]; exact hnext) k1 (k2 hi)
    have hcs2 : carrySeconds h { s with toPlus := 1, NST := .live NST2 }
        (Loc.ofInts y m d (E / 3600 % 24) (E / 60 % 60) (E % 60 + flag)
          ((t + 43167816000000) % 1000000000 / 1000000)
          ((t + 43167816000000) % 1000000000 / 1000 % 1000)
          ((t + 43167816000000) % 1000000000 % 1000))
        = (Loc.ofInts y m d (E / 3600 % 24) (E / 60 % 60) (E % 60 + flag)
          ((t + 43167816000000) % 1000000000 / 1000000)
          ((t + 43167816000000) % 1000000000 / 1000 % 1000)
          ((t + 43167816000000) % 1000000000 % 1000),
          { s with toPlus := 1, NST := .live NST2 }) := by
      rw [hss]; exact hcs
    refine ⟨y, m, d, E / 3600 % 24, E / 60 % 60, E % 60 + flag,
      (t + 43167816000000) % 1000000000 / 1000000,
      (t + 43167816000000) % 1000000000 / 1000 % 1000,
      (t + 43167816000000) % 1000000000 % 1000, _, _, hb, hy1, hy2, v1, v2, v3, v4,
      by omega, by omega, by omega, by omega, by omega, by omega, by omega, by omega, by omega,
      by omega, by omega, by omega, hval, ?_, hinv 1, rfl⟩
    rw [computeTT2000Sym_fields h _ _ y m d _ _ _ _ _ _ hyb hmb (by omega) hdb
      ⟨by omega, by omega⟩ ⟨by omega, by omega⟩ ⟨by omega, by omega⟩ ⟨by omega, by omega⟩
      ⟨by omega, by omega⟩ ⟨by omega, by omega⟩ hcs2]
    rw [computeFields_cached h _ (hs2 1).1 (hs2 1).2.1 (hC2 1) y m d _ _ _ _ _ _ i i1 i2 v1 v2
      v3 v4 (by omega) (by omega) (by omega) (by omega) k1 k2, hsum]

theorem BuiltinOK_builtinState : BuiltinOK builtinState :=
  ⟨rfl, rfl, Or.inl rfl, CacheOK_of_no_day builtinState rfl⟩

set_option maxRecDepth 100000 in
/-- Claim C1, counterexample.  The TT2000 value `-883655957816000001`, one nanosecond before
1972-01-01T00:00:00 UTC, is none of the reserved values and lies inside the supported window;
from the start state, with the built-in table, `breakdownTT2000` writes
`(1972, 1, 1, 0, 0, 0, 109, 53, 999)` and `computeTT2000` on these nine fields returns
`-883655957706946001`, not the value broken down. -/
theorem C1_round_trip_fails_before_1972 :
    (-883655957816000001 : Int) ≠ cdfSentinels.FILLED_TT2000_VALUE ∧
    (-883655957816000001 : Int) ≠ cdfSentinels.DEFAULT_TT2000_PADVALUE ∧
    (-883655957816000001 : Int) ≠ cdfSentinels.ILLEGAL_TT2000_VALUE ∧
    (breakdownTT2000 cdfSentinels Host.plain TTState.init (-883655957816000001)).1
      = Parts.ofInts 1972 1 1 0 0 0 109 53 999 ∧
    (computeParts cdfSentinels Host.plain
        (breakdownTT2000 cdfSentinels Host.plain TTState.init (-883655957816000001)).2
        (breakdownTT2000 cdfSentinels Host.plain TTState.init (-883655957816000001)).1).1
      = -883655957706946001 ∧
    (computeParts cdfSentinels Host.plain
        (breakdownTT2000 cdfSentinels Host.plain TTState.init (-883655957816000001)).2
        (breakdownTT2000 cdfSentinels Host.plain TTState.init (-883655957816000001)).1).1
      ≠ -883655957816000001 := by decide!

/-- Claim C1, amended.  Inverse consistency from 1972 on: in every state of the module that
holds the built-in leap-second table with a consistent day cache (`BuiltinOK`; the state right
after loading is one), for every TT2000 value `t` from `-883655957816000000`
(1972-01-01T00:00:00 UTC) up to the largest `long long`, other than `FILLED_TT2000_VALUE` and
`DEFAULT_TT2000_PADVALUE`, `computeTT2000` applied to the nine fields written by
`breakdownTT2000 (t)` returns exactly `t`, and the state after the two calls is again such a
state.  This includes every `t` inside an inserted leap second, where the seconds field is
60. -/
theorem C1_round_trip_from_1972 (c : Sentinels) (h : Host) (s : TTState) (t : Int)
    (hs : BuiltinOK s)
    (hF : t ≠ c.FILLED_TT2000_VALUE) (hP : t ≠ c.DEFAULT_TT2000_PADVALUE)
    (h1 : -883655957816000000 ≤ t) (h2 : t ≤ INT64_MAX) :
    (computeParts c h (breakdownTT2000 c h s t).2 (breakdownTT2000 c h s t).1).1 = t ∧
    BuiltinOK (computeParts c h (breakdownTT2000 c h s t).2 (breakdownTT2000 c h s t).1).2 := by
  obtain ⟨y, m, d, hh, mn, ss, ms, us, ns, s2, s3, hb, -, -, -, -, -, -, -, -, -, -, -, -, -,
    -, -, -, -, -, -, hcomp, hinv, -⟩ := breakdown_fields_1972 c h s t hs hF hP h1 h2
  rw [hb]
  have e : computeParts c h s2 (Parts.ofInts y m d hh mn ss ms us ns) = (t, s3) := by
    show (((computeTT2000Sym h s2 (Dbl.ofInt y) (Dbl.ofInt m) (Dbl.ofInt d) (Dbl.ofInt hh)
      (Dbl.ofInt mn) (Dbl.ofInt ss) (Dbl.ofInt ms) (Dbl.ofInt us) (Dbl.ofInt ns)).1).toInt c,
      (computeTT2000Sym h s2 (Dbl.ofInt y) (Dbl.ofInt m) (Dbl.ofInt d) (Dbl.ofInt hh)
      (Dbl.ofInt mn) (Dbl.ofInt ss) (Dbl.ofInt ms) (Dbl.ofInt us) (Dbl.ofInt ns)).2) = (t, s3)
    rw [hcomp]
    rfl
  rw [e]
  exact ⟨rfl, hinv⟩

theorem C1_round_trip_from_1972_witness :
    (BuiltinOK builtinState ∧
      (536500869183999999 : Int) ≠ cdfSentinels.FILLED_TT2000_VALUE ∧
      (536500869183999999 : Int) ≠ cdfSentinels.DEFAULT_TT2000_PADVALUE ∧
      (-883655957816000000 : Int) ≤ 536500869183999999 ∧
      (536500869183999999 : Int) ≤ INT64_MAX) ∧
    ((computeParts cdfSentinels Host.plain
      (breakdownTT2000 cdfSentinels Host.plain builtinState 536500869183999999).2
      (breakdownTT2000 cdfSentinels Host.plain builtinState 536500869183999999).1).1
      = 536500869183999999 ∧
    BuiltinOK (computeParts cdfSentinels Host.plain
      (breakdownTT2000 cdfSentinels Host.plain builtinState 536500869183999999).2
      (breakdownTT2000 cdfSentinels Host.plain builtinState 536500869183999999).1).2) :=
  ⟨⟨BuiltinOK_builtinState, by decide, by decide, by decide, by decide⟩,
    C1_round_trip_from_1972 cdfSentinels Host.plain builtinState 536500869183999999
      BuiltinOK_builtinState (by decide) (by decide) (by decide) (by decide)⟩

theorem digitChar_toNat (d : Nat) (h : d < 10) : (digitChar d).toNat = 48 + d := by
  interval_cases d <;> rfl

theorem dig_toNat (n : Int) (k : Nat) : (dig n k).toNat = 48 + n.toNat / 10 ^ k % 10 :=
  digitChar_toNat _ (Nat.mod_lt _ (by decide))

theorem dig_isDigit (n : Int) (k : Nat) : isDigitC (dig n k) = true := by
  unfold isDigitC
  rw [dig_toNat]
  have : n.toNat / 10 ^ k % 10 < 10 := Nat.mod_lt _ (by decide)
  simp only [Bool.and_eq_true, decide_eq_true_eq]
  omega

theorem dig_not_space (n : Int) (k : Nat) : isspaceC (dig n k) = false := by
  unfold isspaceC
  rw [dig_toNat]
  generalize n.toNat / 10 ^ k % 10 = d
  have h1 : decide (48 + d = 32) = false := decide_eq_false (by omega)
  have h2 : decide (48 + d ≤ 13) = false := decide_eq_false (by omega)
  rw [h1, h2]
  simp

theorem dig_not_skip (n : Int) (k : Nat) : skipC (dig n k) = false := by
  unfold skipC isprintC
  rw [dig_not_space, dig_toNat]
  have : n.toNat / 10 ^ k % 10 < 10 := Nat.mod_lt _ (by decide)
  simp only [Bool.false_or, Bool.not_eq_false', Bool.and_eq_true, decide_eq_true_eq]
  omega

theorem dig_ne (n : Int) (k : Nat) (ch : Char) (h : ch.toNat < 48 ∨ 57 < ch.toNat) :
    dig n k ≠ ch := by
  intro e
  have := dig_toNat n k
  rw [e] at this
  have : n.toNat / 10 ^ k % 10 < 10 := Nat.mod_lt _ (by decide)
  omega

set_option maxRecDepth 1000000 in
theorem fmtLdOK_true : fmtLdOK = true := by decide!

theorem fmtLd_two (n : Int) (h0 : 0 ≤ n) (h1 : n < 100) : fmtLd 2 n = [dig n 1, dig n 0] := by
  have h := fmtLdOK_true
  unfold fmtLdOK at h
  simp only [Bool.and_eq_true, List.all_eq_true, beq_iff_eq] at h
  have := h.1.1 n.toNat (by rw [List.mem_range]; omega)
  rw [show ((n.toNat : Nat) : Int) = n from by omega] at this
  exact this

theorem fmtLd_three (n : Int) (h0 : 0 ≤ n) (h1 : n < 1000) :
    fmtLd 3 n = [dig n 2, dig n 1, dig n 0] := by
  have h := fmtLdOK_true
  unfold fmtLdOK at h
  simp only [Bool.and_eq_true, List.all_eq_true, beq_iff_eq] at h
  have := h.1.2 n.toNat (by rw [List.mem_range]; omega)
  rw [show ((n.toNat : Nat) : Int) = n from by omega] at this
  exact this

theorem fmtLd_four (n : Int) (h0 : 1972 ≤ n) (h1 : n ≤ 2292) :
    fmtLd 4 n = [dig n 3, dig n 2, dig n 1, dig n 0] := by
  have h := fmtLdOK_true
  unfold fmtLdOK at h
  simp only [Bool.and_eq_true, List.all_eq_true, beq_iff_eq] at h
  have := h.2 (n - 1972).toNat (by rw [List.mem_range]; omega)
  rw [show (1972 : Int) + (((n - 1972).toNat : Nat) : Int) = n from by omega] at this
  exact this

theorem isDigitC_not_space (ch : Char) (h : isDigitC ch = true) : isspaceC ch = false := by
  unfold isDigitC at h
  simp only [Bool.and_eq_true, decide_eq_true_eq] at h
  unfold isspaceC
  have h1 : decide (ch.toNat = 32) = false := decide_eq_false (by omega)
  have h2 : decide (ch.toNat ≤ 13) = false := decide_eq_false (by omega)
  rw [h1, h2]
  simp

theorem isDigitC_ne (ch x : Char) (h : isDigitC ch = true) (hx : x.toNat < 48) : ch ≠ x := by
  unfold isDigitC at h
  simp only [Bool.and_eq_true, decide_eq_true_eq] at h
  intro e
  rw [e] at h
  omega

/-- A block of digits is scanned as a whole when the count allows it. -/
theorem scanDigits_block (ds rest : List Char) (w : Nat) (hne : ds ≠ [])
    (hall : ∀ ch ∈ ds, isDigitC ch = true)
    (hw : (w = ds.length) ∨ (ds.length ≤ w ∧ rest = [])) :
    scanDigits w (ds ++ rest) = some (digitsValue ds, rest) := by
  unfold scanDigits
  have ht : ((ds ++ rest).take w).takeWhile isDigitC = ds := by
    rcases hw with hw | ⟨hw, hr⟩
    · rw [hw, List.take_left']
      · exact List.takeWhile_eq_self_iff.mpr hall
      · rfl
    · rw [hr, List.append_nil, List.take_of_length_le hw]
      exact List.takeWhile_eq_self_iff.mpr hall
  simp only [ht, hne, if_false, List.drop_left']

/-- The integer conversion on a block of digits. -/
theorem scanInt_block (ds rest : List Char) (w : Nat) (hne : ds ≠ [])
    (hall : ∀ ch ∈ ds, isDigitC ch = true)
    (hw : (w = ds.length) ∨ (w = 0 ∧ rest = [])) :
    scanInt w (ds ++ rest) = some ((digitsValue ds : Int), rest) := by
  obtain ⟨c0, ds2, rfl⟩ := List.exists_cons_of_ne_nil hne
  have hc : isDigitC c0 = true := hall c0 (List.mem_cons_self _ _)
  unfold scanInt
  have hd : (c0 :: ds2 ++ rest).dropWhile isspaceC = c0 :: ds2 ++ rest := by
    rw [List.cons_append, List.dropWhile_cons_of_neg]
    rw [isDigitC_not_space c0 hc]; simp
  simp only [hd]
  have hm : ¬ ((c0 :: ds2 ++ rest).head? = some '-') := by
    rw [List.cons_append, List.head?_cons]
    intro e
    exact isDigitC_ne c0 '-' hc (by decide) (Option.some.inj e)
  have hp : ¬ ((c0 :: ds2 ++ rest).head? = some '+') := by
    rw [List.cons_append, List.head?_cons]
    intro e
    exact isDigitC_ne c0 '+' hc (by decide) (Option.some.inj e)
  rw [if_neg hm, if_neg hp]
  rcases hw with hw | ⟨hw, hr⟩
  · have hw0 : w ≠ 0 := by rw [hw]; simp
    rw [if_neg hw0, scanDigits_block _ _ _ hne hall (Or.inl hw)]
    rfl
  · rw [if_pos hw, scanDigits_block _ _ _ hne hall (Or.inr ⟨by rw [hr]; simp, hr⟩)]
    rfl

theorem digitsValue_two (n : Int) (h0 : 0 ≤ n) (h1 : n < 100) :
    (digitsValue [dig n 1, dig n 0] : Int) = n := by
  unfold digitsValue
  simp only [List.foldl, dig_toNat]
  have : n.toNat < 100 := by omega
  have e : (10 * (10 * 0 + (48 + n.toNat / 10 ^ 1 % 10 - 48)) + (48 + n.toNat / 10 ^ 0 % 10 - 48))
      = n.toNat := by
    norm_num
    omega
  rw [e]; omega

theorem digitsValue_four (n : Int) (h0 : 0 ≤ n) (h1 : n < 10000) :
    (digitsValue [dig n 3, dig n 2, dig n 1, dig n 0] : Int) = n := by
  unfold digitsValue
  simp only [List.foldl, dig_toNat]
  have : n.toNat < 10000 := by omega
  have e : (10 * (10 * (10 * (10 * 0 + (48 + n.toNat / 10 ^ 3 % 10 - 48))
      + (48 + n.toNat / 10 ^ 2 % 10 - 48)) + (48 + n.toNat / 10 ^ 1 % 10 - 48))
      + (48 + n.toNat / 10 ^ 0 % 10 - 48)) = n.toNat := by
    norm_num
    omega
  rw [e]; omega

theorem digitsValue_nine (a b c : Int) (a0 : 0 ≤ a) (a1 : a < 1000) (b0 : 0 ≤ b)
    (b1 : b < 1000) (c0 : 0 ≤ c) (c1 : c < 1000) :
    (digitsValue [dig a 2, dig a 1, dig a 0, dig b 2, dig b 1, dig b 0, dig c 2, dig c 1,
      dig c 0] : Int) = a * 1000000 + b * 1000 + c := by
  unfold digitsValue
  simp only [List.foldl, dig_toNat]
  have ha : a.toNat < 1000 := by omega
  have hb : b.toNat < 1000 := by omega
  have hc : c.toNat < 1000 := by omega
  have e : (10 * (10 * (10 * (10 * (10 * (10 * (10 * (10 * (10 * 0
      + (48 + a.toNat / 10 ^ 2 % 10 - 48)) + (48 + a.toNat / 10 ^ 1 % 10 - 48))
      + (48 + a.toNat / 10 ^ 0 % 10 - 48)) + (48 + b.toNat / 10 ^ 2 % 10 - 48))
      + (48 + b.toNat / 10 ^ 1 % 10 - 48)) + (48 + b.toNat / 10 ^ 0 % 10 - 48))
      + (48 + c.toNat / 10 ^ 2 % 10 - 48)) + (48 + c.toNat / 10 ^ 1 % 10 - 48))
      + (48 + c.toNat / 10 ^ 0 % 10 - 48))
      = a.toNat * 1000000 + b.toNat * 1000 + c.toNat := by
    norm_num
    omega
  rw [e]
  push_cast
  rw [Int.toNat_of_nonneg a0, Int.toNat_of_nonneg b0, Int.toNat_of_nonneg c0]

theorem trimC_id (s : List Char) (hne : s ≠ []) (hfirst : skipC (s.head hne) = false)
    (hlast : skipC (s.getLast hne) = false) : trimC s = some s := by
  obtain ⟨c0, r, rfl⟩ := List.exists_cons_of_ne_nil hne
  unfold trimC
  have h1 : (c0 :: r).dropWhile skipC = c0 :: r := by
    rw [List.dropWhile_cons_of_neg]
    simpa using hfirst
  simp only [h1]
  rw [if_neg (by simp)]
  have h2 : (c0 :: r).reverse.dropWhile skipC = (c0 :: r).reverse := by
    have hr : (c0 :: r).reverse ≠ [] := by simp
    obtain ⟨x, xs, hx⟩ := List.exists_cons_of_ne_nil hr
    rw [hx, List.dropWhile_cons_of_neg]
    have : x = (c0 :: r).getLast hne := by
      have := List.head_reverse (l := c0 :: r) hr
      rw [← this]
      simp only [hx, List.head_cons]
    rw [this, hlast]; simp
  rw [h2, List.reverse_reverse]

theorem splitNanos_fields (ms us ns : Int) (a0 : 0 ≤ ms) (a1 : ms < 1000) (b0 : 0 ≤ us)
    (b1 : us < 1000) (c0 : 0 ≤ ns) (c1 : ns < 1000) :
    splitNanos (ms * 1000000 + us * 1000 + ns) = (ms, us, ns) := by
  unfold splitNanos
  have e1 : Int.tdiv (ms * 1000000 + us * 1000 + ns) 1000000 = ms := by
    rw [Int.tdiv_eq_ediv (by omega) (by decide)]; omega
  simp only [e1]
  have e2 : Int.tdiv (ms * 1000000 + us * 1000 + ns - ms * 1000000) 1000 = us := by
    rw [Int.tdiv_eq_ediv (by omega) (by decide)]; omega
  simp only [e2]
  ext <;> simp only [] <;> omega

theorem fracDigits_all (ms us ns : Int) : ∀ ch ∈ fracDigits ms us ns, isDigitC ch = true := by
  intro ch h
  unfold fracDigits at h
  simp only [List.mem_cons, List.mem_singleton, List.not_mem_nil, or_false] at h
  rcases h with h | h | h | h | h | h | h | h | h <;> rw [h] <;> exact dig_isDigit _ _

theorem scanInt_two (n : Int) (h0 : 0 ≤ n) (h1 : n < 100) (rest : List Char) :
    scanInt 2 (dig n 1 :: dig n 0 :: rest) = some (n, rest) := by
  have := scanInt_block [dig n 1, dig n 0] rest 2 (by simp)
    (by intro ch h
        simp only [List.mem_cons, List.mem_singleton, List.not_mem_nil, or_false] at h
        rcases h with h | h <;> rw [h] <;> exact dig_isDigit _ _) (Or.inl rfl)
  rw [digitsValue_two n h0 h1] at this
  exact this

theorem scanInt_four (n : Int) (h0 : 0 ≤ n) (h1 : n < 10000) (rest : List Char) :
    scanInt 4 (dig n 3 :: dig n 2 :: dig n 1 :: dig n 0 :: rest) = some (n, rest) := by
  have := scanInt_block [dig n 3, dig n 2, dig n 1, dig n 0] rest 4 (by simp)
    (by intro ch h
        simp only [List.mem_cons, List.mem_singleton, List.not_mem_nil, or_false] at h
        rcases h with h | h | h | h <;> rw [h] <;> exact dig_isDigit _ _) (Or.inl rfl)
  rw [digitsValue_four n h0 h1] at this
  exact this

/-- The first `sscanf` of the branch for styles 3 and 4 on a well-formed string. -/
theorem sscanf_iso (y m d hh mn ss : Int) (rest : List Char)
    (hy : 0 ≤ y ∧ y < 10000) (hm : 0 ≤ m ∧ m < 100) (hd : 0 ≤ d ∧ d < 100)
    (h1 : 0 ≤ hh ∧ hh < 100) (h2 : 0 ≤ mn ∧ mn < 100) (h3 : 0 ≤ ss ∧ ss < 100) :
    sscanf fmtStyle3
      ([dig y 3, dig y 2, dig y 1, dig y 0, '-', dig m 1, dig m 0, '-', dig d 1, dig d 0, 'T',
        dig hh 1, dig hh 0, ':', dig mn 1, dig mn 0, ':', dig ss 1, dig ss 0, '.'] ++ rest)
      = [.int y, .int m, .int d, .chr 'T', .int hh, .int mn, .int ss] := by
  unfold fmtStyle3
  simp only [List.cons_append, List.nil_append, sscanf, scanInt_four y hy.1 hy.2,
    scanInt_two m hm.1 hm.2, scanInt_two d hd.1 hd.2, scanInt_two hh h1.1 h1.2,
    scanInt_two mn h2.1 h2.2, scanInt_two ss h3.1 h3.2, if_true]

theorem sscanf_frac (ms us ns : Int) (a0 : 0 ≤ ms) (a1 : ms < 1000) (b0 : 0 ≤ us)
    (b1 : us < 1000) (c0 : 0 ≤ ns) (c1 : ns < 1000) :
    sscanf [.ld 0] (fracDigits ms us ns) = [.int (ms * 1000000 + us * 1000 + ns)] := by
  have h := scanInt_block (fracDigits ms us ns) [] 0 (by unfold fracDigits; simp)
    (fracDigits_all ms us ns) (Or.inr ⟨rfl, rfl⟩)
  rw [List.append_nil] at h
  have hv : (digitsValue (fracDigits ms us ns) : Int) = ms * 1000000 + us * 1000 + ns :=
    digitsValue_nine ms us ns a0 a1 b0 b1 c0 c1
  rw [hv] at h
  simp only [sscanf, h]

/-- The branch for styles 3 and 4 of `parseTT2000` on a well-formed string of a date that is
neither the fill date nor the pad date: the nine fields go to `computeTT2000`. -/
theorem parseStyle3_iso (c : Sentinels) (h : Host) (s : TTState)
    (y m d hh mn ss ms us ns : Int) (z : List Char) (hz : z = [] ∨ z = ['Z'])
    (hy : 1 ≤ y ∧ y < 9999) (hm : 0 ≤ m ∧ m < 100) (hd : 0 ≤ d ∧ d < 100)
    (h1 : 0 ≤ hh ∧ hh < 100) (h2 : 0 ≤ mn ∧ mn < 100) (h3 : 0 ≤ ss ∧ ss < 100)
    (a : 0 ≤ ms ∧ ms < 1000) (b : 0 ≤ us ∧ us < 1000) (e : 0 ≤ ns ∧ ns < 1000)
    (hv : ValidateYMD y m d = 1) :
    parseStyle3 c h s (isoString y m d hh mn ss ms us ns z)
      = some (computeTT2000I c h s y m d hh mn ss ms us ns) := by
  have hscan : sscanf fmtStyle3 (isoString y m d hh mn ss ms us ns z)
      = [.int y, .int m, .int d, .chr 'T', .int hh, .int mn, .int ss] :=
    sscanf_iso y m d hh mn ss (fracDigits ms us ns ++ z) ⟨by omega, by omega⟩ hm hd h1 h2 h3
  have hfrac := sscanf_frac ms us ns a.1 a.2 b.1 b.2 e.1 e.2
  have hdot : '.' ∈ isoString y m d hh mn ss ms us ns z := by
    unfold isoString; simp
  have htmp2 : (((isoString y m d hh mn ss ms us ns z).drop 20).take 9
      ++ (List.replicate 9 '0').drop 9).take 9 = fracDigits ms us ns := by
    unfold isoString fracDigits; simp
  have hfill : isFillDate y m d hh mn ss (ms * 1000000 + us * 1000 + ns) = false := by
    unfold isFillDate
    exact decide_eq_false (fun hc => by omega)
  have hpad : isPadDate y m d hh mn ss (ms * 1000000 + us * 1000 + ns) = false := by
    unfold isPadDate
    exact decide_eq_false (fun hc => by omega)
  have hsplit : (if ms * 1000000 + us * 1000 + ns = 0 then ((0 : Int), (0 : Int), (0 : Int))
      else splitNanos (ms * 1000000 + us * 1000 + ns)) = (ms, us, ns) := by
    rw [splitNanos_fields ms us ns a.1 a.2 b.1 b.2 e.1 e.2]
    split
    · ext <;> simp only [] <;> omega
    · rfl
  have hlen : ((isoString y m d hh mn ss ms us ns z).length : Int)
      = 29 + (z.length : Int) := by
    unfold isoString fracDigits; simp; ring
  have hk : (if (isoString y m d hh mn ss ms us ns z).getLast? = some 'Z'
      then ((isoString y m d hh mn ss ms us ns z).length : Int) - 20 - 1
      else ((isoString y m d hh mn ss ms us ns z).length : Int) - 20) = 9 := by
    rw [hlen]
    rcases hz with hz | hz
    · subst hz
      have : (isoString y m d hh mn ss ms us ns []).getLast? ≠ some 'Z' := by
        unfold isoString fracDigits
        simp only [List.append_nil, List.cons_append, List.nil_append, List.getLast?_cons_cons,
          List.getLast?_singleton, ne_eq, Option.some.injEq]
        exact dig_ne ns 0 'Z' (Or.inr (by decide))
      rw [if_neg this]; simp
    · subst hz
      have : (isoString y m d hh mn ss ms us ns ['Z']).getLast? = some 'Z' := by
        unfold isoString fracDigits
        simp
      rw [if_pos this]; simp
  unfold parseStyle3
  simp only [hscan]
  simp only [hdot, if_true, decide_eq_true_eq, hk]
  rw [if_neg (by decide)]
  simp only [show (9 : Int).toNat = 9 from rfl, htmp2, Option.some_bind, hfrac, hfill, hpad,
    Bool.false_eq_true, if_false, hsplit]
  unfold parseFinish
  rw [hv]
  simp

theorem trimC_iso (y m d hh mn ss ms us ns : Int) (z : List Char) (hz : z = [] ∨ z = ['Z']) :
    trimC (isoString y m d hh mn ss ms us ns z) = some (isoString y m d hh mn ss ms us ns z) := by
  have hne : isoString y m d hh mn ss ms us ns z ≠ [] := by unfold isoString; simp
  apply trimC_id _ hne
  · have : (isoString y m d hh mn ss ms us ns z).head hne = dig y 3 := by
      unfold isoString; rfl
    rw [this]; exact dig_not_skip _ _
  · rcases hz with hz | hz
    · subst hz
      have : (isoString y m d hh mn ss ms us ns []).getLast hne = dig ns 0 := by
        unfold isoString fracDigits; simp
      rw [this]; exact dig_not_skip _ _
    · subst hz
      have : (isoString y m d hh mn ss ms us ns ['Z']).getLast hne = 'Z' := by
        unfold isoString fracDigits; simp
      rw [this]; decide

theorem ScanUTCstring_iso3 (y m d hh mn ss ms us ns : Int) :
    ScanUTCstring (isoString y m d hh mn ss ms us ns []) = some 3 := by
  have hlen : (isoString y m d hh mn ss ms us ns []).length = 29 := by
    unfold isoString fracDigits; simp
  unfold ScanUTCstring
  simp only [hlen, TT2000_3_STRING_LEN, if_true, Option.some_bind]

theorem ScanUTCstring_iso4 (y m d hh mn ss ms us ns : Int) :
    ScanUTCstring (isoString y m d hh mn ss ms us ns ['Z']) = some 4 := by
  have hlen : (isoString y m d hh mn ss ms us ns ['Z']).length = 30 := by
    unfold isoString fracDigits; simp
  have h11 : chAt (isoString y m d hh mn ss ms us ns ['Z']) 11 = some (dig hh 1) := by
    unfold chAt
    rw [hlen, if_pos (by decide)]
    unfold isoString; rfl
  have hne : dig hh 1 ≠ ' ' := dig_ne hh 1 ' ' (Or.inl (by decide))
  unfold ScanUTCstring
  simp only [hlen, TT2000_3_STRING_LEN, TT2000_0_STRING_LEN, TT2000_4_STRING_LEN, h11,
    Option.map_some', hne, decide_False, Option.some_bind]
  simp

/-- `parseTT2000` on a well-formed string of style 3 or 4. -/
theorem parseTT2000_iso (ig : List Char → List Char → Bool) (c : Sentinels) (h : Host)
    (s : TTState) (y m d hh mn ss ms us ns : Int) (z : List Char) (hz : z = [] ∨ z = ['Z'])
    (hy : 1 ≤ y ∧ y < 9999) (hm : 0 ≤ m ∧ m < 100) (hd : 0 ≤ d ∧ d < 100)
    (h1 : 0 ≤ hh ∧ hh < 100) (h2 : 0 ≤ mn ∧ mn < 100) (h3 : 0 ≤ ss ∧ ss < 100)
    (a : 0 ≤ ms ∧ ms < 1000) (b : 0 ≤ us ∧ us < 1000) (e : 0 ≤ ns ∧ ns < 1000)
    (hv : ValidateYMD y m d = 1) :
    parseTT2000 ig c h s (isoString y m d hh mn ss ms us ns z)
      = some (computeTT2000I c h s y m d hh mn ss ms us ns) := by
  unfold parseTT2000
  rw [trimC_iso y m d hh mn ss ms us ns z hz]
  have hp := parseStyle3_iso c h s y m d hh mn ss ms us ns z hz hy hm hd h1 h2 h3 a b e hv
  rcases hz with hz | hz
  · subst hz
    simp only [Option.some_bind, ScanUTCstring_iso3]
    rw [if_neg (by decide), if_neg (by decide), if_neg (by decide), if_pos (by decide)]
    exact hp
  · subst hz
    simp only [Option.some_bind, ScanUTCstring_iso4]
    rw [if_neg (by decide), if_neg (by decide), if_neg (by decide), if_pos (by decide)]
    exact hp

theorem MonthToken_three (m : Int) (h1 : 1 ≤ m) (h2 : m ≤ 12) :
    MonthToken m = [(MonthToken m).getD 0 ' ', (MonthToken m).getD 1 ' ',
      (MonthToken m).getD 2 ' '] := by
  interval_cases m <;> rfl

theorem afterLastDot_split (pre ds : List Char) (hds : ∀ ch ∈ ds, ch ≠ '.') :
    afterLastDot (pre ++ '.' :: ds) = some ds := by
  unfold afterLastDot
  rw [if_pos (by simp)]
  have hr : (pre ++ '.' :: ds).reverse = ds.reverse ++ '.' :: pre.reverse := by simp
  rw [hr, List.takeWhile_append_of_pos (by
    intro ch hch
    have := hds ch (List.mem_reverse.mp hch)
    simpa using this)]
  simp

theorem fracDigits_no_dot (ms us ns : Int) : ∀ ch ∈ fracDigits ms us ns, ch ≠ '.' := by
  intro ch hch
  exact isDigitC_ne ch '.' (fracDigits_all ms us ns ch hch) (by decide)

theorem sscanf_dmy (t0 t1 t2 : Char) (y d hh mn ss ms us ns : Int)
    (hy : 0 ≤ y ∧ y < 10000) (hd : 0 ≤ d ∧ d < 100)
    (h1 : 0 ≤ hh ∧ hh < 100) (h2 : 0 ≤ mn ∧ mn < 100) (h3 : 0 ≤ ss ∧ ss < 100)
    (a : 0 ≤ ms ∧ ms < 1000) (b : 0 ≤ us ∧ us < 1000) (e : 0 ≤ ns ∧ ns < 1000) :
    sscanf fmtStyle0 (dmyString t0 t1 t2 y d hh mn ss ms us ns)
      = [.int d, .chr t0, .chr t1, .chr t2, .int y, .int hh, .int mn, .int ss,
         .int (ms * 1000000 + us * 1000 + ns)] := by
  have hfr : scanInt 9 (fracDigits ms us ns)
      = some (ms * 1000000 + us * 1000 + ns, []) := by
    have h := scanInt_block (fracDigits ms us ns) [] 9 (by unfold fracDigits; simp)
      (fracDigits_all ms us ns) (Or.inl (by unfold fracDigits; rfl))
    have hv : (digitsValue (fracDigits ms us ns) : Int) = ms * 1000000 + us * 1000 + ns :=
      digitsValue_nine ms us ns a.1 a.2 b.1 b.2 e.1 e.2
    rw [List.append_nil, hv] at h
    exact h
  have hsp : ∀ rest : List Char,
      List.dropWhile isspaceC (' ' :: dig hh 1 :: rest) = dig hh 1 :: rest := by
    intro rest
    rw [List.dropWhile_cons_of_pos (by decide), List.dropWhile_cons_of_neg]
    rw [dig_not_space]; simp
  unfold fmtStyle0 dmyString
  simp only [List.cons_append, List.nil_append, sscanf, scanInt_four y hy.1 hy.2,
    scanInt_two d hd.1 hd.2, scanInt_two hh h1.1 h1.2,
    scanInt_two mn h2.1 h2.2, scanInt_two ss h3.1 h3.2, if_true, hsp, hfr]

/-- `parseTT2000` on a well-formed string of style 0 whose month token `MonthNumber`
recognises. -/
theorem parseTT2000_dmy (ig : List Char → List Char → Bool) (c : Sentinels) (h : Host)
    (s : TTState) (t0 t1 t2 : Char) (y m d hh mn ss ms us ns : Int)
    (hmo : MonthNumber ig [t0, t1, t2] = m)
    (hy : 1 ≤ y ∧ y < 9999) (hd : 0 ≤ d ∧ d < 100)
    (h1 : 0 ≤ hh ∧ hh < 100) (h2 : 0 ≤ mn ∧ mn < 100) (h3 : 0 ≤ ss ∧ ss < 100)
    (a : 0 ≤ ms ∧ ms < 1000) (b : 0 ≤ us ∧ us < 1000) (e : 0 ≤ ns ∧ ns < 1000)
    (hv : ValidateYMD y m d = 1) :
    parseTT2000 ig c h s (dmyString t0 t1 t2 y d hh mn ss ms us ns)
      = some (computeTT2000I c h s y m d hh mn ss ms us ns) := by
  have hne : dmyString t0 t1 t2 y d hh mn ss ms us ns ≠ [] := by unfold dmyString; simp
  have htrim : trimC (dmyString t0 t1 t2 y d hh mn ss ms us ns)
      = some (dmyString t0 t1 t2 y d hh mn ss ms us ns) := by
    apply trimC_id _ hne
    · have : (dmyString t0 t1 t2 y d hh mn ss ms us ns).head hne = dig d 1 := by
        unfold dmyString; rfl
      rw [this]; exact dig_not_skip _ _
    · have : (dmyString t0 t1 t2 y d hh mn ss ms us ns).getLast hne = dig ns 0 := by
        unfold dmyString fracDigits; simp
      rw [this]; exact dig_not_skip _ _
  have hlen : (dmyString t0 t1 t2 y d hh mn ss ms us ns).length = 30 := by
    unfold dmyString fracDigits; simp
  have h11 : chAt (dmyString t0 t1 t2 y d hh mn ss ms us ns) 11 = some ' ' := by
    unfold chAt
    rw [hlen, if_pos (by decide)]
    unfold dmyString; rfl
  have hstyle : ScanUTCstring (dmyString t0 t1 t2 y d hh mn ss ms us ns) = some 0 := by
    unfold ScanUTCstring
    simp only [hlen, TT2000_3_STRING_LEN, TT2000_0_STRING_LEN, h11, Option.map_some',
      decide_True, Option.some_bind]
    simp
  have hscan := sscanf_dmy t0 t1 t2 y d hh mn ss ms us ns ⟨by omega, by omega⟩ hd h1 h2 h3 a b e
  have hdot : afterLastDot (dmyString t0 t1 t2 y d hh mn ss ms us ns)
      = some (fracDigits ms us ns) := by
    have := afterLastDot_split [dig d 1, dig d 0, '-', t0, t1, t2, '-', dig y 3, dig y 2,
      dig y 1, dig y 0, ' ', dig hh 1, dig hh 0, ':', dig mn 1, dig mn 0, ':', dig ss 1,
      dig ss 0] (fracDigits ms us ns) (fracDigits_no_dot ms us ns)
    unfold dmyString
    simpa using this
  have hfl : (fracDigits ms us ns).length = 9 := by unfold fracDigits; rfl
  have hfill : isFillDate y m d hh mn ss (ms * 1000000 + us * 1000 + ns) = false := by
    unfold isFillDate
    exact decide_eq_false (fun hc => by omega)
  have hpad : isPadDate y m d hh mn ss (ms * 1000000 + us * 1000 + ns) = false := by
    unfold isPadDate
    exact decide_eq_false (fun hc => by omega)
  have hsplit : (if ms * 1000000 + us * 1000 + ns = 0 then ((0 : Int), (0 : Int), (0 : Int))
      else splitNanos (ms * 1000000 + us * 1000 + ns)) = (ms, us, ns) := by
    rw [splitNanos_fields ms us ns a.1 a.2 b.1 b.2 e.1 e.2]
    split
    · ext <;> simp only [] <;> omega
    · rfl
  unfold parseTT2000
  rw [htrim]
  simp only [Option.some_bind, hstyle, if_true]
  unfold parseStyle0
  simp only [hlen, TT2000_0_STRING_LEN, ne_eq, not_true_eq_false, if_false, Option.some_bind,
    hscan, hmo, hfill, hpad, Bool.false_eq_true, hdot, hfl, lt_self_iff_false, hsplit]
  unfold parseFinish
  rw [hv]
  simp

/-- The strings `encodeTT2000` writes in styles 0, 3 and 4 for a value whose breakdown lies
within the ranges of a date from 1972 to 2292. -/
theorem encodeTT2000_fields (c : Sentinels) (h : Host) (s s2 : TTState) (x : Int)
    (hF : x ≠ c.FILLED_TT2000_VALUE) (hP : x ≠ c.DEFAULT_TT2000_PADVALUE)
    (hI : x ≠ c.ILLEGAL_TT2000_VALUE) (y m d hh mn ss ms us ns : Int)
    (hb : breakdownTT2000 c h s x = (Parts.ofInts y m d hh mn ss ms us ns, s2))
    (hy : 1972 ≤ y ∧ y ≤ 2292) (hm : 1 ≤ m ∧ m ≤ 12) (hd : 0 ≤ d ∧ d < 100)
    (h1 : 0 ≤ hh ∧ hh < 100) (h2 : 0 ≤ mn ∧ mn < 100) (h3 : 0 ≤ ss ∧ ss < 100)
    (a : 0 ≤ ms ∧ ms < 1000) (b : 0 ≤ us ∧ us < 1000) (e : 0 ≤ ns ∧ ns < 1000) :
    encodeTT2000 c h s x 3 = (isoString y m d hh mn ss ms us ns [], s2) ∧
    encodeTT2000 c h s x 4 = (isoString y m d hh mn ss ms us ns ['Z'], s2) ∧
    encodeTT2000 c h s x 0
      = (dmyString ((MonthToken m).getD 0 ' ') ((MonthToken m).getD 1 ' ')
          ((MonthToken m).getD 2 ' ') y d hh mn ss ms us ns, s2) := by
  have by1 := natAbs_small y (by omega) (by omega)
  have bm1 := natAbs_small m (by omega) (by omega)
  have bd1 := natAbs_small d (by omega) (by omega)
  have bh1 := natAbs_small hh (by omega) (by omega)
  have bn1 := natAbs_small mn (by omega) (by omega)
  have bs1 := natAbs_small ss (by omega) (by omega)
  have bl1 := natAbs_small ms (by omega) (by omega)
  have bu1 := natAbs_small us (by omega) (by omega)
  have ba1 := natAbs_small ns (by omega) (by omega)
  have hsent : ¬ (x = c.FILLED_TT2000_VALUE ∨ x = c.ILLEGAL_TT2000_VALUE) := by
    rintro (h | h)
    · exact hF h
    · exact hI h
  have hmt := MonthToken_three m hm.1 hm.2
  refine ⟨?_, ?_, ?_⟩
  · unfold encodeTT2000
    simp only [show ¬ ((3 : Int) < 0 ∨ (3 : Int) > 4) from by decide, if_false, hsent, hP, hb,
      Parts.ofInts, Dbl.toInt_ofInt _ by1, Dbl.toInt_ofInt _ bm1, Dbl.toInt_ofInt _ bd1,
      Dbl.toInt_ofInt _ bh1, Dbl.toInt_ofInt _ bn1, Dbl.toInt_ofInt _ bs1,
      Dbl.toInt_ofInt _ bl1, Dbl.toInt_ofInt _ bu1, Dbl.toInt_ofInt _ ba1,
      fmtLd_four y hy.1 hy.2, fmtLd_two m (by omega) (by omega), fmtLd_two d hd.1 hd.2,
      fmtLd_two hh h1.1 h1.2, fmtLd_two mn h2.1 h2.2, fmtLd_two ss h3.1 h3.2,
      fmtLd_three ms a.1 a.2, fmtLd_three us b.1 b.2, fmtLd_three ns e.1 e.2,
      show ¬ ((3 : Int) = 0) from by decide, show ¬ ((3 : Int) = 1) from by decide,
      show ¬ ((3 : Int) = 2) from by decide, show ¬ ((3 : Int) = 4) from by decide,
      if_true, TT2000_3_STRING_LEN]
    unfold isoString fracDigits
    simp
  · unfold encodeTT2000
    simp only [show ¬ ((4 : Int) < 0 ∨ (4 : Int) > 4) from by decide, if_false, hsent, hP, hb,
      Parts.ofInts, Dbl.toInt_ofInt _ by1, Dbl.toInt_ofInt _ bm1, Dbl.toInt_ofInt _ bd1,
      Dbl.toInt_ofInt _ bh1, Dbl.toInt_ofInt _ bn1, Dbl.toInt_ofInt _ bs1,
      Dbl.toInt_ofInt _ bl1, Dbl.toInt_ofInt _ bu1, Dbl.toInt_ofInt _ ba1,
      fmtLd_four y hy.1 hy.2, fmtLd_two m (by omega) (by omega), fmtLd_two d hd.1 hd.2,
      fmtLd_two hh h1.1 h1.2, fmtLd_two mn h2.1 h2.2, fmtLd_two ss h3.1 h3.2,
      fmtLd_three ms a.1 a.2, fmtLd_three us b.1 b.2, fmtLd_three ns e.1 e.2,
      show ¬ ((4 : Int) = 0) from by decide, show ¬ ((4 : Int) = 1) from by decide,
      show ¬ ((4 : Int) = 2) from by decide, show ¬ ((4 : Int) = 3) from by decide,
      if_true, TT2000_4_STRING_LEN]
    unfold isoString fracDigits
    simp
  · unfold encodeTT2000
    simp only [show ¬ ((0 : Int) < 0 ∨ (0 : Int) > 4) from by decide, if_false, hsent, hP, hb,
      Parts.ofInts, Dbl.toInt_ofInt _ by1, Dbl.toInt_ofInt _ bm1, Dbl.toInt_ofInt _ bd1,
      Dbl.toInt_ofInt _ bh1, Dbl.toInt_ofInt _ bn1, Dbl.toInt_ofInt _ bs1,
      Dbl.toInt_ofInt _ bl1, Dbl.toInt_ofInt _ bu1, Dbl.toInt_ofInt _ ba1,
      fmtLd_four y hy.1 hy.2, fmtLd_two d hd.1 hd.2,
      fmtLd_two hh h1.1 h1.2, fmtLd_two mn h2.1 h2.2, fmtLd_two ss h3.1 h3.2,
      fmtLd_three ms a.1 a.2, fmtLd_three us b.1 b.2, fmtLd_three ns e.1 e.2,
      if_true, TT2000_0_STRING_LEN]
    rw [hmt]
    unfold dmyString fracDigits
    simp

/-- Encoding and parsing back in the nanosecond styles 0, 3 and 4 returns the value encoded,
for every value from 1972-01-01 on: the parsed fields are those of the breakdown, to which
`computeTT2000` is inverse; the state invariant is kept. -/
theorem parseEncoded_from_1972 (ig : List Char → List Char → Bool) (c : Sentinels) (h : Host)
    (s : TTState) (x : Int) (style : Int)
    (hIg : ∀ m : Int, 1 ≤ m → m ≤ 12 → MonthNumber ig (MonthToken m) = m)
    (hs : BuiltinOK s)
    (hF : x ≠ c.FILLED_TT2000_VALUE) (hP : x ≠ c.DEFAULT_TT2000_PADVALUE)
    (hI : x ≠ c.ILLEGAL_TT2000_VALUE)
    (h1 : -883655957816000000 ≤ x) (h2 : x ≤ INT64_MAX)
    (hst : style = 0 ∨ style = 3 ∨ style = 4) :
    ∃ s3 : TTState, parseEncoded ig c h s x style = some (x, s3) ∧ BuiltinOK s3 := by
  obtain ⟨y, m, d, hh, mn, ss, ms, us, ns, s2, s3, hb, y1, y2, m1, m2, d1, d2, a1, a2, b1, b2,
    c1, c2, e1, e2, f1, f2, g1, g2, hv, hcomp, hinv, -⟩ :=
    breakdown_fields_1972 c h s x hs hF hP h1 h2
  have hd31 := daysInMonth_le y m m1 m2
  obtain ⟨q3, q4, q0⟩ := encodeTT2000_fields c h s s2 x hF hP hI y m d hh mn ss ms us ns hb
    ⟨y1, y2⟩ ⟨m1, m2⟩ ⟨by omega, by omega⟩ ⟨a1, by omega⟩ ⟨b1, by omega⟩ ⟨c1, by omega⟩
    ⟨e1, e2⟩ ⟨f1, f2⟩ ⟨g1, g2⟩
  have hres : computeTT2000I c h s2 y m d hh mn ss ms us ns = (x, s3) := by
    show (((computeTT2000Sym h s2 (Dbl.ofInt y) (Dbl.ofInt m) (Dbl.ofInt d) (Dbl.ofInt hh)
      (Dbl.ofInt mn) (Dbl.ofInt ss) (Dbl.ofInt ms) (Dbl.ofInt us) (Dbl.ofInt ns)).1).toInt c,
      (computeTT2000Sym h s2 (Dbl.ofInt y) (Dbl.ofInt m) (Dbl.ofInt d) (Dbl.ofInt hh)
      (Dbl.ofInt mn) (Dbl.ofInt ss) (Dbl.ofInt ms) (Dbl.ofInt us) (Dbl.ofInt ns)).2) = (x, s3)
    rw [hcomp]
    rfl
  refine ⟨s3, ?_, hinv⟩
  unfold parseEncoded
  rcases hst with hst | hst | hst
  · subst hst
    rw [q0]
    simp only []
    rw [parseTT2000_dmy ig c h s2 _ _ _ y m d hh mn ss ms us ns
      (by rw [← MonthToken_three m m1 m2]; exact hIg m m1 m2)
      ⟨by omega, by omega⟩ ⟨by omega, by omega⟩ ⟨a1, by omega⟩ ⟨b1, by omega⟩
      ⟨c1, by omega⟩ ⟨e1, e2⟩ ⟨f1, f2⟩ ⟨g1, g2⟩ hv, hres]
  · subst hst
    rw [q3]
    simp only []
    rw [parseTT2000_iso ig c h s2 y m d hh mn ss ms us ns [] (Or.inl rfl)
      ⟨by omega, by omega⟩ ⟨by omega, by omega⟩ ⟨by omega, by omega⟩ ⟨a1, by omega⟩
      ⟨b1, by omega⟩ ⟨c1, by omega⟩ ⟨e1, e2⟩ ⟨f1, f2⟩ ⟨g1, g2⟩ hv, hres]
  · subst hst
    rw [q4]
    simp only []
    rw [parseTT2000_iso ig c h s2 y m d hh mn ss ms us ns ['Z'] (Or.inr rfl)
      ⟨by omega, by omega⟩ ⟨by omega, by omega⟩ ⟨by omega, by omega⟩ ⟨a1, by omega⟩
      ⟨b1, by omega⟩ ⟨c1, by omega⟩ ⟨e1, e2⟩ ⟨f1, f2⟩ ⟨g1, g2⟩ hv, hres]

theorem igCase_months (m : Int) (h1 : 1 ≤ m) (h2 : m ≤ 12) :
    MonthNumber igCase (MonthToken m) = m := by
  interval_cases m <;> decide

set_option maxRecDepth 100000 in
/-- Claim C3, counterexample.  The TT2000 value 1 (2000-01-01T11:58:55.816000001 UTC) is none
of the reserved values; from the start state, with the built-in table, `encodeTT2000` writes
`20000101115855` in style 2 and `20000101.4992571296` in style 1, and `parseTT2000` returns
`-816000000` for the first string and `-2561` for the second, not 1. -/
theorem C3_styles_1_2_lose_subseconds :
    (1 : Int) ≠ cdfSentinels.FILLED_TT2000_VALUE ∧
    (1 : Int) ≠ cdfSentinels.DEFAULT_TT2000_PADVALUE ∧
    (1 : Int) ≠ cdfSentinels.ILLEGAL_TT2000_VALUE ∧
    (encodeTT2000 cdfSentinels Host.plain TTState.init 1 2).1 = "20000101115855".data ∧
    (parseEncoded igCase cdfSentinels Host.plain TTState.init 1 2).map Prod.fst
      = some (-816000000) ∧
    (encodeTT2000 cdfSentinels Host.plain TTState.init 1 1).1 = "20000101.4992571296".data ∧
    (parseEncoded igCase cdfSentinels Host.plain TTState.init 1 1).map Prod.fst
      = some (-2561) := by decide!

/-- Claim C3, amended.  TT2000 string round trip in the nanosecond styles: in every state of
the module that holds the built-in leap-second table with a consistent day cache
(`BuiltinOK`; the state right after loading is one), for every TT2000 value `x` from
`-883655957816000000` (1972-01-01T00:00:00 UTC) up to the largest `long long`, other than the
three reserved values, and every style in 0, 3, 4, `parseTT2000 (encodeTT2000 (x, style))`
returns `x`, and the state after the two calls is again such a state.  The month comparison
`StrStrIgCaseX`, which is not part of the file, is assumed to make `MonthNumber` recognise the
twelve tokens of `MonthToken`. -/
theorem C3_string_round_trip_amended (ig : List Char → List Char → Bool) (c : Sentinels)
    (h : Host) (s : TTState) (x : Int) (style : Int)
    (hIg : ∀ m : Int, 1 ≤ m → m ≤ 12 → MonthNumber ig (MonthToken m) = m)
    (hs : BuiltinOK s)
    (hF : x ≠ c.FILLED_TT2000_VALUE) (hP : x ≠ c.DEFAULT_TT2000_PADVALUE)
    (hI : x ≠ c.ILLEGAL_TT2000_VALUE)
    (h1 : -883655957816000000 ≤ x) (h2 : x ≤ INT64_MAX)
    (hst : style = 0 ∨ style = 3 ∨ style = 4) :
    ∃ s3 : TTState, parseEncoded ig c h s x style = some (x, s3) ∧ BuiltinOK s3 :=
  parseEncoded_from_1972 ig c h s x style hIg hs hF hP hI h1 h2 hst

theorem C3_string_round_trip_amended_witness :
    ((∀ m : Int, 1 ≤ m → m ≤ 12 → MonthNumber igCase (MonthToken m) = m) ∧
      BuiltinOK builtinState ∧
      (536500869183999999 : Int) ≠ cdfSentinels.FILLED_TT2000_VALUE ∧
      (536500869183999999 : Int) ≠ cdfSentinels.DEFAULT_TT2000_PADVALUE ∧
      (536500869183999999 : Int) ≠ cdfSentinels.ILLEGAL_TT2000_VALUE ∧
      (-883655957816000000 : Int) ≤ 536500869183999999 ∧
      (536500869183999999 : Int) ≤ INT64_MAX ∧
      ((0 : Int) = 0 ∨ (0 : Int) = 3 ∨ (0 : Int) = 4)) ∧
    (∃ s3 : TTState,
      parseEncoded igCase cdfSentinels Host.plain builtinState 536500869183999999 0
        = some (536500869183999999, s3) ∧ BuiltinOK s3) :=
  ⟨⟨igCase_months, BuiltinOK_builtinState, by decide, by decide, by decide, by decide,
      by decide, Or.inl rfl⟩,
    C3_string_round_trip_amended igCase cdfSentinels Host.plain builtinState
      536500869183999999 0 igCase_months BuiltinOK_builtinState (by decide) (by decide)
      (by decide) (by decide) (by decide) (Or.inl rfl)⟩

/-- Claim C11.  The transition from "variable unset" to a path is not picked up.  In the state
after a load with the variable unset (no CDF open, built-in table loaded, no cached path),
with the variable now naming the readable one-row file `good.dat`, the three queries still
answer from the built-in table (42 rows, status 0), although a load under that value selects
the file (1 row, status 1): `RecheckLeapSecondsTableEnvVar` reloads only when the cached path
is not `NULL`. -/
theorem C11_unset_to_path_not_reloaded :
    builtinState.openCDF64s = 0 ∧ builtinState.LTD = .live LTS ∧
    builtinState.leapTableEnv = none ∧ hostGood.getenv = some "good.dat" ∧
    (CDFgetRowsinLeapSecondsTable hostGood builtinState).1 = 42 ∧
    (CDFgetLeapSecondsTableStatus hostGood builtinState).1 = 0 ∧
    (CDFgetLastDateinLeapSecondsTable hostGood builtinState).2.LTD = .live LTS ∧
    (CDFgetRowsinLeapSecondsTable hostGood TTState.init).1 = 1 ∧
    (CDFgetLeapSecondsTableStatus hostGood TTState.init).1 = 1 := by
  refine ⟨by decide!, by decide!, by decide!, by decide!, by decide!, by decide!, by decide!,
    by decide!, by decide!⟩

/-- Claim C12, counterexample.  With no leap-second file configured,
`CDFgetRowsinLeapSecondsTable` returns 42 from the start state, not 40: the built-in table
`LTS` has 42 rows. -/
theorem C12_builtin_rows_not_40 :
    Host.plain.getenv = none ∧
    (CDFgetRowsinLeapSecondsTable Host.plain TTState.init).1 = 42 ∧
    (CDFgetRowsinLeapSecondsTable Host.plain TTState.init).1 ≠ 40 := by
  refine ⟨by decide!, by decide!, by decide!⟩

theorem refreshTable_unset (h : Host) (s : TTState)
    (hv : h.getenv = none ∨ h.getenv = some "")
    (ho : s.openCDF64s = 0) (ht : s.LTD = .null → s.tableChecked = 0) :
    (refreshTable h s).LTD = .live LTS ∧ (refreshTable h s).entryCnt = 42 ∧
    (refreshTable h s).fromFile = 0 := by
  have hN : NDAT = 42 := by decide
  unfold refreshTable
  by_cases hn : s.LTD = .null
  · have e : CDFgetLeapSecondsTableEnvVar h s = none ∨
        CDFgetLeapSecondsTableEnvVar h s = some "" := by
      unfold CDFgetLeapSecondsTableEnvVar
      simp [ho, hv]
    simp only [hn, Ptr.isNull, if_true]
    unfold LoadLeapSecondsTable
    rw [if_pos (ht hn)]
    rcases e with e | e <;> simp [e, hN]
  · have hb : s.LTD.isNull = false := by
      cases hL : s.LTD <;> simp_all [Ptr.isNull]
    simp only [hb]
    unfold RecheckLeapSecondsTableEnvVar
    have e : CDFgetLeapSecondsTableEnvVar h s = none ∨
        CDFgetLeapSecondsTableEnvVar h s = some "" := by
      unfold CDFgetLeapSecondsTableEnvVar
      simp [ho, hv]
    have e2 : ∀ s2 : TTState, s2.openCDF64s = 0 →
        (CDFgetLeapSecondsTableEnvVar h s2 = none ∨
          CDFgetLeapSecondsTableEnvVar h s2 = some "") := by
      intro s2 h2
      unfold CDFgetLeapSecondsTableEnvVar
      simp [h2, hv]
    have hc : (CDFClearLeapSecondsTable s).tableChecked = 0 ∧
        (CDFClearLeapSecondsTable s).openCDF64s = 0 := by
      unfold CDFClearLeapSecondsTable
      simp only [ho, hb]
      split_ifs <;> simp_all
    have key : ∀ s2 : TTState, s2.tableChecked = 0 → s2.openCDF64s = 0 →
        (LoadLeapSecondsTable h s2).LTD = .live LTS ∧ (LoadLeapSecondsTable h s2).entryCnt = 42
          ∧ (LoadLeapSecondsTable h s2).fromFile = 0 := by
      intro s2 h1 h2
      unfold LoadLeapSecondsTable
      rw [if_pos h1]
      rcases e2 s2 h2 with e | e <;> simp [e, hN]
    have k2 := key { CDFClearLeapSecondsTable s with leapTableEnv := none } hc.1 hc.2
    rcases e with e | e <;> simp [ho, e, k2]

/-- Claim C12, amended.  With no leap-second file configured (the variable unset or empty)
and no CDF open, from every state of the module in which a missing table has not been marked
as checked, `CDFgetRowsinLeapSecondsTable` returns 42, the loaded table is the built-in one
(status 0), its first entry is dated 1960-01-01 and its last entry 2017-01-01. -/
theorem C12_builtin_table_amended (h : Host) (s : TTState)
    (hv : h.getenv = none ∨ h.getenv = some "")
    (ho : s.openCDF64s = 0) (ht : s.LTD = .null → s.tableChecked = 0) :
    (CDFgetRowsinLeapSecondsTable h s).1 = 42 ∧
    (CDFgetRowsinLeapSecondsTable h s).2.LTD = .live LTS ∧
    (CDFgetLeapSecondsTableStatus h s).1 = 0 ∧
    (CDFfillLeapSecondsTable h s).1.map (fun l => l.head?.map Row.date)
      = some (some (1960, 1, 1)) ∧
    (CDFgetLastDateinLeapSecondsTable h s).1 = some (2017, 1, 1) := by
  obtain ⟨h1, h2, h3⟩ := refreshTable_unset h s hv ho ht
  refine ⟨h2, h1, h3, ?_, ?_⟩
  · unfold CDFfillLeapSecondsTable
    simp only [h2, TTState.rowAt, h1, Ptr.data]
    decide!
  · unfold CDFgetLastDateinLeapSecondsTable
    simp only [h2, TTState.rowAt, h1, Ptr.data]
    decide!

theorem C12_builtin_table_amended_witness :
    ((Host.plain.getenv = none ∨ Host.plain.getenv = some "") ∧
      TTState.init.openCDF64s = 0 ∧ (TTState.init.LTD = .null → TTState.init.tableChecked = 0)) ∧
    ((CDFgetRowsinLeapSecondsTable Host.plain TTState.init).1 = 42 ∧
      (CDFgetRowsinLeapSecondsTable Host.plain TTState.init).2.LTD = .live LTS ∧
      (CDFgetLeapSecondsTableStatus Host.plain TTState.init).1 = 0 ∧
      (CDFfillLeapSecondsTable Host.plain TTState.init).1.map (fun l => l.head?.map Row.date)
        = some (some (1960, 1, 1)) ∧
      (CDFgetLastDateinLeapSecondsTable Host.plain TTState.init).1 = some (2017, 1, 1)) :=
  ⟨⟨Or.inl rfl, rfl, fun _ => rfl⟩,
    C12_builtin_table_amended Host.plain TTState.init (Or.inl rfl) rfl (fun _ => rfl)⟩

set_option maxRecDepth 100000 in
/-- Claim C17.  The documented style-0 example with a one-digit day is not accepted.  The
string ` 1-Apr-1990 03:05:02.000111222` has 29 characters once the leading blank is trimmed
(and as many without the blank), `ScanUTCstring` answers style 3 for every string of that
length, and the ISO conversion fails: `parseTT2000` returns `ILLEGAL_TT2000_VALUE`, whatever
the state.  With the day written `01` the value is that of
`computeTT2000 (1990,4,1,3,5,2,0,111,222)`. -/
theorem C17_one_digit_day_rejected :
    (∀ (ig : List Char → List Char → Bool) (c : Sentinels) (h : Host) (s : TTState),
      parseTT2000 ig c h s " 1-Apr-1990 03:05:02.000111222".data
        = some (c.ILLEGAL_TT2000_VALUE, s) ∧
      parseTT2000 ig c h s "1-Apr-1990 03:05:02.000111222".data
        = some (c.ILLEGAL_TT2000_VALUE, s)) ∧
    ScanUTCstring "1-Apr-1990 03:05:02.000111222".data = some 3 ∧
    (computeTT2000I cdfSentinels Host.plain builtinState 1990 4 1 3 5 2 0 111 222).1
      = -307788840815888778 ∧
    (parseTT2000 igCase cdfSentinels Host.plain builtinState
      "01-Apr-1990 03:05:02.000111222".data).map Prod.fst = some (-307788840815888778) ∧
    (-307788840815888778 : Int) ≠ cdfSentinels.ILLEGAL_TT2000_VALUE := by
  refine ⟨fun ig c h s => ⟨?_, ?_⟩, by decide!, by decide!, by decide!, by decide!⟩
  · have e1 : trimC " 1-Apr-1990 03:05:02.000111222".data
        = some "1-Apr-1990 03:05:02.000111222".data := by decide!
    have e2 : ScanUTCstring "1-Apr-1990 03:05:02.000111222".data = some 3 := by decide!
    have e3 : sscanf fmtStyle3 "1-Apr-1990 03:05:02.000111222".data = [.int 1] := by decide!
    simp [parseTT2000, e1, e2, parseStyle3, e3]
  · have e1 : trimC "1-Apr-1990 03:05:02.000111222".data
        = some "1-Apr-1990 03:05:02.000111222".data := by decide!
    have e2 : ScanUTCstring "1-Apr-1990 03:05:02.000111222".data = some 3 := by decide!
    have e3 : sscanf fmtStyle3 "1-Apr-1990 03:05:02.000111222".data = [.int 1] := by decide!
    simp [parseTT2000, e1, e2, parseStyle3, e3]

set_option maxRecDepth 100000 in
/-- Claim C19.  An unknown month token is not rejected.  For `01-Xyz-2000 00:00:00.000000000`
`MonthNumber` returns 0 (under a comparison that tells `Xyz` from the twelve names), no test
follows, and `computeTT2000` takes month 0 for month 1: `parseTT2000` returns
`-43135816000000`, the value of `01-Jan-2000 00:00:00.000000000`, not
`ILLEGAL_TT2000_VALUE`. -/
theorem C19_unknown_month_parsed_as_january :
    MonthNumber igCase "Xyz".data = 0 ∧
    ("01-Xyz-2000 00:00:00.000000000".data).length = 30 ∧
    (parseTT2000 igCase cdfSentinels Host.plain builtinState
      "01-Xyz-2000 00:00:00.000000000".data).map Prod.fst = some (-43135816000000) ∧
    (parseTT2000 igCase cdfSentinels Host.plain builtinState
      "01-Jan-2000 00:00:00.000000000".data).map Prod.fst = some (-43135816000000) ∧
    (-43135816000000 : Int) ≠ cdfSentinels.ILLEGAL_TT2000_VALUE := by
  refine ⟨by decide!, by decide!, by decide!, by decide!, by decide!⟩

set_option maxRecDepth 100000 in
/-- Claim C20.  A negative month or day is not rejected for the years 1708 to 2291.
`computeTT2000 (2000,-1,1,0,0,0,0,0,0)` returns `-5227135816000000` and
`computeTT2000 (2000,1,-5,0,0,0,0,0,0)` returns `-561535816000000`, not
`ILLEGAL_TT2000_VALUE`: only the six time arguments are tested for a negative value, and
`ValidateYMD`, which tests month and day, is skipped when `YearWithin` holds. -/
theorem C20_negative_month_or_day_accepted :
    (computeTT2000I cdfSentinels Host.plain builtinState 2000 (-1) 1 0 0 0 0 0 0).1
      = -5227135816000000 ∧
    (computeTT2000I cdfSentinels Host.plain builtinState 2000 1 (-5) 0 0 0 0 0 0).1
      = -561535816000000 ∧
    (-5227135816000000 : Int) ≠ cdfSentinels.ILLEGAL_TT2000_VALUE ∧
    (-561535816000000 : Int) ≠ cdfSentinels.ILLEGAL_TT2000_VALUE ∧
    ValidateYMD 2000 (-1) 1 = 0 ∧ ValidateYMD 2000 1 (-5) = 0 ∧ YearWithin 2000 = true := by
  refine ⟨by decide!, by decide!, by decide!, by decide!, by decide!, by decide!, by decide!⟩

/-- The ISO branch on a string whose seven fields and fraction buffer are known. -/
theorem parseStyle3_of (c : Sentinels) (h : Host) (s : TTState) (str : List Char)
    (ly lm ld : Int) (ch : Char) (lh ln ls tmp : Int) (tmp2 : List Char)
    (a1 : sscanf fmtStyle3 str
      = [.int ly, .int lm, .int ld, .chr ch, .int lh, .int ln, .int ls])
    (a2 : isoFraction str = some tmp2) (a3 : sscanf [.ld 0] tmp2 = [.int tmp]) :
    parseStyle3 c h s str =
      if isFillDate ly lm ld lh ln ls tmp then some (c.FILLED_TT2000_VALUE, s)
      else if isPadDate ly lm ld lh ln ls tmp then some (c.DEFAULT_TT2000_PADVALUE, s)
      else some (parseFinish c h s ly lm ld lh ln ls
        (if tmp = 0 then ((0 : Int), (0 : Int), (0 : Int)) else splitNanos tmp).1
        (if tmp = 0 then ((0 : Int), (0 : Int), (0 : Int)) else splitNanos tmp).2.1
        (if tmp = 0 then ((0 : Int), (0 : Int), (0 : Int)) else splitNanos tmp).2.2) := by
  unfold parseStyle3
  simp only [a1]
  unfold isoFraction at a2
  simp only [decide_eq_true_eq]
  rw [a2]
  simp only [Option.bind, a3]

theorem encodeTT2000_fill (c : Sentinels) (h : Host) (s : TTState) (t : Int)
    (ht : t = c.FILLED_TT2000_VALUE ∨ t = c.ILLEGAL_TT2000_VALUE) :
    (encodeTT2000 c h s t 0).1 = "31-Dec-9999 23:59:59.999999999".data ∧
    (encodeTT2000 c h s t 1).1 = "99991231.9999999999".data ∧
    (encodeTT2000 c h s t 2).1 = "99991231235959".data ∧
    (encodeTT2000 c h s t 3).1 = "9999-12-31T23:59:59.999999999".data ∧
    (encodeTT2000 c h s t 4).1 = "9999-12-31T23:59:59.999999999Z".data := by
  unfold encodeTT2000
  simp only [if_pos ht]
  refine ⟨?_, ?_, ?_, ?_, ?_⟩ <;> norm_num

theorem encodeTT2000_pad (c : Sentinels) (h : Host) (s : TTState)
    (hF : c.DEFAULT_TT2000_PADVALUE ≠ c.FILLED_TT2000_VALUE)
    (hI : c.DEFAULT_TT2000_PADVALUE ≠ c.ILLEGAL_TT2000_VALUE) :
    (encodeTT2000 c h s c.DEFAULT_TT2000_PADVALUE 0).1 = "01-JAN-0000 00:00:00.000000000".data ∧
    (encodeTT2000 c h s c.DEFAULT_TT2000_PADVALUE 1).1 = "00000101.0000000000".data ∧
    (encodeTT2000 c h s c.DEFAULT_TT2000_PADVALUE 2).1 = "00000101000000".data ∧
    (encodeTT2000 c h s c.DEFAULT_TT2000_PADVALUE 3).1 = "0000-01-01T00:00:00.000000000".data ∧
    (encodeTT2000 c h s c.DEFAULT_TT2000_PADVALUE 4).1
      = "0000-01-01T00:00:00.000000000Z".data := by
  unfold encodeTT2000
  have hn : ¬ (c.DEFAULT_TT2000_PADVALUE = c.FILLED_TT2000_VALUE ∨
      c.DEFAULT_TT2000_PADVALUE = c.ILLEGAL_TT2000_VALUE) := by
    rintro (h1 | h1)
    · exact hF h1
    · exact hI h1
  simp only [if_neg hn]
  refine ⟨?_, ?_, ?_, ?_, ?_⟩ <;> norm_num

set_option maxRecDepth 100000 in
theorem parseTT2000_fill (ig : List Char → List Char → Bool) (c : Sentinels) (h : Host)
    (s : TTState) (hDec : MonthNumber ig "Dec".data = 12) :
    parseTT2000 ig c h s "31-Dec-9999 23:59:59.999999999".data
      = some (c.FILLED_TT2000_VALUE, s) ∧
    parseTT2000 ig c h s "99991231.9999999999".data = some (c.FILLED_TT2000_VALUE, s) ∧
    parseTT2000 ig c h s "99991231235959".data = some (c.FILLED_TT2000_VALUE, s) ∧
    parseTT2000 ig c h s "9999-12-31T23:59:59.999999999".data
      = some (c.FILLED_TT2000_VALUE, s) ∧
    parseTT2000 ig c h s "9999-12-31T23:59:59.999999999Z".data
      = some (c.FILLED_TT2000_VALUE, s) := by
  refine ⟨?_, ?_, ?_, ?_, ?_⟩
  · have e1 : trimC "31-Dec-9999 23:59:59.999999999".data
        = some "31-Dec-9999 23:59:59.999999999".data := by decide!
    have e2 : ScanUTCstring "31-Dec-9999 23:59:59.999999999".data = some 0 := by decide!
    have e3 : sscanf fmtStyle0 "31-Dec-9999 23:59:59.999999999".data
        = [.int 31, .chr 'D', .chr 'e', .chr 'c', .int 9999, .int 23, .int 59, .int 59,
            .int 999999999] := by decide!
    have e4 : ("31-Dec-9999 23:59:59.999999999".data).length = TT2000_0_STRING_LEN := by
      decide!
    have hDec2 : MonthNumber ig ['D', 'e', 'c'] = 12 := hDec
    simp [parseTT2000, e1, e2, parseStyle0, e3, e4, hDec2, isFillDate]
  · have e1 : trimC "99991231.9999999999".data = some "99991231.9999999999".data := by decide!
    have e2 : ScanUTCstring "99991231.9999999999".data = some 1 := by decide!
    have e3 : sscanf fmtStyle1 "99991231.9999999999".data
        = [.int 9999, .int 12, .int 31, .int 9999999999] := by decide!
    simp [parseTT2000, e1, e2, parseStyle1, e3]
  · have e1 : trimC "99991231235959".data = some "99991231235959".data := by decide!
    have e2 : ScanUTCstring "99991231235959".data = some 2 := by decide!
    have e3 : sscanf fmtStyle2 "99991231235959".data
        = [.int 9999, .int 12, .int 31, .int 23, .int 59, .int 59] := by decide!
    simp [parseTT2000, e1, e2, parseStyle2, e3]
  · have e1 : trimC "9999-12-31T23:59:59.999999999".data
        = some "9999-12-31T23:59:59.999999999".data := by decide!
    have e2 : ScanUTCstring "9999-12-31T23:59:59.999999999".data = some 3 := by decide!
    have e3 : parseStyle3 c h s "9999-12-31T23:59:59.999999999".data
        = some (c.FILLED_TT2000_VALUE, s) := by
      rw [parseStyle3_of c h s _ 9999 12 31 'T' 23 59 59 999999999 "999999999".data
        (by decide!) (by decide!) (by decide!)]
      simp [isFillDate]
    simp [parseTT2000, e1, e2, e3]
  · have e1 : trimC "9999-12-31T23:59:59.999999999Z".data
        = some "9999-12-31T23:59:59.999999999Z".data := by decide!
    have e2 : ScanUTCstring "9999-12-31T23:59:59.999999999Z".data = some 4 := by decide!
    have e3 : parseStyle3 c h s "9999-12-31T23:59:59.999999999Z".data
        = some (c.FILLED_TT2000_VALUE, s) := by
      rw [parseStyle3_of c h s _ 9999 12 31 'T' 23 59 59 999999999 "999999999".data
        (by decide!) (by decide!) (by decide!)]
      simp [isFillDate]
    simp [parseTT2000, e1, e2, e3]

set_option maxRecDepth 100000 in
theorem parseTT2000_pad (ig : List Char → List Char → Bool) (c : Sentinels) (h : Host)
    (s : TTState) (hJan : MonthNumber ig "JAN".data = 1) :
    parseTT2000 ig c h s "01-JAN-0000 00:00:00.000000000".data
      = some (c.DEFAULT_TT2000_PADVALUE, s) ∧
    parseTT2000 ig c h s "00000101.0000000000".data = some (c.DEFAULT_TT2000_PADVALUE, s) ∧
    parseTT2000 ig c h s "00000101000000".data = some (c.DEFAULT_TT2000_PADVALUE, s) ∧
    parseTT2000 ig c h s "0000-01-01T00:00:00.000000000".data
      = some (c.DEFAULT_TT2000_PADVALUE, s) ∧
    parseTT2000 ig c h s "0000-01-01T00:00:00.000000000Z".data
      = some (c.DEFAULT_TT2000_PADVALUE, s) := by
  refine ⟨?_, ?_, ?_, ?_, ?_⟩
  · have e1 : trimC "01-JAN-0000 00:00:00.000000000".data
        = some "01-JAN-0000 00:00:00.000000000".data := by decide!
    have e2 : ScanUTCstring "01-JAN-0000 00:00:00.000000000".data = some 0 := by decide!
    have e3 : sscanf fmtStyle0 "01-JAN-0000 00:00:00.000000000".data
        = [.int 1, .chr 'J', .chr 'A', .chr 'N', .int 0, .int 0, .int 0, .int 0,
            .int 0] := by decide!
    have e4 : ("01-JAN-0000 00:00:00.000000000".data).length = TT2000_0_STRING_LEN := by
      decide!
    have hJan2 : MonthNumber ig ['J', 'A', 'N'] = 1 := hJan
    simp [parseTT2000, e1, e2, parseStyle0, e3, e4, hJan2, isFillDate, isPadDate]
  · have e1 : trimC "00000101.0000000000".data = some "00000101.0000000000".data := by decide!
    have e2 : ScanUTCstring "00000101.0000000000".data = some 1 := by decide!
    have e3 : sscanf fmtStyle1 "00000101.0000000000".data
        = [.int 0, .int 1, .int 1, .int 0] := by decide!
    simp [parseTT2000, e1, e2, parseStyle1, e3]
  · have e1 : trimC "00000101000000".data = some "00000101000000".data := by decide!
    have e2 : ScanUTCstring "00000101000000".data = some 2 := by decide!
    have e3 : sscanf fmtStyle2 "00000101000000".data
        = [.int 0, .int 1, .int 1, .int 0, .int 0, .int 0] := by decide!
    simp [parseTT2000, e1, e2, parseStyle2, e3]
  · have e1 : trimC "0000-01-01T00:00:00.000000000".data
        = some "0000-01-01T00:00:00.000000000".data := by decide!
    have e2 : ScanUTCstring "0000-01-01T00:00:00.000000000".data = some 3 := by decide!
    have e3 : parseStyle3 c h s "0000-01-01T00:00:00.000000000".data
        = some (c.DEFAULT_TT2000_PADVALUE, s) := by
      rw [parseStyle3_of c h s _ 0 1 1 'T' 0 0 0 0 "000000000".data
        (by decide!) (by decide!) (by decide!)]
      simp [isFillDate, isPadDate]
    simp [parseTT2000, e1, e2, e3]
  · have e1 : trimC "0000-01-01T00:00:00.000000000Z".data
        = some "0000-01-01T00:00:00.000000000Z".data := by decide!
    have e2 : ScanUTCstring "0000-01-01T00:00:00.000000000Z".data = some 4 := by decide!
    have e3 : parseStyle3 c h s "0000-01-01T00:00:00.000000000Z".data
        = some (c.DEFAULT_TT2000_PADVALUE, s) := by
      rw [parseStyle3_of c h s _ 0 1 1 'T' 0 0 0 0 "000000000".data
        (by decide!) (by decide!) (by decide!)]
      simp [isFillDate, isPadDate]
    simp [parseTT2000, e1, e2, e3]

/-- Claim C15.  Sentinel strings for TT2000.  With the three reserved values distinct,
`encodeTT2000` of `FILLED_TT2000_VALUE` or of `ILLEGAL_TT2000_VALUE` writes, in styles 0 to 4,
`31-Dec-9999 23:59:59.999999999`, `99991231.9999999999`, `99991231235959`,
`9999-12-31T23:59:59.999999999`, `9999-12-31T23:59:59.999999999Z`; of
`DEFAULT_TT2000_PADVALUE` it writes `01-JAN-0000 00:00:00.000000000`, `00000101.0000000000`,
`00000101000000`, `0000-01-01T00:00:00.000000000`, `0000-01-01T00:00:00.000000000Z`; and
`parseTT2000` returns `FILLED_TT2000_VALUE` for each of the first five strings and
`DEFAULT_TT2000_PADVALUE` for each of the last five, in every state and leaving it unchanged.
The month comparison `StrStrIgCaseX`, which is not part of the file, is assumed to make
`MonthNumber` answer 12 for `Dec` and 1 for `JAN`. -/
theorem C15_sentinel_strings (ig : List Char → List Char → Bool) (c : Sentinels) (h : Host)
    (s : TTState) (t : Int)
    (hDec : MonthNumber ig "Dec".data = 12) (hJan : MonthNumber ig "JAN".data = 1)
    (hPF : c.DEFAULT_TT2000_PADVALUE ≠ c.FILLED_TT2000_VALUE)
    (hPI : c.DEFAULT_TT2000_PADVALUE ≠ c.ILLEGAL_TT2000_VALUE)
    (ht : t = c.FILLED_TT2000_VALUE ∨ t = c.ILLEGAL_TT2000_VALUE) :
    ((encodeTT2000 c h s t 0).1 = "31-Dec-9999 23:59:59.999999999".data ∧
      (encodeTT2000 c h s t 1).1 = "99991231.9999999999".data ∧
      (encodeTT2000 c h s t 2).1 = "99991231235959".data ∧
      (encodeTT2000 c h s t 3).1 = "9999-12-31T23:59:59.999999999".data ∧
      (encodeTT2000 c h s t 4).1 = "9999-12-31T23:59:59.999999999Z".data) ∧
    ((encodeTT2000 c h s c.DEFAULT_TT2000_PADVALUE 0).1
        = "01-JAN-0000 00:00:00.000000000".data ∧
      (encodeTT2000 c h s c.DEFAULT_TT2000_PADVALUE 1).1 = "00000101.0000000000".data ∧
      (encodeTT2000 c h s c.DEFAULT_TT2000_PADVALUE 2).1 = "00000101000000".data ∧
      (encodeTT2000 c h s c.DEFAULT_TT2000_PADVALUE 3).1
        = "0000-01-01T00:00:00.000000000".data ∧
      (encodeTT2000 c h s c.DEFAULT_TT2000_PADVALUE 4).1
        = "0000-01-01T00:00:00.000000000Z".data) ∧
    (parseTT2000 ig c h s "31-Dec-9999 23:59:59.999999999".data
        = some (c.FILLED_TT2000_VALUE, s) ∧
      parseTT2000 ig c h s "99991231.9999999999".data = some (c.FILLED_TT2000_VALUE, s) ∧
      parseTT2000 ig c h s "99991231235959".data = some (c.FILLED_TT2000_VALUE, s) ∧
      parseTT2000 ig c h s "9999-12-31T23:59:59.999999999".data
        = some (c.FILLED_TT2000_VALUE, s) ∧
      parseTT2000 ig c h s "9999-12-31T23:59:59.999999999Z".data
        = some (c.FILLED_TT2000_VALUE, s)) ∧
    (parseTT2000 ig c h s "01-JAN-0000 00:00:00.000000000".data
        = some (c.DEFAULT_TT2000_PADVALUE, s) ∧
      parseTT2000 ig c h s "00000101.0000000000".data
        = some (c.DEFAULT_TT2000_PADVALUE, s) ∧
      parseTT2000 ig c h s "00000101000000".data = some (c.DEFAULT_TT2000_PADVALUE, s) ∧
      parseTT2000 ig c h s "0000-01-01T00:00:00.000000000".data
        = some (c.DEFAULT_TT2000_PADVALUE, s) ∧
      parseTT2000 ig c h s "0000-01-01T00:00:00.000000000Z".data
        = some (c.DEFAULT_TT2000_PADVALUE, s)) :=
  ⟨encodeTT2000_fill c h s t ht, encodeTT2000_pad c h s hPF hPI,
    parseTT2000_fill ig c h s hDec, parseTT2000_pad ig c h s hJan⟩

theorem C15_sentinel_strings_witness :
    (MonthNumber igCase "Dec".data = 12 ∧ MonthNumber igCase "JAN".data = 1 ∧
      cdfSentinels.DEFAULT_TT2000_PADVALUE ≠ cdfSentinels.FILLED_TT2000_VALUE ∧
      cdfSentinels.DEFAULT_TT2000_PADVALUE ≠ cdfSentinels.ILLEGAL_TT2000_VALUE ∧
      (cdfSentinels.ILLEGAL_TT2000_VALUE = cdfSentinels.FILLED_TT2000_VALUE ∨
        cdfSentinels.ILLEGAL_TT2000_VALUE = cdfSentinels.ILLEGAL_TT2000_VALUE)) ∧
    (encodeTT2000 cdfSentinels Host.plain builtinState cdfSentinels.ILLEGAL_TT2000_VALUE 1).1
      = "99991231.9999999999".data ∧
    parseTT2000 igCase cdfSentinels Host.plain builtinState
      "01-JAN-0000 00:00:00.000000000".data
      = some (cdfSentinels.DEFAULT_TT2000_PADVALUE, builtinState) :=
  ⟨⟨by decide, by decide, by decide, by decide, Or.inr rfl⟩,
    (C15_sentinel_strings igCase cdfSentinels Host.plain builtinState
      cdfSentinels.ILLEGAL_TT2000_VALUE (by decide) (by decide) (by decide) (by decide)
      (Or.inr rfl)).1.2.1,
    (C15_sentinel_strings igCase cdfSentinels Host.plain builtinState
      cdfSentinels.ILLEGAL_TT2000_VALUE (by decide) (by decide) (by decide) (by decide)
      (Or.inr rfl)).2.2.2.1⟩

theorem sscanf_isoHead (y m d hh mn ss : Int) (rest : List Char)
    (hy : 0 ≤ y ∧ y < 10000) (hm : 0 ≤ m ∧ m < 100) (hd : 0 ≤ d ∧ d < 100)
    (h1 : 0 ≤ hh ∧ hh < 100) (h2 : 0 ≤ mn ∧ mn < 100) (h3 : 0 ≤ ss ∧ ss < 100) :
    sscanf fmtStyle3 (isoHead y m d hh mn ss ++ rest)
      = [.int y, .int m, .int d, .chr 'T', .int hh, .int mn, .int ss] := by
  unfold fmtStyle3 isoHead
  simp only [List.cons_append, List.nil_append, sscanf, scanInt_four y hy.1 hy.2,
    scanInt_two m hm.1 hm.2, scanInt_two d hd.1 hd.2, scanInt_two hh h1.1 h1.2,
    scanInt_two mn h2.1 h2.2, scanInt_two ss h3.1 h3.2, if_true]

theorem isDigitC_not_skip (ch : Char) (h : isDigitC ch = true) : skipC ch = false := by
  unfold skipC isprintC
  rw [isDigitC_not_space ch h]
  unfold isDigitC at h
  simp only [Bool.and_eq_true, decide_eq_true_eq] at h
  simp only [Bool.false_or, Bool.not_eq_false', Bool.and_eq_true, decide_eq_true_eq]
  omega

theorem isDigitC_ne_hi (ch x : Char) (h : isDigitC ch = true) (hx : 57 < x.toNat) : ch ≠ x := by
  unfold isDigitC at h
  simp only [Bool.and_eq_true, decide_eq_true_eq] at h
  intro e
  rw [e] at h
  omega

theorem digitsValue_append_zeros (ds : List Char) (n : Nat) :
    digitsValue (ds ++ List.replicate n '0') = digitsValue ds * 10 ^ n := by
  unfold digitsValue
  rw [List.foldl_append]
  generalize List.foldl (fun a ch => 10 * a + (ch.toNat - 48)) 0 ds = v
  induction n generalizing v with
  | zero => simp
  | succ n ih =>
    rw [List.replicate_succ, List.foldl_cons, ih]
    have : ('0' : Char).toNat - 48 = 0 := by decide
    rw [this, pow_succ]
    ring

/-- `parseTT2000` on `yyyy-mm-ddThh:mm:ss.f` with 1 to 9 fraction digits `f`, with or without
`Z`: the fields go through the ISO branch with the fraction `f` extended by zeros. -/
theorem parseTT2000_isoTail (ig : List Char → List Char → Bool) (c : Sentinels) (h : Host)
    (s : TTState) (y m d hh mn ss : Int) (f z : List Char)
    (hf : ∀ ch ∈ f, isDigitC ch = true) (hk1 : 1 ≤ f.length) (hk9 : f.length ≤ 9)
    (hz : z = [] ∨ z = ['Z']) :
    parseTT2000 ig c h s (isoHead y m d hh mn ss ++ '.' :: (f ++ z))
      = parseStyle3 c h s (isoHead y m d hh mn ss ++ '.' :: (f ++ z)) ∧
    isoFraction (isoHead y m d hh mn ss ++ '.' :: (f ++ z))
      = some (f ++ List.replicate (9 - f.length) '0') := by
  have hne : f ≠ [] := by
    intro e; rw [e] at hk1; simp at hk1
  obtain ⟨g, l, rfl⟩ : ∃ g l, f = g ++ [l] :=
    ⟨f.dropLast, f.getLast hne, (List.dropLast_append_getLast hne).symm⟩
  have hl : isDigitC l = true := hf l (by simp)
  have hlZ : l ≠ 'Z' := isDigitC_ne_hi l 'Z' hl (by decide)
  have hlS : skipC l = false := isDigitC_not_skip l hl
  have h11 : dig hh 1 ≠ ' ' := dig_ne hh 1 ' ' (Or.inl (by decide))
  generalize hstr : isoHead y m d hh mn ss ++ '.' :: ((g ++ [l]) ++ z) = str
  have hlen : str.length = 20 + (g ++ [l]).length + z.length := by
    rw [← hstr]; simp [isoHead]; omega
  have hsne : str ≠ [] := by rw [← hstr]; simp [isoHead]
  have hhead : str.head hsne = dig y 3 := by subst hstr; rfl
  have hc10 : chAt str 10 = some 'T' := by
    unfold chAt
    rw [if_pos (by omega)]
    subst hstr; rfl
  have hc11 : chAt str 11 = some (dig hh 1) := by
    unfold chAt
    rw [if_pos (by omega)]
    subst hstr; rfl
  have hlast : str.getLast? = some (if z = [] then l else 'Z') := by
    rcases hz with hz | hz
    · subst hz hstr
      rw [List.append_nil, if_pos rfl, ← List.cons_append, ← List.append_assoc,
        List.getLast?_append]
      simp
    · subst hz hstr
      rw [if_neg (by simp), ← List.cons_append, ← List.append_assoc, List.getLast?_append]
      simp
  have hlastc : (if str.length = 0 then none else chAt str (str.length - 1))
      = some (if z = [] then l else 'Z') := by
    rw [if_neg (by omega)]
    unfold chAt
    rw [if_pos (by omega), ← hlast, List.getLast?_eq_getElem?, List.get?_eq_getElem?]
  have hdrop : str.drop 20 = (g ++ [l]) ++ z := by subst hstr; rfl
  have hdot : '.' ∈ str := by subst hstr; simp
  have e1 : trimC str = some str := by
    apply trimC_id str hsne
    · rw [hhead]; exact dig_not_skip _ _
    · have : str.getLast hsne = (if z = [] then l else 'Z') := by
        have := List.getLast?_eq_getLast str hsne
        rw [hlast] at this
        exact (Option.some.inj this).symm
      rw [this]
      rcases hz with hz | hz
      · rw [if_pos hz]; exact hlS
      · rw [if_neg (by rw [hz]; simp)]; decide
  have e2 : ScanUTCstring str = some 3 ∨ ScanUTCstring str = some 4 := by
    unfold ScanUTCstring
    simp only [hlastc, hc10, hc11]
    generalize hk : (g ++ [l]).length = k at hlen hk1 hk9
    rcases hz with hz | hz
    · subst hz
      left
      simp only [List.length_nil, Nat.add_zero] at hlen
      interval_cases k <;> simp [hlen, TT2000_3_STRING_LEN, hlZ]
    · subst hz
      simp only [List.length_singleton] at hlen
      interval_cases k <;>
        simp [hlen, TT2000_3_STRING_LEN, TT2000_0_STRING_LEN, TT2000_4_STRING_LEN, h11]
  constructor
  · unfold parseTT2000
    rw [e1]
    rcases e2 with e2 | e2 <;> simp [e2]
  · unfold isoFraction
    rw [if_pos hdot, hlast, hdrop, hlen]
    have hk : (if some (if z = [] then l else 'Z') = some 'Z'
        then ((20 + (g ++ [l]).length + z.length : Nat) : Int) - 20 - 1
        else ((20 + (g ++ [l]).length + z.length : Nat) : Int) - 20)
          = (((g ++ [l]).length : Nat) : Int) := by
      rcases hz with hz | hz
      · subst hz
        simp only [if_true, Option.some.injEq, hlZ, if_false, List.length_nil]
        omega
      · subst hz
        simp only [List.cons_ne_nil, if_false, if_true, List.length_singleton]
        omega
    rw [hk, if_neg (by omega), Int.toNat_ofNat, List.take_left' rfl, List.drop_replicate,
      List.take_of_length_le]
    simp only [List.length_append, List.length_singleton, List.length_replicate] at hk9 ⊢
    omega

theorem splitNanos_zero : splitNanos 0 = (0, 0, 0) := by decide

/-- The value `parseTT2000` returns for `yyyy-mm-ddThh:mm:ss.f` (1 to 9 fraction digits, with
or without `Z`) of a date `ValidateYMD` accepts: the fraction counts `f` followed by zeros up
to nine digits. -/
theorem parseTT2000_isoTail_value (ig : List Char → List Char → Bool) (c : Sentinels)
    (h : Host) (s : TTState) (y m d hh mn ss : Int) (f z : List Char)
    (hy : 1 ≤ y ∧ y < 9999) (hm : 0 ≤ m ∧ m < 100) (hd : 0 ≤ d ∧ d < 100)
    (h1 : 0 ≤ hh ∧ hh < 100) (h2 : 0 ≤ mn ∧ mn < 100) (h3 : 0 ≤ ss ∧ ss < 100)
    (hv : ValidateYMD y m d = 1)
    (hf : ∀ ch ∈ f, isDigitC ch = true) (hk1 : 1 ≤ f.length) (hk9 : f.length ≤ 9)
    (hz : z = [] ∨ z = ['Z']) :
    parseTT2000 ig c h s (isoHead y m d hh mn ss ++ '.' :: (f ++ z))
      = some (computeTT2000I c h s y m d hh mn ss
          (splitNanos ((digitsValue f * 10 ^ (9 - f.length) : Nat) : Int)).1
          (splitNanos ((digitsValue f * 10 ^ (9 - f.length) : Nat) : Int)).2.1
          (splitNanos ((digitsValue f * 10 ^ (9 - f.length) : Nat) : Int)).2.2) := by
  obtain ⟨e1, e2⟩ := parseTT2000_isoTail ig c h s y m d hh mn ss f z hf hk1 hk9 hz
  have a1 := sscanf_isoHead y m d hh mn ss ('.' :: (f ++ z)) ⟨by omega, by omega⟩ hm hd h1 h2 h3
  have a3 : sscanf [.ld 0] (f ++ List.replicate (9 - f.length) '0')
      = [.int ((digitsValue f * 10 ^ (9 - f.length) : Nat) : Int)] := by
    have hne : f ++ List.replicate (9 - f.length) '0' ≠ [] := by
      intro e
      have := congrArg List.length e
      simp only [List.length_append, List.length_replicate, List.length_nil] at this
      omega
    have hall : ∀ ch ∈ f ++ List.replicate (9 - f.length) '0', isDigitC ch = true := by
      intro ch hch
      rcases List.mem_append.mp hch with hch | hch
      · exact hf ch hch
      · rw [(List.mem_replicate.mp hch).2]; decide
    have := scanInt_block _ [] 0 hne hall (Or.inr ⟨rfl, rfl⟩)
    rw [List.append_nil, digitsValue_append_zeros] at this
    simp only [sscanf, this]
  rw [e1, parseStyle3_of c h s _ y m d 'T' hh mn ss _ _ a1 e2 a3]
  have hfill : isFillDate y m d hh mn ss ((digitsValue f * 10 ^ (9 - f.length) : Nat) : Int)
      = false := by
    unfold isFillDate
    apply decide_eq_false
    omega
  have hpad : isPadDate y m d hh mn ss ((digitsValue f * 10 ^ (9 - f.length) : Nat) : Int)
      = false := by
    unfold isPadDate
    apply decide_eq_false
    omega
  have hfin : ∀ a b e : Int, parseFinish c h s y m d hh mn ss a b e
      = computeTT2000I c h s y m d hh mn ss a b e := by
    intro a b e
    unfold parseFinish
    rw [hv]
    simp
  rw [hfill, hpad, hfin]
  by_cases h0 : ((digitsValue f * 10 ^ (9 - f.length) : Nat) : Int) = 0
  · rw [if_pos h0, h0, splitNanos_zero]
    simp
  · rw [if_neg h0]
    simp

/-- The value `parseTT2000` returns for `yyyy-mm-ddThh:mm:ss` without a fraction. -/
theorem parseTT2000_isoHead (ig : List Char → List Char → Bool) (c : Sentinels)
    (h : Host) (s : TTState) (y m d hh mn ss : Int)
    (hy : 1 ≤ y ∧ y < 9999) (hm : 0 ≤ m ∧ m < 100) (hd : 0 ≤ d ∧ d < 100)
    (h1 : 0 ≤ hh ∧ hh < 100) (h2 : 0 ≤ mn ∧ mn < 100) (h3 : 0 ≤ ss ∧ ss < 100)
    (hv : ValidateYMD y m d = 1) :
    parseTT2000 ig c h s (isoHead y m d hh mn ss)
      = some (computeTT2000I c h s y m d hh mn ss 0 0 0) := by
  have a1 := sscanf_isoHead y m d hh mn ss [] ⟨by omega, by omega⟩ hm hd h1 h2 h3
  rw [List.append_nil] at a1
  have hne : isoHead y m d hh mn ss ≠ [] := by simp [isoHead]
  have hZ : dig ss 0 ≠ 'Z' := dig_ne ss 0 'Z' (Or.inr (by decide))
  have e1 : trimC (isoHead y m d hh mn ss) = some (isoHead y m d hh mn ss) := by
    apply trimC_id _ hne
    · have : (isoHead y m d hh mn ss).head hne = dig y 3 := rfl
      rw [this]; exact dig_not_skip _ _
    · have : (isoHead y m d hh mn ss).getLast hne = dig ss 0 := rfl
      rw [this]; exact dig_not_skip _ _
  have hlen : (isoHead y m d hh mn ss).length = 19 := rfl
  have hc10 : chAt (isoHead y m d hh mn ss) 10 = some 'T' := by
    unfold chAt; rw [hlen, if_pos (by decide)]; rfl
  have hlast : chAt (isoHead y m d hh mn ss) 18 = some (dig ss 0) := by
    unfold chAt; rw [hlen, if_pos (by decide)]; rfl
  have e2 : ScanUTCstring (isoHead y m d hh mn ss) = some 3 := by
    unfold ScanUTCstring
    simp [hlen, TT2000_3_STRING_LEN, hc10, hlast, hZ]
  have hdot : '.' ∉ isoHead y m d hh mn ss := by
    have hd : ∀ n k, ¬ ('.' = dig n k) := fun n k e =>
      dig_ne n k '.' (Or.inl (by decide)) e.symm
    simp [isoHead, hd]
  have a2 : isoFraction (isoHead y m d hh mn ss) = some (List.replicate 9 '0') := by
    unfold isoFraction
    rw [if_neg hdot]
  have a3 : sscanf [.ld 0] (List.replicate 9 '0') = [.int 0] := by decide
  unfold parseTT2000
  rw [e1]
  simp only [Option.some_bind, e2]
  rw [if_neg (by decide), if_neg (by decide), if_neg (by decide), if_pos (by decide),
    parseStyle3_of c h s _ y m d 'T' hh mn ss _ _ a1 a2 a3]
  have hfill : isFillDate y m d hh mn ss 0 = false := by
    unfold isFillDate
    apply decide_eq_false
    omega
  have hpad : isPadDate y m d hh mn ss 0 = false := by
    unfold isPadDate
    apply decide_eq_false
    omega
  rw [hfill, hpad]
  unfold parseFinish
  rw [hv]
  simp

/-- Claim C18.  Truncated fractional digits are zero-extended on the right.  For every ISO
string `yyyy-mm-ddThh:mm:ss.f` of a date `ValidateYMD` accepts, with a fraction `f` of 1 to 8
decimal digits, with or without a trailing `Z`, `parseTT2000` returns the same value (and
state) as for the string whose fraction is `f` followed by zeros up to nine digits, namely
`computeTT2000` of the six fields and the milli-, micro- and nanoseconds of the number
`f * 10 ^ (9 - length f)`; and the string without a fraction, `yyyy-mm-ddThh:mm:ss`, gives
`computeTT2000` of the six fields with fraction 0. -/
theorem C18_truncated_fraction_zero_extended (ig : List Char → List Char → Bool)
    (c : Sentinels) (h : Host) (s : TTState) (y m d hh mn ss : Int) (f z : List Char)
    (hy : 1 ≤ y ∧ y < 9999) (hm : 0 ≤ m ∧ m < 100) (hd : 0 ≤ d ∧ d < 100)
    (h1 : 0 ≤ hh ∧ hh < 100) (h2 : 0 ≤ mn ∧ mn < 100) (h3 : 0 ≤ ss ∧ ss < 100)
    (hv : ValidateYMD y m d = 1)
    (hf : ∀ ch ∈ f, isDigitC ch = true) (hk1 : 1 ≤ f.length) (hk8 : f.length ≤ 8)
    (hz : z = [] ∨ z = ['Z']) :
    parseTT2000 ig c h s (isoHead y m d hh mn ss ++ '.' :: (f ++ z))
      = parseTT2000 ig c h s
          (isoHead y m d hh mn ss ++ '.' :: ((f ++ List.replicate (9 - f.length) '0') ++ z)) ∧
    parseTT2000 ig c h s (isoHead y m d hh mn ss ++ '.' :: (f ++ z))
      = some (computeTT2000I c h s y m d hh mn ss
          (splitNanos ((digitsValue f * 10 ^ (9 - f.length) : Nat) : Int)).1
          (splitNanos ((digitsValue f * 10 ^ (9 - f.length) : Nat) : Int)).2.1
          (splitNanos ((digitsValue f * 10 ^ (9 - f.length) : Nat) : Int)).2.2) ∧
    parseTT2000 ig c h s (isoHead y m d hh mn ss)
      = some (computeTT2000I c h s y m d hh mn ss 0 0 0) := by
  have p1 := parseTT2000_isoTail_value ig c h s y m d hh mn ss f z hy hm hd h1 h2 h3 hv hf hk1
    (by omega) hz
  have hlen : (f ++ List.replicate (9 - f.length) '0').length = 9 := by
    simp only [List.length_append, List.length_replicate]
    omega
  have hall : ∀ ch ∈ f ++ List.replicate (9 - f.length) '0', isDigitC ch = true := by
    intro ch hch
    rcases List.mem_append.mp hch with hch | hch
    · exact hf ch hch
    · rw [(List.mem_replicate.mp hch).2]; decide
  have p2 := parseTT2000_isoTail_value ig c h s y m d hh mn ss
    (f ++ List.replicate (9 - f.length) '0') z hy hm hd h1 h2 h3 hv hall (by omega) (by omega) hz
  rw [hlen, digitsValue_append_zeros] at p2
  simp only [Nat.sub_self, pow_zero, Nat.mul_one] at p2
  exact ⟨p1.trans p2.symm, p1, parseTT2000_isoHead ig c h s y m d hh mn ss hy hm hd h1 h2 h3 hv⟩

set_option maxRecDepth 100000 in
theorem C18_truncated_fraction_zero_extended_witness :
    (((1 : Int) ≤ 2000 ∧ (2000 : Int) < 9999) ∧ ((0 : Int) ≤ 1 ∧ (1 : Int) < 100) ∧
      ((0 : Int) ≤ 0 ∧ (0 : Int) < 100) ∧ ValidateYMD 2000 1 1 = 1 ∧
      (∀ ch ∈ ['5'], isDigitC ch = true) ∧ 1 ≤ ['5'].length ∧ ['5'].length ≤ 8 ∧
      isoHead 2000 1 1 0 0 0 ++ '.' :: (['5'] ++ []) = "2000-01-01T00:00:00.5".data ∧
      splitNanos ((digitsValue ['5'] * 10 ^ (9 - ['5'].length) : Nat) : Int) = (500, 0, 0)) ∧
    (parseTT2000 igCase cdfSentinels Host.plain builtinState
        (isoHead 2000 1 1 0 0 0 ++ '.' :: (['5'] ++ []))
      = parseTT2000 igCase cdfSentinels Host.plain builtinState
          (isoHead 2000 1 1 0 0 0 ++ '.' :: ((['5'] ++ List.replicate (9 - ['5'].length) '0')
            ++ [])) ∧
    parseTT2000 igCase cdfSentinels Host.plain builtinState
        (isoHead 2000 1 1 0 0 0 ++ '.' :: (['5'] ++ []))
      = some (computeTT2000I cdfSentinels Host.plain builtinState 2000 1 1 0 0 0
          (splitNanos ((digitsValue ['5'] * 10 ^ (9 - ['5'].length) : Nat) : Int)).1
          (splitNanos ((digitsValue ['5'] * 10 ^ (9 - ['5'].length) : Nat) : Int)).2.1
          (splitNanos ((digitsValue ['5'] * 10 ^ (9 - ['5'].length) : Nat) : Int)).2.2) ∧
    parseTT2000 igCase cdfSentinels Host.plain builtinState (isoHead 2000 1 1 0 0 0)
      = some (computeTT2000I cdfSentinels Host.plain builtinState 2000 1 1 0 0 0 0 0 0)) :=
  ⟨⟨by decide, by decide, by decide, by decide!, by decide, by decide, by decide, by decide!,
      by decide!⟩,
    C18_truncated_fraction_zero_extended igCase cdfSentinels Host.plain builtinState
      2000 1 1 0 0 0 ['5'] [] (by decide) (by decide) (by decide) (by decide) (by decide)
      (by decide) (by decide!) (by decide) (by decide) (by decide) (Or.inl rfl)⟩

set_option maxRecDepth 100000 in
theorem rowsBoundOK_true : rowsBoundOK = true := by decide!

theorem rows_bound (i : Nat) (hi : i < 42) :
    (ltsRowAt i).c3.raw.natAbs ≤ 2 ^ 6 * 2 ^ 1074 ∧
    (ltsRowAt i).c4.raw.natAbs ≤ 2 ^ 16 * 2 ^ 1074 ∧
    (ltsRowAt i).c5.raw.natAbs ≤ 2 ^ 1066 := by
  have h := rowsBoundOK_true
  unfold rowsBoundOK at h
  rw [List.all_eq_true] at h
  have := h i (by rw [List.mem_range]; exact hi)
  simp only [Bool.and_eq_true, decide_eq_true_eq] at this
  exact ⟨this.1.1, this.1.2, this.2⟩

/-- Magnitude of a rounding: a representable bound of the exact quotient bounds the rounded
one. -/
theorem flZ_abs_le (n : Int) (d H : Nat) (hd : 0 < d) (hH : Rep H) (hbig : H < 2 ^ 8192)
    (h : n.natAbs ≤ H * d) : (flZ n d).natAbs ≤ H := by
  have key : ∀ k : Int, 0 ≤ k → k.natAbs ≤ H * d → 0 ≤ flZ k d ∧ flZ k d ≤ (H : Int) := by
    intro k hk hb
    have hkn : k.toNat ≤ H * d := by omega
    refine ⟨flZ_nonneg k d hk, flZ_le k d H hk hd ?_ hH ?_⟩
    · have : k.toNat / d ≤ H := by
        calc k.toNat / d ≤ H * d / d := Nat.div_le_div_right hkn
          _ = H := Nat.mul_div_cancel _ hd
      omega
    · have : ((k.toNat : Nat) : Int) ≤ ((H * d : Nat) : Int) := by exact_mod_cast hkn
      rw [Int.toNat_of_nonneg hk] at this
      push_cast at this
      exact this
  rcases le_or_lt 0 n with hn | hn
  · obtain ⟨a, b⟩ := key n hn h
    omega
  · have hb : (-n).natAbs ≤ H * d := by rw [Int.natAbs_neg]; exact h
    obtain ⟨a, b⟩ := key (-n) (by omega) hb
    rw [flZ_neg] at a b
    omega

theorem pow_lt_big (m j : Nat) (hm : m ≤ 2 ^ 53) (hj : j ≤ 1100) : m * 2 ^ j < 2 ^ 8192 := by
  calc m * 2 ^ j ≤ 2 ^ 53 * 2 ^ j := Nat.mul_le_mul_right _ hm
    _ < 2 ^ 8192 := two_pow_mul_lt 53 j 8192 (by omega)

theorem Dbl.add_abs_le (a b : Dbl) (m j : Nat) (hm : m ≤ 2 ^ 53) (hj : j ≤ 1100)
    (h : a.raw.natAbs + b.raw.natAbs ≤ m * 2 ^ j) : (Dbl.add a b).raw.natAbs ≤ m * 2 ^ j := by
  unfold Dbl.add
  apply flZ_abs_le _ 1 _ (by decide) ⟨m, j, hm, rfl⟩ (pow_lt_big m j hm hj)
  rw [Nat.mul_one]
  exact le_trans (Int.natAbs_add_le _ _) h

theorem Dbl.sub_abs_le (a b : Dbl) (m j : Nat) (hm : m ≤ 2 ^ 53) (hj : j ≤ 1100)
    (h : a.raw.natAbs + b.raw.natAbs ≤ m * 2 ^ j) : (Dbl.sub a b).raw.natAbs ≤ m * 2 ^ j := by
  unfold Dbl.sub
  apply flZ_abs_le _ 1 _ (by decide) ⟨m, j, hm, rfl⟩ (pow_lt_big m j hm hj)
  rw [Nat.mul_one]
  exact le_trans (Int.natAbs_sub_le _ _) h

theorem Dbl.mul_abs_le (a b : Dbl) (m j : Nat) (hm : m ≤ 2 ^ 53) (hj : j ≤ 1100)
    (h : a.raw.natAbs * b.raw.natAbs ≤ m * 2 ^ j * 2 ^ 1074) :
    (Dbl.mul a b).raw.natAbs ≤ m * 2 ^ j := by
  unfold Dbl.mul
  apply flZ_abs_le _ SC _ SC_pos ⟨m, j, hm, rfl⟩ (pow_lt_big m j hm hj)
  rw [Int.natAbs_mul, SC_eq]
  exact h

theorem Dbl.toInt_abs_le (a : Dbl) (B : Nat) (h : a.raw.natAbs ≤ B * 2 ^ 1074) :
    (Dbl.toInt a).natAbs ≤ B := by
  unfold Dbl.toInt
  rw [Int.natAbs_tdiv]
  show a.raw.natAbs / (SC : Int).natAbs ≤ B
  rw [Int.natAbs_ofNat, SC_eq]
  calc a.raw.natAbs / 2 ^ 1074 ≤ B * 2 ^ 1074 / 2 ^ 1074 := Nat.div_le_div_right h
    _ = B := Nat.mul_div_cancel _ (by positivity)

theorem ymdIndex_range (s : TTState) (m : Int) :
    ∀ k : Nat, ymdIndex s m k = -1 ∨ (0 ≤ ymdIndex s m k ∧ ymdIndex s m k < k) := by
  intro k
  induction k with
  | zero => left; rfl
  | succ k ih =>
    unfold ymdIndex
    simp only []
    split
    · right; constructor <;> push_cast <;> omega
    · rcases ih with h | h
      · left; exact h
      · right; constructor
        · exact h.1
        · push_cast; omega

set_option maxRecDepth 100000 in
theorem MJDbase_abs : MJDbase.raw.natAbs ≤ 2 ^ 22 * 2 ^ 1074 := by decide!

theorem pow1074 : (2 : Nat) ^ 1074 = 256 * 2 ^ 1066 := by
  rw [show (1074 : Nat) = 8 + 1066 from rfl, pow_add]
  norm_num

/-- With the built-in table in place `LeapSecondsfromYMD` leaves the state as it is, and the
leap seconds it returns, whatever the row, amount to less than `3.31 * 10^13` nanoseconds in
magnitude (a coarse bound: below 33088 seconds). -/
theorem LeapSecondsfromYMD_bound (h : Host) (s : TTState) (hL : s.LTD = .live LTS)
    (hE : s.entryCnt = NDAT) (y m d : Int) (hJ : (JulianDay12hL y m d).natAbs ≤ 2 ^ 22) :
    (LeapSecondsfromYMD h s y m d).2 = s ∧
    (Dbl.toInt (Dbl.mul (LeapSecondsfromYMD h s y m d).1
      (Dbl.ofInt SECinNanoSecs))).natAbs ≤ 33088000000000 := by
  have hnull : s.LTD.isNull = false := by rw [hL]; rfl
  have hcnt : s.entryCnt.toNat = 42 := by rw [hE]; decide
  have e9 : (Dbl.ofInt SECinNanoSecs).raw.natAbs = 1000000000 * 2 ^ 1074 := by
    unfold SECinNanoSecs
    rw [Dbl.ofInt_raw _ (by decide), Int.natAbs_mul, Int.natAbs_ofNat, SC_eq]
    congr 1
  have fin : ∀ x : Dbl, x.raw.natAbs ≤ 8470528 * 2 ^ 1066 →
      (Dbl.toInt (Dbl.mul x (Dbl.ofInt SECinNanoSecs))).natAbs ≤ 33088000000000 := by
    intro x hx
    apply Dbl.toInt_abs_le
    have := Dbl.mul_abs_le x (Dbl.ofInt SECinNanoSecs) 8470528000000000 1066 (by norm_num)
      (by norm_num) (by
        rw [e9]
        calc x.raw.natAbs * (1000000000 * 2 ^ 1074)
            ≤ 8470528 * 2 ^ 1066 * (1000000000 * 2 ^ 1074) := Nat.mul_le_mul_right _ hx
          _ = 8470528000000000 * 2 ^ 1066 * 2 ^ 1074 := by ring)
    calc (Dbl.mul x (Dbl.ofInt SECinNanoSecs)).raw.natAbs
        ≤ 8470528000000000 * 2 ^ 1066 := this
      _ = 33088000000000 * 2 ^ 1074 := by rw [pow1074]; ring
  unfold LeapSecondsfromYMD
  simp only [hnull, Bool.false_eq_true, if_false, hcnt]
  rcases ymdIndex_range s (12 * y + m) 42 with hj | ⟨hj0, hj1⟩
  · rw [if_pos hj]
    refine ⟨rfl, fin _ ?_⟩
    simp
  · rw [if_neg (by omega)]
    generalize ymdIndex s (12 * y + m) 42 = j at hj0 hj1
    have hjn : j.toNat < 42 := by omega
    obtain ⟨r3, r4, r5⟩ := rows_bound j.toNat hjn
    rw [row_of_LTD s hL]
    split
    · refine ⟨rfl, fin _ ?_⟩
      have hjd : (JulianDay12h y m d).raw.natAbs ≤ 2 ^ 22 * 2 ^ 1074 := by
        unfold JulianDay12h
        rw [Dbl.ofInt_raw _ (le_trans hJ (by norm_num)), Int.natAbs_mul, Int.natAbs_ofNat,
          SC_eq]
        exact Nat.mul_le_mul_right _ hJ
      have s1 := Dbl.sub_abs_le (JulianDay12h y m d) MJDbase (2 ^ 23) 1074 (by norm_num)
        (by norm_num) (by
          have := MJDbase_abs
          calc (JulianDay12h y m d).raw.natAbs + MJDbase.raw.natAbs
              ≤ 2 ^ 22 * 2 ^ 1074 + 2 ^ 22 * 2 ^ 1074 := Nat.add_le_add hjd this
            _ = 2 ^ 23 * 2 ^ 1074 := by ring)
      have s2 := Dbl.sub_abs_le (Dbl.sub (JulianDay12h y m d) MJDbase) (ltsRowAt j.toNat).c4
        (2 ^ 23 + 2 ^ 16) 1074 (by norm_num) (by norm_num) (by
          calc (Dbl.sub (JulianDay12h y m d) MJDbase).raw.natAbs
                + (ltsRowAt j.toNat).c4.raw.natAbs
              ≤ 2 ^ 23 * 2 ^ 1074 + 2 ^ 16 * 2 ^ 1074 := Nat.add_le_add s1 r4
            _ = (2 ^ 23 + 2 ^ 16) * 2 ^ 1074 := by ring)
      have s3 := Dbl.mul_abs_le
        (Dbl.sub (Dbl.sub (JulianDay12h y m d) MJDbase) (ltsRowAt j.toNat).c4)
        (ltsRowAt j.toNat).c5 (2 ^ 23 + 2 ^ 16) 1066 (by norm_num) (by norm_num) (by
          calc (Dbl.sub (Dbl.sub (JulianDay12h y m d) MJDbase)
                  (ltsRowAt j.toNat).c4).raw.natAbs * (ltsRowAt j.toNat).c5.raw.natAbs
              ≤ ((2 ^ 23 + 2 ^ 16) * 2 ^ 1074) * 2 ^ 1066 := Nat.mul_le_mul s2 r5
            _ = (2 ^ 23 + 2 ^ 16) * 2 ^ 1066 * 2 ^ 1074 := by ring)
      exact Dbl.add_abs_le _ _ 8470528 1066 (by norm_num) (by norm_num) (by
        calc (ltsRowAt j.toNat).c3.raw.natAbs
              + (Dbl.mul (Dbl.sub (Dbl.sub (JulianDay12h y m d) MJDbase)
                  (ltsRowAt j.toNat).c4) (ltsRowAt j.toNat).c5).raw.natAbs
            ≤ 2 ^ 6 * 2 ^ 1074 + (2 ^ 23 + 2 ^ 16) * 2 ^ 1066 := Nat.add_le_add r3 s3
          _ = 8470528 * 2 ^ 1066 := by rw [pow1074]; ring)
    · refine ⟨rfl, fin _ ?_⟩
      calc (ltsRowAt j.toNat).c3.raw.natAbs ≤ 2 ^ 6 * 2 ^ 1074 := r3
        _ ≤ 8470528 * 2 ^ 1066 := by rw [pow1074]; omega

/-- Bounds of the seconds the split and the sign adjustment leave for a negative count. -/
theorem fixNeg_splitSec_bounds (n : Int) (h1 : -(2 ^ 63) < n) (h0 : n ≤ 0) :
    -((-n) / 1000000000) - 2 ≤ (fixNeg (splitSec n)).1 ∧
    (fixNeg (splitSec n)).1 ≤ -((-n) / 1000000000) + 1 := by
  have hs := secOf_neg (-n)
  rw [neg_neg] at hs
  obtain ⟨b1, -, b3, -⟩ := secOf_big (-n) (by omega) (by omega)
  unfold fixNeg splitSec
  simp only [hs]
  generalize Dbl.toInt (Dbl.div (Dbl.ofInt (-n)) SECinNanoSecsD) = S at b1 b3
  split <;> simp only [] <;> omega

/-- The six fields `EPOCHbreakdownTT2000` writes for a whole number of seconds within the
years 1707 to 2281. -/
theorem EPOCHbreakdownTT2000_fields (E : Int) (h0 : 53890000000 ≤ E) (h1 : E ≤ 72000000000) :
    ∃ y m d hh mn ss : Int, EPOCHbreakdownTT2000 (Dbl.ofInt E) = (y, m, d, hh, mn, ss) ∧
      1707 ≤ y ∧ y ≤ 2293 ∧ 1 ≤ m ∧ m ≤ 12 ∧ 1 ≤ d ∧ d ≤ 31 ∧ 0 ≤ hh ∧ hh < 24 ∧
      0 ≤ mn ∧ mn < 60 ∧ 0 ≤ ss ∧ ss < 60 ∧
      JulianDay12hL y m d = 1721060 + E / 86400 := by
  obtain ⟨d1, d2, d3, d4, d5, d6, d7⟩ := decode_window (1721060 + E / 86400) (by omega) (by omega)
  have hdm := daysInMonth_le (dateFromL (1721060 + E / 86400 + 68569)).1
    (dateFromL (1721060 + E / 86400 + 68569)).2.1
  refine ⟨_, _, _, _, _, _, EPOCHbreakdownTT2000_ofInt E (by omega) (by omega), ?_, ?_, d1, d2,
    d3, by omega, by omega, by omega, by omega, by omega, by omega, by omega, d5⟩
  · split at d6 <;> omega
  · split at d7 <;> omega

theorem LeapSecondsfromYMD_state (h : Host) (s : TTState) (y m d : Int)
    (hn : s.LTD.isNull = false) : (LeapSecondsfromYMD h s y m d).2 = s := by
  unfold LeapSecondsfromYMD
  simp only [hn, Bool.false_eq_true, if_false]
  split
  · rfl
  · split <;> rfl

theorem carrySeconds_table (h : Host) (s : TTState) (v : Loc) (hn : s.LTD.isNull = false) :
    (carrySeconds h s v).2.LTD = s.LTD ∧ (carrySeconds h s v).2.entryCnt = s.entryCnt ∧
    (carrySeconds h s v).2.NST = s.NST := by
  unfold carrySeconds
  split
  · have e1 := LeapSecondsfromYMD_state h s
      (DatefromJulianDay (Dbl.add (JulianDay12h (Dbl.toInt v.ly) (Dbl.toInt v.lm)
        (Dbl.toInt v.ld)) (Dbl.ofInt 1))).1
      (DatefromJulianDay (Dbl.add (JulianDay12h (Dbl.toInt v.ly) (Dbl.toInt v.lm)
        (Dbl.toInt v.ld)) (Dbl.ofInt 1))).2.1
      (DatefromJulianDay (Dbl.add (JulianDay12h (Dbl.toInt v.ly) (Dbl.toInt v.lm)
        (Dbl.toInt v.ld)) (Dbl.ofInt 1))).2.2 hn
    have e2 := LeapSecondsfromYMD_state h s (Dbl.toInt v.ly) (Dbl.toInt v.lm) (Dbl.toInt v.ld) hn
    simp only [e1, e2]
    split <;> exact ⟨rfl, rfl, rfl⟩
  · exact ⟨rfl, rfl, rfl⟩

theorem computeFields_table (h : Host) (s : TTState) (a b e f g i j k l : Int)
    (hn : s.LTD.isNull = false) :
    (computeFields h s a b e f g i j k l).2.LTD = s.LTD ∧
    (computeFields h s a b e f g i j k l).2.entryCnt = s.entryCnt ∧
    (computeFields h s a b e f g i j k l).2.NST = s.NST := by
  unfold computeFields
  split
  · exact ⟨rfl, rfl, rfl⟩
  split
  · exact ⟨rfl, rfl, rfl⟩
  split
  · exact ⟨rfl, rfl, rfl⟩
  simp only []
  split
  · exact ⟨rfl, rfl, rfl⟩
  split
  · exact ⟨rfl, rfl, rfl⟩
  have hn2 : ∀ iy : Int, ({ s with currentDay := iy } : TTState).LTD.isNull = false :=
    fun _ => hn
  simp only [LeapSecondsfromYMD_state h _ _ _ _ (hn2 _)]
  split_ifs <;> exact ⟨rfl, rfl, rfl⟩

theorem computeTT2000I_table (c : Sentinels) (h : Host) (s : TTState)
    (y m d hh mn ss ms us ns : Int) (hn : s.LTD.isNull = false) :
    (computeTT2000I c h s y m d hh mn ss ms us ns).2.LTD = s.LTD ∧
    (computeTT2000I c h s y m d hh mn ss ms us ns).2.entryCnt = s.entryCnt ∧
    (computeTT2000I c h s y m d hh mn ss ms us ns).2.NST = s.NST := by
  unfold computeTT2000I computeTT2000 computeTT2000Sym
  simp only []
  split
  · exact ⟨rfl, rfl, rfl⟩
  split
  · exact ⟨rfl, rfl, rfl⟩
  obtain ⟨c1, c2, c3⟩ := carrySeconds_table h s
    (carryMillis (carryMicros (carryNanos
      { ly := Dbl.floor (Dbl.ofInt y),
        lm := Dbl.floor (if Dbl.beq (Dbl.ofInt m) ⟨0⟩ then Dbl.ofInt 1 else Dbl.ofInt m),
        ld := Dbl.floor (Dbl.ofInt d), lh := Dbl.ofInt hh, ln := Dbl.ofInt mn,
        ls := Dbl.ofInt ss, ll := Dbl.ofInt ms, lu := Dbl.ofInt us, la := Dbl.ofInt ns,
        lyl := -999, lml := -999, ldl := 0 }))) hn
  have hn3 : (carrySeconds h s
    (carryMillis (carryMicros (carryNanos
      { ly := Dbl.floor (Dbl.ofInt y),
        lm := Dbl.floor (if Dbl.beq (Dbl.ofInt m) ⟨0⟩ then Dbl.ofInt 1 else Dbl.ofInt m),
        ld := Dbl.floor (Dbl.ofInt d), lh := Dbl.ofInt hh, ln := Dbl.ofInt mn,
        ls := Dbl.ofInt ss, ll := Dbl.ofInt ms, lu := Dbl.ofInt us, la := Dbl.ofInt ns,
        lyl := -999, lml := -999, ldl := 0 })))).2.LTD.isNull = false := by
    rw [c1]; exact hn
  obtain ⟨f1, f2, f3⟩ := computeFields_table h _ _ _ _ _ _ _ _ _ _ hn3
  exact ⟨f1.trans c1, f2.trans c2, f3.trans c3⟩

theorem j2000Index_none (s : TTState) (t : Int) :
    ∀ k : Nat, (∀ j, 14 ≤ j → j < k → t < s.nst j) → j2000Index s t k = (-1, 0) := by
  intro k
  induction k with
  | zero => intro _; rfl
  | succ k ih =>
    intro hlt
    unfold j2000Index
    by_cases hk : (k : Int) < NERA1
    · rw [if_pos hk]
    · rw [if_neg hk]
      have h14 : 14 ≤ k := by unfold NERA1 at hk; omega
      have := hlt k h14 (by omega)
      rw [if_neg (by omega)]
      exact ih (fun j a b => hlt j a (by omega))

set_option maxRecDepth 100000 in
theorem NST2_lower : ∀ j : Nat, j < 42 → 14 ≤ j → -883655957816000000 ≤ NST2.getD j 0 := by
  decide

/-- The threshold lookup of `breakdownTT2000` below the first threshold (before 1972): no
leap seconds, no flag. -/
theorem LeapSecondsfromJ2000_before (c : Sentinels) (h : Host) (s : TTState)
    (hL : s.LTD = .live LTS) (hE : s.entryCnt = NDAT)
    (hN : s.NST = .null ∨ s.NST = .live NST2) (t : Int) (ht : t < -883655957816000000) :
    LeapSecondsfromJ2000 c h s t = (⟨0⟩, 0, { s with NST := .live NST2 }) := by
  unfold LeapSecondsfromJ2000
  simp only [LeapSecondsfromJ2000_state c h s hL hE hN]
  have hs0 : Loaded { s with NST := .live NST2 } := ⟨hL, hE, rfl⟩
  generalize ({ s with NST := .live NST2 } : TTState) = s2 at hs0 ⊢
  have hcnt : s.entryCnt.toNat = 42 := by rw [hE]; decide
  rw [hcnt, j2000Index_none s2 t 42 (fun j a b => by
    rw [hs0.nst]
    have := NST2_lower j b a
    omega)]
  simp

/-- One refinement round of the branch before 1972 decodes a whole number of seconds within
the supported window and leaves the state as it is. -/
theorem reguess_fields (h : Host) (s : TTState) (hL : s.LTD = .live LTS)
    (hE : s.entryCnt = NDAT) (t2 y m d : Int) (hJ : (JulianDay12hL y m d).natAbs ≤ 2 ^ 22)
    (h1 : -9223372036854775808 + 43167816000000 ≤ t2) (h2 : t2 ≤ -800000000000000000) :
    ∃ E nan : Int, reguess h s t2 y m d = (EPOCHbreakdownTT2000 (Dbl.ofInt E), nan, s) ∧
      53890000000 ≤ E ∧ E ≤ 72000000000 := by
  obtain ⟨e1, e2⟩ := LeapSecondsfromYMD_bound h s hL hE y m d hJ
  unfold reguess
  rcases hq : LeapSecondsfromYMD h s y m d with ⟨dat0, s'⟩
  rw [hq] at e1 e2
  simp only at e1 e2
  subst e1
  simp only []
  generalize Dbl.toInt (Dbl.mul dat0 (Dbl.ofInt SECinNanoSecs)) = X at e2
  have hw : wrap64 (t2 - X) = t2 - X := by unfold wrap64; omega
  rw [hw]
  obtain ⟨b1, b2⟩ := fixNeg_splitSec_bounds (t2 - X) (by omega) (by omega)
  generalize fixNeg (splitSec (t2 - X)) = p at b1 b2
  have hadd : Dbl.add (Dbl.ofInt p.1) J2000Since0AD12hSec = Dbl.ofInt (p.1 + 63113904000) := by
    unfold J2000Since0AD12hSec
    rw [Dbl.add_ofInt _ _ (natAbs_small _ (by omega) (by omega)) (by decide)
      (natAbs_small _ (by omega) (by omega))]
  rw [hadd]
  exact ⟨p.1 + 63113904000, p.2, rfl, by omega, by omega⟩

/-- The split and the sign adjustment keep the count: seconds times `10^9` plus nanoseconds. -/
theorem fixNeg_splitSec_sum (n : Int) (h1 : -(2 ^ 63) < n) (h0 : n ≤ 0) :
    (fixNeg (splitSec n)).1 * 1000000000 + (fixNeg (splitSec n)).2 = n := by
  have hs := secOf_neg (-n)
  rw [neg_neg] at hs
  obtain ⟨b1, -, b3, -⟩ := secOf_big (-n) (by omega) (by omega)
  unfold fixNeg splitSec
  simp only [hs]
  generalize Dbl.toInt (Dbl.div (Dbl.ofInt (-n)) SECinNanoSecsD) = S at b1 b3
  have hw : wrap64 (n - -S * SECinNanoSecs) = n - -S * SECinNanoSecs := by
    unfold wrap64 SECinNanoSecs; omega
  rw [hw]
  unfold SECinNanoSecs
  split <;> simp only [] <;> omega

/-- The fields `breakdownTT2000` writes for a TT2000 value before 1972, with the built-in
table: whichever refinement round ends the decoding, year, month, day, hour, minute and second
are those of a date and time of day within the supported window. -/
theorem breakdown_fields_before (c : Sentinels) (h : Host) (s : TTState) (t : Int)
    (hF : t ≠ c.FILLED_TT2000_VALUE) (hP : t ≠ c.DEFAULT_TT2000_PADVALUE)
    (hL : s.LTD = .live LTS) (hE : s.entryCnt = NDAT)
    (hN : s.NST = .null ∨ s.NST = .live NST2)
    (h1 : INT64_MIN ≤ t) (h2 : t < -883655957816000000) :
    ∃ y m d hh mn ss ms us ns : Int, ∃ s2 : TTState,
      breakdownTT2000 c h s t = (Parts.ofInts y m d hh mn ss ms us ns, s2) ∧
      1707 ≤ y ∧ y ≤ 2293 ∧ 1 ≤ m ∧ m ≤ 12 ∧ 1 ≤ d ∧ d ≤ 31 ∧ 0 ≤ hh ∧ hh < 24 ∧
      0 ≤ mn ∧ mn < 60 ∧ 0 ≤ ss ∧ ss ≤ 60 := by
  unfold INT64_MIN at h1
  obtain ⟨S0, hS0L, hS0E, hJ0⟩ : ∃ S0 : TTState, S0.LTD = .live LTS ∧ S0.entryCnt = NDAT ∧
      LeapSecondsfromJ2000 c h { s with toPlus := 0 } t = (⟨0⟩, 0, S0) :=
    ⟨{ ({ s with toPlus := 0 } : TTState) with NST := .live NST2 }, hL, hE,
      LeapSecondsfromJ2000_before c h { s with toPlus := 0 } hL hE hN t h2⟩
  have hw : wrap64 (wrap64 (t + T12hinNanoSecs) - dTinNanoSecs) = t + 43167816000000 := by
    unfold wrap64 T12hinNanoSecs dTinNanoSecs; omega
  obtain ⟨b1, b2⟩ := fixNeg_splitSec_bounds (t + 43167816000000) (by omega) (by omega)
  have b3 := fixNeg_splitSec_sum (t + 43167816000000) (by omega) (by omega)
  have hlt0 : Dbl.lt ⟨0⟩ ⟨0⟩ = false := by decide
  unfold breakdownTT2000
  rw [if_neg hF, if_neg hP]
  simp only [hJ0, if_neg (show ¬ t > 0 by omega), hw, hlt0, Bool.false_eq_true, if_false]
  generalize hp : fixNeg (splitSec (t + 43167816000000)) = p at b1 b2 b3 ⊢
  have ht2 : wrap64 (p.1 * SECinNanoSecs + p.2) = t + 43167816000000 := by
    unfold SECinNanoSecs; rw [b3]; unfold wrap64; omega
  have hadd : Dbl.add (Dbl.ofInt p.1) J2000Since0AD12hSec = Dbl.ofInt (p.1 + 63113904000) := by
    unfold J2000Since0AD12hSec
    rw [Dbl.add_ofInt _ _ (natAbs_small _ (by omega) (by omega)) (by decide)
      (natAbs_small _ (by omega) (by omega))]
  rw [ht2, hadd]
  obtain ⟨y0, m0, d0, hh0, mn0, ss0, hb0, f1, f2, f3, f4, f5, f6, f7, f8, f9, f10, f11, f12, f13⟩ :=
    EPOCHbreakdownTT2000_fields (p.1 + 63113904000) (by omega) (by omega)
  rw [hb0]
  simp only []
  have hn0 : S0.LTD.isNull = false := by rw [hS0L]; rfl
  have T1 := computeTT2000I_table c h S0 y0 m0 d0 hh0 mn0 ss0 0 0 p.2 hn0
  generalize computeTT2000I c h S0 y0 m0 d0 hh0 mn0 ss0 0 0 p.2 = R1 at T1 ⊢
  have hR1L : R1.2.LTD = .live LTS := by rw [T1.1, hS0L]
  have hR1E : R1.2.entryCnt = NDAT := by rw [T1.2.1, hS0E]
  obtain ⟨E1, nan1, hg1, g1a, g1b⟩ := reguess_fields h R1.2 hR1L hR1E (t + 43167816000000)
    y0 m0 d0 (by rw [f13]; omega) (by omega) (by omega)
  simp only [hg1]
  obtain ⟨y1, m1, d1, hh1, mn1, ss1, hb1, k1, k2, k3, k4, k5, k6, k7, k8, k9, k10, k11, k12, k13⟩ :=
    EPOCHbreakdownTT2000_fields E1 g1a g1b
  simp only [hb1]
  have hn1 : R1.2.LTD.isNull = false := by rw [hR1L]; rfl
  have T2 := computeTT2000I_table c h R1.2 y1 m1 d1 hh1 mn1 ss1 0 0 nan1 hn1
  generalize computeTT2000I c h R1.2 y1 m1 d1 hh1 mn1 ss1 0 0 nan1 = R2 at T2 ⊢
  have hR2L : R2.2.LTD = .live LTS := by rw [T2.1, hR1L]
  have hR2E : R2.2.entryCnt = NDAT := by rw [T2.2.1, hR1E]
  obtain ⟨E2, nan2, hg2, g2a, g2b⟩ := reguess_fields h R2.2 hR2L hR2E (t + 43167816000000)
    y1 m1 d1 (by rw [k13]; omega) (by omega) (by omega)
  simp only [hg2]
  obtain ⟨y2, m2, d2, hh2, mn2, ss2, hb2, l1, l2, l3, l4, l5, l6, l7, l8, l9, l10, l11, l12, l13⟩ :=
    EPOCHbreakdownTT2000_fields E2 g2a g2b
  simp only [hb2]
  by_cases c1 : R1.1 ≠ t
  · simp only [if_pos c1]
    by_cases c2 : R2.1 ≠ t
    · simp only [if_pos c2]
      by_cases c3 : Int.tdiv nan2 1000000 > 1000
      · simp only [if_pos c3]
        exact ⟨_, _, _, _, _, _, _, _, _, _, rfl, l1, l2, l3, l4, l5, l6, l7, l8, l9, l10,
          by omega, by omega⟩
      · simp only [if_neg c3]
        exact ⟨_, _, _, _, _, _, _, _, _, _, rfl, l1, l2, l3, l4, l5, l6, l7, l8, l9, l10,
          by omega, by omega⟩
    · simp only [if_neg c2]
      by_cases c3 : Int.tdiv nan1 1000000 > 1000
      · simp only [if_pos c3]
        exact ⟨_, _, _, _, _, _, _, _, _, _, rfl, k1, k2, k3, k4, k5, k6, k7, k8, k9, k10,
          by omega, by omega⟩
      · simp only [if_neg c3]
        exact ⟨_, _, _, _, _, _, _, _, _, _, rfl, k1, k2, k3, k4, k5, k6, k7, k8, k9, k10,
          by omega, by omega⟩
  · simp only [if_neg c1]
    by_cases c3 : Int.tdiv p.2 1000000 > 1000
    · simp only [if_pos c3]
      exact ⟨_, _, _, _, _, _, _, _, _, _, rfl, f1, f2, f3, f4, f5, f6, f7, f8, f9, f10,
        by omega, by omega⟩
    · simp only [if_neg c3]
      exact ⟨_, _, _, _, _, _, _, _, _, _, rfl, f1, f2, f3, f4, f5, f6, f7, f8, f9, f10,
        by omega, by omega⟩

set_option maxRecDepth 1000000 in
theorem fmtLdYearOK_true : fmtLdYearOK = true := by decide!

theorem fmtLd_year (n : Int) (h0 : 1700 ≤ n) (h1 : n ≤ 2299) :
    fmtLd 4 n = [dig n 3, dig n 2, dig n 1, dig n 0] := by
  have h := fmtLdYearOK_true
  unfold fmtLdYearOK at h
  simp only [List.all_eq_true, beq_iff_eq] at h
  have := h (n - 1700).toNat (by rw [List.mem_range]; omega)
  rw [show (1700 : Int) + (((n - 1700).toNat : Nat) : Int) = n from by omega] at this
  exact this

theorem fmtLd_length_ge (p : Nat) (n : Int) : p ≤ (fmtLd p n).length := by
  unfold fmtLd
  simp only []
  split <;> simp only [List.length_cons, List.length_append, List.length_replicate] <;> omega

theorem take_append_get? {α : Type} (pre R : List α) (n k : Nat) (hk : k < pre.length)
    (hn : k < n) : ((pre ++ R).take n).get? k = pre.get? k := by
  rw [List.get?_eq_getElem?, List.get?_eq_getElem?, List.getElem?_take, if_pos hn,
    List.getElem?_append_left hk]

theorem take_append_length {α : Type} (pre R : List α) (n : Nat)
    (h : n ≤ pre.length + R.length) : ((pre ++ R).take n).length = n := by
  rw [List.length_take, List.length_append]
  omega

/-- Lengths and delimiters of the strings `encodeTT2000` writes for a value that is none of
the reserved ones, when the six date and time fields of its breakdown have at most four and
two digits. -/
theorem encodeTT2000_layout (c : Sentinels) (h : Host) (s s2 : TTState) (x : Int)
    (hF : x ≠ c.FILLED_TT2000_VALUE) (hP : x ≠ c.DEFAULT_TT2000_PADVALUE)
    (hI : x ≠ c.ILLEGAL_TT2000_VALUE) (y m d hh mn ss ms us ns : Int)
    (hb : breakdownTT2000 c h s x = (Parts.ofInts y m d hh mn ss ms us ns, s2))
    (hy : 1700 ≤ y ∧ y ≤ 2299) (hm : 1 ≤ m ∧ m ≤ 12) (hd : 0 ≤ d ∧ d < 100)
    (h1 : 0 ≤ hh ∧ hh < 100) (h2 : 0 ≤ mn ∧ mn < 100) (h3 : 0 ≤ ss ∧ ss < 100)
    (style : Int) (hst : 0 ≤ style ∧ style ≤ 4) :
    HasLayout (encodeTT2000 c h s x style).1 (styleLayout style).1 (styleLayout style).2 := by
  have by1 := natAbs_small y (by omega) (by omega)
  have bm1 := natAbs_small m (by omega) (by omega)
  have bd1 := natAbs_small d (by omega) (by omega)
  have bh1 := natAbs_small hh (by omega) (by omega)
  have bn1 := natAbs_small mn (by omega) (by omega)
  have bs1 := natAbs_small ss (by omega) (by omega)
  have hsent : ¬ (x = c.FILLED_TT2000_VALUE ∨ x = c.ILLEGAL_TT2000_VALUE) := by
    rintro (h | h)
    · exact hF h
    · exact hI h
  have hmt := MonthToken_three m hm.1 hm.2
  have hst2 : ¬ (style < 0 ∨ style > 4) := by omega
  have l1 := fmtLd_length_ge 3 (Dbl.toInt (Dbl.ofInt ms))
  have l2 := fmtLd_length_ge 3 (Dbl.toInt (Dbl.ofInt us))
  have l3 := fmtLd_length_ge 3 (Dbl.toInt (Dbl.ofInt ns))
  unfold encodeTT2000
  simp only [hst2, if_false, hsent, hP, hb,
    Parts.ofInts, Dbl.toInt_ofInt _ by1, Dbl.toInt_ofInt _ bm1, Dbl.toInt_ofInt _ bd1,
    Dbl.toInt_ofInt _ bh1, Dbl.toInt_ofInt _ bn1, Dbl.toInt_ofInt _ bs1,
    fmtLd_year y hy.1 hy.2, fmtLd_two m (by omega) (by omega), fmtLd_two d hd.1 hd.2,
    fmtLd_two hh h1.1 h1.2, fmtLd_two mn h2.1 h2.2, fmtLd_two ss h3.1 h3.2]
  generalize fmtLd 3 (Dbl.toInt (Dbl.ofInt ms)) = A at l1
  generalize fmtLd 3 (Dbl.toInt (Dbl.ofInt us)) = B at l2
  generalize fmtLd 3 (Dbl.toInt (Dbl.ofInt ns)) = C at l3
  obtain ⟨s0, s4⟩ := hst
  interval_cases style
  · simp only [if_true, TT2000_0_STRING_LEN, styleLayout]
    rw [hmt]
    show HasLayout (List.take 30 ([dig d 1, dig d 0, '-', (MonthToken m).getD 0 ' ',
      (MonthToken m).getD 1 ' ', (MonthToken m).getD 2 ' ', '-', dig y 3, dig y 2, dig y 1,
      dig y 0, ' ', dig hh 1, dig hh 0, ':', dig mn 1, dig mn 0, ':', dig ss 1, dig ss 0, '.']
      ++ (A ++ B ++ C))) 30 [(2, '-'), (6, '-'), (11, ' ')]
    refine ⟨take_append_length _ _ _ ?_, ?_⟩
    · simp only [List.length_cons, List.length_nil, List.length_append]; omega
    · intro p hp
      simp only [List.mem_cons, List.mem_singleton, List.not_mem_nil, or_false] at hp
      rcases hp with rfl | rfl | rfl <;>
        exact (take_append_get? _ _ _ _ (by simp) (by simp)).trans rfl
  · simp only [show ¬ ((1 : Int) = 0) from by decide, if_true, if_false, TT2000_1_STRING_LEN,
      styleLayout]
    have l4 := fmtLd_length_ge 10 (Dbl.toInt (Dbl.mul (Dbl.div (Dbl.add (Dbl.mul
      (Dbl.ofInt 1000000) (Dbl.ofInt (3600000 * hh + 60000 * mn + 1000 * ss
        + Dbl.toInt (Dbl.ofInt ms))))
      (Dbl.ofInt (1000 * Dbl.toInt (Dbl.ofInt us) + Dbl.toInt (Dbl.ofInt ns))))
      (Dbl.mul (Dbl.ofInt 86400) SECinNanoSecsD)) (Dbl.ofInt 10000000000)))
    generalize fmtLd 10 (Dbl.toInt (Dbl.mul (Dbl.div (Dbl.add (Dbl.mul
      (Dbl.ofInt 1000000) (Dbl.ofInt (3600000 * hh + 60000 * mn + 1000 * ss
        + Dbl.toInt (Dbl.ofInt ms))))
      (Dbl.ofInt (1000 * Dbl.toInt (Dbl.ofInt us) + Dbl.toInt (Dbl.ofInt ns))))
      (Dbl.mul (Dbl.ofInt 86400) SECinNanoSecsD)) (Dbl.ofInt 10000000000))) = D at l4
    show HasLayout (List.take 19 ([dig y 3, dig y 2, dig y 1, dig y 0, dig m 1, dig m 0,
      dig d 1, dig d 0, '.'] ++ D)) 19 [(8, '.')]
    refine ⟨take_append_length _ _ _ ?_, ?_⟩
    · simp only [List.length_cons, List.length_nil]; omega
    · intro p hp
      simp only [List.mem_singleton] at hp
      rw [hp]
      exact (take_append_get? _ _ _ _ (by simp) (by simp)).trans rfl
  · simp only [show ¬ ((2 : Int) = 0) from by decide, show ¬ ((2 : Int) = 1) from by decide,
      if_true, if_false, TT2000_2_STRING_LEN, styleLayout]
    refine ⟨rfl, ?_⟩
    intro p hp
    simp at hp
  · simp only [show ¬ ((3 : Int) = 0) from by decide, show ¬ ((3 : Int) = 1) from by decide,
      show ¬ ((3 : Int) = 2) from by decide, show ¬ ((3 : Int) = 4) from by decide,
      if_true, if_false, TT2000_3_STRING_LEN, styleLayout]
    show HasLayout (List.take 29 ([dig y 3, dig y 2, dig y 1, dig y 0, '-', dig m 1, dig m 0,
      '-', dig d 1, dig d 0, 'T', dig hh 1, dig hh 0, ':', dig mn 1, dig mn 0, ':', dig ss 1,
      dig ss 0, '.'] ++ (A ++ B ++ C ++ []))) 29
      [(4, '-'), (7, '-'), (10, 'T'), (13, ':'), (16, ':'), (19, '.')]
    refine ⟨take_append_length _ _ _ ?_, ?_⟩
    · simp only [List.length_cons, List.length_nil, List.length_append]; omega
    · intro p hp
      simp only [List.mem_cons, List.mem_singleton, List.not_mem_nil, or_false] at hp
      rcases hp with rfl | rfl | rfl | rfl | rfl | rfl <;>
        exact (take_append_get? _ _ _ _ (by simp) (by simp)).trans rfl
  · simp only [show ¬ ((4 : Int) = 0) from by decide, show ¬ ((4 : Int) = 1) from by decide,
      show ¬ ((4 : Int) = 2) from by decide, show ¬ ((4 : Int) = 3) from by decide,
      if_true, if_false, TT2000_4_STRING_LEN, styleLayout]
    show HasLayout (List.take 30 ([dig y 3, dig y 2, dig y 1, dig y 0, '-', dig m 1, dig m 0,
      '-', dig d 1, dig d 0, 'T', dig hh 1, dig hh 0, ':', dig mn 1, dig mn 0, ':', dig ss 1,
      dig ss 0, '.'] ++ (A ++ B ++ C ++ ['Z']))) 30
      [(4, '-'), (7, '-'), (10, 'T'), (13, ':'), (16, ':'), (19, '.')]
    refine ⟨take_append_length _ _ _ ?_, ?_⟩
    · simp only [List.length_cons, List.length_nil, List.length_append]; omega
    · intro p hp
      simp only [List.mem_cons, List.mem_singleton, List.not_mem_nil, or_false] at hp
      rcases hp with rfl | rfl | rfl | rfl | rfl | rfl <;>
        exact (take_append_get? _ _ _ _ (by simp) (by simp)).trans rfl

/-- The fields `breakdownTT2000` writes for a TT2000 value from 1972 on, with the built-in
table: year, month, day, hour, minute and second within their ranges (second 60 inside an
inserted leap second). -/
theorem breakdown_fields_after (c : Sentinels) (h : Host) (s : TTState) (t : Int)
    (hF : t ≠ c.FILLED_TT2000_VALUE) (hP : t ≠ c.DEFAULT_TT2000_PADVALUE)
    (hL : s.LTD = .live LTS) (hE : s.entryCnt = NDAT)
    (hN : s.NST = .null ∨ s.NST = .live NST2)
    (h1 : -883655957816000000 ≤ t) (h2 : t ≤ INT64_MAX) :
    ∃ y m d hh mn ss ms us ns : Int, ∃ s2 : TTState,
      breakdownTT2000 c h s t = (Parts.ofInts y m d hh mn ss ms us ns, s2) ∧
      1707 ≤ y ∧ y ≤ 2293 ∧ 1 ≤ m ∧ m ≤ 12 ∧ 1 ≤ d ∧ d ≤ 31 ∧ 0 ≤ hh ∧ hh < 24 ∧
      0 ≤ mn ∧ mn < 60 ∧ 0 ≤ ss ∧ ss ≤ 60 := by
  have e14 : NST2.getD 14 0 = -883655957816000000 := by decide
  obtain ⟨i, i1, i2, hge, hlt⟩ := exists_last_le (fun j => NST2.getD j 0) t 14 42 (by decide)
    (by show NST2.getD 14 0 ≤ t; omega)
  obtain ⟨E0, E1, d1, d2, d3, fl, d4⟩ := epoch_day_bounds t i i1 i2 hge hlt h2 _ _ rfl rfl
  have hb := breakdown_eval c h s t hF hP hL hE hN i i1 i2 hge hlt h2 _ _ rfl rfl
  generalize (if (i : Int) < 41 ∧ wrap64 (t + 1000000000) ≥ NST2.getD (i + 1) 0
    then (1 : Int) else 0) = flag at *
  generalize 63113904000 + (t + 43167816000000) / 1000000000 - ((i : Int) - 4) - flag
    = E at *
  have hday := (leapRow_facts i i1 i2).2.2.2.2.2.2.2.2.2.2.2.1
  obtain ⟨w1, w2, w3, w4, w5, w6, w7⟩ := decode_window (1721060 + E / 86400) (by omega) (by omega)
  have hdm := daysInMonth_le (dateFromL (1721060 + E / 86400 + 68569)).1
    (dateFromL (1721060 + E / 86400 + 68569)).2.1 w1 w2
  refine ⟨_, _, _, _, _, _, _, _, _, _, hb, ?_, ?_, w1, w2, w3, by omega, by omega, by omega,
    by omega, by omega, by omega, by omega⟩
  · split at w6 <;> omega
  · split at w7 <;> omega

set_option maxRecDepth 100000 in
/-- Claim C16.  Fixed-width output.  With the built-in leap-second table in place, for every
64-bit value `t` (reserved or not, before or after 1972, inside an inserted leap second or
not) and every style 0 to 4, the string `encodeTT2000` writes has exactly 30, 19, 14, 29 and
30 characters for the styles 0, 1, 2, 3 and 4, with the delimiters at their fixed positions:
`-` at 4 and 7, `T` at 10, `:` at 13 and 16 and `.` at 19 in styles 3 and 4, `.` at 8 in
style 1, `-` at 2 and 6 and a blank at 11 in style 0. -/
theorem C16_fixed_width_output (c : Sentinels) (h : Host) (s : TTState) (t style : Int)
    (hL : s.LTD = .live LTS) (hE : s.entryCnt = NDAT)
    (hN : s.NST = .null ∨ s.NST = .live NST2)
    (h1 : INT64_MIN ≤ t) (h2 : t ≤ INT64_MAX) (hst : 0 ≤ style ∧ style ≤ 4) :
    HasLayout (encodeTT2000 c h s t style).1 (styleLayout style).1 (styleLayout style).2 := by
  have hst2 : ¬ (style < 0 ∨ style > 4) := by omega
  by_cases hsent : t = c.FILLED_TT2000_VALUE ∨ t = c.ILLEGAL_TT2000_VALUE
  · unfold encodeTT2000
    simp only [hst2, if_false, if_pos hsent]
    obtain ⟨s0, s4⟩ := hst
    interval_cases style <;> norm_num [HasLayout, styleLayout]
  · by_cases hP : t = c.DEFAULT_TT2000_PADVALUE
    · unfold encodeTT2000
      simp only [hst2, if_false, if_neg hsent, if_pos hP]
      obtain ⟨s0, s4⟩ := hst
      interval_cases style <;> norm_num [HasLayout, styleLayout]
    · have hF : t ≠ c.FILLED_TT2000_VALUE := fun e => hsent (Or.inl e)
      have hI : t ≠ c.ILLEGAL_TT2000_VALUE := fun e => hsent (Or.inr e)
      by_cases hlo : -883655957816000000 ≤ t
      · obtain ⟨y, m, d, hh, mn, ss, ms, us, ns, s2, hb, f1, f2, f3, f4, f5, f6, f7, f8, f9, f10,
          f11, f12⟩ := breakdown_fields_after c h s t hF hP hL hE hN hlo h2
        exact encodeTT2000_layout c h s s2 t hF hP hI y m d hh mn ss ms us ns hb
          ⟨by omega, by omega⟩ ⟨f3, f4⟩ ⟨by omega, by omega⟩ ⟨f7, by omega⟩ ⟨f9, by omega⟩
          ⟨f11, by omega⟩ style hst
      · obtain ⟨y, m, d, hh, mn, ss, ms, us, ns, s2, hb, f1, f2, f3, f4, f5, f6, f7, f8, f9, f10,
          f11, f12⟩ := breakdown_fields_before c h s t hF hP hL hE hN h1 (by omega)
        exact encodeTT2000_layout c h s s2 t hF hP hI y m d hh mn ss ms us ns hb
          ⟨by omega, by omega⟩ ⟨f3, f4⟩ ⟨by omega, by omega⟩ ⟨f7, by omega⟩ ⟨f9, by omega⟩
          ⟨f11, by omega⟩ style hst

set_option maxRecDepth 100000 in
theorem C16_fixed_width_output_witness :
    (builtinState.LTD = .live LTS ∧ builtinState.entryCnt = NDAT ∧
      (builtinState.NST = .null ∨ builtinState.NST = .live NST2) ∧
      INT64_MIN ≤ 536500869183999999 ∧ (536500869183999999 : Int) ≤ INT64_MAX ∧
      ((0 : Int) ≤ 1 ∧ (1 : Int) ≤ 4) ∧
      (encodeTT2000 cdfSentinels Host.plain builtinState 536500869183999999 3).1
        = "2016-12-31T23:59:60.999999999".data) ∧
    HasLayout (encodeTT2000 cdfSentinels Host.plain builtinState 536500869183999999 1).1
      (styleLayout 1).1 (styleLayout 1).2 :=
  ⟨⟨rfl, rfl, Or.inl rfl, by decide, by decide, by decide, by decide!⟩,
    C16_fixed_width_output cdfSentinels Host.plain builtinState 536500869183999999 1 rfl rfl
      (Or.inl rfl) (by decide) (by decide) (by decide)⟩

theorem dateFromL_ediv (l : Int) (h : 0 ≤ l) : dateFromL l = dateFromE l := by
  unfold dateFromL dateFromE
  simp only []
  have e1 : Int.tdiv (4 * l) 146097 = 4 * l / 146097 := Int.tdiv_eq_ediv (by omega) (by decide)
  rw [e1]
  have h1 : 0 ≤ 4 * l / 146097 := by omega
  have h1b : 146097 * (4 * l / 146097) ≤ 4 * l := by omega
  generalize 4 * l / 146097 = n at *
  have e2 : Int.tdiv (146097 * n + 3) 4 = (146097 * n + 3) / 4 :=
    Int.tdiv_eq_ediv (by omega) (by decide)
  rw [e2]
  have h2 : 0 ≤ l - (146097 * n + 3) / 4 := by omega
  generalize l - (146097 * n + 3) / 4 = l2 at *
  have e3 : Int.tdiv (4000 * (l2 + 1)) 1461001 = 4000 * (l2 + 1) / 1461001 :=
    Int.tdiv_eq_ediv (by omega) (by decide)
  rw [e3]
  have h3 : 0 ≤ 4000 * (l2 + 1) / 1461001 := by omega
  have h3b : 1461001 * (4000 * (l2 + 1) / 1461001) ≤ 4000 * (l2 + 1) := by omega
  generalize 4000 * (l2 + 1) / 1461001 = i at *
  have e4 : Int.tdiv (1461 * i) 4 = 1461 * i / 4 := Int.tdiv_eq_ediv (by omega) (by decide)
  rw [e4]
  have h4 : 0 ≤ l2 - 1461 * i / 4 + 31 := by omega
  generalize l2 - 1461 * i / 4 + 31 = l3 at *
  have e5 : Int.tdiv (80 * l3) 2447 = 80 * l3 / 2447 := Int.tdiv_eq_ediv (by omega) (by decide)
  rw [e5]
  have h5 : 0 ≤ 80 * l3 / 2447 := by omega
  generalize 80 * l3 / 2447 = j at *
  have e6 : Int.tdiv (2447 * j) 80 = 2447 * j / 80 := Int.tdiv_eq_ediv (by omega) (by decide)
  have e7 : Int.tdiv j 11 = j / 11 := Int.tdiv_eq_ediv (by omega) (by decide)
  rw [e6, e7]

/-- The calendar repeats every 400 years, 146097 days. -/
theorem dateFromE_shift (l k : Int) :
    dateFromE (l + 146097 * k)
      = ((dateFromE l).1 + 400 * k, (dateFromE l).2.1, (dateFromE l).2.2) := by
  unfold dateFromE
  simp only []
  have en : 4 * (l + 146097 * k) / 146097 = 4 * l / 146097 + 4 * k := by omega
  rw [en]
  generalize 4 * l / 146097 = n
  have el : l + 146097 * k - (146097 * (n + 4 * k) + 3) / 4 = l - (146097 * n + 3) / 4 := by
    omega
  rw [el]
  generalize l - (146097 * n + 3) / 4 = l2
  generalize 4000 * (l2 + 1) / 1461001 = i
  generalize l2 - 1461 * i / 4 + 31 = l3
  generalize 80 * l3 / 2447 = j
  generalize j / 11 = l4
  ext <;> simp only [] <;> ring

theorem dateFromL_shift (l k : Int) (h0 : 0 ≤ l) (h1 : 0 ≤ l + 146097 * k) :
    dateFromL (l + 146097 * k)
      = ((dateFromL l).1 + 400 * k, (dateFromL l).2.1, (dateFromL l).2.2) := by
  rw [dateFromL_ediv _ h1, dateFromL_ediv _ h0, dateFromE_shift]

theorem marchStart_ediv (Y : Int) (h : -1 ≤ Y) : marchStart Y = marchStartE Y := by
  rw [marchStart_eq]
  unfold marchStartE
  rcases eq_or_lt_of_le h with h1 | h1
  · rw [← h1]; decide
  · rw [Int.tdiv_eq_ediv (show 0 ≤ 7 * (Y + 1) by omega) (by decide),
      Int.tdiv_eq_ediv (show 0 ≤ Y by omega) (by decide),
      Int.tdiv_eq_ediv (show 0 ≤ 3 * (Y / 100 + 1) by omega) (by decide)]

theorem marchStartE_shift (Y k : Int) : marchStartE (Y + 400 * k) = marchStartE Y + 146097 * k := by
  unfold marchStartE
  have e1 : (Y + 400 * k) / 100 = Y / 100 + 4 * k := by omega
  have e2 : 7 * (Y + 400 * k + 1) / 4 = 7 * (Y + 1) / 4 + 700 * k := by omega
  rw [e1, e2]
  have e3 : 3 * (Y / 100 + 4 * k + 1) / 4 = 3 * (Y / 100 + 1) / 4 + 3 * k := by omega
  rw [e3]
  ring

theorem marchStartE_lo (Y t : Int) (h1 : t ≤ 365) (h : 1789629 ≤ marchStartE Y + t) :
    -1 ≤ Y := by
  unfold marchStartE at h
  omega

theorem marchStartE_hi (Y t : Int) (h1 : 0 ≤ t) (h : marchStartE Y + t ≤ 5442053) :
    Y ≤ 9999 := by
  unfold marchStartE at h
  omega

theorem march_split (m : Int) (hm1 : 1 ≤ m) (hm2 : m ≤ 12) :
    (m ≤ 2 → 306 ≤ marchOffset m) ∧ (3 ≤ m → marchOffset m + tbl daym2 (m - 1) ≤ 306) ∧
    tbl daym2 (m - 1) ≤ 31 ∧ tbl daym1 (m - 1) ≤ 31 := by
  interval_cases m <;> decide

/-- Decoding a day number of the years 0 .. 9999 gives a date of those years whose day
number it is. -/
theorem decode_epoch (J : Int) (h1 : 1721060 ≤ J) (h2 : J ≤ 5373484) :
    0 ≤ (dateFromL (J + 68569)).1 ∧ (dateFromL (J + 68569)).1 ≤ 9999 ∧
    1 ≤ (dateFromL (J + 68569)).2.1 ∧ (dateFromL (J + 68569)).2.1 ≤ 12 ∧
    1 ≤ (dateFromL (J + 68569)).2.2 ∧ (dateFromL (J + 68569)).2.2 ≤ 31 ∧
    JulianDay12hL (dateFromL (J + 68569)).1 (dateFromL (J + 68569)).2.1
      (dateFromL (J + 68569)).2.2 = J := by
  obtain ⟨k, hk⟩ : ∃ k : Int, k = (J - 2344594) / 146097 := ⟨_, rfl⟩
  obtain ⟨J0, hJ0⟩ : ∃ J0 : Int, J0 = J - 146097 * k := ⟨_, rfl⟩
  have b1 : 2344594 ≤ J0 := by omega
  have b2 : J0 ≤ 2490690 := by omega
  obtain ⟨a1, a2, a3, a4, a5, a6, a7⟩ := decode_window J0 b1 (by omega)
  have es : J + 68569 = (J0 + 68569) + 146097 * k := by omega
  rw [es, dateFromL_shift _ _ (by omega) (by omega)]
  generalize dateFromL (J0 + 68569) = r at *
  obtain ⟨y, m, d⟩ := r
  simp only at a1 a2 a3 a4 a5 a6 a7 ⊢
  obtain ⟨s1, s2, s3, s4⟩ := march_split m a1 a2
  have hd31 : d ≤ 31 := by
    unfold daysInMonth at a4
    split at a4 <;> omega
  have hdm : d ≤ tbl daym2 (m - 1) := by
    have := (month_tables m a1 a2).1
    unfold daysInMonth at a4
    split at a4 <;> omega
  have e0 := JulianDay12hL_march y m d a1 a2
  have e1 := JulianDay12hL_march (y + 400 * k) m d a1 a2
  have eY : y + 400 * k - (if m ≤ 2 then 1 else 0) = (y - (if m ≤ 2 then 1 else 0)) + 400 * k := by
    ring
  rw [eY] at e1
  generalize y - (if m ≤ 2 then 1 else 0) = Y at *
  have m0 := marchStart_ediv Y (by omega)
  have sh := marchStartE_shift Y k
  have off0 : 0 ≤ marchOffset m := (month_tables m a1 a2).2.2.2.2.2
  -- the shifted March-based year lies in -1 .. 9999
  have tot : marchStartE (Y + 400 * k) + (marchOffset m + d - 1) = J + 68569 := by omega
  have hoff : marchOffset m + d - 1 ≤ 365 := by
    have := (month_tables m a1 a2)
    by_cases h2 : m = 2
    · have := this.2.2.1 h2; omega
    · have := this.2.1 h2; omega
  have hYlo : -1 ≤ Y + 400 * k :=
    marchStartE_lo _ (marchOffset m + d - 1) hoff (by omega)
  have hYhi : Y + 400 * k ≤ 9999 :=
    marchStartE_hi _ (marchOffset m + d - 1) (by omega) (by omega)
  have m1 := marchStart_ediv (Y + 400 * k) hYlo
  have em1 : marchStartE (-1) = 1789323 := by decide
  have em2 : marchStartE 9999 = 5441748 := by decide
  refine ⟨?_, ?_, a1, a2, a3, hd31, by omega⟩
  · by_cases hm : m ≤ 2
    · rw [if_pos hm] at eY; omega
    · rw [if_neg hm] at eY
      have := s2 (by omega)
      rcases eq_or_lt_of_le hYlo with h | h
      · rw [← h, em1] at tot; omega
      · omega
  · by_cases hm : m ≤ 2
    · rw [if_pos hm] at eY
      have := s1 hm
      rcases eq_or_lt_of_le hYhi with h | h
      · rw [h, em2] at tot; omega
      · omega
    · rw [if_neg hm] at eY; omega

/-- Within 10^16 in absolute value the `long` arithmetic of `JulianDay` does not wrap. -/
theorem JulianDay_eq (y m d : Int) (hm : m ≠ 0)
    (hy : -10000000000000000 ≤ y ∧ y ≤ 10000000000000000)
    (hmb : -10000000000000000 ≤ m ∧ m ≤ 10000000000000000)
    (hd : -10000000000000000 ≤ d ∧ d ≤ 10000000000000000) :
    JulianDay y m d = JulianDay12hL y m d := by
  unfold JulianDay JulianDay12hL
  simp only [hm, if_false]
  have w : ∀ x : Int, -9223372036854775808 ≤ x → x ≤ 9223372036854775807 → wrap64 x = x :=
    fun x h1 h2 => wrap64_id x h1 h2
  have t1 := tdiv_bounds (m + 9) 12 (by decide)
  have t2 := tdiv_bounds (7 * (y + Int.tdiv (m + 9) 12)) 4 (by decide)
  have t3 := tdiv_bounds (m - 9) 7 (by decide)
  have t4 := tdiv_bounds (y + Int.tdiv (m - 9) 7) 100 (by decide)
  have t5 := tdiv_bounds (3 * (Int.tdiv (y + Int.tdiv (m - 9) 7) 100 + 1)) 4 (by decide)
  have t6 := tdiv_bounds (275 * m) 9 (by decide)
  rw [w (367 * y) (by omega) (by omega), w (m + 9) (by omega) (by omega),
    w (y + Int.tdiv (m + 9) 12) (by omega) (by omega),
    w (7 * (y + Int.tdiv (m + 9) 12)) (by omega) (by omega),
    w (m - 9) (by omega) (by omega),
    w (y + Int.tdiv (m - 9) 7) (by omega) (by omega),
    w (Int.tdiv (y + Int.tdiv (m - 9) 7) 100 + 1) (by omega) (by omega),
    w (3 * (Int.tdiv (y + Int.tdiv (m - 9) 7) 100 + 1)) (by omega) (by omega),
    w (275 * m) (by omega) (by omega),
    w (367 * y - Int.tdiv (7 * (y + Int.tdiv (m + 9) 12)) 4) (by omega) (by omega),
    w (367 * y - Int.tdiv (7 * (y + Int.tdiv (m + 9) 12)) 4
        - Int.tdiv (3 * (Int.tdiv (y + Int.tdiv (m - 9) 7) 100 + 1)) 4) (by omega) (by omega),
    w (367 * y - Int.tdiv (7 * (y + Int.tdiv (m + 9) 12)) 4
        - Int.tdiv (3 * (Int.tdiv (y + Int.tdiv (m - 9) 7) 100 + 1)) 4
        + Int.tdiv (275 * m) 9) (by omega) (by omega),
    w (367 * y - Int.tdiv (7 * (y + Int.tdiv (m + 9) 12)) 4
        - Int.tdiv (3 * (Int.tdiv (y + Int.tdiv (m - 9) 7) 100 + 1)) 4
        + Int.tdiv (275 * m) 9 + d) (by omega) (by omega),
    w (367 * y - Int.tdiv (7 * (y + Int.tdiv (m + 9) 12)) 4
        - Int.tdiv (3 * (Int.tdiv (y + Int.tdiv (m - 9) 7) 100 + 1)) 4
        + Int.tdiv (275 * m) 9 + d + 1721029) (by omega) (by omega)]

set_option maxRecDepth 100000 in
theorem fillEpoch_neg : fillEpoch.raw < 0 := by decide!

/-- `EPOCHbreakdown` on a whole number of milliseconds of the years 0 .. 9999: the day number
goes through `dateFromL`, the time of day is exact. -/
theorem EPOCHbreakdown_ofInt (k : EpochConsts) (e : Int) (h0 : 0 ≤ e)
    (h1 : e ≤ 315569519999998) (hill : k.ILLEGAL_EPOCH_VALUE.raw < 0)
    (hmax : (Dbl.ofInt 315569519999998).raw ≤ k.MAX_EPOCH_BINARY.raw) :
    EPOCHbreakdown k (Dbl.ofInt e)
      = ((dateFromL (1721060 + e / 86400000 + 68569)).1,
         (dateFromL (1721060 + e / 86400000 + 68569)).2.1,
         (dateFromL (1721060 + e / 86400000 + 68569)).2.2,
         e / 3600000 % 24, e / 60000 % 60, e / 1000 % 60, e % 1000) := by
  have hE := natAbs_le_pow53 e h0 (by omega)
  have hraw := Dbl.ofInt_raw e hE
  have hsc := SC_posZ
  have hnn : 0 ≤ (Dbl.ofInt e).raw := Dbl.ofInt_nonneg e h0
  have c1 : Dbl.beq (Dbl.ofInt e) fillEpoch = false := by
    unfold Dbl.beq
    have := fillEpoch_neg
    exact decide_eq_false (by omega)
  have c2 : Dbl.beq (Dbl.ofInt e) k.ILLEGAL_EPOCH_VALUE = false := by
    unfold Dbl.beq
    exact decide_eq_false (by omega)
  have c3 : Dbl.lt (Dbl.ofInt e) (Dbl.ofInt 0) = false := by
    rw [Dbl.lt_ofInt e 0 hE (by simp)]
    exact decide_eq_false (by omega)
  have c4 : Dbl.lt k.MAX_EPOCH_BINARY (Dbl.ofInt e) = false := by
    unfold Dbl.lt
    rw [Dbl.ofInt_raw _ (natAbs_le_pow53 _ (by norm_num) (by norm_num))] at hmax
    rw [hraw]
    have : e * (SC : Int) ≤ 315569519999998 * SC := mul_le_mul_of_nonneg_right h1 (le_of_lt hsc)
    exact decide_eq_false (by omega)
  have x0 : Below (Dbl.ofInt e) e 1074 := Below_ofInt e hE
  have p53 : (2 : Int) ^ 53 = 9007199254740992 := by norm_num
  have q1 : 0 ≤ e / 1000 := Int.ediv_nonneg h0 (by decide)
  have x1 : Below (Dbl.div (Dbl.ofInt e) (Dbl.ofInt 1000)) (e / 1000) (1074 - 10) :=
    x0.div h0 1000 10 (by decide) (by norm_num) (by norm_num) (by norm_num) (by norm_num)
      (by rw [p53]; omega) (by rw [p53]; norm_num; omega)
  have e2 : e / 1000 / 60 = e / 60000 := by omega
  have q2 : 0 ≤ e / 60000 := Int.ediv_nonneg h0 (by decide)
  have x2 : Below (Dbl.div (Dbl.div (Dbl.ofInt e) (Dbl.ofInt 1000)) (Dbl.ofInt 60)) (e / 60000)
      (1074 - 10 - 6) := by
    have := x1.div q1 60 6 (by decide) (by norm_num) (by norm_num) (by norm_num) (by norm_num)
      (by rw [p53]; omega) (by rw [p53, e2]; norm_num; omega)
    rw [e2] at this
    exact this
  have e3 : e / 60000 / 60 = e / 3600000 := by omega
  have q3 : 0 ≤ e / 3600000 := Int.ediv_nonneg h0 (by decide)
  have x3 : Below (Dbl.div (Dbl.div (Dbl.div (Dbl.ofInt e) (Dbl.ofInt 1000)) (Dbl.ofInt 60))
      (Dbl.ofInt 60)) (e / 3600000) (1074 - 10 - 6 - 6) := by
    have := x2.div q2 60 6 (by decide) (by norm_num) (by norm_num) (by norm_num) (by norm_num)
      (by rw [p53]; omega) (by rw [p53, e3]; norm_num; omega)
    rw [e3] at this
    exact this
  have e4 : e / 3600000 / 24 = e / 86400000 := by omega
  have q4 : 0 ≤ e / 86400000 := Int.ediv_nonneg h0 (by decide)
  have x4 : Below (Dbl.div (Dbl.div (Dbl.div (Dbl.div (Dbl.ofInt e) (Dbl.ofInt 1000))
      (Dbl.ofInt 60)) (Dbl.ofInt 60)) (Dbl.ofInt 24)) (e / 86400000) (1074 - 10 - 6 - 6 - 5) := by
    have := x3.div q3 24 5 (by decide) (by norm_num) (by norm_num) (by norm_num) (by norm_num)
      (by rw [p53]; omega) (by rw [p53, e4]; norm_num; omega)
    rw [e4] at this
    exact this
  unfold EPOCHbreakdown
  simp only [c1, c2, c3, c4, Bool.or_false, Bool.false_eq_true, if_false,
    x4.toInt q4, x3.toInt_fmod q3 24 (by decide) (by decide),
    x2.toInt_fmod q2 60 (by decide) (by decide), x1.toInt_fmod q1 60 (by decide) (by decide),
    x0.toInt_fmod h0 1000 (by decide) (by decide)]

/-- `computeEPOCH` on the fields of a whole number of milliseconds. -/
theorem computeEPOCH_fields (k : EpochConsts) (e y m d : Int) (h0 : 0 ≤ e)
    (h1 : e ≤ 315569519999998) (hy : 0 ≤ y ∧ y ≤ 9999) (hm : 1 ≤ m ∧ m ≤ 12)
    (hd : 1 ≤ d ∧ d ≤ 31) (hJ : JulianDay12hL y m d = 1721060 + e / 86400000) :
    computeEPOCH k y m d (e / 3600000 % 24) (e / 60000 % 60) (e / 1000 % 60) (e % 1000)
      = Dbl.ofInt e := by
  have j9 : JulianDay12hL 9999 12 31 = 5373484 := by decide
  unfold computeEPOCH
  rw [if_neg (by
    rintro ⟨a1, a2, a3, a4, a5, a6, a7⟩
    rw [a1, a2, a3, j9] at hJ
    omega)]
  rw [if_neg (by omega), if_neg (by omega), if_neg (by omega), if_neg (by omega),
    if_neg (by omega)]
  simp only [if_neg (show ¬ m = 0 by omega),
    JulianDay_eq y m d (show m ≠ 0 by omega) ⟨by omega, by omega⟩ ⟨by omega, by omega⟩
      ⟨by omega, by omega⟩, hJ]
  have ed : (1721060 + e / 86400000 - 1721060 : Int) = e / 86400000 := by ring
  rw [ed]
  have et : (if e / 3600000 % 24 = 0 ∧ e / 60000 % 60 = 0 ∧ e / 1000 % 60 = 0 then e % 1000
      else 3600000 * (e / 3600000 % 24) + 60000 * (e / 60000 % 60) + 1000 * (e / 1000 % 60)
        + e % 1000) = e % 86400000 := by
    split <;> omega
  rw [et]
  rw [Dbl.mul_ofInt _ _ (natAbs_small _ (by norm_num) (by norm_num))
    (natAbs_small _ (by omega) (by omega)) (natAbs_small _ (by omega) (by omega)),
    Dbl.add_ofInt _ _ (natAbs_small _ (by omega) (by omega))
    (natAbs_small _ (by omega) (by omega)) (natAbs_small _ (by omega) (by omega))]
  congr 1
  omega

/-- The nearest integer: a quotient within one half of `h` rounds to `h`. -/
theorem roundNE_near (n d h : Nat) (h1 : 2 * (h * d) < 2 * n + d)
    (h2 : 2 * n < 2 * (h * d) + d) : roundNE n d = h := by
  have hd : 0 < d := by
    rcases Nat.eq_zero_or_pos d with c | c
    · subst c; simp at h2
    · exact c
  have hq := Nat.div_add_mod n d
  have hr := Nat.mod_lt n hd
  unfold roundNE
  simp only []
  generalize n / d = q at *
  generalize n % d = r at *
  have hcase : q = h ∨ q + 1 = h := by
    rcases Nat.lt_trichotomy q h with c | c | c
    · right
      by_contra hne
      have c2 : q + 2 ≤ h := by omega
      have := Nat.mul_le_mul_right d c2
      nlinarith
    · left; exact c
    · exfalso
      have c2 : h + 1 ≤ q := c
      have := Nat.mul_le_mul_right d c2
      nlinarith
  rcases hcase with c | c
  · subst c
    rw [if_pos (by nlinarith)]
  · subst c
    have : ¬ (2 * r < d) := by nlinarith
    rw [if_neg this, if_pos (by nlinarith)]

/-- The digits of a number below 10000, whatever the fuel from 4 on. -/
theorem natDigits_small (f n : Nat) (hn : n < 10000) :
    natDigits (f + 4) n
      = if n < 10 then [digitChar n]
        else if n < 100 then [digitChar (n / 10), digitChar (n % 10)]
        else if n < 1000 then [digitChar (n / 100), digitChar (n / 10 % 10), digitChar (n % 10)]
        else [digitChar (n / 1000), digitChar (n / 100 % 10), digitChar (n / 10 % 10),
              digitChar (n % 10)] := by
  by_cases c1 : n < 10
  · rw [if_pos c1]
    simp only [natDigits, if_pos c1]
  · rw [if_neg c1]
    by_cases c2 : n < 100
    · rw [if_pos c2]
      have a1 : n / 10 < 10 := by omega
      simp only [natDigits, if_neg c1, if_pos a1, List.singleton_append]
    · rw [if_neg c2]
      have a1 : ¬ n / 10 < 10 := by omega
      by_cases c3 : n < 1000
      · rw [if_pos c3]
        have a2 : n / 10 / 10 < 10 := by omega
        have e1 : n / 10 / 10 = n / 100 := by omega
        simp only [natDigits, if_neg c1, if_neg a1, if_pos a2, List.singleton_append,
          List.cons_append, List.nil_append]
        rw [e1]
      · rw [if_neg c3]
        have a2 : ¬ n / 10 / 10 < 10 := by omega
        have a3 : n / 10 / 10 / 10 < 10 := by omega
        have e1 : n / 10 / 10 = n / 100 := by omega
        have e2 : n / 10 / 10 / 10 = n / 1000 := by omega
        simp only [natDigits, if_neg c1, if_neg a1, if_neg a2, if_pos a3, List.singleton_append,
          List.cons_append, List.nil_append]
        rw [e2, e1]

theorem digitChar_zero (a : Nat) (h : a = 0) : digitChar a = '0' := by subst h; rfl

/-- Four digits with leading zeros, for every number below 10000. -/
theorem natDigits_four (f n : Nat) (hn : n < 10000) :
    List.replicate (4 - (natDigits (f + 4) n).length) '0' ++ natDigits (f + 4) n
      = [digitChar (n / 1000 % 10), digitChar (n / 100 % 10), digitChar (n / 10 % 10),
         digitChar (n % 10)] := by
  rw [natDigits_small f n hn]
  by_cases c1 : n < 10
  · rw [if_pos c1]
    simp only [List.length_singleton, List.replicate, List.cons_append, List.nil_append,
      List.cons.injEq, and_true]
    and_intros <;> first | rfl | exact (digitChar_zero _ (by omega)).symm | (congr 1; omega)
  · rw [if_neg c1]
    by_cases c2 : n < 100
    · rw [if_pos c2]
      simp only [List.length_cons, List.length_singleton, List.length_nil, List.replicate,
        List.cons_append, List.nil_append, List.cons.injEq, and_true]
      and_intros <;> first | rfl | exact (digitChar_zero _ (by omega)).symm | (congr 1; omega)
    · rw [if_neg c2]
      by_cases c3 : n < 1000
      · rw [if_pos c3]
        simp only [List.length_cons, List.length_singleton, List.length_nil, List.replicate,
          List.cons_append, List.nil_append, List.cons.injEq, and_true]
        and_intros <;> first | rfl | exact (digitChar_zero _ (by omega)).symm | (congr 1; omega)
      · rw [if_neg c3]
        simp only [List.length_cons, List.length_singleton, List.length_nil, List.replicate,
          List.nil_append, List.cons.injEq, and_true]
        congr 1; omega

/-- Four digits for every year 0 .. 9999. -/
theorem fmtLd_four_all (n : Int) (h0 : 0 ≤ n) (h1 : n < 10000) :
    fmtLd 4 n = [dig n 3, dig n 2, dig n 1, dig n 0] := by
  unfold fmtLd dig
  simp only []
  rw [if_neg (by omega)]
  have e : n.natAbs = n.toNat := by omega
  rw [e]
  have := natDigits_four 16 n.toNat (by omega)
  simp only [show 16 + 4 = 20 from rfl] at this
  rw [this]
  norm_num

/-- Three digits with leading zeros, as `fmtNat` writes them. -/
theorem fmtNat_three (n : Int) (h0 : 0 ≤ n) (h1 : n < 1000) :
    fmtNat 3 n.toNat = [dig n 2, dig n 1, dig n 0] := by
  unfold fmtNat dig
  have hn : n.toNat < 1000 := by omega
  have := natDigits_small 396 n.toNat (by omega)
  simp only [show 396 + 4 = 400 from rfl] at this
  rw [this]
  by_cases c1 : n.toNat < 10
  · rw [if_pos c1]
    simp only [List.length_singleton, List.replicate, List.cons_append, List.nil_append,
      List.cons.injEq, and_true]
    and_intros <;> first | rfl | exact (digitChar_zero _ (by omega)).symm | (congr 1; omega)
  · rw [if_neg c1]
    by_cases c2 : n.toNat < 100
    · rw [if_pos c2]
      simp only [List.length_cons, List.length_singleton, List.length_nil, List.replicate,
        List.cons_append, List.nil_append, List.cons.injEq, and_true]
      and_intros <;> first | rfl | exact (digitChar_zero _ (by omega)).symm | (congr 1; omega)
    · rw [if_neg c2, if_pos hn]
      simp only [List.length_cons, List.length_singleton, List.length_nil, List.replicate,
        List.nil_append, List.cons.injEq, and_true]
      and_intros <;> first | rfl | exact (digitChar_zero _ (by omega)).symm | (congr 1; omega)

/-- The fraction of a second `(double) msec / 1000.0` rounds back to `msec` thousandths; it
is not negative. -/
theorem fos_round (ms : Int) (h0 : 0 ≤ ms) (h1 : ms < 1000) :
    0 ≤ (Dbl.div (Dbl.ofInt ms) (Dbl.ofInt 1000)).raw ∧
    roundNE ((Dbl.div (Dbl.ofInt ms) (Dbl.ofInt 1000)).raw.natAbs * 10 ^ 3) SC = ms.toNat := by
  have hms := natAbs_small ms (by omega) (by omega)
  have hraw := Dbl.ofInt_raw ms hms
  have hsc := SC_posZ
  have hx0 : 0 ≤ (Dbl.ofInt ms).raw := Dbl.ofInt_nonneg ms h0
  have hxb : (Dbl.ofInt ms).raw ≤ 2 ^ 64 * SC := by
    rw [hraw]
    exact mul_le_mul_of_nonneg_right (by omega) (le_of_lt hsc)
  have hnn := Dbl.div_nonneg (Dbl.ofInt ms) 1000 (by decide) (by decide) hx0
  refine ⟨hnn, ?_⟩
  have hS : SC = 9007199254740992 * 2 ^ 1021 := by
    rw [SC_eq, show (9007199254740992 : Nat) = 2 ^ 53 from by norm_num, ← pow_add]
  have hSZ : (SC : Int) = 9007199254740992 * 2 ^ 1021 := by rw [hS]; push_cast; rfl
  obtain ⟨M, hM⟩ := Int.eq_ofNat_of_zero_le h0
  subst hM
  have hM1 : M < 1000 := by omega
  obtain ⟨a, ha⟩ : ∃ a : Nat, a = M * 9007199254740992 / 1000 := ⟨_, rfl⟩
  have ha1 : a * 1000 ≤ M * 9007199254740992 := by omega
  have ha2 : M * 9007199254740992 < (a + 1) * 1000 := by omega
  have ha3 : a + 1 ≤ 2 ^ 53 := by
    rw [show (2 : Nat) ^ 53 = 9007199254740992 from by norm_num]; omega
  have hP : (0 : Int) < 2 ^ 1021 := by positivity
  have lo := Dbl.div_ge (Dbl.ofInt (M : Int)) 1000 (a * 2 ^ 1021) (by decide) (by decide) hx0 hxb
    ⟨a, 1021, by omega, rfl⟩ (by
      rw [hraw, hSZ]
      push_cast
      have : ((a : Int) * 1000) * 2 ^ 1021 ≤ ((M : Int) * 9007199254740992) * 2 ^ 1021 :=
        mul_le_mul_of_nonneg_right (by exact_mod_cast ha1) (le_of_lt hP)
      linarith)
  have hi := Dbl.div_le (Dbl.ofInt (M : Int)) 1000 ((a + 1) * 2 ^ 1021) (by decide) (by decide)
    hx0 hxb ⟨a + 1, 1021, ha3, rfl⟩ (by
      rw [hraw, hSZ]
      push_cast
      have : ((M : Int) * 9007199254740992) * 2 ^ 1021 ≤ (((a : Int) + 1) * 1000) * 2 ^ 1021 :=
        mul_le_mul_of_nonneg_right (by exact_mod_cast (le_of_lt ha2)) (le_of_lt hP)
      linarith)
  generalize (Dbl.div (Dbl.ofInt (M : Int)) (Dbl.ofInt 1000)).raw = x at *
  obtain ⟨X, hX⟩ := Int.eq_ofNat_of_zero_le hnn
  subst hX
  simp only [Int.natAbs_ofNat, Int.toNat_ofNat]
  have lo2 : a * 2 ^ 1021 ≤ X := by exact_mod_cast lo
  have hi2 : X ≤ (a + 1) * 2 ^ 1021 := by exact_mod_cast hi
  have hP2 : 0 < 2 ^ 1021 := by positivity
  rw [hS]
  generalize (2 : Nat) ^ 1021 = P at *
  have p1 : (a * 1000) * P ≤ (M * 9007199254740992) * P := Nat.mul_le_mul_right P ha1
  have p2 : (M * 9007199254740992 + 1) * P ≤ ((a + 1) * 1000) * P :=
    Nat.mul_le_mul_right P ha2
  apply roundNE_near
  · nlinarith
  · nlinarith

/-- The `printf` conversion `%5.3f` of the fraction of a second. -/
theorem fmtF_fos (ms : Int) (h0 : 0 ≤ ms) (h1 : ms < 1000) :
    fmtF 5 3 (Dbl.div (Dbl.ofInt ms) (Dbl.ofInt 1000))
      = ['0', '.', dig ms 2, dig ms 1, dig ms 0] := by
  obtain ⟨hnn, hr⟩ := fos_round ms h0 h1
  unfold fmtF
  simp only [hr]
  rw [if_neg (by omega)]
  have e1 : ms.toNat / 10 ^ 3 = 0 := by
    have : ms.toNat < 1000 := by omega
    norm_num
    omega
  have e2 : ms.toNat % 10 ^ 3 = ms.toNat := by
    have : ms.toNat < 1000 := by omega
    norm_num
    omega
  rw [e1, e2, fmtNat_three ms h0 h1]
  rfl

theorem strcatX_fit (dst src : List Char) (max : Nat) (h : dst.length + src.length ≤ max) :
    strcatX dst src max = dst ++ src := by
  unfold strcatX
  split
  · rfl
  · rw [List.take_of_length_le (by omega)]

theorem catchrX_fit (dst : List Char) (ch : Char) (max : Nat) (h : dst.length + 1 ≤ max) :
    catchrX dst ch max = dst ++ [ch] :=
  strcatX_fit dst [ch] max (by simpa using h)

theorem strcatRep_fit (max : Nat) (c : Char) :
    ∀ (n : Nat) (enc : List Char), enc.length + n ≤ max →
      strcatRep max [c] n enc = enc ++ List.replicate n c := by
  intro n
  induction n with
  | zero => intro enc _; simp [strcatRep]
  | succ n ih =>
    intro enc h
    simp only [strcatRep]
    rw [strcatX_fit _ _ _ (by simp only [List.length_singleton]; omega),
      ih _ (by simp only [List.length_append, List.length_singleton]; omega)]
    simp [List.replicate_succ]

/-- `AppendPart` when the part fits its width and the string its capacity. -/
theorem AppendPart_pad (k : EpochConsts) (enc ePart : List Char) (w : Nat) (l0 : Bool)
    (hw : 0 < w) (hl : ePart.length ≤ w) (hfit : enc.length + w ≤ k.EPOCHx_STRING_MAX) :
    AppendPart k enc ePart (w : Int) l0
      = enc ++ (List.replicate (w - ePart.length) (if l0 then '0' else ' ') ++ ePart) := by
  unfold AppendPart
  rw [if_neg (by omega)]
  simp only []
  rw [if_neg (by omega)]
  have e : ((w : Int) - (ePart.length : Int)).toNat = w - ePart.length := by omega
  rw [e, strcatRep_fit _ _ _ _ (by omega),
    strcatX_fit _ _ _ (by simp only [List.length_append, List.length_replicate]; omega)]
  simp

/-- A non-negative integer printed with `%ld` and padded with zeros by `AppendPart` is the
zero-filled number. -/
theorem AppendPart_fmtLd (k : EpochConsts) (enc : List Char) (n : Int) (p : Nat) (hp : 0 < p)
    (h0 : 0 ≤ n) (hlen : (fmtLd p n).length = p) (hfit : enc.length + p ≤ k.EPOCHx_STRING_MAX) :
    AppendPart k enc (fmtLd 0 n) (p : Int) true = enc ++ fmtLd p n := by
  have e : fmtLd p n
      = List.replicate (p - (fmtLd 0 n).length) '0' ++ fmtLd 0 n := by
    unfold fmtLd
    simp only [if_neg (show ¬ n < 0 by omega), Nat.zero_sub, List.replicate, List.nil_append]
  have hl : (fmtLd 0 n).length ≤ p := by
    rw [e] at hlen
    simp only [List.length_append, List.length_replicate] at hlen
    omega
  rw [AppendPart_pad k enc _ p true hp hl hfit, e]
  simp

theorem AppendIntegerPart_two (k : EpochConsts) (enc : List Char) (n : Int) (h0 : 0 ≤ n)
    (h1 : n < 100) (hfit : enc.length + 2 ≤ k.EPOCHx_STRING_MAX) :
    AppendIntegerPart k enc n 2 true [] = (enc ++ [dig n 1, dig n 0], true) := by
  unfold AppendIntegerPart
  rw [if_neg (by simp)]
  have := AppendPart_fmtLd k enc n 2 (by decide) h0 (by rw [fmtLd_two n h0 h1]; rfl) hfit
  rw [fmtLd_two n h0 h1] at this
  rw [show (2 : Int) = ((2 : Nat) : Int) from rfl, this]

theorem AppendIntegerPart_mod02 (k : EpochConsts) (enc : List Char) (n : Int) (h0 : 0 ≤ n)
    (h1 : n < 100) (hfit : enc.length + 2 ≤ k.EPOCHx_STRING_MAX) :
    AppendIntegerPart k enc n 0 false "02".data = (enc ++ [dig n 1, dig n 0], true) := by
  have hs : sscanf [.ld 0] "02".data = [.int 2] := by decide
  have hh : ("02".data.head? == some '0') = true := by decide
  unfold AppendIntegerPart
  rw [if_pos (by decide)]
  simp only [hs, hh]
  rw [if_neg (by decide)]
  have := AppendPart_fmtLd k enc n 2 (by decide) h0 (by rw [fmtLd_two n h0 h1]; rfl) hfit
  rw [fmtLd_two n h0 h1] at this
  rw [show (2 : Int) = ((2 : Nat) : Int) from rfl, this]

theorem AppendIntegerPart_year (k : EpochConsts) (enc : List Char) (n : Int) (h0 : 0 ≤ n)
    (h1 : n < 10000) (hfit : enc.length + 4 ≤ k.EPOCHx_STRING_MAX) :
    AppendIntegerPart k enc n 4 true [] = (enc ++ [dig n 3, dig n 2, dig n 1, dig n 0], true) := by
  unfold AppendIntegerPart
  rw [if_neg (by simp)]
  have := AppendPart_fmtLd k enc n 4 (by decide) h0 (by rw [fmtLd_four_all n h0 h1]; rfl) hfit
  rw [fmtLd_four_all n h0 h1] at this
  rw [show (4 : Int) = ((4 : Nat) : Int) from rfl, this]

theorem AppendFractionPart_fos (k : EpochConsts) (enc : List Char) (ms : Int) (h0 : 0 ≤ ms)
    (h1 : ms < 1000) (hfit : enc.length + 3 ≤ k.EPOCHx_STRING_MAX) :
    AppendFractionPart k enc (Dbl.div (Dbl.ofInt ms) (Dbl.ofInt 1000)) 3 []
      = (enc ++ [dig ms 2, dig ms 1, dig ms 0], true) := by
  unfold AppendFractionPart
  rw [if_neg (by simp)]
  simp only []
  have ew : (if (3 : Int) + 2 > (MAX_ePART_LEN : Int) then (MAX_ePART_LEN : Int) - 2 else 3)
      = 3 := by decide
  rw [ew]
  have e5 : ((3 : Int) + 2).toNat = 5 := by decide
  have e3 : (3 : Int).toNat = 3 := by decide
  rw [e5, e3, fmtF_fos ms h0 h1]
  have et : (['0', '.', dig ms 2, dig ms 1, dig ms 0] : List Char).take MAX_ePART_LEN
      = ['0', '.', dig ms 2, dig ms 1, dig ms 0] := by
    unfold MAX_ePART_LEN; rfl
  rw [et]
  rw [if_neg (by simp)]
  have ea : afterFirstDot ['0', '.', dig ms 2, dig ms 1, dig ms 0]
      = [dig ms 2, dig ms 1, dig ms 0] := by
    unfold afterFirstDot
    simp [List.dropWhile]
  rw [ea, show (3 : Int) = ((3 : Nat) : Int) from rfl,
    AppendPart_pad k enc _ 3 false (by decide) (by simp) hfit]
  simp

theorem encodeParts_style0 (k : EpochConsts) (y m d hh mn ss ms : Int) :
    encodeParts k y m d hh mn ss ms
        ("<dom.02>-<month>-<year> <hour>:<min>:<sec>.<fos>".data.length + 1)
        "<dom.02>-<month>-<year> <hour>:<min>:<sec>.<fos>".data []
      = (AppendFractionPart k (catchrX (AppendIntegerPart k (catchrX (AppendIntegerPart k
          (catchrX (AppendIntegerPart k (catchrX (AppendIntegerPart k (catchrX
            (strcatX (catchrX (AppendIntegerPart k [] d 0 false "02".data).1 '-'
              k.EPOCHx_STRING_MAX) (MonthToken m) k.EPOCHx_STRING_MAX) '-' k.EPOCHx_STRING_MAX)
            y 4 true []).1 ' ' k.EPOCHx_STRING_MAX) hh 2 true []).1 ':' k.EPOCHx_STRING_MAX)
          mn 2 true []).1 ':' k.EPOCHx_STRING_MAX) ss 2 true []).1 '.' k.EPOCHx_STRING_MAX)
          (Dbl.div (Dbl.ofInt ms) (Dbl.ofInt 1000)) 3 []).1 := by
  rfl

theorem encodeParts_style4 (k : EpochConsts) (y m d hh mn ss ms : Int) :
    encodeParts k y m d hh mn ss ms
        ("<year>-<mm.02>-<dom.02>T<hour>:<min>:<sec>.<fos>".data.length + 1)
        "<year>-<mm.02>-<dom.02>T<hour>:<min>:<sec>.<fos>".data []
      = (AppendFractionPart k (catchrX (AppendIntegerPart k (catchrX (AppendIntegerPart k
          (catchrX (AppendIntegerPart k (catchrX (AppendIntegerPart k (catchrX
            (AppendIntegerPart k (catchrX (AppendIntegerPart k [] y 4 true []).1 '-'
              k.EPOCHx_STRING_MAX) m 0 false "02".data).1 '-' k.EPOCHx_STRING_MAX)
            d 0 false "02".data).1 'T' k.EPOCHx_STRING_MAX) hh 2 true []).1 ':'
            k.EPOCHx_STRING_MAX) mn 2 true []).1 ':' k.EPOCHx_STRING_MAX) ss 2 true []).1 '.'
          k.EPOCHx_STRING_MAX) (Dbl.div (Dbl.ofInt ms) (Dbl.ofInt 1000)) 3 []).1 := by
  rfl

theorem encodeParts_style3 (k : EpochConsts) (y m d hh mn ss ms : Int) :
    encodeParts k y m d hh mn ss ms
        ("<year>-<mm.02>-<dom.02>T<hour>:<min>:<sec>.<fos>Z".data.length + 1)
        "<year>-<mm.02>-<dom.02>T<hour>:<min>:<sec>.<fos>Z".data []
      = catchrX (AppendFractionPart k (catchrX (AppendIntegerPart k (catchrX (AppendIntegerPart k
          (catchrX (AppendIntegerPart k (catchrX (AppendIntegerPart k (catchrX
            (AppendIntegerPart k (catchrX (AppendIntegerPart k [] y 4 true []).1 '-'
              k.EPOCHx_STRING_MAX) m 0 false "02".data).1 '-' k.EPOCHx_STRING_MAX)
            d 0 false "02".data).1 'T' k.EPOCHx_STRING_MAX) hh 2 true []).1 ':'
            k.EPOCHx_STRING_MAX) mn 2 true []).1 ':' k.EPOCHx_STRING_MAX) ss 2 true []).1 '.'
          k.EPOCHx_STRING_MAX) (Dbl.div (Dbl.ofInt ms) (Dbl.ofInt 1000)) 3 []).1 'Z'
          k.EPOCHx_STRING_MAX := by
  rfl

/-- The scan of the format of style 0 on fields within their ranges. -/
theorem encodeParts_dmy (k : EpochConsts) (y m d hh mn ss ms : Int) (t0 t1 t2 : Char)
    (hlen : 24 ≤ k.EPOCHx_STRING_MAX) (ht : MonthToken m = [t0, t1, t2])
    (hy : 0 ≤ y ∧ y < 10000) (hd : 0 ≤ d ∧ d < 100)
    (h1 : 0 ≤ hh ∧ hh < 100) (h2 : 0 ≤ mn ∧ mn < 100) (h3 : 0 ≤ ss ∧ ss < 100)
    (h4 : 0 ≤ ms ∧ ms < 1000) :
    encodeParts k y m d hh mn ss ms
        ("<dom.02>-<month>-<year> <hour>:<min>:<sec>.<fos>".data.length + 1)
        "<dom.02>-<month>-<year> <hour>:<min>:<sec>.<fos>".data []
      = epochDmy t0 t1 t2 y d hh mn ss ms := by
  rw [encodeParts_style0, ht]
  simp (disch := (simp only [List.length_append, List.length_cons, List.length_nil]; omega)) only
    [fun enc h => AppendIntegerPart_mod02 k enc d hd.1 hd.2 h, catchrX_fit, strcatX_fit,
     fun enc h => AppendIntegerPart_year k enc y hy.1 hy.2 h,
     fun enc h => AppendIntegerPart_two k enc hh h1.1 h1.2 h,
     fun enc h => AppendIntegerPart_two k enc mn h2.1 h2.2 h,
     fun enc h => AppendIntegerPart_two k enc ss h3.1 h3.2 h,
     fun enc h => AppendFractionPart_fos k enc ms h4.1 h4.2 h]
  simp [epochDmy]

/-- The scan of the formats of styles 3 and 4 on fields within their ranges. -/
theorem encodeParts_iso (k : EpochConsts) (y m d hh mn ss ms : Int)
    (hlen : 24 ≤ k.EPOCHx_STRING_MAX)
    (hy : 0 ≤ y ∧ y < 10000) (hm : 0 ≤ m ∧ m < 100) (hd : 0 ≤ d ∧ d < 100)
    (h1 : 0 ≤ hh ∧ hh < 100) (h2 : 0 ≤ mn ∧ mn < 100) (h3 : 0 ≤ ss ∧ ss < 100)
    (h4 : 0 ≤ ms ∧ ms < 1000) :
    encodeParts k y m d hh mn ss ms
        ("<year>-<mm.02>-<dom.02>T<hour>:<min>:<sec>.<fos>Z".data.length + 1)
        "<year>-<mm.02>-<dom.02>T<hour>:<min>:<sec>.<fos>Z".data []
      = epochIso y m d hh mn ss ms ['Z'] ∧
    encodeParts k y m d hh mn ss ms
        ("<year>-<mm.02>-<dom.02>T<hour>:<min>:<sec>.<fos>".data.length + 1)
        "<year>-<mm.02>-<dom.02>T<hour>:<min>:<sec>.<fos>".data []
      = epochIso y m d hh mn ss ms [] := by
  rw [encodeParts_style3, encodeParts_style4]
  simp (disch := (simp only [List.length_append, List.length_cons, List.length_nil]; omega)) only
    [fun enc h => AppendIntegerPart_mod02 k enc d hd.1 hd.2 h,
     fun enc h => AppendIntegerPart_mod02 k enc m hm.1 hm.2 h, catchrX_fit, strcatX_fit,
     fun enc h => AppendIntegerPart_year k enc y hy.1 hy.2 h,
     fun enc h => AppendIntegerPart_two k enc hh h1.1 h1.2 h,
     fun enc h => AppendIntegerPart_two k enc mn h2.1 h2.2 h,
     fun enc h => AppendIntegerPart_two k enc ss h3.1 h3.2 h,
     fun enc h => AppendFractionPart_fos k enc ms h4.1 h4.2 h]
  simp [epochIso]

theorem digitsValue_three (n : Int) (h0 : 0 ≤ n) (h1 : n < 1000) :
    (digitsValue [dig n 2, dig n 1, dig n 0] : Int) = n := by
  unfold digitsValue
  simp only [List.foldl, dig_toNat]
  have : n.toNat < 1000 := by omega
  have e : (10 * (10 * (10 * 0 + (48 + n.toNat / 10 ^ 2 % 10 - 48))
      + (48 + n.toNat / 10 ^ 1 % 10 - 48)) + (48 + n.toNat / 10 ^ 0 % 10 - 48)) = n.toNat := by
    norm_num
    omega
  rw [e]; omega

theorem scanInt_three (n : Int) (h0 : 0 ≤ n) (h1 : n < 1000) (rest : List Char) :
    scanInt 3 (dig n 2 :: dig n 1 :: dig n 0 :: rest) = some (n, rest) := by
  have := scanInt_block [dig n 2, dig n 1, dig n 0] rest 3 (by simp)
    (by intro ch h
        simp only [List.mem_cons, List.mem_singleton, List.not_mem_nil, or_false] at h
        rcases h with h | h | h <;> rw [h] <;> exact dig_isDigit _ _) (Or.inl rfl)
  rw [digitsValue_three n h0 h1] at this
  exact this

/-- The `sscanf` of `parseEPOCH` on a well-formed string of style 0. -/
theorem sscanf_epochDmy (t0 t1 t2 : Char) (y d hh mn ss ms : Int)
    (hy : 0 ≤ y ∧ y < 10000) (hd : 0 ≤ d ∧ d < 100)
    (h1 : 0 ≤ hh ∧ hh < 100) (h2 : 0 ≤ mn ∧ mn < 100) (h3 : 0 ≤ ss ∧ ss < 100)
    (h4 : 0 ≤ ms ∧ ms < 1000) :
    sscanf fmtEPOCH (epochDmy t0 t1 t2 y d hh mn ss ms)
      = [.int d, .chr t0, .chr t1, .chr t2, .int y, .int hh, .int mn, .int ss, .int ms] := by
  have hsp : ∀ rest : List Char,
      List.dropWhile isspaceC (' ' :: dig hh 1 :: rest) = dig hh 1 :: rest := by
    intro rest
    rw [List.dropWhile_cons_of_pos (by decide), List.dropWhile_cons_of_neg]
    rw [dig_not_space]; simp
  unfold fmtEPOCH epochDmy
  simp only [List.cons_append, List.nil_append, sscanf, scanInt_four y hy.1 hy.2,
    scanInt_two d hd.1 hd.2, scanInt_two hh h1.1 h1.2,
    scanInt_two mn h2.1 h2.2, scanInt_two ss h3.1 h3.2, scanInt_three ms h4.1 h4.2,
    if_true, hsp]

/-- The `sscanf` of `parseEPOCH3` and of `parseEPOCH4` on well-formed strings of styles 3
and 4. -/
theorem sscanf_epochIso (y m d hh mn ss ms : Int)
    (hy : 0 ≤ y ∧ y < 10000) (hm : 0 ≤ m ∧ m < 100) (hd : 0 ≤ d ∧ d < 100)
    (h1 : 0 ≤ hh ∧ hh < 100) (h2 : 0 ≤ mn ∧ mn < 100) (h3 : 0 ≤ ss ∧ ss < 100)
    (h4 : 0 ≤ ms ∧ ms < 1000) :
    sscanf fmtEPOCH3 (epochIso y m d hh mn ss ms ['Z'])
      = [.int y, .int m, .int d, .chr 'T', .int hh, .int mn, .int ss, .int ms, .chr 'Z'] ∧
    sscanf fmtEPOCH4 (epochIso y m d hh mn ss ms [])
      = [.int y, .int m, .int d, .chr 'T', .int hh, .int mn, .int ss, .int ms] := by
  unfold fmtEPOCH3 fmtEPOCH4 epochIso
  constructor <;>
  simp only [List.cons_append, List.nil_append, List.append_nil, sscanf,
    scanInt_four y hy.1 hy.2, scanInt_two m hm.1 hm.2,
    scanInt_two d hd.1 hd.2, scanInt_two hh h1.1 h1.2,
    scanInt_two mn h2.1 h2.2, scanInt_two ss h3.1 h3.2, scanInt_three ms h4.1 h4.2, if_true]

theorem monthOfToken_MonthToken (m : Int) (t0 t1 t2 : Char) (h1 : 1 ≤ m) (h2 : m ≤ 12)
    (ht : MonthToken m = [t0, t1, t2]) :
    monthOfToken [MakeUpper t0, MakeLower t1, MakeLower t2] = m ∧
    hasNA ['-', t0, t1, t2, '-'] = false := by
  interval_cases m <;>
    (obtain ⟨rfl, rfl, rfl⟩ : _ = t0 ∧ _ = t1 ∧ _ = t2 := by
      simpa [MonthToken] using ht) <;> decide

theorem dig_toLower (n : Int) (k : Nat) : (dig n k).toLower = dig n k := by
  have h := dig_toNat n k
  have : n.toNat / 10 ^ k % 10 < 10 := Nat.mod_lt _ (by decide)
  unfold Char.toLower
  simp only []
  rw [if_neg (by
    show ¬ ((dig n k).toNat ≥ 65 ∧ (dig n k).toNat ≤ 90)
    omega)]

theorem dig_not_n (n : Int) (k : Nat) : ((dig n k).toLower == 'n') = false := by
  rw [dig_toLower]
  exact beq_false_of_ne (dig_ne n k 'n' (Or.inr (by decide)))

theorem dig_not_a (n : Int) (k : Nat) : ((dig n k).toLower == 'a') = false := by
  rw [dig_toLower]
  exact beq_false_of_ne (dig_ne n k 'a' (Or.inr (by decide)))

theorem hasNA_cons_dig (n : Int) (k : Nat) (b : Char) (r : List Char) :
    hasNA (dig n k :: b :: r) = hasNA (b :: r) := by
  simp only [hasNA, dig_not_n, Bool.false_and, Bool.false_or]

theorem hasNA_cons_cons_dig (a : Char) (n : Int) (k : Nat) (r : List Char) :
    hasNA (a :: dig n k :: r) = hasNA (dig n k :: r) := by
  simp only [hasNA, dig_not_a, Bool.and_false, Bool.false_or]

/-- No string of style 0, 3 or 4 has an n directly followed by an a. -/
theorem hasNA_epoch (t0 t1 t2 : Char) (y m d hh mn ss ms : Int)
    (ht : hasNA ['-', t0, t1, t2, '-'] = false) :
    hasNA (epochDmy t0 t1 t2 y d hh mn ss ms) = false ∧
    hasNA (epochIso y m d hh mn ss ms ['Z']) = false ∧
    hasNA (epochIso y m d hh mn ss ms []) = false := by
  have hz : hasNA [dig ms 0, 'Z'] = false := by
    simp only [hasNA, dig_not_n, Bool.false_and, Bool.false_or]
  have h1 : hasNA [dig ms 0] = false := rfl
  have ht2 : hasNA ('-' :: t0 :: t1 :: t2 :: '-' :: dig y 3 :: dig y 2 :: dig y 1 :: dig y 0
      :: ' ' :: dig hh 1 :: dig hh 0 :: ':' :: dig mn 1 :: dig mn 0 :: ':' :: dig ss 1
      :: dig ss 0 :: '.' :: dig ms 2 :: dig ms 1 :: [dig ms 0]) = false := by
    have step : ∀ (a b : Char) (r : List Char), hasNA (a :: b :: r)
        = ((a.toLower == 'n' && b.toLower == 'a') || hasNA (b :: r)) := fun _ _ _ => rfl
    have tail : hasNA ('-' :: dig y 3 :: dig y 2 :: dig y 1 :: dig y 0
        :: ' ' :: dig hh 1 :: dig hh 0 :: ':' :: dig mn 1 :: dig mn 0 :: ':' :: dig ss 1
        :: dig ss 0 :: '.' :: dig ms 2 :: dig ms 1 :: [dig ms 0]) = false := by
      simp only [hasNA_cons_dig, hasNA_cons_cons_dig, h1]
    rw [step, step, step, step] at ht
    rw [step, step, step, step, tail]
    simp only [Bool.or_eq_false_iff] at ht ⊢
    exact ⟨ht.1, ht.2.1, ht.2.2.1, ht.2.2.2.1, trivial⟩
  unfold epochDmy epochIso
  refine ⟨?_, ?_, ?_⟩
  · simp only [hasNA_cons_dig, hasNA_cons_cons_dig, ht2]
  · simp only [List.cons_append, List.nil_append, hasNA_cons_dig, hasNA_cons_cons_dig, hz]
  · simp only [List.cons_append, List.nil_append, List.append_nil, hasNA_cons_dig,
      hasNA_cons_cons_dig, h1]

theorem hasNA_cons (a : Char) (s : List Char) (h : hasNA s = true) : hasNA (a :: s) = true := by
  cases s with
  | nil => simp [hasNA] at h
  | cons b r => simp only [hasNA, h, Bool.or_true]

/-- The search `igFind` finds `nan` only in strings with an n directly followed by an a. -/
theorem igFind_hasNA (s : List Char) (h : igFind s "nan".data = true) : hasNA s = true := by
  induction s with
  | nil => simp [igFind] at h
  | cons a s ih =>
    simp only [igFind, Bool.or_eq_true] at h
    rcases h with h | h
    · cases s with
      | nil => simp [igStarts] at h
      | cons b r =>
        have e1 : ('n' : Char).toLower = 'n' := by decide
        have e2 : ('a' : Char).toLower = 'a' := by decide
        simp only [igStarts, Bool.and_eq_true, e1, e2] at h
        simp only [hasNA, h.1, h.2.1, Bool.and_self, Bool.true_or]
    · exact hasNA_cons a s (ih h)

theorem epoch_not_sentinel (k : EpochConsts) (e : Int) (h0 : 0 ≤ e)
    (hill : k.ILLEGAL_EPOCH_VALUE.raw < 0) :
    (Dbl.beq (Dbl.ofInt e) fillEpoch || Dbl.beq (Dbl.ofInt e) k.ILLEGAL_EPOCH_VALUE) = false := by
  have hnn : 0 ≤ (Dbl.ofInt e).raw := Dbl.ofInt_nonneg e h0
  have c1 : Dbl.beq (Dbl.ofInt e) fillEpoch = false := by
    unfold Dbl.beq
    have := fillEpoch_neg
    exact decide_eq_false (by omega)
  have c2 : Dbl.beq (Dbl.ofInt e) k.ILLEGAL_EPOCH_VALUE = false := by
    unfold Dbl.beq
    exact decide_eq_false (by omega)
  rw [c1, c2]; rfl

/-- `toParseEPOCH` on a well-formed string of style 0. -/
theorem toParseEPOCH_dmy (ig : List Char → List Char → Bool) (k : EpochConsts)
    (t0 t1 t2 : Char) (y m d hh mn ss ms : Int)
    (hna : ig (epochDmy t0 t1 t2 y d hh mn ss ms) "nan".data = false)
    (hmo : monthOfToken [MakeUpper t0, MakeLower t1, MakeLower t2] = m) (hm : m ≠ 0)
    (hy : 0 ≤ y ∧ y < 10000) (hd : 0 ≤ d ∧ d < 100)
    (h1 : 0 ≤ hh ∧ hh < 100) (h2 : 0 ≤ mn ∧ mn < 100) (h3 : 0 ≤ ss ∧ ss < 100)
    (h4 : 0 ≤ ms ∧ ms < 1000) :
    toParseEPOCH ig k (epochDmy t0 t1 t2 y d hh mn ss ms)
      = some (.val (computeEPOCH k y m d hh mn ss ms)) := by
  have hne : epochDmy t0 t1 t2 y d hh mn ss ms ≠ [] := by unfold epochDmy; simp
  have htrim : trimC (epochDmy t0 t1 t2 y d hh mn ss ms)
      = some (epochDmy t0 t1 t2 y d hh mn ss ms) := by
    apply trimC_id _ hne
    · have : (epochDmy t0 t1 t2 y d hh mn ss ms).head hne = dig d 1 := by
        unfold epochDmy; rfl
      rw [this]; exact dig_not_skip _ _
    · have : (epochDmy t0 t1 t2 y d hh mn ss ms).getLast hne = dig ms 0 := by
        unfold epochDmy; simp
      rw [this]; exact dig_not_skip _ _
  have hlen : (epochDmy t0 t1 t2 y d hh mn ss ms).length = 24 := by
    unfold epochDmy; rfl
  have h11 : (epochDmy t0 t1 t2 y d hh mn ss ms).get? 11 = some ' ' := by
    unfold epochDmy; rfl
  have hscan := sscanf_epochDmy t0 t1 t2 y d hh mn ss ms hy hd h1 h2 h3 h4
  unfold toParseEPOCH
  rw [hna]
  simp only [Bool.false_eq_true, if_false, htrim, Option.some_bind, hlen, EPOCH_STRING_LEN,
    if_true, h11]
  unfold parseEPOCH
  rw [hna]
  simp only [Bool.false_eq_true, if_false, hscan, hmo, if_neg hm]

/-- `toParseEPOCH` on well-formed strings of styles 3 and 4. -/
theorem toParseEPOCH_iso (ig : List Char → List Char → Bool) (k : EpochConsts)
    (y m d hh mn ss ms : Int) (z : List Char) (hz : z = [] ∨ z = ['Z'])
    (hna : ig (epochIso y m d hh mn ss ms z) "nan".data = false)
    (hy : 0 ≤ y ∧ y < 10000) (hm : 0 ≤ m ∧ m < 100) (hd : 0 ≤ d ∧ d < 100)
    (h1 : 0 ≤ hh ∧ hh < 100) (h2 : 0 ≤ mn ∧ mn < 100) (h3 : 0 ≤ ss ∧ ss < 100)
    (h4 : 0 ≤ ms ∧ ms < 1000) :
    toParseEPOCH ig k (epochIso y m d hh mn ss ms z)
      = some (.val (computeEPOCH k y m d hh mn ss ms)) := by
  have hne : epochIso y m d hh mn ss ms z ≠ [] := by unfold epochIso; simp
  have htrim : trimC (epochIso y m d hh mn ss ms z) = some (epochIso y m d hh mn ss ms z) := by
    apply trimC_id _ hne
    · have : (epochIso y m d hh mn ss ms z).head hne = dig y 3 := by
        unfold epochIso; rfl
      rw [this]; exact dig_not_skip _ _
    · rcases hz with hz | hz
      · subst hz
        have : (epochIso y m d hh mn ss ms []).getLast hne = dig ms 0 := by
          unfold epochIso; simp
        rw [this]; exact dig_not_skip _ _
      · subst hz
        have : (epochIso y m d hh mn ss ms ['Z']).getLast hne = 'Z' := by
          unfold epochIso; simp
        rw [this]; decide
  have h11 : (epochIso y m d hh mn ss ms z).get? 11 ≠ some ' ' := by
    have : (epochIso y m d hh mn ss ms z).get? 11 = some (dig hh 1) := by
      unfold epochIso; rfl
    rw [this]
    intro hc
    exact dig_ne hh 1 ' ' (Or.inl (by decide)) (Option.some.inj hc)
  have h10 : (epochIso y m d hh mn ss ms z).get? 10 = some 'T' := by
    unfold epochIso; rfl
  obtain ⟨s3, s4⟩ := sscanf_epochIso y m d hh mn ss ms hy hm hd h1 h2 h3 h4
  unfold toParseEPOCH
  rw [hna]
  simp only [Bool.false_eq_true, if_false, htrim, Option.some_bind]
  rcases hz with hz | hz
  · subst hz
    have hlen : (epochIso y m d hh mn ss ms []).length = 23 := by
      unfold epochIso; rfl
    simp only [hlen, EPOCH_STRING_LEN, EPOCH1_STRING_LEN, EPOCH2_STRING_LEN, EPOCH4_STRING_LEN,
      h10]
    simp only [show ¬ ((23 : Nat) = 24) by decide, show ¬ ((23 : Nat) = 16) by decide,
      show ¬ ((23 : Nat) = 14) by decide, if_false, false_and, true_and, Option.any_some,
      Bool.or_false, Bool.or_true, decide_True, decide_False, if_true]
    unfold parseEPOCH4
    rw [hna]
    simp only [Bool.false_eq_true, if_false, s4, Bool.true_or, if_true]
  · subst hz
    have hlen : (epochIso y m d hh mn ss ms ['Z']).length = 24 := by
      unfold epochIso; rfl
    simp only [hlen, EPOCH_STRING_LEN, if_true, if_neg h11, h10, Option.any_some]
    simp only [Bool.or_false, Bool.or_true, decide_True, decide_False, if_true]
    unfold parseEPOCH3
    rw [hna]
    simp only [Bool.false_eq_true, if_false, s3, Bool.true_or, if_true]

set_option maxRecDepth 1000000 in
/-- C13, counterexample: the EPOCH of one millisecond, 0000-01-01T00:00:00.001, is encoded as
`00000101000000` in style 2 and as `00000101.0000000` in style 1, and both strings are parsed
as the EPOCH 0: the round trip through styles 1 and 2 loses the milliseconds. -/
theorem C13_styles_1_2_lose_milliseconds :
    toEncodeEPOCH cdfEpochConsts (.val (Dbl.ofInt 1)) 2 = "00000101000000".data ∧
    toParseEPOCH igFind cdfEpochConsts (toEncodeEPOCH cdfEpochConsts (.val (Dbl.ofInt 1)) 2)
      = some (.val (Dbl.ofInt 0)) ∧
    toEncodeEPOCH cdfEpochConsts (.val (Dbl.ofInt 1)) 1 = "00000101.0000000".data ∧
    toParseEPOCH igFind cdfEpochConsts (toEncodeEPOCH cdfEpochConsts (.val (Dbl.ofInt 1)) 1)
      = some (.val (Dbl.ofInt 0)) ∧
    Dbl.ofInt 0 ≠ Dbl.ofInt 1 := by
  decide!

/-- C13, amended: for every whole number `e` of milliseconds from 0000-01-01T00:00:00.000 up
to but excluding the fill instant 9999-12-31T23:59:59.999, and every style 0, 3 or 4,
`toParseEPOCH (toEncodeEPOCH (e, style))` is `e`.  The constants of `cdf.h` and the search
`CDFstrstrIgCase` are parameters: the illegal value is negative, the largest EPOCH is not
below 9999-12-31T23:59:59.998, the encoded string has room for 24 characters, and the search
finds `nan` only in a string with an n directly followed by an a. -/
theorem C13_epoch_round_trip_styles_0_3_4 (ig : List Char → List Char → Bool) (k : EpochConsts)
    (e style : Int)
    (hig : ∀ s : List Char, ig s "nan".data = true → hasNA s = true)
    (hill : k.ILLEGAL_EPOCH_VALUE.raw < 0)
    (hmax : (Dbl.ofInt 315569519999998).raw ≤ k.MAX_EPOCH_BINARY.raw)
    (hcap : 24 ≤ k.EPOCHx_STRING_MAX)
    (h0 : 0 ≤ e) (h1 : e < 315569519999999)
    (hs : style = 0 ∨ style = 3 ∨ style = 4) :
    toParseEPOCH ig k (toEncodeEPOCH k (.val (Dbl.ofInt e)) style)
      = some (.val (Dbl.ofInt e)) := by
  have hb := EPOCHbreakdown_ofInt k e h0 (by omega) hill hmax
  have hsent := epoch_not_sentinel k e h0 hill
  obtain ⟨d1, d2, d3, d4, d5, d6, d7⟩ := decode_epoch (1721060 + e / 86400000) (by omega)
    (by omega)
  generalize dateFromL (1721060 + e / 86400000 + 68569) = r at *
  obtain ⟨y, m, d⟩ := r
  simp only at d1 d2 d3 d4 d5 d6 d7 hb
  have hy : 0 ≤ y ∧ y < 10000 := ⟨d1, by omega⟩
  have hm : 0 ≤ m ∧ m < 100 := ⟨by omega, by omega⟩
  have hd : 0 ≤ d ∧ d < 100 := ⟨by omega, by omega⟩
  have f1 : 0 ≤ e / 3600000 % 24 ∧ e / 3600000 % 24 < 100 := ⟨by omega, by omega⟩
  have f2 : 0 ≤ e / 60000 % 60 ∧ e / 60000 % 60 < 100 := ⟨by omega, by omega⟩
  have f3 : 0 ≤ e / 1000 % 60 ∧ e / 1000 % 60 < 100 := ⟨by omega, by omega⟩
  have f4 : 0 ≤ e % 1000 ∧ e % 1000 < 1000 := ⟨by omega, by omega⟩
  have hc := computeEPOCH_fields k e y m d h0 (by omega) ⟨d1, d2⟩ ⟨d3, d4⟩ ⟨d5, d6⟩ d7
  have ht := MonthToken_three m d3 d4
  obtain ⟨hmo, hna0⟩ := monthOfToken_MonthToken m _ _ _ d3 d4 ht
  obtain ⟨n0, n3, n4⟩ := hasNA_epoch _ _ _ y m d (e / 3600000 % 24) (e / 60000 % 60)
    (e / 1000 % 60) (e % 1000) hna0
  have hnot : ∀ s : List Char, hasNA s = false → ig s "nan".data = false := by
    intro s hs
    cases hc : ig s "nan".data with
    | false => rfl
    | true => rw [hig s hc] at hs; exact absurd hs (by decide)
  obtain ⟨i3, i4⟩ := encodeParts_iso k y m d (e / 3600000 % 24) (e / 60000 % 60)
    (e / 1000 % 60) (e % 1000) hcap hy hm hd f1 f2 f3 f4
  have i0 := encodeParts_dmy k y m d (e / 3600000 % 24) (e / 60000 % 60)
    (e / 1000 % 60) (e % 1000) _ _ _ hcap ht hy hd f1 f2 f3 f4
  rcases hs with hs | hs | hs
  · subst hs
    have henc : toEncodeEPOCH k (.val (Dbl.ofInt e)) 0
        = epochDmy ((MonthToken m).getD 0 ' ') ((MonthToken m).getD 1 ' ')
            ((MonthToken m).getD 2 ' ') y d (e / 3600000 % 24) (e / 60000 % 60)
            (e / 1000 % 60) (e % 1000) := by
      unfold toEncodeEPOCH
      simp only [show ¬ ((0 : Int) < 0 ∨ (0 : Int) > 4) by decide, if_false, if_true]
      unfold encodeEPOCH
      simp only [hsent, Bool.false_eq_true, if_false]
      unfold encodeEPOCHxFmt
      rw [hb]
      exact i0
    rw [henc, toParseEPOCH_dmy ig k _ _ _ y m d _ _ _ _ (hnot _ n0) hmo (by omega) hy hd f1 f2
      f3 f4, hc]
  · subst hs
    have henc : toEncodeEPOCH k (.val (Dbl.ofInt e)) 3
        = epochIso y m d (e / 3600000 % 24) (e / 60000 % 60) (e / 1000 % 60) (e % 1000)
            ['Z'] := by
      unfold toEncodeEPOCH
      simp only [show ¬ ((3 : Int) < 0 ∨ (3 : Int) > 4) by decide, if_false,
        show ¬ ((3 : Int) = 0) by decide, show ¬ ((3 : Int) = 1) by decide,
        show ¬ ((3 : Int) = 2) by decide, if_true]
      unfold encodeEPOCH3
      simp only [hsent, Bool.false_eq_true, if_false]
      unfold encodeEPOCHx
      rw [if_neg (by decide)]
      unfold encodeEPOCHxFmt
      rw [hb]
      exact i3
    rw [henc, toParseEPOCH_iso ig k y m d _ _ _ _ ['Z'] (Or.inr rfl) (hnot _ n3) hy hm hd f1 f2
      f3 f4, hc]
  · subst hs
    have henc : toEncodeEPOCH k (.val (Dbl.ofInt e)) 4
        = epochIso y m d (e / 3600000 % 24) (e / 60000 % 60) (e / 1000 % 60) (e % 1000)
            [] := by
      unfold toEncodeEPOCH
      simp only [show ¬ ((4 : Int) < 0 ∨ (4 : Int) > 4) by decide, if_false,
        show ¬ ((4 : Int) = 0) by decide, show ¬ ((4 : Int) = 1) by decide,
        show ¬ ((4 : Int) = 2) by decide, show ¬ ((4 : Int) = 3) by decide]
      unfold encodeEPOCH4
      simp only [hsent, Bool.false_eq_true, if_false]
      unfold encodeEPOCHx
      rw [if_neg (by decide)]
      unfold encodeEPOCHxFmt
      rw [hb]
      exact i4
    rw [henc, toParseEPOCH_iso ig k y m d _ _ _ _ [] (Or.inl rfl) (hnot _ n4) hy hm hd f1 f2
      f3 f4, hc]

theorem cdfEpochConsts_ok :
    cdfEpochConsts.ILLEGAL_EPOCH_VALUE.raw < 0 ∧
    (Dbl.ofInt 315569519999998).raw ≤ cdfEpochConsts.MAX_EPOCH_BINARY.raw ∧
    24 ≤ cdfEpochConsts.EPOCHx_STRING_MAX := by
  refine ⟨?_, le_refl _, by decide⟩
  show (Dbl.ofInt (-1)).raw < 0
  rw [Dbl.ofInt_raw (-1) (by decide)]
  have := SC_posZ
  omega

theorem C13_epoch_round_trip_styles_0_3_4_witness :
    ((∀ s : List Char, igFind s "nan".data = true → hasNA s = true) ∧
      cdfEpochConsts.ILLEGAL_EPOCH_VALUE.raw < 0 ∧
      (Dbl.ofInt 315569519999998).raw ≤ cdfEpochConsts.MAX_EPOCH_BINARY.raw ∧
      24 ≤ cdfEpochConsts.EPOCHx_STRING_MAX ∧
      (0 : Int) ≤ 63113904000123 ∧ (63113904000123 : Int) < 315569519999999 ∧
      ((0 : Int) = 0 ∨ (0 : Int) = 3 ∨ (0 : Int) = 4)) ∧
    toParseEPOCH igFind cdfEpochConsts
        (toEncodeEPOCH cdfEpochConsts (.val (Dbl.ofInt 63113904000123)) 0)
      = some (.val (Dbl.ofInt 63113904000123)) :=
  ⟨⟨igFind_hasNA, cdfEpochConsts_ok.1, cdfEpochConsts_ok.2.1, cdfEpochConsts_ok.2.2, by decide,
    by decide, Or.inl rfl⟩,
   C13_epoch_round_trip_styles_0_3_4 igFind cdfEpochConsts 63113904000123 0 igFind_hasNA
    cdfEpochConsts_ok.1 cdfEpochConsts_ok.2.1 cdfEpochConsts_ok.2.2 (by decide) (by decide)
    (Or.inl rfl)⟩

/-- Division of an exact multiple by an integer is exact. -/
theorem div_ofInt_exact (s b : Int) (hs : 0 ≤ s) (hb0 : 0 < b) (hb : b.natAbs ≤ 2 ^ 53)
    (hsb : b * s ≤ 9007199254740992) :
    Dbl.div (Dbl.ofInt (b * s)) (Dbl.ofInt b) = Dbl.ofInt s := by
  have hsc := SC_posZ
  have h1 : s ≤ b * s := by nlinarith
  have hS := natAbs_small s (by omega) (by omega)
  have hBS := natAbs_small (b * s) (by nlinarith) hsb
  have hraw := Dbl.ofInt_raw (b * s) hBS
  have hx0 : 0 ≤ (Dbl.ofInt (b * s)).raw := Dbl.ofInt_nonneg _ (by nlinarith)
  have hxb : (Dbl.ofInt (b * s)).raw ≤ 2 ^ 64 * SC := by
    rw [hraw]
    exact mul_le_mul_of_nonneg_right (by norm_num; omega) (le_of_lt hsc)
  have hsn : s.toNat ≤ 2 ^ 53 := by omega
  have lo := Dbl.div_ge (Dbl.ofInt (b * s)) b (s.toNat * SC) hb0 hb hx0 hxb (Rep_int _ hsn) (by
    rw [hraw]; push_cast; rw [Int.toNat_of_nonneg hs]; linarith)
  have hi := Dbl.div_le (Dbl.ofInt (b * s)) b (s.toNat * SC) hb0 hb hx0 hxb (Rep_int _ hsn) (by
    rw [hraw]; push_cast; rw [Int.toNat_of_nonneg hs]; linarith)
  push_cast at lo hi
  rw [Int.toNat_of_nonneg hs] at lo hi
  apply Dbl.ext_raw
  rw [Dbl.ofInt_raw s hS]
  omega

/-- The sub-second fields `encodeEPOCH16x2` and `encodeEPOCH16x4` take from a whole number
of picoseconds below one second. -/
theorem picos_fields (p : Int) (h0 : 0 ≤ p) (h1 : p < 1000000000000) :
    Dbl.toInt (Dbl.fmod (Dbl.ofInt p) (Dbl.ofInt 1000)) = p % 1000 ∧
    Dbl.toInt (Dbl.fmod (Dbl.div (Dbl.ofInt p) (Dbl.ofInt 1000)) (Dbl.ofInt 1000))
      = p / 1000 % 1000 ∧
    Dbl.toInt (Dbl.fmod (Dbl.div (Dbl.div (Dbl.ofInt p) (Dbl.ofInt 1000)) (Dbl.ofInt 1000))
      (Dbl.ofInt 1000)) = p / 1000000 % 1000 ∧
    Dbl.toInt (Dbl.div (Dbl.div (Dbl.div (Dbl.ofInt p) (Dbl.ofInt 1000)) (Dbl.ofInt 1000))
      (Dbl.ofInt 1000)) = p / 1000000000 := by
  have hP := natAbs_le_pow53 p h0 (by omega)
  have x0 : Below (Dbl.ofInt p) p 1074 := Below_ofInt p hP
  have p53 : (2 : Int) ^ 53 = 9007199254740992 := by norm_num
  have q1 : 0 ≤ p / 1000 := Int.ediv_nonneg h0 (by decide)
  have x1 : Below (Dbl.div (Dbl.ofInt p) (Dbl.ofInt 1000)) (p / 1000) (1074 - 10) :=
    x0.div h0 1000 10 (by decide) (by norm_num) (by norm_num) (by norm_num) (by norm_num)
      (by rw [p53]; omega) (by rw [p53]; norm_num; omega)
  have e2 : p / 1000 / 1000 = p / 1000000 := by omega
  have q2 : 0 ≤ p / 1000000 := Int.ediv_nonneg h0 (by decide)
  have x2 : Below (Dbl.div (Dbl.div (Dbl.ofInt p) (Dbl.ofInt 1000)) (Dbl.ofInt 1000))
      (p / 1000000) (1074 - 10 - 10) := by
    have := x1.div q1 1000 10 (by decide) (by norm_num) (by norm_num) (by norm_num)
      (by norm_num) (by rw [p53]; omega) (by rw [p53, e2]; norm_num; omega)
    rw [e2] at this
    exact this
  have e3 : p / 1000000 / 1000 = p / 1000000000 := by omega
  have q3 : 0 ≤ p / 1000000000 := Int.ediv_nonneg h0 (by decide)
  have x3 : Below (Dbl.div (Dbl.div (Dbl.div (Dbl.ofInt p) (Dbl.ofInt 1000)) (Dbl.ofInt 1000))
      (Dbl.ofInt 1000)) (p / 1000000000) (1074 - 10 - 10 - 10) := by
    have := x2.div q2 1000 10 (by decide) (by norm_num) (by norm_num) (by norm_num)
      (by norm_num) (by rw [p53]; omega) (by rw [p53, e3]; norm_num; omega)
    rw [e3] at this
    exact this
  exact ⟨x0.toInt_fmod h0 1000 (by decide) (by decide),
    x1.toInt_fmod q1 1000 (by decide) (by decide),
    x2.toInt_fmod q2 1000 (by decide) (by decide), x3.toInt q3⟩

theorem encodeEPOCH16x_ofInt (p : Int) (h0 : 0 ≤ p) (h1 : p < 1000000000000) :
    encodeEPOCH16x2 (Dbl.ofInt p)
      = fracDots (p / 1000000000) (p / 1000000 % 1000) (p / 1000 % 1000) (p % 1000) ∧
    encodeEPOCH16x4 (Dbl.ofInt p)
      = fracRun (p / 1000000000) (p / 1000000 % 1000) (p / 1000 % 1000) (p % 1000) := by
  obtain ⟨a1, a2, a3, a4⟩ := picos_fields p h0 h1
  unfold encodeEPOCH16x2 encodeEPOCH16x4
  simp only [a1, a2, a3, a4]
  rw [fmtLd_three _ (by omega) (by omega), fmtLd_three _ (by omega) (by omega),
    fmtLd_three _ (by omega) (by omega), fmtLd_three _ (by omega) (by omega)]
  exact ⟨rfl, rfl⟩

theorem encodeParts_style16 (k : EpochConsts) (y m d hh mn ss ms : Int) :
    encodeParts k y m d hh mn ss ms
        ("<year>-<mm.02>-<dom.02>T<hour>:<min>:<sec>.".data.length + 1)
        "<year>-<mm.02>-<dom.02>T<hour>:<min>:<sec>.".data []
      = catchrX (AppendIntegerPart k (catchrX (AppendIntegerPart k
          (catchrX (AppendIntegerPart k (catchrX (AppendIntegerPart k (catchrX
            (AppendIntegerPart k (catchrX (AppendIntegerPart k [] y 4 true []).1 '-'
              k.EPOCHx_STRING_MAX) m 0 false "02".data).1 '-' k.EPOCHx_STRING_MAX)
            d 0 false "02".data).1 'T' k.EPOCHx_STRING_MAX) hh 2 true []).1 ':'
            k.EPOCHx_STRING_MAX) mn 2 true []).1 ':' k.EPOCHx_STRING_MAX) ss 2 true []).1 '.'
          k.EPOCHx_STRING_MAX := by
  rfl

/-- The scan of the format that starts the EPOCH16 strings of styles 3 and 4. -/
theorem encodeParts_iso16 (k : EpochConsts) (y m d hh mn ss ms : Int)
    (hlen : 24 ≤ k.EPOCHx_STRING_MAX)
    (hy : 0 ≤ y ∧ y < 10000) (hm : 0 ≤ m ∧ m < 100) (hd : 0 ≤ d ∧ d < 100)
    (h1 : 0 ≤ hh ∧ hh < 100) (h2 : 0 ≤ mn ∧ mn < 100) (h3 : 0 ≤ ss ∧ ss < 100) :
    encodeParts k y m d hh mn ss ms
        ("<year>-<mm.02>-<dom.02>T<hour>:<min>:<sec>.".data.length + 1)
        "<year>-<mm.02>-<dom.02>T<hour>:<min>:<sec>.".data []
      = epoch16Iso y m d hh mn ss [] := by
  rw [encodeParts_style16]
  simp (disch := (simp only [List.length_append, List.length_cons, List.length_nil]; omega)) only
    [fun enc h => AppendIntegerPart_mod02 k enc d hd.1 hd.2 h,
     fun enc h => AppendIntegerPart_mod02 k enc m hm.1 hm.2 h, catchrX_fit,
     fun enc h => AppendIntegerPart_year k enc y hy.1 hy.2 h,
     fun enc h => AppendIntegerPart_two k enc hh h1.1 h1.2 h,
     fun enc h => AppendIntegerPart_two k enc mn h2.1 h2.2 h,
     fun enc h => AppendIntegerPart_two k enc ss h3.1 h3.2 h]
  simp [epoch16Iso]

/-- The `sscanf` of `parseEPOCH16` on a well-formed string of style 0. -/
theorem sscanf_epoch16Dmy (t0 t1 t2 : Char) (y d hh mn ss ms us ns ps : Int)
    (hy : 0 ≤ y ∧ y < 10000) (hd : 0 ≤ d ∧ d < 100)
    (h1 : 0 ≤ hh ∧ hh < 100) (h2 : 0 ≤ mn ∧ mn < 100) (h3 : 0 ≤ ss ∧ ss < 100)
    (a : 0 ≤ ms ∧ ms < 1000) (b : 0 ≤ us ∧ us < 1000) (c : 0 ≤ ns ∧ ns < 1000)
    (e : 0 ≤ ps ∧ ps < 1000) :
    sscanf fmtEPOCH16 (epoch16Dmy t0 t1 t2 y d hh mn ss ms us ns ps)
      = [.int d, .chr t0, .chr t1, .chr t2, .int y, .int hh, .int mn, .int ss, .int ms,
         .int us, .int ns, .int ps] := by
  have hsp : ∀ rest : List Char,
      List.dropWhile isspaceC (' ' :: dig hh 1 :: rest) = dig hh 1 :: rest := by
    intro rest
    rw [List.dropWhile_cons_of_pos (by decide), List.dropWhile_cons_of_neg]
    rw [dig_not_space]; simp
  unfold fmtEPOCH16 epoch16Dmy fracDots
  simp only [List.cons_append, List.nil_append, sscanf, scanInt_four y hy.1 hy.2,
    scanInt_two d hd.1 hd.2, scanInt_two hh h1.1 h1.2,
    scanInt_two mn h2.1 h2.2, scanInt_two ss h3.1 h3.2, scanInt_three ms a.1 a.2,
    scanInt_three us b.1 b.2, scanInt_three ns c.1 c.2, scanInt_three ps e.1 e.2,
    if_true, hsp]

/-- The `sscanf` of `parseEPOCH16_3` and of `parseEPOCH16_4` on well-formed strings of
styles 3 and 4. -/
theorem sscanf_epoch16Iso (y m d hh mn ss ms us ns ps : Int)
    (hy : 0 ≤ y ∧ y < 10000) (hm : 0 ≤ m ∧ m < 100) (hd : 0 ≤ d ∧ d < 100)
    (h1 : 0 ≤ hh ∧ hh < 100) (h2 : 0 ≤ mn ∧ mn < 100) (h3 : 0 ≤ ss ∧ ss < 100)
    (a : 0 ≤ ms ∧ ms < 1000) (b : 0 ≤ us ∧ us < 1000) (c : 0 ≤ ns ∧ ns < 1000)
    (e : 0 ≤ ps ∧ ps < 1000) :
    sscanf fmtEPOCH16_3 (epoch16Iso y m d hh mn ss (fracDots ms us ns ps ++ ['Z']))
      = [.int y, .int m, .int d, .chr 'T', .int hh, .int mn, .int ss, .int ms, .int us,
         .int ns, .int ps, .chr 'Z'] ∧
    sscanf fmtEPOCH16_4 (epoch16Iso y m d hh mn ss (fracRun ms us ns ps))
      = [.int y, .int m, .int d, .chr 'T', .int hh, .int mn, .int ss, .int ms, .int us,
         .int ns, .int ps] := by
  unfold fmtEPOCH16_3 fmtEPOCH16_4 epoch16Iso fracDots fracRun
  constructor <;>
  simp only [List.cons_append, List.nil_append, List.append_nil, sscanf,
    scanInt_four y hy.1 hy.2, scanInt_two m hm.1 hm.2,
    scanInt_two d hd.1 hd.2, scanInt_two hh h1.1 h1.2,
    scanInt_two mn h2.1 h2.2, scanInt_two ss h3.1 h3.2, scanInt_three ms a.1 a.2,
    scanInt_three us b.1 b.2, scanInt_three ns c.1 c.2, scanInt_three ps e.1 e.2, if_true]

/-- The picoseconds `parseEPOCH16` and the ISO branches put together from the four
sub-second fields. -/
theorem picos_sum (p : Int) (h0 : 0 ≤ p) (h1 : p < 1000000000000) :
    Dbl.add (Dbl.add (Dbl.add (Dbl.mul (Dbl.ofInt (p / 1000000000)) (Dbl.ofInt 1000000000))
      (Dbl.mul (Dbl.ofInt (p / 1000000 % 1000)) (Dbl.ofInt 1000000)))
      (Dbl.mul (Dbl.ofInt (p / 1000 % 1000)) (Dbl.ofInt 1000))) (Dbl.ofInt (p % 1000))
      = Dbl.ofInt p ∧
    Dbl.add (Dbl.add (Dbl.add (Dbl.ofInt (p % 1000))
      (Dbl.mul (Dbl.ofInt (p / 1000 % 1000)) (Dbl.ofInt 1000)))
      (Dbl.mul (Dbl.ofInt (p / 1000000 % 1000)) (Dbl.ofInt 1000000)))
      (Dbl.mul (Dbl.ofInt (p / 1000000000)) (Dbl.ofInt 1000000000)) = Dbl.ofInt p := by
  have n1 : ∀ x : Int, 0 ≤ x → x ≤ 1000000000000 → x.natAbs ≤ 2 ^ 53 :=
    fun x a b => natAbs_small x (by omega) (by omega)
  have m1 := Dbl.mul_ofInt (p / 1000000000) 1000000000 (n1 _ (by omega) (by omega))
    (n1 _ (by omega) (by omega)) (n1 _ (by omega) (by omega))
  have m2 := Dbl.mul_ofInt (p / 1000000 % 1000) 1000000 (n1 _ (by omega) (by omega))
    (n1 _ (by omega) (by omega)) (n1 _ (by omega) (by omega))
  have m3 := Dbl.mul_ofInt (p / 1000 % 1000) 1000 (n1 _ (by omega) (by omega))
    (n1 _ (by omega) (by omega)) (n1 _ (by omega) (by omega))
  rw [m1, m2, m3]
  constructor
  · rw [Dbl.add_ofInt _ _ (n1 _ (by omega) (by omega)) (n1 _ (by omega) (by omega))
      (n1 _ (by omega) (by omega)),
      Dbl.add_ofInt _ _ (n1 _ (by omega) (by omega)) (n1 _ (by omega) (by omega))
      (n1 _ (by omega) (by omega)),
      Dbl.add_ofInt _ _ (n1 _ (by omega) (by omega)) (n1 _ (by omega) (by omega))
      (n1 _ (by omega) (by omega))]
    congr 1; omega
  · rw [Dbl.add_ofInt _ _ (n1 _ (by omega) (by omega)) (n1 _ (by omega) (by omega))
      (n1 _ (by omega) (by omega)),
      Dbl.add_ofInt _ _ (n1 _ (by omega) (by omega)) (n1 _ (by omega) (by omega))
      (n1 _ (by omega) (by omega)),
      Dbl.add_ofInt _ _ (n1 _ (by omega) (by omega)) (n1 _ (by omega) (by omega))
      (n1 _ (by omega) (by omega))]
    congr 1; omega

/-- No EPOCH16 string of style 0, 3 or 4 has an n directly followed by an a. -/
theorem hasNA_epoch16 (t0 t1 t2 : Char) (y m d hh mn ss ms us ns ps : Int)
    (ht : hasNA ['-', t0, t1, t2, '-'] = false) :
    hasNA (epoch16Dmy t0 t1 t2 y d hh mn ss ms us ns ps) = false ∧
    hasNA (epoch16Iso y m d hh mn ss (fracDots ms us ns ps ++ ['Z'])) = false ∧
    hasNA (epoch16Iso y m d hh mn ss (fracRun ms us ns ps)) = false := by
  have hz : hasNA [dig ps 0, 'Z'] = false := by
    simp only [hasNA, dig_not_n, Bool.false_and, Bool.false_or]
  have h1 : hasNA [dig ps 0] = false := rfl
  have ht2 : hasNA ('-' :: t0 :: t1 :: t2 :: '-' :: dig y 3 :: dig y 2 :: dig y 1 :: dig y 0
      :: ' ' :: dig hh 1 :: dig hh 0 :: ':' :: dig mn 1 :: dig mn 0 :: ':' :: dig ss 1
      :: dig ss 0 :: '.' :: fracDots ms us ns ps) = false := by
    have step : ∀ (a b : Char) (r : List Char), hasNA (a :: b :: r)
        = ((a.toLower == 'n' && b.toLower == 'a') || hasNA (b :: r)) := fun _ _ _ => rfl
    have tail : hasNA ('-' :: dig y 3 :: dig y 2 :: dig y 1 :: dig y 0
        :: ' ' :: dig hh 1 :: dig hh 0 :: ':' :: dig mn 1 :: dig mn 0 :: ':' :: dig ss 1
        :: dig ss 0 :: '.' :: fracDots ms us ns ps) = false := by
      unfold fracDots
      simp only [hasNA_cons_dig, hasNA_cons_cons_dig, h1]
    rw [step, step, step, step] at ht
    rw [step, step, step, step, tail]
    simp only [Bool.or_eq_false_iff] at ht ⊢
    exact ⟨ht.1, ht.2.1, ht.2.2.1, ht.2.2.2.1, trivial⟩
  unfold epoch16Dmy epoch16Iso
  refine ⟨?_, ?_, ?_⟩
  · simp only [List.cons_append, List.nil_append, hasNA_cons_dig, hasNA_cons_cons_dig, ht2]
  · unfold fracDots
    simp only [List.cons_append, List.nil_append, hasNA_cons_dig, hasNA_cons_cons_dig, hz]
  · unfold fracRun
    simp only [List.cons_append, List.nil_append, List.append_nil, hasNA_cons_dig,
      hasNA_cons_cons_dig, h1]

/-- `toParseEPOCH16` on a well-formed string of style 0. -/
theorem toParseEPOCH16_dmy (ig : List Char → List Char → Bool) (k : EpochConsts)
    (init : Double × Double) (t0 t1 t2 : Char) (y m d hh mn ss ms us ns ps : Int)
    (hna : ig (epoch16Dmy t0 t1 t2 y d hh mn ss ms us ns ps) "nan".data = false)
    (hmo : monthOfToken [MakeUpper t0, MakeLower t1, MakeLower t2] = m) (hm : m ≠ 0)
    (hy : 0 ≤ y ∧ y < 10000) (hd : 0 ≤ d ∧ d < 100)
    (h1 : 0 ≤ hh ∧ hh < 100) (h2 : 0 ≤ mn ∧ mn < 100) (h3 : 0 ≤ ss ∧ ss < 100)
    (a : 0 ≤ ms ∧ ms < 1000) (b : 0 ≤ us ∧ us < 1000) (c : 0 ≤ ns ∧ ns < 1000)
    (e : 0 ≤ ps ∧ ps < 1000)
    (hill : Dbl.beq (computeEPOCH k y m d hh mn ss 0) k.ILLEGAL_EPOCH_VALUE = false)
    (hfill : isFill16 y m d hh mn ss ms us ns ps = false) :
    toParseEPOCH16 ig k (epoch16Dmy t0 t1 t2 y d hh mn ss ms us ns ps) init
      = some (Dbl.ofInt 0,
          (.val (Dbl.div (computeEPOCH k y m d hh mn ss 0) (Dbl.ofInt 1000)),
           .val (Dbl.add (Dbl.add (Dbl.add (Dbl.mul (Dbl.ofInt ms) (Dbl.ofInt 1000000000))
              (Dbl.mul (Dbl.ofInt us) (Dbl.ofInt 1000000)))
              (Dbl.mul (Dbl.ofInt ns) (Dbl.ofInt 1000))) (Dbl.ofInt ps)))) := by
  have hne : epoch16Dmy t0 t1 t2 y d hh mn ss ms us ns ps ≠ [] := by unfold epoch16Dmy; simp
  have htrim : trimC (epoch16Dmy t0 t1 t2 y d hh mn ss ms us ns ps)
      = some (epoch16Dmy t0 t1 t2 y d hh mn ss ms us ns ps) := by
    apply trimC_id _ hne
    · have : (epoch16Dmy t0 t1 t2 y d hh mn ss ms us ns ps).head hne = dig d 1 := by
        unfold epoch16Dmy; rfl
      rw [this]; exact dig_not_skip _ _
    · have : (epoch16Dmy t0 t1 t2 y d hh mn ss ms us ns ps).getLast hne = dig ps 0 := by
        unfold epoch16Dmy fracDots; simp
      rw [this]; exact dig_not_skip _ _
  have hlen : (epoch16Dmy t0 t1 t2 y d hh mn ss ms us ns ps).length = 36 := by
    unfold epoch16Dmy fracDots; rfl
  have h11 : (epoch16Dmy t0 t1 t2 y d hh mn ss ms us ns ps).get? 11 = some ' ' := by
    unfold epoch16Dmy; rfl
  have hscan := sscanf_epoch16Dmy t0 t1 t2 y d hh mn ss ms us ns ps hy hd h1 h2 h3 a b c e
  unfold toParseEPOCH16
  rw [hna]
  simp only [Bool.false_eq_true, if_false, htrim, Option.some_bind, hlen, EPOCH16_STRING_LEN,
    if_true, h11]
  unfold parseEPOCH16
  rw [hna]
  simp only [Bool.false_eq_true, if_false, hscan, hmo, if_neg hm, svalInt, List.get?, hill,
    hfill]
  rw [if_neg (by omega), if_neg (by omega), if_neg (by omega), if_neg (by omega)]

/-- `toParseEPOCH16` on well-formed strings of styles 3 and 4. -/
theorem toParseEPOCH16_iso (ig : List Char → List Char → Bool) (k : EpochConsts)
    (init : Double × Double) (y m d hh mn ss ms us ns ps : Int) (frac : List Char)
    (hz : frac = fracDots ms us ns ps ++ ['Z'] ∨ frac = fracRun ms us ns ps)
    (hna : ig (epoch16Iso y m d hh mn ss frac) "nan".data = false)
    (hy : 0 ≤ y ∧ y < 10000) (hm : 0 ≤ m ∧ m < 100) (hd : 0 ≤ d ∧ d < 100)
    (h1 : 0 ≤ hh ∧ hh < 100) (h2 : 0 ≤ mn ∧ mn < 100) (h3 : 0 ≤ ss ∧ ss < 100)
    (a : 0 ≤ ms ∧ ms < 1000) (b : 0 ≤ us ∧ us < 1000) (c : 0 ≤ ns ∧ ns < 1000)
    (e : 0 ≤ ps ∧ ps < 1000)
    (hill : Dbl.beq (computeEPOCH k y m d hh mn ss 0) k.ILLEGAL_EPOCH_VALUE = false)
    (hfill : isFill16 y m d hh mn ss ms us ns ps = false) :
    toParseEPOCH16 ig k (epoch16Iso y m d hh mn ss frac) init
      = some (Dbl.ofInt 0,
          (.val (Dbl.div (computeEPOCH k y m d hh mn ss 0) (Dbl.ofInt 1000)),
           .val (Dbl.add (Dbl.add (Dbl.add (Dbl.ofInt ps)
              (Dbl.mul (Dbl.ofInt ns) (Dbl.ofInt 1000)))
              (Dbl.mul (Dbl.ofInt us) (Dbl.ofInt 1000000)))
              (Dbl.mul (Dbl.ofInt ms) (Dbl.ofInt 1000000000))))) := by
  have hne : epoch16Iso y m d hh mn ss frac ≠ [] := by unfold epoch16Iso; simp
  have htrim : trimC (epoch16Iso y m d hh mn ss frac) = some (epoch16Iso y m d hh mn ss frac) := by
    apply trimC_id _ hne
    · have : (epoch16Iso y m d hh mn ss frac).head hne = dig y 3 := by
        unfold epoch16Iso; rfl
      rw [this]; exact dig_not_skip _ _
    · rcases hz with hz | hz
      · subst hz
        have : (epoch16Iso y m d hh mn ss (fracDots ms us ns ps ++ ['Z'])).getLast hne = 'Z' := by
          unfold epoch16Iso fracDots; simp
        rw [this]; decide
      · subst hz
        have : (epoch16Iso y m d hh mn ss (fracRun ms us ns ps)).getLast hne = dig ps 0 := by
          unfold epoch16Iso fracRun; simp
        rw [this]; exact dig_not_skip _ _
  have h11 : (epoch16Iso y m d hh mn ss frac).get? 11 ≠ some ' ' := by
    have : (epoch16Iso y m d hh mn ss frac).get? 11 = some (dig hh 1) := by
      unfold epoch16Iso; rfl
    rw [this]
    intro hc
    exact dig_ne hh 1 ' ' (Or.inl (by decide)) (Option.some.inj hc)
  have h10 : (epoch16Iso y m d hh mn ss frac).get? 10 = some 'T' := by
    unfold epoch16Iso; rfl
  obtain ⟨s3, s4⟩ := sscanf_epoch16Iso y m d hh mn ss ms us ns ps hy hm hd h1 h2 h3 a b c e
  unfold toParseEPOCH16
  rw [hna]
  simp only [Bool.false_eq_true, if_false, htrim, Option.some_bind]
  rcases hz with hz | hz
  · subst hz
    have hlen : (epoch16Iso y m d hh mn ss (fracDots ms us ns ps ++ ['Z'])).length = 36 := by
      unfold epoch16Iso fracDots; rfl
    simp only [hlen, EPOCH16_STRING_LEN, if_true, if_neg h11, h10, Option.any_some]
    simp only [Bool.or_false, Bool.or_true, Bool.true_or, decide_True, decide_False, if_true]
    unfold parseEPOCH16_3
    rw [hna]
    simp only [Bool.false_eq_true, if_false, s3, parseIso16, svalInt, List.get?, hill, hfill]
  · subst hz
    have hlen : (epoch16Iso y m d hh mn ss (fracRun ms us ns ps)).length = 32 := by
      unfold epoch16Iso fracRun; rfl
    simp only [hlen, EPOCH16_STRING_LEN, EPOCH16_1_STRING_LEN, EPOCH16_2_STRING_LEN,
      EPOCH16_4_STRING_LEN, h10]
    simp only [show ¬ ((32 : Nat) = 36) by decide, show ¬ ((32 : Nat) = 24) by decide,
      show ¬ ((32 : Nat) = 14) by decide, if_false, false_and, true_and, Option.any_some,
      Bool.or_false, Bool.or_true, Bool.true_or, decide_True, decide_False, if_true]
    unfold parseEPOCH16_4
    rw [hna]
    simp only [Bool.false_eq_true, if_false, s4, parseIso16, svalInt, List.get?, hill, hfill]

set_option maxRecDepth 1000000 in
/-- C14, counterexample: the EPOCH16 value (0 s, 999999999999 ps) is encoded as
`00000101000000` in style 2 and parsed as (0, 0), and the value (1 s, 0 ps) is encoded as
`00000101.000011574074074` in style 1 and parsed with 0 seconds: the round trip through
styles 1 and 2 does not return the value. -/
theorem C14_styles_1_2_lose_subseconds :
    toEncodeEPOCH16 cdfEpochConsts cdfEpoch16Consts
        (.val (Dbl.ofInt 0), .val (Dbl.ofInt 999999999999)) 2 = some "00000101000000".data ∧
    toParseEPOCH16 igFind cdfEpochConsts "00000101000000".data
        (.val (Dbl.ofInt 0), .val (Dbl.ofInt 999999999999))
      = some (Dbl.ofInt 0, (.val (Dbl.ofInt 0), .val (Dbl.ofInt 0))) ∧
    Dbl.ofInt 0 ≠ Dbl.ofInt 999999999999 ∧
    toEncodeEPOCH16 cdfEpochConsts cdfEpoch16Consts
        (.val (Dbl.ofInt 1), .val (Dbl.ofInt 0)) 1 = some "00000101.000011574074074".data ∧
    (toParseEPOCH16 igFind cdfEpochConsts "00000101.000011574074074".data
        (.val (Dbl.ofInt 1), .val (Dbl.ofInt 0))).map (fun r => r.2.1)
      = some (.val (Dbl.ofInt 0)) ∧
    Dbl.ofInt 0 ≠ Dbl.ofInt 1 := by
  decide!

set_option maxRecDepth 1000000 in
/-- The last picosecond of the year 9999 has the strings of the fill value in styles 0, 3
and 4, and is read back as the fill pair. -/
theorem epoch16_last_picosecond_reads_as_fill :
    (toEncodeEPOCH16 cdfEpochConsts cdfEpoch16Consts
        (.val (Dbl.ofInt 315569519999), .val (Dbl.ofInt 999999999999)) 0).bind
      (fun str => toParseEPOCH16 igFind cdfEpochConsts str (.nan, .nan))
      = some (Dbl.ofInt 0, (.val fillEpoch, .val fillEpoch)) ∧
    (toEncodeEPOCH16 cdfEpochConsts cdfEpoch16Consts
        (.val (Dbl.ofInt 315569519999), .val (Dbl.ofInt 999999999999)) 3).bind
      (fun str => toParseEPOCH16 igFind cdfEpochConsts str (.nan, .nan))
      = some (Dbl.ofInt 0, (.val fillEpoch, .val fillEpoch)) ∧
    (toEncodeEPOCH16 cdfEpochConsts cdfEpoch16Consts
        (.val (Dbl.ofInt 315569519999), .val (Dbl.ofInt 999999999999)) 4).bind
      (fun str => toParseEPOCH16 igFind cdfEpochConsts str (.nan, .nan))
      = some (Dbl.ofInt 0, (.val fillEpoch, .val fillEpoch)) := by
  decide!

/-- C14, amended: for every EPOCH16 value (s, p) with `s` a whole number of seconds of the
years 0 .. 9999 and `p` a whole number of picoseconds, `0 ≤ p < 10^12`, other than the last
picosecond of 9999 (whose strings are those of the fill value), and every style 0, 3 or 4,
`toParseEPOCH16 (toEncodeEPOCH16 ((s, p), style))` returns 0 and leaves (s, p) in the array,
whatever the array held before.  The constants of `cdf.h` and the search `CDFstrstrIgCase`
are parameters, as for the EPOCH strings. -/
theorem C14_epoch16_round_trip_styles_0_3_4 (ig : List Char → List Char → Bool)
    (k : EpochConsts) (k16 : Epoch16Consts) (s p style : Int) (init : Double × Double)
    (hig : ∀ str : List Char, ig str "nan".data = true → hasNA str = true)
    (hill : k.ILLEGAL_EPOCH_VALUE.raw < 0)
    (hmax : (Dbl.ofInt 315569519999998).raw ≤ k.MAX_EPOCH_BINARY.raw)
    (hcap : 24 ≤ k.EPOCHx_STRING_MAX)
    (hs0 : 0 ≤ s) (hs1 : s ≤ 315569519999) (hp0 : 0 ≤ p) (hp1 : p < 1000000000000)
    (hlast : ¬ (s = 315569519999 ∧ p = 999999999999))
    (hst : style = 0 ∨ style = 3 ∨ style = 4) :
    (toEncodeEPOCH16 k k16 (.val (Dbl.ofInt s), .val (Dbl.ofInt p)) style).bind
        (fun str => toParseEPOCH16 ig k str init)
      = some (Dbl.ofInt 0, (.val (Dbl.ofInt s), .val (Dbl.ofInt p))) := by
  obtain ⟨e, he⟩ : ∃ e : Int, e = s * 1000 := ⟨_, rfl⟩
  have h0 : 0 ≤ e := by omega
  have hmul : Dbl.mul (Dbl.ofInt s) (Dbl.ofInt 1000) = Dbl.ofInt e := by
    rw [he]
    exact Dbl.mul_ofInt s 1000 (natAbs_small _ (by omega) (by omega)) (by decide)
      (natAbs_small _ (by omega) (by omega))
  have hdiv : Dbl.div (Dbl.ofInt e) (Dbl.ofInt 1000) = Dbl.ofInt s := by
    rw [he, mul_comm]
    exact div_ofInt_exact s 1000 hs0 (by decide) (by decide) (by omega)
  have hb := EPOCHbreakdown_ofInt k e h0 (by omega) hill hmax
  have hnn : 0 ≤ (Dbl.ofInt s).raw := Dbl.ofInt_nonneg s hs0
  have hnnp : 0 ≤ (Dbl.ofInt p).raw := Dbl.ofInt_nonneg p hp0
  have c1 : (Dbl.beq (Dbl.ofInt s) fillEpoch && Dbl.beq (Dbl.ofInt p) fillEpoch) = false := by
    have : Dbl.beq (Dbl.ofInt s) fillEpoch = false := by
      unfold Dbl.beq
      have := fillEpoch_neg
      exact decide_eq_false (by omega)
    rw [this]; rfl
  have c2 : Dbl.lt (Dbl.ofInt s) (Dbl.ofInt 0) = false := by
    unfold Dbl.lt
    rw [Dbl.ofInt_zero]
    exact decide_eq_false (by simpa using hnn)
  have c3 : Dbl.lt (Dbl.ofInt p) (Dbl.ofInt 0) = false := by
    unfold Dbl.lt
    rw [Dbl.ofInt_zero]
    exact decide_eq_false (by simpa using hnnp)
  obtain ⟨d1, d2, d3, d4, d5, d6, d7⟩ := decode_epoch (1721060 + e / 86400000) (by omega)
    (by omega)
  generalize dateFromL (1721060 + e / 86400000 + 68569) = r at *
  obtain ⟨y, m, d⟩ := r
  simp only at d1 d2 d3 d4 d5 d6 d7 hb
  have hy : 0 ≤ y ∧ y < 10000 := ⟨d1, by omega⟩
  have hm : 0 ≤ m ∧ m < 100 := ⟨by omega, by omega⟩
  have hd : 0 ≤ d ∧ d < 100 := ⟨by omega, by omega⟩
  have f1 : 0 ≤ e / 3600000 % 24 ∧ e / 3600000 % 24 < 100 := ⟨by omega, by omega⟩
  have f2 : 0 ≤ e / 60000 % 60 ∧ e / 60000 % 60 < 100 := ⟨by omega, by omega⟩
  have f3 : 0 ≤ e / 1000 % 60 ∧ e / 1000 % 60 < 100 := ⟨by omega, by omega⟩
  have f4 : 0 ≤ e % 1000 ∧ e % 1000 < 1000 := ⟨by omega, by omega⟩
  have g1 : 0 ≤ p / 1000000000 ∧ p / 1000000000 < 1000 := ⟨by omega, by omega⟩
  have g2 : 0 ≤ p / 1000000 % 1000 ∧ p / 1000000 % 1000 < 1000 := ⟨by omega, by omega⟩
  have g3 : 0 ≤ p / 1000 % 1000 ∧ p / 1000 % 1000 < 1000 := ⟨by omega, by omega⟩
  have g4 : 0 ≤ p % 1000 ∧ p % 1000 < 1000 := ⟨by omega, by omega⟩
  have hc := computeEPOCH_fields k e y m d h0 (by omega) ⟨d1, d2⟩ ⟨d3, d4⟩ ⟨d5, d6⟩ d7
  rw [show e % 1000 = 0 by omega] at hc
  have hnotill : Dbl.beq (computeEPOCH k y m d (e / 3600000 % 24) (e / 60000 % 60)
      (e / 1000 % 60) 0) k.ILLEGAL_EPOCH_VALUE = false := by
    rw [hc]
    unfold Dbl.beq
    have := Dbl.ofInt_nonneg e h0
    exact decide_eq_false (by omega)
  have j9 : JulianDay12hL 9999 12 31 = 5373484 := by decide
  have hfill : isFill16 y m d (e / 3600000 % 24) (e / 60000 % 60) (e / 1000 % 60)
      (p / 1000000000) (p / 1000000 % 1000) (p / 1000 % 1000) (p % 1000) = false := by
    unfold isFill16
    refine decide_eq_false ?_
    rintro ⟨a1, a2, a3, a4, a5, a6, a7, a8, a9, a10⟩
    rw [a1, a2, a3, j9] at d7
    exact hlast ⟨by omega, by omega⟩
  have ht := MonthToken_three m d3 d4
  obtain ⟨hmo, hna0⟩ := monthOfToken_MonthToken m _ _ _ d3 d4 ht
  obtain ⟨n0, n3, n4⟩ := hasNA_epoch16 _ _ _ y m d (e / 3600000 % 24) (e / 60000 % 60)
    (e / 1000 % 60) (p / 1000000000) (p / 1000000 % 1000) (p / 1000 % 1000) (p % 1000) hna0
  have hnot : ∀ str : List Char, hasNA str = false → ig str "nan".data = false := by
    intro str hs
    cases hc : ig str "nan".data with
    | false => rfl
    | true => rw [hig str hc] at hs; exact absurd hs (by decide)
  obtain ⟨x2, x4⟩ := encodeEPOCH16x_ofInt p hp0 hp1
  obtain ⟨q1, q2⟩ := picos_sum p hp0 hp1
  have i0 := encodeParts_dmy k y m d (e / 3600000 % 24) (e / 60000 % 60)
    (e / 1000 % 60) (e % 1000) _ _ _ hcap ht hy hd f1 f2 f3 f4
  have i3 := encodeParts_iso16 k y m d (e / 3600000 % 24) (e / 60000 % 60)
    (e / 1000 % 60) (e % 1000) hcap hy hm hd f1 f2 f3
  rcases hst with hst | hst | hst
  · subst hst
    have henc : toEncodeEPOCH16 k k16 (.val (Dbl.ofInt s), .val (Dbl.ofInt p)) 0
        = some (epoch16Dmy ((MonthToken m).getD 0 ' ') ((MonthToken m).getD 1 ' ')
            ((MonthToken m).getD 2 ' ') y d (e / 3600000 % 24) (e / 60000 % 60)
            (e / 1000 % 60) (p / 1000000000) (p / 1000000 % 1000) (p / 1000 % 1000)
            (p % 1000)) := by
      unfold toEncodeEPOCH16
      simp only [show ¬ ((0 : Int) < 0 ∨ (0 : Int) > 4) by decide, if_false, if_true]
      unfold encodeEPOCH16
      simp only [c1, c2, c3, Bool.false_eq_true, if_false, hmul, x2]
      unfold encodeEPOCHx
      rw [if_neg (by decide)]
      unfold encodeEPOCHxFmt
      rw [hb]
      simp only [i0]
      rfl
    rw [henc, Option.some_bind,
      toParseEPOCH16_dmy ig k init _ _ _ y m d _ _ _ _ _ _ _ (hnot _ n0) hmo (by omega) hy hd
        f1 f2 f3 g1 g2 g3 g4 hnotill hfill, hc, hdiv, q1]
  · subst hst
    have henc : toEncodeEPOCH16 k k16 (.val (Dbl.ofInt s), .val (Dbl.ofInt p)) 3
        = some (epoch16Iso y m d (e / 3600000 % 24) (e / 60000 % 60) (e / 1000 % 60)
            (fracDots (p / 1000000000) (p / 1000000 % 1000) (p / 1000 % 1000) (p % 1000)
              ++ ['Z'])) := by
      unfold toEncodeEPOCH16
      simp only [show ¬ ((3 : Int) < 0 ∨ (3 : Int) > 4) by decide, if_false,
        show ¬ ((3 : Int) = 0) by decide, show ¬ ((3 : Int) = 1) by decide,
        show ¬ ((3 : Int) = 2) by decide, if_true]
      unfold encodeEPOCH16_3
      simp only [c1, Bool.false_eq_true, if_false, hmul, x2]
      unfold encodeEPOCHx
      rw [if_neg (by decide)]
      unfold encodeEPOCHxFmt
      rw [hb]
      simp only [i3]
      rfl
    rw [henc, Option.some_bind,
      toParseEPOCH16_iso ig k init y m d _ _ _ _ _ _ _ _ (Or.inl rfl) (hnot _ n3) hy hm hd
        f1 f2 f3 g1 g2 g3 g4 hnotill hfill, hc, hdiv, q2]
  · subst hst
    have henc : toEncodeEPOCH16 k k16 (.val (Dbl.ofInt s), .val (Dbl.ofInt p)) 4
        = some (epoch16Iso y m d (e / 3600000 % 24) (e / 60000 % 60) (e / 1000 % 60)
            (fracRun (p / 1000000000) (p / 1000000 % 1000) (p / 1000 % 1000) (p % 1000))) := by
      unfold toEncodeEPOCH16
      simp only [show ¬ ((4 : Int) < 0 ∨ (4 : Int) > 4) by decide, if_false,
        show ¬ ((4 : Int) = 0) by decide, show ¬ ((4 : Int) = 1) by decide,
        show ¬ ((4 : Int) = 2) by decide, show ¬ ((4 : Int) = 3) by decide]
      unfold encodeEPOCH16_4
      simp only [c1, Bool.false_eq_true, if_false, hmul, x4]
      unfold encodeEPOCHx
      rw [if_neg (by decide)]
      unfold encodeEPOCHxFmt
      rw [hb]
      simp only [i3]
      rfl
    rw [henc, Option.some_bind,
      toParseEPOCH16_iso ig k init y m d _ _ _ _ _ _ _ _ (Or.inr rfl) (hnot _ n4) hy hm hd
        f1 f2 f3 g1 g2 g3 g4 hnotill hfill, hc, hdiv, q2]

theorem C14_epoch16_round_trip_styles_0_3_4_witness :
    ((∀ str : List Char, igFind str "nan".data = true → hasNA str = true) ∧
      cdfEpochConsts.ILLEGAL_EPOCH_VALUE.raw < 0 ∧
      (Dbl.ofInt 315569519999998).raw ≤ cdfEpochConsts.MAX_EPOCH_BINARY.raw ∧
      24 ≤ cdfEpochConsts.EPOCHx_STRING_MAX ∧
      (0 : Int) ≤ 63113904000 ∧ (63113904000 : Int) ≤ 315569519999 ∧
      (0 : Int) ≤ 123456789012 ∧ (123456789012 : Int) < 1000000000000 ∧
      ¬ ((63113904000 : Int) = 315569519999 ∧ (123456789012 : Int) = 999999999999) ∧
      ((3 : Int) = 0 ∨ (3 : Int) = 3 ∨ (3 : Int) = 4)) ∧
    (toEncodeEPOCH16 cdfEpochConsts cdfEpoch16Consts
        (.val (Dbl.ofInt 63113904000), .val (Dbl.ofInt 123456789012)) 3).bind
        (fun str => toParseEPOCH16 igFind cdfEpochConsts str (.nan, .nan))
      = some (Dbl.ofInt 0, (.val (Dbl.ofInt 63113904000), .val (Dbl.ofInt 123456789012))) :=
  ⟨⟨igFind_hasNA, cdfEpochConsts_ok.1, cdfEpochConsts_ok.2.1, cdfEpochConsts_ok.2.2, by decide,
    by decide, by decide, by decide, by decide, Or.inr (Or.inl rfl)⟩,
   C14_epoch16_round_trip_styles_0_3_4 igFind cdfEpochConsts cdfEpoch16Consts 63113904000
    123456789012 3 (.nan, .nan) igFind_hasNA cdfEpochConsts_ok.1 cdfEpochConsts_ok.2.1
    cdfEpochConsts_ok.2.2 (by decide) (by decide) (by decide) (by decide) (by decide)
    (Or.inr (Or.inl rfl))⟩

set_option maxRecDepth 100000 in
theorem ltsKey_2000 : ltsKey 36 = 23989 ∧ ltsKey 37 = 24073 := by decide!

set_option maxRecDepth 100000 in
/-- The two calls as the first calls of a program (no table loaded yet, no file
configured). -/
theorem compute_2000_fresh :
    (computeTT2000Sym Host.plain TTState.init (Dbl.ofInt 2000) (Dbl.ofInt 1) (Dbl.ofInt 1)
      (Dbl.ofInt 11) (Dbl.ofInt 58) (Dbl.ofInt 55) (Dbl.ofInt 816) (Dbl.ofInt 0)
      (Dbl.ofInt 0)).1 = .value 0 ∧
    (computeTT2000Sym Host.plain TTState.init (Dbl.ofInt 2000) (Dbl.ofInt 1) (Dbl.ofInt 1)
      (Dbl.ofInt 12) (Dbl.ofInt 0) (Dbl.ofInt 0) (Dbl.ofInt 0) (Dbl.ofInt 0)
      (Dbl.ofInt 0)).1 = .value 64184000000 := by decide!

/-- Claim C28.  TT2000 reference instant: with the built-in table in place (any host, any
consistent day cache), `computeTT2000 (2000,1,1,11,58,55,816,0,0)` returns 0, so TT2000 zero
is UTC 2000-01-01T11:58:55.816 (32 leap seconds and 32.184 s before 12:00:00), and
`computeTT2000 (2000,1,1,12,0,0,0,0,0)` returns 64184000000; the same values come back when
the call is the first one of a program without a configured leap-second file. -/
theorem C28_reference_instant (c : Sentinels) (h : Host) (s : TTState) (hs : BuiltinOK s) :
    (computeTT2000I c h s 2000 1 1 11 58 55 816 0 0).1 = 0 ∧
    (computeTT2000I c h s 2000 1 1 12 0 0 0 0 0).1 = 64184000000 ∧
    (computeTT2000I c Host.plain TTState.init 2000 1 1 11 58 55 816 0 0).1 = 0 ∧
    (computeTT2000I c Host.plain TTState.init 2000 1 1 12 0 0 0 0 0).1 = 64184000000 := by
  obtain ⟨hL, hE, -, hc⟩ := hs
  have k1 := ltsKey_2000
  have e1 := computeFields_cached h s hL hE hc 2000 1 1 11 58 55 816 0 0 36 (by decide)
    (by decide) (by decide) (by decide) (by decide) (by decide) (by decide) (by decide)
    (by decide) (by decide) (by rw [k1.1]; decide) (fun _ => by rw [k1.2]; decide)
  have e2 := computeFields_cached h s hL hE hc 2000 1 1 12 0 0 0 0 0 36 (by decide)
    (by decide) (by decide) (by decide) (by decide) (by decide) (by decide) (by decide)
    (by decide) (by decide) (by rw [k1.1]; decide) (fun _ => by rw [k1.2]; decide)
  have g : (computeTT2000I c h s 2000 1 1 11 58 55 816 0 0).1 = 0 ∧
      (computeTT2000I c h s 2000 1 1 12 0 0 0 0 0).1 = 64184000000 := by
    unfold computeTT2000I computeTT2000
    rw [computeTT2000Sym_ints h s 2000 1 1 11 58 55 816 0 0 (by decide) (by decide) (by decide)
        (by decide) (by decide) (by decide) (by decide) (by decide) (by decide) (by decide),
      computeTT2000Sym_ints h s 2000 1 1 12 0 0 0 0 0 (by decide) (by decide) (by decide)
        (by decide) (by decide) (by decide) (by decide) (by decide) (by decide) (by decide),
      e1, e2]
    exact ⟨rfl, rfl⟩
  have f1 : (computeTT2000I c Host.plain TTState.init 2000 1 1 11 58 55 816 0 0).1 = 0 := by
    unfold computeTT2000I computeTT2000
    exact TTRes.toInt_of_eq_value c _ _ compute_2000_fresh.1
  have f2 : (computeTT2000I c Host.plain TTState.init 2000 1 1 12 0 0 0 0 0).1
      = 64184000000 := by
    unfold computeTT2000I computeTT2000
    exact TTRes.toInt_of_eq_value c _ _ compute_2000_fresh.2
  exact ⟨g.1, g.2, f1, f2⟩

theorem C28_reference_instant_witness :
    BuiltinOK builtinState ∧
    (computeTT2000I cdfSentinels Host.plain builtinState 2000 1 1 11 58 55 816 0 0).1 = 0 ∧
    (computeTT2000I cdfSentinels Host.plain builtinState 2000 1 1 12 0 0 0 0 0).1
      = 64184000000 ∧
    (computeTT2000I cdfSentinels Host.plain TTState.init 2000 1 1 11 58 55 816 0 0).1 = 0 ∧
    (computeTT2000I cdfSentinels Host.plain TTState.init 2000 1 1 12 0 0 0 0 0).1
      = 64184000000 :=
  ⟨BuiltinOK_builtinState,
   C28_reference_instant cdfSentinels Host.plain builtinState BuiltinOK_builtinState⟩

set_option maxRecDepth 100000 in
/-- Claim C23 (divergence).  On 2016-12-31, a day that ends with an inserted leap second, the
seconds carry of `computeTT2000` divides by 61 in every minute of the day: the call with
00:00:61 returns the value of 00:01:00, one second less than the call with 00:01:01.  (On
2016-12-30 the two calls agree.) -/
theorem C23_leap_day_minutes_carry_at_61 :
    (computeTT2000I cdfSentinels Host.plain builtinState 2016 12 31 0 0 61 0 0 0).1
      = 536414528184000000 ∧
    (computeTT2000I cdfSentinels Host.plain builtinState 2016 12 31 0 1 0 0 0 0).1
      = 536414528184000000 ∧
    (computeTT2000I cdfSentinels Host.plain builtinState 2016 12 31 0 1 1 0 0 0).1
      = 536414529184000000 ∧
    (computeTT2000I cdfSentinels Host.plain builtinState 2016 12 30 0 0 61 0 0 0).1
      = (computeTT2000I cdfSentinels Host.plain builtinState 2016 12 30 0 1 1 0 0 0).1 := by
  decide!

/-- Claim C25.  NaN round trip for EPOCH: in every style `toEncodeEPOCH` writes the string
`Nan` for a NaN, and `toParseEPOCH`, `parseEPOCH`, `parseEPOCH1`, ..., `parseEPOCH4` return NaN
on that string, provided the library search `CDFstrstrIgCase` finds `nan` in `Nan`. -/
theorem C25_nan_round_trip (ig : List Char → List Char → Bool) (k : EpochConsts) (style : Int)
    (hig : ig "Nan".data "nan".data = true) :
    toEncodeEPOCH k .nan style = "Nan".data ∧
    toParseEPOCH ig k (toEncodeEPOCH k .nan style) = some .nan ∧
    parseEPOCH ig k "Nan".data = .nan ∧ parseEPOCH1 ig k "Nan".data = .nan ∧
    parseEPOCH2 ig k "Nan".data = .nan ∧ parseEPOCH3 ig k "Nan".data = .nan ∧
    parseEPOCH4 ig k "Nan".data = .nan := by
  refine ⟨rfl, ?_, ?_, ?_, ?_, ?_, ?_⟩
  · show toParseEPOCH ig k "Nan".data = some .nan
    unfold toParseEPOCH
    rw [if_pos hig]
  · unfold parseEPOCH; rw [if_pos hig]
  · unfold parseEPOCH1; rw [if_pos hig]
  · unfold parseEPOCH2; rw [if_pos hig]
  · unfold parseEPOCH3; rw [if_pos hig]
  · unfold parseEPOCH4; rw [if_pos hig]

theorem C25_nan_round_trip_witness :
    igFind "Nan".data "nan".data = true ∧
    toEncodeEPOCH cdfEpochConsts .nan 2 = "Nan".data ∧
    toParseEPOCH igFind cdfEpochConsts (toEncodeEPOCH cdfEpochConsts .nan 2) = some .nan ∧
    parseEPOCH igFind cdfEpochConsts "Nan".data = .nan ∧
    parseEPOCH1 igFind cdfEpochConsts "Nan".data = .nan ∧
    parseEPOCH2 igFind cdfEpochConsts "Nan".data = .nan ∧
    parseEPOCH3 igFind cdfEpochConsts "Nan".data = .nan ∧
    parseEPOCH4 igFind cdfEpochConsts "Nan".data = .nan :=
  ⟨by decide, C25_nan_round_trip igFind cdfEpochConsts 2 (by decide)⟩

set_option maxRecDepth 100000 in
/-- Claim C26 (failing input).  In styles 1 and 2 the fill value does not come back:
`toEncodeEPOCH` writes the fill literals `99991231.9999999` and `99991231235959`, and
`toParseEPOCH` reads them as the ordinary instants 9999-12-31T23:59:59.991
(315569519999991.0) and 9999-12-31T23:59:59.000 (315569519999000.0): `parseEPOCH1` and
`parseEPOCH2` have no test for the fill literal of their style. -/
theorem C26_fill_lost_in_styles_1_2 :
    toEncodeEPOCH cdfEpochConsts (.val fillEpoch) 1 = "99991231.9999999".data ∧
    toParseEPOCH igFind cdfEpochConsts "99991231.9999999".data
      = some (.val (Dbl.ofInt 315569519999991)) ∧
    toEncodeEPOCH cdfEpochConsts (.val fillEpoch) 2 = "99991231235959".data ∧
    toParseEPOCH igFind cdfEpochConsts "99991231235959".data
      = some (.val (Dbl.ofInt 315569519999000)) ∧
    Dbl.ofInt 315569519999991 ≠ fillEpoch ∧ Dbl.ofInt 315569519999000 ≠ fillEpoch := by
  decide!

/-- The dispatch of `toEncodeEPOCH` on the styles 0 .. 4. -/
theorem toEncodeEPOCH_styles (k : EpochConsts) (x : Dbl) :
    toEncodeEPOCH k (.val x) 0 = encodeEPOCH k (.val x) ∧
    toEncodeEPOCH k (.val x) 1 = encodeEPOCH1 k (.val x) ∧
    toEncodeEPOCH k (.val x) 2 = encodeEPOCH2 k (.val x) ∧
    toEncodeEPOCH k (.val x) 3 = encodeEPOCH3 k (.val x) ∧
    toEncodeEPOCH k (.val x) 4 = encodeEPOCH4 k (.val x) := by
  unfold toEncodeEPOCH
  simp

/-- For every style 0 .. 4 `toEncodeEPOCH` writes the fill literal of that style for the fill
value -1.0E31, and in the styles 0, 3 and 4 `toParseEPOCH` of that literal returns -1.0E31
again. -/
theorem fill_text_styles_0_3_4 (ig : List Char → List Char → Bool) (k : EpochConsts)
    (hig : ∀ s, ig s "nan".data = true → hasNA s = true) :
    toEncodeEPOCH k (.val fillEpoch) 0 = "31-Dec-9999 23:59:59.999".data ∧
    toEncodeEPOCH k (.val fillEpoch) 1 = "99991231.9999999".data ∧
    toEncodeEPOCH k (.val fillEpoch) 2 = "99991231235959".data ∧
    toEncodeEPOCH k (.val fillEpoch) 3 = "9999-12-31T23:59:59.999Z".data ∧
    toEncodeEPOCH k (.val fillEpoch) 4 = "9999-12-31T23:59:59.999".data ∧
    toParseEPOCH ig k (toEncodeEPOCH k (.val fillEpoch) 0) = some (.val fillEpoch) ∧
    toParseEPOCH ig k (toEncodeEPOCH k (.val fillEpoch) 3) = some (.val fillEpoch) ∧
    toParseEPOCH ig k (toEncodeEPOCH k (.val fillEpoch) 4) = some (.val fillEpoch) := by
  have na : ∀ s, hasNA s = false → ig s "nan".data = false := by
    intro s hs
    cases hq : ig s "nan".data
    · rfl
    · rw [hig s hq] at hs; exact absurd hs (by decide)
  have e0 : toEncodeEPOCH k (.val fillEpoch) 0 = "31-Dec-9999 23:59:59.999".data := by
    rw [(toEncodeEPOCH_styles k fillEpoch).1]
    unfold encodeEPOCH
    simp only [Dbl.beq_self, Bool.true_or, if_true]
  have e1 : toEncodeEPOCH k (.val fillEpoch) 1 = "99991231.9999999".data := by
    rw [(toEncodeEPOCH_styles k fillEpoch).2.1]
    unfold encodeEPOCH1
    simp only [Dbl.beq_self, Bool.true_or, if_true]
  have e2 : toEncodeEPOCH k (.val fillEpoch) 2 = "99991231235959".data := by
    rw [(toEncodeEPOCH_styles k fillEpoch).2.2.1]
    unfold encodeEPOCH2
    simp only [Dbl.beq_self, Bool.true_or, if_true]
  have e3 : toEncodeEPOCH k (.val fillEpoch) 3 = "9999-12-31T23:59:59.999Z".data := by
    rw [(toEncodeEPOCH_styles k fillEpoch).2.2.2.1]
    unfold encodeEPOCH3
    simp only [Dbl.beq_self, Bool.true_or, if_true]
  have e4 : toEncodeEPOCH k (.val fillEpoch) 4 = "9999-12-31T23:59:59.999".data := by
    rw [(toEncodeEPOCH_styles k fillEpoch).2.2.2.2]
    unfold encodeEPOCH4
    simp only [Dbl.beq_self, Bool.true_or, if_true]
  have cf : computeEPOCH k 9999 12 31 23 59 59 999 = fillEpoch := by
    unfold computeEPOCH
    rw [if_pos (by decide)]
  refine ⟨e0, e1, e2, e3, e4, ?_, ?_, ?_⟩
  · rw [e0]
    have hs : "31-Dec-9999 23:59:59.999".data = epochDmy 'D' 'e' 'c' 9999 31 23 59 59 999 := by
      decide
    rw [hs, toParseEPOCH_dmy ig k 'D' 'e' 'c' 9999 12 31 23 59 59 999
      (na _ (by rw [← hs]; decide)) (by decide) (by decide) (by decide) (by decide) (by decide)
      (by decide) (by decide) (by decide), cf]
  · rw [e3]
    have hs : "9999-12-31T23:59:59.999Z".data = epochIso 9999 12 31 23 59 59 999 ['Z'] := by
      decide
    rw [hs, toParseEPOCH_iso ig k 9999 12 31 23 59 59 999 ['Z'] (Or.inr rfl)
      (na _ (by rw [← hs]; decide)) (by decide) (by decide) (by decide) (by decide) (by decide)
      (by decide) (by decide), cf]
  · rw [e4]
    have hs : "9999-12-31T23:59:59.999".data = epochIso 9999 12 31 23 59 59 999 [] := by
      decide
    rw [hs, toParseEPOCH_iso ig k 9999 12 31 23 59 59 999 [] (Or.inl rfl)
      (na _ (by rw [← hs]; decide)) (by decide) (by decide) (by decide) (by decide) (by decide)
      (by decide) (by decide), cf]

/-- The fill literals with the case-insensitive search `igFind`. -/
theorem fill_text_styles_0_3_4_example :
    (∀ s, igFind s "nan".data = true → hasNA s = true) ∧
    toEncodeEPOCH cdfEpochConsts (.val fillEpoch) 0 = "31-Dec-9999 23:59:59.999".data ∧
    toEncodeEPOCH cdfEpochConsts (.val fillEpoch) 1 = "99991231.9999999".data ∧
    toEncodeEPOCH cdfEpochConsts (.val fillEpoch) 2 = "99991231235959".data ∧
    toEncodeEPOCH cdfEpochConsts (.val fillEpoch) 3 = "9999-12-31T23:59:59.999Z".data ∧
    toEncodeEPOCH cdfEpochConsts (.val fillEpoch) 4 = "9999-12-31T23:59:59.999".data ∧
    toParseEPOCH igFind cdfEpochConsts (toEncodeEPOCH cdfEpochConsts (.val fillEpoch) 0)
      = some (.val fillEpoch) ∧
    toParseEPOCH igFind cdfEpochConsts (toEncodeEPOCH cdfEpochConsts (.val fillEpoch) 3)
      = some (.val fillEpoch) ∧
    toParseEPOCH igFind cdfEpochConsts (toEncodeEPOCH cdfEpochConsts (.val fillEpoch) 4)
      = some (.val fillEpoch) :=
  ⟨igFind_hasNA, fill_text_styles_0_3_4 igFind cdfEpochConsts igFind_hasNA⟩

theorem Dbl.mul_nonneg_raw (a b : Dbl) (ha : 0 ≤ a.raw) (hb : 0 ≤ b.raw) : 0 ≤ (Dbl.mul a b).raw :=
  flZ_nonneg _ _ (Int.mul_nonneg ha hb)

theorem Dbl.add_nonneg_raw (a b : Dbl) (ha : 0 ≤ a.raw) (hb : 0 ≤ b.raw) : 0 ≤ (Dbl.add a b).raw :=
  flZ_nonneg _ _ (Int.add_nonneg ha hb)

theorem Dbl.not_lt_zero (x : Dbl) (h : ¬ Dbl.lt x (Dbl.ofInt 0) = true) : 0 ≤ x.raw := by
  unfold Dbl.lt at h
  rw [Dbl.ofInt_zero] at h
  simpa using h

/-- `computeEpoch` returns the illegal value or a non-negative number. -/
theorem computeEpoch_cases (k : EpochConsts) (year month day hour minute second msec : Int) :
    computeEpoch k year month day hour minute second msec = k.ILLEGAL_EPOCH_VALUE ∨
    0 ≤ (computeEpoch k year month day hour minute second msec).raw := by
  unfold computeEpoch
  simp only []
  generalize (if month = 0 then
      wrap64 (wrap64 (JulianDay year 1 1 + wrap64 (day - 1)) - 1721060)
    else if month < 0 then
      wrap64 (JulianDay (wrap64 (year - 1)) (wrap64 (13 + month)) day - 1721060)
    else wrap64 (JulianDay year month day - 1721060)) = days
  split_ifs with h1 h2
  · exact Or.inl rfl
  · exact Or.inl rfl
  · exact Or.inr (Dbl.not_lt_zero _ h2)

/-- The day number of a date of a year from 0 on is at least that of 0000-01-01. -/
theorem JulianDay_ge (y m d : Int) (hy : 0 ≤ y) (hy2 : y ≤ 10000000000000000) (hm1 : 1 ≤ m)
    (hm2 : m ≤ 12) (hd : 1 ≤ d) (hd2 : d ≤ 10000000000000000) :
    1721060 ≤ JulianDay y m d := by
  rw [JulianDay_eq y m d (by omega) ⟨by omega, hy2⟩ ⟨by omega, by omega⟩ ⟨by omega, hd2⟩]
  have e := JulianDay12hL_march y m d hm1 hm2
  have e2 := marchStart_ediv (y - (if m ≤ 2 then 1 else 0)) (by split_ifs <;> omega)
  obtain ⟨s1, -, -, -⟩ := march_split m hm1 hm2
  have off0 : 0 ≤ marchOffset m := (month_tables m hm1 hm2).2.2.2.2.2
  rw [e2] at e
  unfold marchStartE at e
  by_cases hm : m ≤ 2
  · rw [if_pos hm] at e
    have := s1 hm
    omega
  · rw [if_neg hm] at e
    omega

/-- The day number of a date of the years 0 .. 10^16 is below 2^63. -/
theorem JulianDay_le (y m d : Int) (hy : 0 ≤ y) (hy2 : y ≤ 10000000000000000) (hm1 : 1 ≤ m)
    (hm2 : m ≤ 12) (hd : 1 ≤ d) (hd2 : d ≤ 10000000000000000) :
    JulianDay y m d ≤ 3680000000001721029 := by
  rw [JulianDay_eq y m d (by omega) ⟨by omega, hy2⟩ ⟨by omega, by omega⟩ ⟨by omega, hd2⟩]
  unfold JulianDay12hL
  simp only [show m ≠ 0 from by omega, if_false]
  have t1 := tdiv_bounds (m + 9) 12 (by decide)
  have t2 := tdiv_bounds (7 * (y + Int.tdiv (m + 9) 12)) 4 (by decide)
  have t3 := tdiv_bounds (m - 9) 7 (by decide)
  have t4 := tdiv_bounds (y + Int.tdiv (m - 9) 7) 100 (by decide)
  have t5 := tdiv_bounds (3 * (Int.tdiv (y + Int.tdiv (m - 9) 7) 100 + 1)) 4 (by decide)
  have t6 := tdiv_bounds (275 * m) 9 (by decide)
  omega

set_option maxRecDepth 100000 in
/-- Claim C27 (counterexample).  A year above 9999 is not rejected:
`computeEPOCH (10000,1,1,0,0,0,0)` returns 315569520000000.0, the millisecond count of
10000-01-01 in the extended calendar, not `ILLEGAL_EPOCH_VALUE`. -/
theorem C27_year_10000_accepted :
    computeEPOCH cdfEpochConsts 10000 1 1 0 0 0 0 = Dbl.ofInt 315569520000000 ∧
    computeEPOCH cdfEpochConsts 10000 1 1 0 0 0 0 ≠ cdfEpochConsts.ILLEGAL_EPOCH_VALUE := by
  decide!

/-- Claim C27 (amended).  `computeEPOCH` returns `ILLEGAL_EPOCH_VALUE` whenever the year is
negative.  A year above 9999 is not rejected: for a year from 10000 to 10^16, a month
1 .. 12, a day from 1 to 10^16 and non-negative time fields (a range in which the `long`
arithmetic of `JulianDay` does not overflow) the result is a non-negative millisecond count;
beyond that range the day number wraps, and `computeEPOCH (30000000000000000,1,1,0,0,0,0)`
returns `ILLEGAL_EPOCH_VALUE`.  The fill value -1.0E31 is returned for the literal
(9999,12,31,23,59,59,999) and for no other fields, `ILLEGAL_EPOCH_VALUE` (the negative
number -1.0) being another value than the fill value. -/
theorem C27_year_bound_amended (k : EpochConsts)
    (year month day hour minute second msec : Int)
    (hne : k.ILLEGAL_EPOCH_VALUE ≠ fillEpoch) :
    (year < 0 → computeEPOCH k year month day hour minute second msec
      = k.ILLEGAL_EPOCH_VALUE) ∧
    (9999 < year → year ≤ 10000000000000000 → 1 ≤ month → month ≤ 12 → 1 ≤ day →
      day ≤ 10000000000000000 → 0 ≤ hour → 0 ≤ minute → 0 ≤ second → 0 ≤ msec →
      0 ≤ (computeEPOCH k year month day hour minute second msec).raw) ∧
    computeEPOCH k 9999 12 31 23 59 59 999 = fillEpoch ∧
    (computeEPOCH k year month day hour minute second msec = fillEpoch ↔
      (year = 9999 ∧ month = 12 ∧ day = 31 ∧ hour = 23 ∧ minute = 59 ∧ second = 59
        ∧ msec = 999)) ∧
    computeEPOCH k 30000000000000000 1 1 0 0 0 0 = k.ILLEGAL_EPOCH_VALUE := by
  have hfill := fillEpoch_neg
  have nf : ∀ x : Dbl, 0 ≤ x.raw → x ≠ fillEpoch := by
    intro x hx he
    rw [he] at hx
    omega
  have ce : computeEpoch k year month day hour minute second msec ≠ fillEpoch := by
    rcases computeEpoch_cases k year month day hour minute second msec with h | h
    · rw [h]; exact hne
    · exact nf _ h
  refine ⟨?_, ?_, ?_, ?_, ?_⟩
  · intro hy
    unfold computeEPOCH
    rw [if_neg (by omega), if_pos hy]
  · intro hy hy2 hm1 hm2 hd hd2 hh hmi hs hms
    unfold computeEPOCH
    rw [if_neg (by omega), if_neg (by omega), if_pos (Or.inl hy)]
    unfold computeEpoch
    simp only []
    have hJ := JulianDay_ge year month day (by omega) hy2 hm1 hm2 hd hd2
    have hJ2 := JulianDay_le year month day (by omega) hy2 hm1 hm2 hd hd2
    have hdays : (if month = 0 then
          wrap64 (wrap64 (JulianDay year 1 1 + wrap64 (day - 1)) - 1721060)
        else if month < 0 then
          wrap64 (JulianDay (wrap64 (year - 1)) (wrap64 (13 + month)) day - 1721060)
        else wrap64 (JulianDay year month day - 1721060))
        = JulianDay year month day - 1721060 := by
      rw [if_neg (by omega), if_neg (by omega)]
      exact wrap64_id _ (by unfold INT64_MIN; omega) (by unfold INT64_MAX; omega)
    rw [hdays]
    rw [if_neg (by omega)]
    have hnn : 0 ≤ (Dbl.add (Dbl.mul (Dbl.ofInt 86400000)
        (Dbl.ofInt (JulianDay year month day - 1721060)))
        (Dbl.add (Dbl.add (Dbl.add (Dbl.mul (Dbl.ofInt 3600000) (Dbl.ofInt hour))
          (Dbl.mul (Dbl.ofInt 60000) (Dbl.ofInt minute)))
          (Dbl.mul (Dbl.ofInt 1000) (Dbl.ofInt second))) (Dbl.ofInt msec))).raw := by
      apply Dbl.add_nonneg_raw
      · exact Dbl.mul_nonneg_raw _ _ (Dbl.ofInt_nonneg _ (by decide)) (Dbl.ofInt_nonneg _ (by omega))
      · apply Dbl.add_nonneg_raw
        · apply Dbl.add_nonneg_raw
          · apply Dbl.add_nonneg_raw
            · exact Dbl.mul_nonneg_raw _ _ (Dbl.ofInt_nonneg _ (by decide)) (Dbl.ofInt_nonneg _ hh)
            · exact Dbl.mul_nonneg_raw _ _ (Dbl.ofInt_nonneg _ (by decide)) (Dbl.ofInt_nonneg _ hmi)
          · exact Dbl.mul_nonneg_raw _ _ (Dbl.ofInt_nonneg _ (by decide)) (Dbl.ofInt_nonneg _ hs)
        · exact Dbl.ofInt_nonneg _ hms
    have hlt : ¬ (Dbl.lt (Dbl.add (Dbl.mul (Dbl.ofInt 86400000)
        (Dbl.ofInt (JulianDay year month day - 1721060)))
        (Dbl.add (Dbl.add (Dbl.add (Dbl.mul (Dbl.ofInt 3600000) (Dbl.ofInt hour))
          (Dbl.mul (Dbl.ofInt 60000) (Dbl.ofInt minute)))
          (Dbl.mul (Dbl.ofInt 1000) (Dbl.ofInt second))) (Dbl.ofInt msec))) (Dbl.ofInt 0)
        = true) := by
      unfold Dbl.lt
      rw [Dbl.ofInt_zero]
      simpa using hnn
    rw [if_neg hlt]
    exact hnn
  · unfold computeEPOCH
    rw [if_pos (by decide)]
  · constructor
    · intro he
      by_contra hlit
      unfold computeEPOCH at he
      rw [if_neg hlit] at he
      by_cases h1 : year < 0
      · rw [if_pos h1] at he; exact hne he
      rw [if_neg h1] at he
      by_cases h2 : year > 9999 ∨ (month < 0 ∨ month > 12) ∨ (hour < 0 ∨ hour > 23)
          ∨ (minute < 0 ∨ minute > 59) ∨ (second < 0 ∨ second > 59) ∨ (msec < 0 ∨ msec > 999)
      · rw [if_pos h2] at he; exact ce he
      rw [if_neg h2] at he
      by_cases h3 : month = 0 ∧ (day < 1 ∨ day > 366)
      · rw [if_pos h3] at he; exact ce he
      rw [if_neg h3] at he
      by_cases h4 : month ≠ 0 ∧ (day < 1 ∨ day > 31)
      · rw [if_pos h4] at he; exact ce he
      rw [if_neg h4] at he
      by_cases h5 : (hour = 0 ∧ minute = 0 ∧ second = 0) ∧ (msec < 0 ∨ msec > 86399999)
      · rw [if_pos h5] at he; exact ce he
      rw [if_neg h5] at he
      have hd0 : 0 ≤ (if month = 0 then JulianDay year 1 1 + (day - 1) - 1721060
          else JulianDay year month day - 1721060) := by
        by_cases hm0 : month = 0
        · rw [if_pos hm0]
          have := JulianDay_ge year 1 1 (by omega) (by omega) (by decide) (by decide)
            (by decide) (by decide)
          omega
        · rw [if_neg hm0]
          have := JulianDay_ge year month day (by omega) (by omega) (by omega) (by omega)
            (by omega) (by omega)
          omega
      have hms0 : 0 ≤ (if hour = 0 ∧ minute = 0 ∧ second = 0 then msec
          else 3600000 * hour + 60000 * minute + 1000 * second + msec) := by
        by_cases hz : hour = 0 ∧ minute = 0 ∧ second = 0
        · rw [if_pos hz]; omega
        · rw [if_neg hz]; omega
      exact nf _ (Dbl.add_nonneg_raw _ _
          (Dbl.mul_nonneg_raw _ _ (Dbl.ofInt_nonneg _ (by decide)) (Dbl.ofInt_nonneg _ hd0))
          (Dbl.ofInt_nonneg _ hms0)) he
    · rintro ⟨a1, a2, a3, a4, a5, a6, a7⟩
      subst a1; subst a2; subst a3; subst a4; subst a5; subst a6; subst a7
      unfold computeEPOCH
      rw [if_pos (by decide)]
  · unfold computeEPOCH
    rw [if_neg (by decide), if_neg (by decide), if_pos (by decide)]
    unfold computeEpoch
    simp only []
    rw [if_pos (by decide)]

set_option maxRecDepth 100000 in
/-- Witness of the amended C27: the year -1 is rejected, the year 10000 is not. -/
theorem C27_year_bound_amended_witness :
    cdfEpochConsts.ILLEGAL_EPOCH_VALUE ≠ fillEpoch ∧
    computeEPOCH cdfEpochConsts (-1) 1 1 0 0 0 0 = cdfEpochConsts.ILLEGAL_EPOCH_VALUE ∧
    0 ≤ (computeEPOCH cdfEpochConsts 10000 1 1 0 0 0 0).raw ∧
    computeEPOCH cdfEpochConsts 10000 1 1 0 0 0 0 = Dbl.ofInt 315569520000000 :=
  ⟨by decide!,
    (C27_year_bound_amended cdfEpochConsts (-1) 1 1 0 0 0 0 (by decide!)).1 (by decide),
    (C27_year_bound_amended cdfEpochConsts 10000 1 1 0 0 0 0 (by decide!)).2.1 (by decide)
      (by decide) (by decide) (by decide) (by decide) (by decide) (by decide) (by decide)
      (by decide) (by decide),
    by decide!⟩

/-- Claim C30.  Nanosecond-resolution styles round-trip: under the built-in table, for every
TT2000 value `x` from 1972-01-01T00:00:00 UTC (-883655957816000000) up to the largest 64-bit
value, other than the three reserved constants, and for each of the styles 0, 3 and 4,
`parseTT2000 (encodeTT2000 (x, style))` returns `x`.  The range includes the instants inside
an inserted leap second.  (`MonthNumber` relies on the library comparison `StrStrIgCaseX`,
assumed to recognise the twelve month tokens.) -/
theorem C30_nanosecond_styles_round_trip (ig : List Char → List Char → Bool) (c : Sentinels)
    (h : Host) (s : TTState) (x : Int) (style : Int)
    (hIg : ∀ m : Int, 1 ≤ m → m ≤ 12 → MonthNumber ig (MonthToken m) = m)
    (hs : BuiltinOK s)
    (hF : x ≠ c.FILLED_TT2000_VALUE) (hP : x ≠ c.DEFAULT_TT2000_PADVALUE)
    (hI : x ≠ c.ILLEGAL_TT2000_VALUE)
    (h1 : -883655957816000000 ≤ x) (h2 : x ≤ INT64_MAX)
    (hst : style = 0 ∨ style = 3 ∨ style = 4) :
    (parseTT2000 ig c h (encodeTT2000 c h s x style).2 (encodeTT2000 c h s x style).1).map
      Prod.fst = some x := by
  obtain ⟨s3, hp, -⟩ := parseEncoded_from_1972 ig c h s x style hIg hs hF hP hI h1 h2 hst
  unfold parseEncoded at hp
  rw [hp]
  rfl

set_option maxRecDepth 100000 in
theorem C30_nanosecond_styles_round_trip_witness :
    (∀ m : Int, 1 ≤ m → m ≤ 12 → MonthNumber igCase (MonthToken m) = m) ∧
    BuiltinOK builtinState ∧
    (536500868184000000 : Int) ≠ cdfSentinels.FILLED_TT2000_VALUE ∧
    (536500868184000000 : Int) ≠ cdfSentinels.DEFAULT_TT2000_PADVALUE ∧
    (536500868184000000 : Int) ≠ cdfSentinels.ILLEGAL_TT2000_VALUE ∧
    (-883655957816000000 : Int) ≤ 536500868184000000 ∧
    (536500868184000000 : Int) ≤ INT64_MAX ∧
    (parseTT2000 igCase cdfSentinels Host.plain
      (encodeTT2000 cdfSentinels Host.plain builtinState 536500868184000000 3).2
      (encodeTT2000 cdfSentinels Host.plain builtinState 536500868184000000 3).1).map
      Prod.fst = some 536500868184000000 :=
  ⟨igCase_months, BuiltinOK_builtinState, by decide, by decide, by decide, by decide, by decide,
   C30_nanosecond_styles_round_trip igCase cdfSentinels Host.plain builtinState
     536500868184000000 3 igCase_months BuiltinOK_builtinState (by decide) (by decide)
     (by decide) (by decide) (by decide) (Or.inr (Or.inl rfl))⟩

set_option maxRecDepth 100000 in
/-- The instant 536500868184000000 lies inside the leap second inserted at the end of 2016:
its string has the second 60. -/
theorem leap_second_string :
    (encodeTT2000 cdfSentinels Host.plain builtinState 536500868184000000 3).1
      = "2016-12-31T23:59:60.000000000".data := by decide!

/-- A `double` holding the integer `d`: flooring leaves it unchanged and the conversion to
`long` gives `d`. -/
theorem Dbl.whole (dd : Dbl) (d : Int) (hdd : dd.raw = d * SC) :
    Dbl.floor dd = dd ∧ Dbl.toInt dd = d := by
  have hsc := SC_posZ
  constructor
  · apply Dbl.ext_raw
    show dd.raw / SC * SC = dd.raw
    rw [hdd, Int.mul_ediv_cancel _ (ne_of_gt hsc)]
  · unfold Dbl.toInt
    rw [hdd]
    exact Int.mul_tdiv_cancel _ (ne_of_gt hsc)

/-- The body of `computeTT2000` on integer fields below the carry thresholds, the day being
any `double` that holds an integer `d`: the fields go to `computeFields` unchanged. -/
theorem computeTT2000Sym_day (h : Host) (s : TTState) (y m d hh mn ss ms us ns : Int)
    (dd : Dbl) (hdd : dd.raw = d * SC)
    (hy : y.natAbs ≤ 2 ^ 53) (hm : m.natAbs ≤ 2 ^ 53) (hm0 : m ≠ 0)
    (h1 : 0 ≤ hh ∧ hh < 24) (h2 : 0 ≤ mn ∧ mn < 60) (h3 : 0 ≤ ss ∧ ss < 60)
    (h4 : 0 ≤ ms ∧ ms < 1000) (h5 : 0 ≤ us ∧ us < 1000) (h6 : 0 ≤ ns ∧ ns < 1000) :
    computeTT2000Sym h s (Dbl.ofInt y) (Dbl.ofInt m) dd (Dbl.ofInt hh) (Dbl.ofInt mn)
      (Dbl.ofInt ss) (Dbl.ofInt ms) (Dbl.ofInt us) (Dbl.ofInt ns) =
    computeFields h s y m d hh mn ss ms us ns := by
  obtain ⟨hfl, hti⟩ := Dbl.whole dd d hdd
  have b1 : hh.natAbs ≤ 2 ^ 53 := by omega
  have b2 : mn.natAbs ≤ 2 ^ 53 := by omega
  have b3 : ss.natAbs ≤ 2 ^ 53 := by omega
  have b4 : ms.natAbs ≤ 2 ^ 53 := by omega
  have b5 : us.natAbs ≤ 2 ^ 53 := by omega
  have b6 : ns.natAbs ≤ 2 ^ 53 := by omega
  have z : (0 : Int).natAbs ≤ 2 ^ 53 := by decide
  have k1 : (1000 : Int).natAbs ≤ 2 ^ 53 := by decide
  have k2 : (60 : Int).natAbs ≤ 2 ^ 53 := by decide
  have k3 : (24 : Int).natAbs ≤ 2 ^ 53 := by decide
  have n1 : ¬ hh < 0 := by omega
  have n2 : ¬ mn < 0 := by omega
  have n3 : ¬ ss < 0 := by omega
  have n4 : ¬ ms < 0 := by omega
  have n5 : ¬ us < 0 := by omega
  have n6 : ¬ ns < 0 := by omega
  unfold computeTT2000Sym
  rw [← Dbl.ofInt_zero]
  simp only [Dbl.beq_ofInt _ _ hm z, Dbl.floor_ofInt _ hy, Dbl.floor_ofInt _ hm,
    hfl, Dbl.floor_ofInt _ b1, Dbl.floor_ofInt _ b2, Dbl.floor_ofInt _ b3,
    Dbl.floor_ofInt _ b4, Dbl.floor_ofInt _ b5, Dbl.lt_ofInt _ _ b1 z, Dbl.lt_ofInt _ _ b2 z,
    Dbl.lt_ofInt _ _ b3 z, Dbl.lt_ofInt _ _ b4 z, Dbl.lt_ofInt _ _ b5 z, Dbl.lt_ofInt _ _ b6 z,
    Dbl.sub_self, Dbl.beq_ofInt 0 0 z z, hm0, n1, n2, n3, n4, n5, n6, decide_False, decide_True,
    Bool.or_self, Bool.not_true, Bool.false_eq_true, if_false]
  rw [carryNanos_skip _ (by show Dbl.le _ (Dbl.ofInt ns) = false; rw [Dbl.le_ofInt _ _ k1 b6]; simp; omega)]
  rw [carryMicros_skip _ (by show Dbl.le _ (Dbl.ofInt us) = false; rw [Dbl.le_ofInt _ _ k1 b5]; simp; omega)]
  rw [carryMillis_skip _ (by show Dbl.le _ (Dbl.ofInt ms) = false; rw [Dbl.le_ofInt _ _ k1 b4]; simp; omega)]
  rw [carrySeconds_skip _ _ _ (by show Dbl.le _ (Dbl.ofInt ss) = false; rw [Dbl.le_ofInt _ _ k2 b3]; simp; omega)]
  simp only []
  rw [carryMinutes_skip _ (by show Dbl.le _ (Dbl.ofInt mn) = false; rw [Dbl.le_ofInt _ _ k2 b2]; simp; omega)]
  rw [carryHours_skip _ (by show Dbl.le _ (Dbl.ofInt hh) = false; rw [Dbl.le_ofInt _ _ k3 b1]; simp; omega)]
  unfold Loc.settle
  simp only [and_self, if_true, Dbl.toInt_ofInt _ hy, Dbl.toInt_ofInt _ hm, hti,
    Dbl.toInt_ofInt _ b1, Dbl.toInt_ofInt _ b2, Dbl.toInt_ofInt _ b3, Dbl.toInt_ofInt _ b4,
    Dbl.toInt_ofInt _ b5, Dbl.toInt_ofInt _ b6]

theorem YearWithin_true (y : Int) (h1 : 1708 ≤ y) (h2 : y ≤ 2291) : YearWithin y = true := by
  unfold YearWithin
  simp [h1, h2]

/-- In a year 1708 .. 2291, a day beyond the length of the month (February or later) makes
the second half of `computeTT2000` return the illegal value, the module state untouched. -/
theorem computeFields_day_beyond (h : Host) (s : TTState) (y m d hh mn ss ms us ns : Int)
    (hy1 : 1708 ≤ y) (hy2 : y ≤ 2291) (hm1 : 2 ≤ m) (hm2 : m ≤ 12)
    (hd : daysInMonth y m < d) :
    computeFields h s y m d hh mn ss ms us ns = (.illegal, s) := by
  unfold computeFields
  rw [if_neg (by omega), if_neg (by omega), YearWithin_true y hy1 hy2]
  simp only [Bool.not_true, Bool.false_and, Bool.false_eq_true, if_false]
  unfold daysInMonth at hd
  have hgt : decide (m > 1) = true := decide_eq_true (by omega)
  by_cases hl : lyearOf y = true
  · rw [if_pos hl] at hd
    have b : decide (d > tbl daym2 (m - 1)) = true := decide_eq_true (by omega)
    rw [hl, hgt, b]
    simp
  · rw [if_neg hl] at hd
    have b : decide (d > tbl daym1 (m - 1)) = true := decide_eq_true (by omega)
    have hl2 : lyearOf y = false := by simpa using hl
    rw [hl2, hgt, b]
    simp

/-- In a year 1708 .. 2291, on a date of the calendar, the second half of `computeTT2000`
passes every check and computes a value from the day number and the leap seconds of the date,
taken from the day cache when the date is the cached one. -/
theorem computeFields_valid (h : Host) (s : TTState) (y m d hh mn ss ms us ns : Int)
    (hy1 : 1708 ≤ y) (hy2 : y ≤ 2291) (hm1 : 1 ≤ m) (hm2 : m ≤ 12) (hd1 : 1 ≤ d)
    (hd2 : d ≤ daysInMonth y m) :
    computeFields h s y m d hh mn ss ms us ns =
      if 10000000 * m + 10000 * d + y ≠ s.currentDay then
        (.value (coreArith
          (Dbl.toInt (Dbl.sub (JulianDay12h y m d) (Dbl.ofInt JulianDateJ2000_12h)))
          (hh * HOURinNanoSecs + mn * MINUTEinNanoSecs + ss * SECinNanoSecs + ms * 1000000
            + us * 1000 + ns)
          (Dbl.toInt (Dbl.mul
            (LeapSecondsfromYMD h { s with currentDay := 10000000 * m + 10000 * d + y } y m d).1
            (Dbl.ofInt SECinNanoSecs)))),
         { (LeapSecondsfromYMD h { s with currentDay := 10000000 * m + 10000 * d + y }
              y m d).2 with
           currentLeapSeconds :=
             (LeapSecondsfromYMD h { s with currentDay := 10000000 * m + 10000 * d + y }
               y m d).1,
           currentJDay := JulianDay12h y m d })
      else
        (.value (coreArith
          (Dbl.toInt (Dbl.sub s.currentJDay (Dbl.ofInt JulianDateJ2000_12h)))
          (hh * HOURinNanoSecs + mn * MINUTEinNanoSecs + ss * SECinNanoSecs + ms * 1000000
            + us * 1000 + ns)
          (Dbl.toInt (Dbl.mul s.currentLeapSeconds (Dbl.ofInt SECinNanoSecs)))), s) := by
  have hd31 : d ≤ 31 := le_trans hd2 (daysInMonth_le y m hm1 hm2)
  unfold computeFields
  rw [if_neg (by omega), if_neg (by omega), YearWithin_true y hy1 hy2]
  simp only [Bool.not_true, Bool.false_and, Bool.false_eq_true, if_false]
  have c4 : ((!lyearOf y && decide (d > 365)) || (lyearOf y && decide (d > 366))) = false := by
    have a : decide (d > 365) = false := decide_eq_false (by omega)
    have b : decide (d > 366) = false := decide_eq_false (by omega)
    rw [a, b]; simp
  have c5 : ((!lyearOf y && decide (m > 1) && decide (d > tbl daym1 (m - 1)))
      || (lyearOf y && decide (m > 1) && decide (d > tbl daym2 (m - 1)))) = false := by
    unfold daysInMonth at hd2
    by_cases hl : lyearOf y = true
    · rw [if_pos hl] at hd2
      have b : decide (d > tbl daym2 (m - 1)) = false := decide_eq_false (by omega)
      rw [hl, b]; simp
    · rw [if_neg hl] at hd2
      have b : decide (d > tbl daym1 (m - 1)) = false := decide_eq_false (by omega)
      have hl2 : lyearOf y = false := by simpa using hl
      rw [hl2, b]; simp
  rw [c4, c5]
  simp only [Bool.false_eq_true, if_false]
  rw [if_neg (by omega : ¬ (m ≤ 1 ∧ d > 31))]
  simp only []
  by_cases hk : 10000000 * m + 10000 * d + y ≠ s.currentDay
  · rw [if_pos hk, if_pos hk]
  · rw [if_neg hk, if_neg hk]

theorem TTState.row_congr (s s2 : TTState) (hL : s.LTD = s2.LTD) (i : Nat) :
    s.row i = s2.row i := by
  unfold TTState.row
  rw [hL]

theorem ymdIndex_congr (s s2 : TTState) (hL : s.LTD = s2.LTD) (m : Int) :
    ∀ n : Nat, ymdIndex s m n = ymdIndex s2 m n := by
  intro n
  induction n with
  | zero => rfl
  | succ i ih =>
    unfold ymdIndex
    simp only []
    rw [TTState.row_congr s s2 hL i, ih]

/-- The leap seconds `LeapSecondsfromYMD` gives depend on the module state through the loaded
table only. -/
theorem LeapSecondsfromYMD_congr (h h2 : Host) (s s2 : TTState) (hn : s.LTD.isNull = false)
    (hL : s.LTD = s2.LTD) (hE : s.entryCnt = s2.entryCnt) (y m d : Int) :
    (LeapSecondsfromYMD h s y m d).1 = (LeapSecondsfromYMD h2 s2 y m d).1 := by
  have hn2 : s2.LTD.isNull = false := by rw [← hL]; exact hn
  unfold LeapSecondsfromYMD
  simp only [hn, hn2, Bool.false_eq_true, if_false]
  rw [ymdIndex_congr s s2 hL, hE]
  by_cases hj : ymdIndex s2 (12 * y + m) s2.entryCnt.toNat = -1
  · rw [if_pos hj, if_pos hj]
  · rw [if_neg hj, if_neg hj]
    rw [TTState.row_congr s s2 hL]
    by_cases hera : ymdIndex s2 (12 * y + m) s2.entryCnt.toNat < NERA1
    · rw [if_pos hera, if_pos hera]
    · rw [if_neg hera, if_neg hera]

/-- With the built-in table in place, `LeapSecondsfromYMD` returns the leap seconds of the
date and leaves the state as it is. -/
theorem LeapSecondsfromYMD_builtin (h : Host) (s : TTState) (hL : s.LTD = .live LTS)
    (hE : s.entryCnt = NDAT) (y m d : Int) :
    LeapSecondsfromYMD h s y m d = (leapOfDate y m d, s) := by
  have hn : s.LTD.isNull = false := by rw [hL]; rfl
  have e1 := LeapSecondsfromYMD_state h s y m d hn
  have e2 := LeapSecondsfromYMD_congr h Host.plain s builtinState hn (by rw [hL]; rfl)
    (by rw [hE]; rfl) y m d
  unfold leapOfDate
  exact Prod.ext e2 e1

theorem marchOffset_bounds (m : Int) (hm1 : 1 ≤ m) (hm2 : m ≤ 12) :
    (m ≤ 2 → 306 ≤ marchOffset m ∧ marchOffset m ≤ 337) ∧
    (3 ≤ m → 0 ≤ marchOffset m ∧ marchOffset m ≤ 275) := by
  interval_cases m <;> decide

/-- The day numbers of the years 1708 .. 2291. -/
theorem JulianDay12hL_years (y m d : Int) (hy1 : 1708 ≤ y) (hy2 : y ≤ 2291) (hm1 : 1 ≤ m)
    (hm2 : m ≤ 12) (hd1 : 1 ≤ d) (hd2 : d ≤ 31) :
    2344894 ≤ JulianDay12hL y m d ∧ JulianDay12hL y m d ≤ 2558195 := by
  have e := JulianDay12hL_march y m d hm1 hm2
  have e2 := marchStart_ediv (y - (if m ≤ 2 then 1 else 0)) (by split_ifs <;> omega)
  obtain ⟨s1, s2⟩ := marchOffset_bounds m hm1 hm2
  rw [e2] at e
  unfold marchStartE at e
  by_cases hm : m ≤ 2
  · rw [if_pos hm] at e
    have := s1 hm
    omega
  · rw [if_neg hm] at e
    have := s2 (by omega)
    omega

/-- The second half of `computeTT2000` on a date of the years 1708 .. 2291, with the built-in
table in place and a consistent day cache: the value is the exact sum of the day count, the
time of day, the leap seconds of the date (with drift before 1972) and the TT offset, no
64-bit operation wraps, and the result lies strictly above the three reserved constants. -/
theorem computeFields_builtin (h : Host) (s : TTState) (hL : s.LTD = .live LTS)
    (hE : s.entryCnt = NDAT) (hc : CacheOK s) (y m d hh mn ss ms us ns : Int)
    (hy1 : 1708 ≤ y) (hy2 : y ≤ 2291) (hm1 : 1 ≤ m) (hm2 : m ≤ 12) (hd1 : 1 ≤ d)
    (hd2 : d ≤ daysInMonth y m)
    (h1 : 0 ≤ hh ∧ hh < 24) (h2 : 0 ≤ mn ∧ mn < 60) (h3 : 0 ≤ ss ∧ ss ≤ 60)
    (h4 : 0 ≤ ms ∧ ms < 1000) (h5 : 0 ≤ us ∧ us < 1000) (h6 : 0 ≤ ns ∧ ns < 1000) :
    computeFields h s y m d hh mn ss ms us ns
      = (.value ((JulianDay12hL y m d - 2451545) * DAYinNanoSecs
          + (hh * HOURinNanoSecs + mn * MINUTEinNanoSecs + ss * SECinNanoSecs + ms * 1000000
              + us * 1000 + ns)
          + Dbl.toInt (Dbl.mul (leapOfDate y m d) (Dbl.ofInt SECinNanoSecs))
          + dTinNanoSecs - T12hinNanoSecs),
         { s with currentDay := 10000000 * m + 10000 * d + y,
                  currentLeapSeconds := leapOfDate y m d,
                  currentJDay := JulianDay12h y m d }) ∧
    -9223372036854775805 < (JulianDay12hL y m d - 2451545) * DAYinNanoSecs
          + (hh * HOURinNanoSecs + mn * MINUTEinNanoSecs + ss * SECinNanoSecs + ms * 1000000
              + us * 1000 + ns)
          + Dbl.toInt (Dbl.mul (leapOfDate y m d) (Dbl.ofInt SECinNanoSecs))
          + dTinNanoSecs - T12hinNanoSecs ∧
    (JulianDay12hL y m d - 2451545) * DAYinNanoSecs
          + (hh * HOURinNanoSecs + mn * MINUTEinNanoSecs + ss * SECinNanoSecs + ms * 1000000
              + us * 1000 + ns)
          + Dbl.toInt (Dbl.mul (leapOfDate y m d) (Dbl.ofInt SECinNanoSecs))
          + dTinNanoSecs - T12hinNanoSecs ≤ INT64_MAX := by
  have hd31 : d ≤ 31 := le_trans hd2 (daysInMonth_le y m hm1 hm2)
  obtain ⟨j1, j2⟩ := JulianDay12hL_years y m d hy1 hy2 hm1 hm2 hd1 hd31
  have hn := window_natAbs _ (by omega : 2344793 ≤ JulianDay12hL y m d) (by omega)
  have hb := (LeapSecondsfromYMD_bound Host.plain builtinState rfl rfl y m d
    (by omega)).2
  have hb' : (Dbl.toInt (Dbl.mul (leapOfDate y m d) (Dbl.ofInt SECinNanoSecs))).natAbs
      ≤ 33088000000000 := hb
  have hjd : Dbl.toInt (Dbl.sub (JulianDay12h y m d) (Dbl.ofInt JulianDateJ2000_12h))
      = JulianDay12hL y m d - 2451545 := by
    unfold JulianDay12h JulianDateJ2000_12h
    rw [Dbl.sub_ofInt _ _ hn (by decide) (natAbs_small _ (by omega) (by omega)),
      Dbl.toInt_ofInt _ (natAbs_small _ (by omega) (by omega))]
  generalize ht2 : Dbl.toInt (Dbl.mul (leapOfDate y m d) (Dbl.ofInt SECinNanoSecs)) = t2
    at hb' ⊢
  have hlo : -9223372036854775805 < (JulianDay12hL y m d - 2451545) * DAYinNanoSecs
          + (hh * HOURinNanoSecs + mn * MINUTEinNanoSecs + ss * SECinNanoSecs + ms * 1000000
              + us * 1000 + ns) + t2 + dTinNanoSecs - T12hinNanoSecs := by
    unfold DAYinNanoSecs HOURinNanoSecs MINUTEinNanoSecs SECinNanoSecs dTinNanoSecs
      T12hinNanoSecs
    omega
  have hhi : (JulianDay12hL y m d - 2451545) * DAYinNanoSecs
          + (hh * HOURinNanoSecs + mn * MINUTEinNanoSecs + ss * SECinNanoSecs + ms * 1000000
              + us * 1000 + ns) + t2 + dTinNanoSecs - T12hinNanoSecs ≤ INT64_MAX := by
    unfold DAYinNanoSecs HOURinNanoSecs MINUTEinNanoSecs SECinNanoSecs dTinNanoSecs
      T12hinNanoSecs INT64_MAX
    omega
  refine ⟨?_, hlo, hhi⟩
  have hmul : Dbl.toInt (Dbl.mul (leapOfDate y m d) (Dbl.ofInt SECinNanoSecs)) = t2 := ht2
  rw [computeFields_valid h s y m d hh mn ss ms us ns hy1 hy2 hm1 hm2 hd1 hd2]
  by_cases hk : 10000000 * m + 10000 * d + y ≠ s.currentDay
  · rw [if_pos hk]
    rw [LeapSecondsfromYMD_builtin h _ (show ({ s with currentDay := 10000000 * m + 10000 * d + y }
      : TTState).LTD = .live LTS from hL) hE y m d]
    simp only []
    rw [hjd, hmul, coreArith_wrap, wrap64_id _ (by unfold INT64_MIN; omega) hhi]
  · rw [if_neg hk]
    have hk2 : s.currentDay = 10000000 * m + 10000 * d + y := by
      by_contra hne
      exact hk (fun e => hne e.symm)
    obtain ⟨q1, q2⟩ := hc y m d hm1 hm2 hd1 hd31 (by omega) (by omega) hk2
    rw [q1, q2, hjd, hmul, coreArith_wrap, wrap64_id _ (by unfold INT64_MIN; omega) hhi]
    congr 1
    cases s
    simp only at hk2 q1 q2
    subst hk2; subst q1; subst q2
    rfl

/-- The leap-year test of `computeTT2000` is the Gregorian rule: February has 29 days in a
year divisible by 4 and not by 100, or divisible by 400, and 28 days otherwise. -/
theorem daysInMonth_february (y : Int) (hy : 0 ≤ y) :
    daysInMonth y 2 = (if y % 4 = 0 ∧ (y % 100 ≠ 0 ∨ y % 400 = 0) then 29 else 28) := by
  unfold daysInMonth lyearOf
  rw [Int.tmod_eq_emod hy (by decide)]
  by_cases hg : y % 4 = 0 ∧ (y % 100 ≠ 0 ∨ y % 400 = 0)
  · rw [if_pos hg]
    have a : decide (y % 4 = 0) = true := decide_eq_true hg.1
    have b : (decide (y % 25 ≠ 0) || decide (y % 16 = 0)) = true := by
      rcases hg.2 with h | h
      · have : y % 25 ≠ 0 := by omega
        simp [this]
      · have : y % 16 = 0 := by omega
        simp [this]
    rw [a, b]
    rfl
  · rw [if_neg hg]
    have : (decide (y % 4 = 0) && (decide (y % 25 ≠ 0) || decide (y % 16 = 0))) = false := by
      by_cases h4 : y % 4 = 0
      · have h100 : y % 100 = 0 := by
          by_contra hc
          exact hg ⟨h4, Or.inl hc⟩
        have h400 : y % 400 ≠ 0 := fun hc => hg ⟨h4, Or.inr hc⟩
        have a : y % 25 = 0 := by omega
        have b : y % 16 ≠ 0 := by omega
        simp [a, b]
      · simp [h4]
    rw [this]
    rfl

/-- Claim C21.  The day is validated against the month lengths: for every year 1708 .. 2291,
month 2 .. 12 and time of day within its ranges, `computeTT2000 (y, m, d, ...)` returns
`ILLEGAL_TT2000_VALUE` (leaving the module state as it is) when the day `d` is beyond the
length of the month, and, with the built-in table in place, returns a computed value that
lies strictly above the three reserved constants when `1 <= d <= daysInMonth (y, m)`.  The
day is any `double` that holds the integer `d`.  February has 29 days in a Gregorian leap
year and 28 otherwise. -/
theorem C21_day_validated (c : Sentinels) (h : Host) (s : TTState)
    (y m d hh mn ss ms us ns : Int) (dd : Dbl) (hdd : dd.raw = d * SC)
    (hy : 1708 ≤ y ∧ y ≤ 2291) (hm : 2 ≤ m ∧ m ≤ 12)
    (h1 : 0 ≤ hh ∧ hh < 24) (h2 : 0 ≤ mn ∧ mn < 60) (h3 : 0 ≤ ss ∧ ss < 60)
    (h4 : 0 ≤ ms ∧ ms < 1000) (h5 : 0 ≤ us ∧ us < 1000) (h6 : 0 ≤ ns ∧ ns < 1000) :
    (daysInMonth y m < d →
      computeTT2000 c h s (Dbl.ofInt y) (Dbl.ofInt m) dd (Dbl.ofInt hh) (Dbl.ofInt mn)
        (Dbl.ofInt ss) (Dbl.ofInt ms) (Dbl.ofInt us) (Dbl.ofInt ns)
        = (c.ILLEGAL_TT2000_VALUE, s)) ∧
    (1 ≤ d → d ≤ daysInMonth y m → BuiltinOK s →
      ∃ n : Int,
        (computeTT2000Sym h s (Dbl.ofInt y) (Dbl.ofInt m) dd (Dbl.ofInt hh) (Dbl.ofInt mn)
          (Dbl.ofInt ss) (Dbl.ofInt ms) (Dbl.ofInt us) (Dbl.ofInt ns)).1 = .value n ∧
        (computeTT2000 c h s (Dbl.ofInt y) (Dbl.ofInt m) dd (Dbl.ofInt hh) (Dbl.ofInt mn)
          (Dbl.ofInt ss) (Dbl.ofInt ms) (Dbl.ofInt us) (Dbl.ofInt ns)).1 = n ∧
        -9223372036854775805 < n ∧ n ≤ INT64_MAX) ∧
    daysInMonth y 2 = (if y % 4 = 0 ∧ (y % 100 ≠ 0 ∨ y % 400 = 0) then 29 else 28) := by
  have hsym := computeTT2000Sym_day h s y m d hh mn ss ms us ns dd hdd
    (natAbs_small _ (by omega) (by omega)) (natAbs_small _ (by omega) (by omega)) (by omega)
    h1 h2 h3 h4 h5 h6
  refine ⟨?_, ?_, daysInMonth_february y (by omega)⟩
  · intro hd
    unfold computeTT2000
    rw [hsym, computeFields_day_beyond h s y m d hh mn ss ms us ns hy.1 hy.2 hm.1 hm.2 hd]
    rfl
  · intro hd1 hd2 hs
    obtain ⟨hL, hE, -, hc⟩ := hs
    obtain ⟨e, lo, hi⟩ := computeFields_builtin h s hL hE hc y m d hh mn ss ms us ns hy.1 hy.2
      (by omega) hm.2 hd1 hd2 h1 h2 ⟨h3.1, by omega⟩ h4 h5 h6
    refine ⟨_, ?_, ?_, lo, hi⟩
    · rw [hsym, e]
    · unfold computeTT2000
      rw [hsym, e]
      rfl

theorem C21_day_validated_witness :
    (Dbl.ofInt 29).raw = 29 * SC ∧
    (daysInMonth 2015 2 < 29 →
      computeTT2000 cdfSentinels Host.plain builtinState (Dbl.ofInt 2015) (Dbl.ofInt 2)
        (Dbl.ofInt 29) (Dbl.ofInt 1) (Dbl.ofInt 2) (Dbl.ofInt 3) (Dbl.ofInt 4) (Dbl.ofInt 5)
        (Dbl.ofInt 6) = (cdfSentinels.ILLEGAL_TT2000_VALUE, builtinState)) ∧
    (1 ≤ (29 : Int) → 29 ≤ daysInMonth 2015 2 → BuiltinOK builtinState →
      ∃ n : Int,
        (computeTT2000Sym Host.plain builtinState (Dbl.ofInt 2015) (Dbl.ofInt 2) (Dbl.ofInt 29)
          (Dbl.ofInt 1) (Dbl.ofInt 2) (Dbl.ofInt 3) (Dbl.ofInt 4) (Dbl.ofInt 5)
          (Dbl.ofInt 6)).1 = .value n ∧
        (computeTT2000 cdfSentinels Host.plain builtinState (Dbl.ofInt 2015) (Dbl.ofInt 2)
          (Dbl.ofInt 29) (Dbl.ofInt 1) (Dbl.ofInt 2) (Dbl.ofInt 3) (Dbl.ofInt 4) (Dbl.ofInt 5)
          (Dbl.ofInt 6)).1 = n ∧
        -9223372036854775805 < n ∧ n ≤ INT64_MAX) ∧
    daysInMonth 2015 2 = (if (2015 : Int) % 4 = 0 ∧ ((2015 : Int) % 100 ≠ 0 ∨ (2015 : Int) % 400 = 0)
      then 29 else 28) :=
  ⟨Dbl.ofInt_raw 29 (by decide),
   C21_day_validated cdfSentinels Host.plain builtinState 2015 2 29 1 2 3 4 5 6 (Dbl.ofInt 29)
     (Dbl.ofInt_raw 29 (by decide)) (by decide) (by decide) (by decide) (by decide) (by decide)
     (by decide) (by decide) (by decide)⟩

theorem doysOf_mono : ∀ j : Nat, j ≤ 11 → ∀ i : Nat, i ≤ j →
    tbl doys1 (i : Int) ≤ tbl doys1 (j : Int) ∧ tbl doys2 (i : Int) ≤ tbl doys2 (j : Int) := by
  decide

theorem doyLoop_cond (lyear : Bool) (n : Int) (ix : Nat) :
    ((!lyear && decide (n ≤ tbl doys1 ix)) || (lyear && decide (n ≤ tbl doys2 ix)))
      = decide (n ≤ tbl (doysOf lyear) ix) := by
  unfold doysOf
  cases lyear <;> simp

/-- The day-of-year loop finds the month: when day `n` lies after the end of month `j` and
not after the end of month `j + 1`, the loop leaves month `j + 1` and the day counted from the
end of month `j`. -/
theorem doyLoop_find (lyear : Bool) (lml n : Int) (j : Nat) (hj1 : 1 ≤ j) (hj2 : j ≤ 11)
    (hlo : tbl (doysOf lyear) ((j : Int) - 1) < n) (hhi : n ≤ tbl (doysOf lyear) (j : Int)) :
    ∀ k ix : Nat, ix ≤ j → j < ix + k →
      doyLoop lyear lml n k ix = ((j : Int) + 1, n - tbl (doysOf lyear) ((j : Int) - 1)) := by
  intro k
  induction k with
  | zero => intro ix h1 h2; omega
  | succ k ih =>
    intro ix h1 h2
    unfold doyLoop
    rw [doyLoop_cond]
    by_cases hix : ix = j
    · subst hix
      rw [if_pos (by simpa using hhi), if_neg (by omega)]
      unfold doysOf
      cases lyear <;> simp
    · have hlt : ix < j := by omega
      have hm := doysOf_mono (j - 1) (by omega) ix (by omega)
      have hcast : ((j - 1 : Nat) : Int) = (j : Int) - 1 := by omega
      rw [hcast] at hm
      have hno : ¬ (n ≤ tbl (doysOf lyear) (ix : Int)) := by
        unfold doysOf at hlo ⊢
        cases lyear
        · simp only [Bool.false_eq_true, if_false] at hlo ⊢; omega
        · simp only [if_true] at hlo ⊢; omega
      rw [if_neg (by simpa using hno)]
      exact ih (ix + 1) (by omega) (by omega)

/-- The day of the year in terms of the cumulative tables `doys1`, `doys2`. -/
theorem dayOfYear_tables (y m d : Int) (hm1 : 1 ≤ m) (hm2 : m ≤ 12) :
    dayOfYear y m d = (if m = 1 then 0 else tbl (doysOf (lyearOf y)) (m - 2)) + d := by
  unfold dayOfYear daysInMonth doysOf
  cases lyearOf y <;> interval_cases m <;> rfl

/-- Month 0 is month 1 to `computeTT2000`. -/
theorem computeTT2000Sym_month_zero (h : Host) (s : TTState) (yy dd o0 o1 o2 o3 o4 o5 : Dbl) :
    computeTT2000Sym h s yy (Dbl.ofInt 0) dd o0 o1 o2 o3 o4 o5
      = computeTT2000Sym h s yy (Dbl.ofInt 1) dd o0 o1 o2 o3 o4 o5 := by
  have z : (0 : Int).natAbs ≤ 2 ^ 53 := by decide
  have o : (1 : Int).natAbs ≤ 2 ^ 53 := by decide
  unfold computeTT2000Sym
  rw [← Dbl.ofInt_zero]
  simp only [Dbl.beq_ofInt 0 0 z z, Dbl.beq_ofInt 1 0 o z, decide_True, if_true,
    show decide ((1 : Int) = 0) = false from rfl, Bool.false_eq_true, if_false]

theorem daysInMonth_ge (y m : Int) (hm1 : 1 ≤ m) (hm2 : m ≤ 12) : 28 ≤ daysInMonth y m := by
  unfold daysInMonth
  cases lyearOf y <;> interval_cases m <;> decide

/-- The last day of the year is day 365, or 366 in a leap year. -/
theorem dayOfYear_last (y : Int) : dayOfYear y 12 31 = if lyearOf y then 366 else 365 := by
  rw [dayOfYear_tables y 12 31 (by decide) (by decide)]
  unfold doysOf
  cases lyearOf y <;> rfl

/-- A day of the year is at most the number of the last day. -/
theorem dayOfYear_le (y m d : Int) (hm1 : 1 ≤ m) (hm2 : m ≤ 12) (hd2 : d ≤ daysInMonth y m) :
    dayOfYear y m d ≤ dayOfYear y 12 31 := by
  rw [dayOfYear_tables y m d hm1 hm2, dayOfYear_tables y 12 31 (by decide) (by decide)]
  unfold daysInMonth at hd2
  unfold doysOf
  generalize lyearOf y = ly at hd2 ⊢
  cases ly <;> interval_cases m <;> simp [tbl, daym1, daym2, doys1, doys2] at hd2 ⊢ <;> omega

theorem doys_step (ly : Bool) (m : Int) (hm1 : 2 ≤ m) (hm2 : m ≤ 12) :
    tbl (doysOf ly) (m - 1)
      = tbl (doysOf ly) (m - 2) + (if ly then tbl daym2 (m - 1) else tbl daym1 (m - 1)) ∧
    31 ≤ tbl (doysOf ly) (m - 2) := by
  cases ly <;> interval_cases m <;> decide

/-- The day-of-year form: in a year 1708 .. 2291, with month 1 and the day of the year of a
calendar date from February on, the second half of `computeTT2000` resolves the month and the
day and continues as on the calendar date itself. -/
theorem computeFields_doy (h : Host) (s : TTState) (y m d hh mn ss ms us ns : Int)
    (hy1 : 1708 ≤ y) (hy2 : y ≤ 2291) (hm1 : 2 ≤ m) (hm2 : m ≤ 12) (hd1 : 1 ≤ d)
    (hd2 : d ≤ daysInMonth y m) :
    computeFields h s y 1 (dayOfYear y m d) hh mn ss ms us ns
      = computeFields h s y m d hh mn ss ms us ns := by
  have hle := dayOfYear_le y m d (by omega) hm2 hd2
  rw [dayOfYear_last] at hle
  have htab := dayOfYear_tables y m d (by omega) hm2
  rw [if_neg (by omega)] at htab
  obtain ⟨st1, st2⟩ := doys_step (lyearOf y) m hm1 hm2
  have hdim : daysInMonth y m
      = (if lyearOf y then tbl daym2 (m - 1) else tbl daym1 (m - 1)) := rfl
  have hcast : (((m - 1).toNat : Nat) : Int) = m - 1 := by omega
  have hfind := doyLoop_find (lyearOf y) 1 (dayOfYear y m d) (m - 1).toNat (by omega) (by omega)
    (by rw [hcast, htab, show m - 1 - 1 = m - 2 by ring]; omega)
    (by rw [hcast, htab, st1]; omega) 12 0 (by omega) (by omega)
  rw [hcast, show m - 1 - 1 = m - 2 by ring, show m - 1 + 1 = m by ring, htab,
    show tbl (doysOf (lyearOf y)) (m - 2) + d - tbl (doysOf (lyearOf y)) (m - 2) = d by ring]
    at hfind
  rw [← htab] at hfind
  have hn31 : dayOfYear y m d > 31 := by omega
  rw [computeFields_valid h s y m d hh mn ss ms us ns hy1 hy2 (by omega) hm2 hd1 hd2]
  generalize dayOfYear y m d = n at hle hfind hn31 ⊢
  unfold computeFields
  rw [if_neg (by omega), if_neg (by omega), YearWithin_true y hy1 hy2]
  simp only [Bool.not_true, Bool.false_and, Bool.false_eq_true, if_false]
  have c4 : ((!lyearOf y && decide (n > 365)) || (lyearOf y && decide (n > 366))) = false := by
    cases hl : lyearOf y
    · rw [hl] at hle
      have a : decide (n > 365) = false := decide_eq_false (by simpa using hle)
      rw [a]; simp
    · rw [hl] at hle
      have b : decide (n > 366) = false := decide_eq_false (by simpa using hle)
      rw [b]; simp
  rw [c4]
  simp only [show decide ((1 : Int) > 1) = false from rfl, Bool.and_false, Bool.false_and,
    Bool.or_self, Bool.false_eq_true, if_false]
  rw [if_pos (⟨le_refl 1, hn31⟩ : (1 : Int) ≤ 1 ∧ n > 31),
    if_neg (by decide : ¬ ((1 : Int) = 0)), hfind]
  simp only []
  by_cases hk : 10000000 * m + 10000 * d + y ≠ s.currentDay
  · rw [if_pos hk, if_pos hk]
  · rw [if_neg hk, if_neg hk]

/-- A day of the year beyond the last one makes the second half of `computeTT2000` return the
illegal value. -/
theorem computeFields_doy_beyond (h : Host) (s : TTState) (y n hh mn ss ms us ns : Int)
    (hy1 : 1708 ≤ y) (hy2 : y ≤ 2291) (hn : dayOfYear y 12 31 < n) :
    computeFields h s y 1 n hh mn ss ms us ns = (.illegal, s) := by
  rw [dayOfYear_last] at hn
  unfold computeFields
  rw [if_neg (by omega), if_neg (by omega), YearWithin_true y hy1 hy2]
  simp only [Bool.not_true, Bool.false_and, Bool.false_eq_true, if_false]
  have c4 : ((!lyearOf y && decide (n > 365)) || (lyearOf y && decide (n > 366))) = true := by
    cases hl : lyearOf y
    · rw [hl] at hn
      have a : decide (n > 365) = true := decide_eq_true (by simpa using hn)
      rw [a]; simp
    · rw [hl] at hn
      have b : decide (n > 366) = true := decide_eq_true (by simpa using hn)
      rw [b]; simp
  rw [c4]
  simp

/-- Every day number of a year is the day of the year of one calendar date, in terms of the
tables. -/
theorem dayOfYear_onto_tab (ly : Bool) (n : Int) (h1 : 1 ≤ n)
    (h2 : n ≤ if ly then 366 else 365) :
    ∃ m d : Int, 1 ≤ m ∧ m ≤ 12 ∧ 1 ≤ d ∧
      d ≤ (if ly then tbl daym2 (m - 1) else tbl daym1 (m - 1)) ∧
      (if m = 1 then 0 else tbl (doysOf ly) (m - 2)) + d = n := by
  cases ly
  · simp only [Bool.false_eq_true, if_false] at h2 ⊢
    by_cases h1 : n ≤ 31
    · refine ⟨1, n - 0, by decide, by decide, ?_, ?_, ?_⟩ <;>
      (try simp [tbl, doysOf, daym1, daym2, doys1, doys2]) <;> omega
    by_cases h2 : n ≤ 59
    · refine ⟨2, n - 31, by decide, by decide, ?_, ?_, ?_⟩ <;>
      (try simp [tbl, doysOf, daym1, daym2, doys1, doys2]) <;> omega
    by_cases h3 : n ≤ 90
    · refine ⟨3, n - 59, by decide, by decide, ?_, ?_, ?_⟩ <;>
      (try simp [tbl, doysOf, daym1, daym2, doys1, doys2]) <;> omega
    by_cases h4 : n ≤ 120
    · refine ⟨4, n - 90, by decide, by decide, ?_, ?_, ?_⟩ <;>
      (try simp [tbl, doysOf, daym1, daym2, doys1, doys2]) <;> omega
    by_cases h5 : n ≤ 151
    · refine ⟨5, n - 120, by decide, by decide, ?_, ?_, ?_⟩ <;>
      (try simp [tbl, doysOf, daym1, daym2, doys1, doys2]) <;> omega
    by_cases h6 : n ≤ 181
    · refine ⟨6, n - 151, by decide, by decide, ?_, ?_, ?_⟩ <;>
      (try simp [tbl, doysOf, daym1, daym2, doys1, doys2]) <;> omega
    by_cases h7 : n ≤ 212
    · refine ⟨7, n - 181, by decide, by decide, ?_, ?_, ?_⟩ <;>
      (try simp [tbl, doysOf, daym1, daym2, doys1, doys2]) <;> omega
    by_cases h8 : n ≤ 243
    · refine ⟨8, n - 212, by decide, by decide, ?_, ?_, ?_⟩ <;>
      (try simp [tbl, doysOf, daym1, daym2, doys1, doys2]) <;> omega
    by_cases h9 : n ≤ 273
    · refine ⟨9, n - 243, by decide, by decide, ?_, ?_, ?_⟩ <;>
      (try simp [tbl, doysOf, daym1, daym2, doys1, doys2]) <;> omega
    by_cases h10 : n ≤ 304
    · refine ⟨10, n - 273, by decide, by decide, ?_, ?_, ?_⟩ <;>
      (try simp [tbl, doysOf, daym1, daym2, doys1, doys2]) <;> omega
    by_cases h11 : n ≤ 334
    · refine ⟨11, n - 304, by decide, by decide, ?_, ?_, ?_⟩ <;>
      (try simp [tbl, doysOf, daym1, daym2, doys1, doys2]) <;> omega
    refine ⟨12, n - 334, by decide, by decide, ?_, ?_, ?_⟩ <;>
      (try simp [tbl, doysOf, daym1, daym2, doys1, doys2]) <;> omega
  · simp only [if_true] at h2 ⊢
    by_cases h1 : n ≤ 31
    · refine ⟨1, n - 0, by decide, by decide, ?_, ?_, ?_⟩ <;>
      (try simp [tbl, doysOf, daym1, daym2, doys1, doys2]) <;> omega
    by_cases h2 : n ≤ 60
    · refine ⟨2, n - 31, by decide, by decide, ?_, ?_, ?_⟩ <;>
      (try simp [tbl, doysOf, daym1, daym2, doys1, doys2]) <;> omega
    by_cases h3 : n ≤ 91
    · refine ⟨3, n - 60, by decide, by decide, ?_, ?_, ?_⟩ <;>
      (try simp [tbl, doysOf, daym1, daym2, doys1, doys2]) <;> omega
    by_cases h4 : n ≤ 121
    · refine ⟨4, n - 91, by decide, by decide, ?_, ?_, ?_⟩ <;>
      (try simp [tbl, doysOf, daym1, daym2, doys1, doys2]) <;> omega
    by_cases h5 : n ≤ 152
    · refine ⟨5, n - 121, by decide, by decide, ?_, ?_, ?_⟩ <;>
      (try simp [tbl, doysOf, daym1, daym2, doys1, doys2]) <;> omega
    by_cases h6 : n ≤ 182
    · refine ⟨6, n - 152, by decide, by decide, ?_, ?_, ?_⟩ <;>
      (try simp [tbl, doysOf, daym1, daym2, doys1, doys2]) <;> omega
    by_cases h7 : n ≤ 213
    · refine ⟨7, n - 182, by decide, by decide, ?_, ?_, ?_⟩ <;>
      (try simp [tbl, doysOf, daym1, daym2, doys1, doys2]) <;> omega
    by_cases h8 : n ≤ 244
    · refine ⟨8, n - 213, by decide, by decide, ?_, ?_, ?_⟩ <;>
      (try simp [tbl, doysOf, daym1, daym2, doys1, doys2]) <;> omega
    by_cases h9 : n ≤ 274
    · refine ⟨9, n - 244, by decide, by decide, ?_, ?_, ?_⟩ <;>
      (try simp [tbl, doysOf, daym1, daym2, doys1, doys2]) <;> omega
    by_cases h10 : n ≤ 305
    · refine ⟨10, n - 274, by decide, by decide, ?_, ?_, ?_⟩ <;>
      (try simp [tbl, doysOf, daym1, daym2, doys1, doys2]) <;> omega
    by_cases h11 : n ≤ 335
    · refine ⟨11, n - 305, by decide, by decide, ?_, ?_, ?_⟩ <;>
      (try simp [tbl, doysOf, daym1, daym2, doys1, doys2]) <;> omega
    refine ⟨12, n - 335, by decide, by decide, ?_, ?_, ?_⟩ <;>
      (try simp [tbl, doysOf, daym1, daym2, doys1, doys2]) <;> omega

/-- Every day number 1 .. 365 (366 in a leap year) is the day of the year of a calendar
date. -/
theorem dayOfYear_onto (y n : Int) (h1 : 1 ≤ n) (h2 : n ≤ dayOfYear y 12 31) :
    ∃ m d : Int, 1 ≤ m ∧ m ≤ 12 ∧ 1 ≤ d ∧ d ≤ daysInMonth y m ∧ dayOfYear y m d = n := by
  rw [dayOfYear_last] at h2
  obtain ⟨m, d, a1, a2, a3, a4, a5⟩ := dayOfYear_onto_tab (lyearOf y) n h1 h2
  exact ⟨m, d, a1, a2, a3, a4, by rw [dayOfYear_tables y m d a1 a2]; exact a5⟩

/-- The leap-year test of `computeTT2000` is the Gregorian rule. -/
theorem lyearOf_gregorian (y : Int) (hy : 0 ≤ y) :
    lyearOf y = true ↔ (y % 4 = 0 ∧ (y % 100 ≠ 0 ∨ y % 400 = 0)) := by
  unfold lyearOf
  rw [Int.tmod_eq_emod hy (by decide)]
  simp only [Bool.and_eq_true, Bool.or_eq_true, decide_eq_true_eq]
  omega

/-- Claim C22.  Day-of-year shorthand: in every year 1708 .. 2291 and for every time of day
within its ranges, `computeTT2000 (y, 0, n, ...)` with `n` the day of the year of a calendar
date `(m, d)` returns what `computeTT2000 (y, m, d, ...)` returns (value and module state);
every `n` from 1 to the length of the year is the day of the year of one calendar date; the
year has 366 days when it is a Gregorian leap year and 365 otherwise; and a day `n` beyond
the length of the year (any `double` holding an integer) gives `ILLEGAL_TT2000_VALUE`. -/
theorem C22_day_of_year_shorthand (c : Sentinels) (h : Host) (s : TTState)
    (y hh mn ss ms us ns : Int) (hy : 1708 ≤ y ∧ y ≤ 2291)
    (h1 : 0 ≤ hh ∧ hh < 24) (h2 : 0 ≤ mn ∧ mn < 60) (h3 : 0 ≤ ss ∧ ss < 60)
    (h4 : 0 ≤ ms ∧ ms < 1000) (h5 : 0 ≤ us ∧ us < 1000) (h6 : 0 ≤ ns ∧ ns < 1000) :
    (∀ m d : Int, 1 ≤ m → m ≤ 12 → 1 ≤ d → d ≤ daysInMonth y m →
      computeTT2000I c h s y 0 (dayOfYear y m d) hh mn ss ms us ns
        = computeTT2000I c h s y m d hh mn ss ms us ns) ∧
    (∀ n : Int, 1 ≤ n → n ≤ dayOfYear y 12 31 →
      ∃ m d : Int, 1 ≤ m ∧ m ≤ 12 ∧ 1 ≤ d ∧ d ≤ daysInMonth y m ∧ dayOfYear y m d = n) ∧
    dayOfYear y 12 31 = (if y % 4 = 0 ∧ (y % 100 ≠ 0 ∨ y % 400 = 0) then 366 else 365) ∧
    (∀ (n : Int) (dd : Dbl), dd.raw = n * SC → dayOfYear y 12 31 < n →
      computeTT2000 c h s (Dbl.ofInt y) (Dbl.ofInt 0) dd (Dbl.ofInt hh) (Dbl.ofInt mn)
        (Dbl.ofInt ss) (Dbl.ofInt ms) (Dbl.ofInt us) (Dbl.ofInt ns)
        = (c.ILLEGAL_TT2000_VALUE, s)) := by
  have by53 : y.natAbs ≤ 2 ^ 53 := natAbs_small _ (by omega) (by omega)
  have o53 : (1 : Int).natAbs ≤ 2 ^ 53 := by decide
  refine ⟨?_, fun n a b => dayOfYear_onto y n a b, ?_, ?_⟩
  · intro m d hm1 hm2 hd1 hd2
    have hd31 : d ≤ 31 := le_trans hd2 (daysInMonth_le y m hm1 hm2)
    have hle := dayOfYear_le y m d hm1 hm2 hd2
    have hlast := dayOfYear_last y
    have hn366 : dayOfYear y m d ≤ 366 := by
      rw [hlast] at hle
      split_ifs at hle <;> omega
    have htab := dayOfYear_tables y m d hm1 hm2
    have hn1 : 1 ≤ dayOfYear y m d := by
      rw [htab]
      by_cases hm : m = 1
      · rw [if_pos hm]; omega
      · rw [if_neg hm]
        have := (doys_step (lyearOf y) m (by omega) hm2).2
        omega
    unfold computeTT2000I computeTT2000
    rw [computeTT2000Sym_month_zero,
      computeTT2000Sym_ints h s y 1 (dayOfYear y m d) hh mn ss ms us ns by53 o53 (by decide)
        (natAbs_small _ (by omega) (by omega)) h1 h2 h3 h4 h5 h6,
      computeTT2000Sym_ints h s y m d hh mn ss ms us ns by53
        (natAbs_small _ (by omega) (by omega)) (by omega)
        (natAbs_small _ (by omega) (by omega)) h1 h2 h3 h4 h5 h6]
    by_cases hm : m = 1
    · subst hm
      rw [htab, if_pos rfl, zero_add]
    · rw [computeFields_doy h s y m d hh mn ss ms us ns hy.1 hy.2 (by omega) hm2 hd1 hd2]
  · rw [dayOfYear_last]
    by_cases hg : y % 4 = 0 ∧ (y % 100 ≠ 0 ∨ y % 400 = 0)
    · rw [if_pos hg, if_pos ((lyearOf_gregorian y (by omega)).2 hg)]
    · rw [if_neg hg, if_neg (fun hl => hg ((lyearOf_gregorian y (by omega)).1 hl))]
  · intro n dd hdd hn
    unfold computeTT2000
    rw [computeTT2000Sym_month_zero,
      computeTT2000Sym_day h s y 1 n hh mn ss ms us ns dd hdd by53 o53 (by decide)
        h1 h2 h3 h4 h5 h6,
      computeFields_doy_beyond h s y n hh mn ss ms us ns hy.1 hy.2 hn]
    rfl

theorem C22_day_of_year_shorthand_witness :
    computeTT2000I cdfSentinels Host.plain builtinState 2016 0 (dayOfYear 2016 2 29) 1 2 3 4 5 6
      = computeTT2000I cdfSentinels Host.plain builtinState 2016 2 29 1 2 3 4 5 6 ∧
    dayOfYear 2016 2 29 = 60 :=
  ⟨(C22_day_of_year_shorthand cdfSentinels Host.plain builtinState 2016 1 2 3 4 5 6 (by decide)
      (by decide) (by decide) (by decide) (by decide) (by decide) (by decide)).1 2 29
      (by decide) (by decide) (by decide) (by decide),
   by decide⟩

/-- The leap years repeat every 400 years. -/
theorem lyearOf_shift (y k : Int) (hy : 0 ≤ y) (hk : 0 ≤ y - 400 * k) :
    lyearOf (y - 400 * k) = lyearOf y := by
  rw [Bool.eq_iff_iff, lyearOf_gregorian _ hk, lyearOf_gregorian _ hy]
  omega

/-- Decoding the day number of a calendar date of the years 0 .. 9999 gives the date back. -/
theorem dateFromL_epoch (y m d : Int) (hy1 : 0 ≤ y) (hy2 : y ≤ 9999) (hm1 : 1 ≤ m)
    (hm2 : m ≤ 12) (hd1 : 1 ≤ d) (hd2 : d ≤ daysInMonth y m) :
    dateFromL (JulianDay12hL y m d + 68569) = (y, m, d) ∧
    1721060 ≤ JulianDay12hL y m d ∧ JulianDay12hL y m d ≤ 5373484 := by
  obtain ⟨k, hk⟩ : ∃ k : Int, k = (y - (if m ≤ 2 then 1 else 0) - 1800) / 400 := ⟨_, rfl⟩
  have hd31 : d ≤ 31 := le_trans hd2 (daysInMonth_le y m hm1 hm2)
  have e := JulianDay12hL_march y m d hm1 hm2
  have e0 := JulianDay12hL_march (y - 400 * k) m d hm1 hm2
  have eY : y - 400 * k - (if m ≤ 2 then 1 else 0)
      = (y - (if m ≤ 2 then 1 else 0)) - 400 * k := by ring
  rw [eY] at e0
  have hY : -1 ≤ y - (if m ≤ 2 then 1 else 0) := by split_ifs <;> omega
  have hY2 : y - (if m ≤ 2 then 1 else 0) ≤ 9999 := by split_ifs <;> omega
  have hyk : 1800 ≤ y - 400 * k := by split_ifs at hk <;> omega
  have hyk2 : y - 400 * k ≤ 2200 := by split_ifs at hk <;> omega
  obtain ⟨o1, o2⟩ := marchOffset_bounds m hm1 hm2
  generalize y - (if m ≤ 2 then 1 else 0) = Y at *
  have hY0 : 1800 ≤ Y - 400 * k := by omega
  have hY02 : Y - 400 * k ≤ 2199 := by omega
  have m1 := marchStart_ediv Y hY
  have m0 := marchStart_ediv (Y - 400 * k) (by omega)
  have sh := marchStartE_shift (Y - 400 * k) k
  rw [show Y - 400 * k + 400 * k = Y by ring] at sh
  have hdim : daysInMonth (y - 400 * k) m = daysInMonth y m := by
    unfold daysInMonth
    rw [lyearOf_shift y k hy1 (by omega)]
  have hdec := dateFromL_JulianDay12hL (y - 400 * k) m d hm1 hm2 hd1 (by rw [hdim]; exact hd2)
    (by rw [eY]; omega) (by rw [eY]; omega)
  have hJ0 : 0 ≤ JulianDay12hL (y - 400 * k) m d + 68569 := by
    rw [e0, m0]; unfold marchStartE; omega
  have hst : marchStartE (-1) = 1789323 ∧ marchStartE 9999 = 5441748 := by decide
  have hlo : 1721060 ≤ JulianDay12hL y m d := by
    have : 1789629 ≤ marchStartE Y + (marchOffset m + d - 1) := by
      rcases eq_or_lt_of_le hY with h | h
      · rw [← h, hst.1]
        have : m ≤ 2 := by
          by_contra hc
          rw [if_neg hc] at eY
          omega
        have := o1 this
        omega
      · unfold marchStartE; omega
    omega
  have hhi : JulianDay12hL y m d ≤ 5373484 := by
    have : marchStartE Y + (marchOffset m + d - 1) ≤ 5442053 := by
      rcases eq_or_lt_of_le hY2 with h | h
      · rw [h, hst.2]
        have : ¬ m ≤ 2 := by
          intro hc
          rw [if_pos hc] at eY
          omega
        have := o2 (by omega)
        omega
      · unfold marchStartE; omega
    omega
  refine ⟨?_, hlo, hhi⟩
  have es : JulianDay12hL y m d + 68569
      = (JulianDay12hL (y - 400 * k) m d + 68569) + 146097 * k := by omega
  rw [es, dateFromL_shift _ _ hJ0 (by omega),
    show JulianDay12hL (y - 400 * k) m d + 68569 = 68569 + JulianDay12hL (y - 400 * k) m d
      by ring, hdec]
  simp only [Prod.mk.injEq, and_true]
  ring

/-- Claim C29.  EPOCH compute/breakdown round trip: for every calendar date of the years
0 .. 9999 (month 1 .. 12, day 1 .. length of the month, February having 29 days in a
Gregorian leap year) and time of day (hour 0 .. 23, minute and second 0 .. 59, millisecond
0 .. 999) other than the fill literal 9999-12-31T23:59:59.999, `computeEPOCH` returns the
whole number of milliseconds since 0000-01-01T00:00:00.000 and `EPOCHbreakdown` of it writes
back exactly the seven fields; `computeEPOCH (0,1,1,0,0,0,0)` is 0.  (`ILLEGAL_EPOCH_VALUE`
is negative and `MAX_EPOCH_BINARY` is at least 9999-12-31T23:59:59.998.) -/
theorem C29_epoch_compute_breakdown (k : EpochConsts) (y m d hh mn ss ms : Int)
    (hill : k.ILLEGAL_EPOCH_VALUE.raw < 0)
    (hmax : (Dbl.ofInt 315569519999998).raw ≤ k.MAX_EPOCH_BINARY.raw)
    (hy : 0 ≤ y ∧ y ≤ 9999) (hm : 1 ≤ m ∧ m ≤ 12) (hd : 1 ≤ d ∧ d ≤ daysInMonth y m)
    (h1 : 0 ≤ hh ∧ hh ≤ 23) (h2 : 0 ≤ mn ∧ mn ≤ 59) (h3 : 0 ≤ ss ∧ ss ≤ 59)
    (h4 : 0 ≤ ms ∧ ms ≤ 999)
    (hlit : ¬ (y = 9999 ∧ m = 12 ∧ d = 31 ∧ hh = 23 ∧ mn = 59 ∧ ss = 59 ∧ ms = 999)) :
    computeEPOCH k y m d hh mn ss ms
      = Dbl.ofInt (86400000 * (JulianDay y m d - 1721060)
          + (3600000 * hh + 60000 * mn + 1000 * ss + ms)) ∧
    EPOCHbreakdown k (computeEPOCH k y m d hh mn ss ms) = (y, m, d, hh, mn, ss, ms) ∧
    computeEPOCH k 0 1 1 0 0 0 0 = Dbl.ofInt 0 ∧
    daysInMonth y 2 = (if y % 4 = 0 ∧ (y % 100 ≠ 0 ∨ y % 400 = 0) then 29 else 28) := by
  have hd31 : d ≤ 31 := le_trans hd.2 (daysInMonth_le y m hm.1 hm.2)
  obtain ⟨hdec, jlo, jhi⟩ := dateFromL_epoch y m d hy.1 hy.2 hm.1 hm.2 hd.1 hd.2
  have hje := JulianDay_eq y m d (by omega) ⟨by omega, by omega⟩ ⟨by omega, by omega⟩
    ⟨by omega, by omega⟩
  obtain ⟨e, he⟩ : ∃ e : Int, e = 86400000 * (JulianDay12hL y m d - 1721060)
      + (3600000 * hh + 60000 * mn + 1000 * ss + ms) := ⟨_, rfl⟩
  have e0 : 0 ≤ e := by omega
  have hlast : dateFromL (5373484 + 68569) = (9999, 12, 31) := by decide
  have e1 : e ≤ 315569519999998 := by
    by_contra hc
    have hJ : JulianDay12hL y m d = 5373484 := by omega
    rw [hJ, hlast] at hdec
    simp only [Prod.mk.injEq] at hdec
    exact hlit ⟨hdec.1.symm, hdec.2.1.symm, hdec.2.2.symm, by omega, by omega, by omega,
      by omega⟩
  have q1 : e / 86400000 = JulianDay12hL y m d - 1721060 := by omega
  have q2 : e / 3600000 % 24 = hh := by omega
  have q3 : e / 60000 % 60 = mn := by omega
  have q4 : e / 1000 % 60 = ss := by omega
  have q5 : e % 1000 = ms := by omega
  have hc := computeEPOCH_fields k e y m d e0 e1 hy hm ⟨hd.1, hd31⟩ (by omega)
  rw [q2, q3, q4, q5] at hc
  have hb := EPOCHbreakdown_ofInt k e e0 e1 hill hmax
  rw [q1, q2, q3, q4, q5, show 1721060 + (JulianDay12hL y m d - 1721060) + 68569
    = JulianDay12hL y m d + 68569 by ring, hdec] at hb
  refine ⟨?_, ?_, ?_, daysInMonth_february y hy.1⟩
  · rw [hc, hje, he]
  · rw [hc, hb]
  · exact computeEPOCH_fields k 0 0 1 1 (le_refl 0) (by decide) (by decide) (by decide)
      (by decide) (by decide)

theorem C29_epoch_compute_breakdown_witness :
    cdfEpochConsts.ILLEGAL_EPOCH_VALUE.raw < 0 ∧
    (Dbl.ofInt 315569519999998).raw ≤ cdfEpochConsts.MAX_EPOCH_BINARY.raw ∧
    (2000 : Int) ≤ 9999 ∧ (29 : Int) ≤ daysInMonth 2000 2 ∧
    EPOCHbreakdown cdfEpochConsts (computeEPOCH cdfEpochConsts 2000 2 29 23 59 59 999)
      = (2000, 2, 29, 23, 59, 59, 999) :=
  ⟨cdfEpochConsts_ok.1, cdfEpochConsts_ok.2.1, by decide, by decide,
   (C29_epoch_compute_breakdown cdfEpochConsts 2000 2 29 23 59 59 999 cdfEpochConsts_ok.1
      cdfEpochConsts_ok.2.1 (by decide) (by decide) (by decide) (by decide) (by decide)
      (by decide) (by decide) (by decide)).2.1⟩

set_option maxRecDepth 100000 in
theorem rowDatesOK_true : rowDatesOK = true := by decide!

theorem rowDate_row (i : Nat) (h1 : 14 ≤ i) (h2 : i < 42) :
    rowDate (ltsRowAt i) = 10000 * ltsYear i + 100 * ltsMonth i + 1 := by
  have h := rowDatesOK_true
  unfold rowDatesOK at h
  rw [List.all_eq_true] at h
  have := h (i - 14) (List.mem_range.mpr (by omega))
  rw [show i - 14 + 14 = i by omega] at this
  exact of_decide_eq_true this

theorem lastUpdatedIndex_found (s : TTState) (v : Int) (i : Nat)
    (hge : rowDate (s.row i) ≤ v) :
    ∀ n : Nat, i < n → (∀ j, i < j → j < n → v < rowDate (s.row j)) →
      lastUpdatedIndex s v n = (i : Int) := by
  intro n
  induction n with
  | zero => intro h; omega
  | succ n ih =>
    intro hin hlt
    unfold lastUpdatedIndex
    rcases Nat.lt_succ_iff_lt_or_eq.mp hin with h | h
    · have := hlt n h (by omega)
      rw [if_neg (by omega)]
      exact ih h (fun j h1 h2 => hlt j h1 (by omega))
    · subst h
      rw [if_pos hge]

/-- Rows the date lies before are passed over by the search of `LeapSecondsfromYMD`. -/
theorem ymdIndex_skip (s : TTState) (m : Int) (k : Nat) :
    ∀ n : Nat, k ≤ n →
      (∀ j, k ≤ j → j < n →
        m < Dbl.toInt (Dbl.add (Dbl.mul (Dbl.ofInt 12) (s.row j).c0) (s.row j).c1)) →
      ymdIndex s m n = ymdIndex s m k := by
  intro n
  induction n with
  | zero => intro h _; have : k = 0 := by omega
            subst this; rfl
  | succ n ih =>
    intro hkn hlt
    rcases Nat.lt_succ_iff_lt_or_eq.mp (Nat.lt_succ_of_le hkn) with h | h
    · have := hlt n (by omega) (by omega)
      rw [ymdIndex, if_neg (by omega)]
      exact ih (by omega) (fun j h1 h2 => hlt j h1 (by omega))
    · rw [h]

/-- The search of `LeapSecondsfromYMD` reads the rows below its start only. -/
theorem ymdIndex_rows (s s2 : TTState) (m : Int) :
    ∀ n : Nat, (∀ i, i < n → s.row i = s2.row i) → ymdIndex s m n = ymdIndex s2 m n := by
  intro n
  induction n with
  | zero => intro _; rfl
  | succ n ih =>
    intro hr
    unfold ymdIndex
    simp only []
    rw [hr n (by omega), ih (fun i hi => hr i (by omega))]

theorem take_getD (l : List Row) (n i : Nat) (d : Row) (h : i < n) :
    (l.take n).getD i d = l.getD i d := by
  rw [List.getD_eq_getElem?_getD, List.getD_eq_getElem?_getD, List.getElem?_take_of_lt h]

/-- The rows of the table cut after row `k` are the first rows of the built-in table. -/
theorem row_of_take (st : TTState) (k : Nat) (hL : st.LTD = .live (LTS.take (k + 1))) (i : Nat)
    (hi : i ≤ k) : st.row i = ltsRowAt i := by
  unfold TTState.row ltsRowAt
  rw [hL]
  exact take_getD LTS (k + 1) i _ (by omega)

/-- Two states whose searches find the same row, the row being the same in both, give the
same leap seconds. -/
theorem LeapSecondsfromYMD_rows (h h2 : Host) (s s2 : TTState) (hn : s.LTD.isNull = false)
    (hn2 : s2.LTD.isNull = false) (y m d : Int)
    (hidx : ymdIndex s (12 * y + m) s.entryCnt.toNat
      = ymdIndex s2 (12 * y + m) s2.entryCnt.toNat)
    (hrow : s.row (ymdIndex s2 (12 * y + m) s2.entryCnt.toNat).toNat
      = s2.row (ymdIndex s2 (12 * y + m) s2.entryCnt.toNat).toNat) :
    (LeapSecondsfromYMD h s y m d).1 = (LeapSecondsfromYMD h2 s2 y m d).1 := by
  unfold LeapSecondsfromYMD
  simp only [hn, hn2, Bool.false_eq_true, if_false]
  rw [hidx]
  by_cases hj : ymdIndex s2 (12 * y + m) s2.entryCnt.toNat = -1
  · rw [if_pos hj, if_pos hj]
  · rw [if_neg hj, if_neg hj, hrow]
    by_cases hera : ymdIndex s2 (12 * y + m) s2.entryCnt.toNat < NERA1
    · rw [if_pos hera, if_pos hera]
    · rw [if_neg hera, if_neg hera]

/-- On a date before the row after `k` takes effect, the table cut after row `k` gives the
leap seconds of the built-in table. -/
theorem LeapSecondsfromYMD_take_before (h : Host) (st : TTState) (k : Nat) (hk1 : 14 ≤ k)
    (hk2 : k < 42) (hL : st.LTD = .live (LTS.take (k + 1))) (hE : st.entryCnt = (k : Int) + 1)
    (y m d : Int) (hlt : k + 1 < 42 → 12 * y + m < ltsKey (k + 1)) :
    (LeapSecondsfromYMD h st y m d).1 = leapOfDate y m d := by
  have hn : st.LTD.isNull = false := by rw [hL]; rfl
  have hnb : builtinState.LTD.isNull = false := rfl
  have hcnt : st.entryCnt.toNat = k + 1 := by rw [hE]; omega
  have hcb : builtinState.entryCnt.toNat = 42 := rfl
  have hrb : ∀ i, builtinState.row i = ltsRowAt i := fun i => row_of_LTD builtinState rfl i
  have h1 : ymdIndex st (12 * y + m) (k + 1) = ymdIndex builtinState (12 * y + m) (k + 1) :=
    ymdIndex_rows st builtinState _ (k + 1)
      (fun i hi => by rw [row_of_take st k hL i (by omega), hrb])
  have h2 : ymdIndex builtinState (12 * y + m) 42 = ymdIndex builtinState (12 * y + m) (k + 1) :=
    ymdIndex_skip builtinState _ (k + 1) 42 (by omega) (fun j hj1 hj2 => by
      rw [hrb]
      show 12 * y + m < ltsKey j
      have hh := hlt (by omega)
      rcases Nat.lt_or_ge (k + 1) j with h3 | h3
      · exact lt_trans hh (ltsKey_mono (k + 1) j (by omega) h3 hj2)
      · have : j = k + 1 := by omega
        rw [this]; exact hh)
  unfold leapOfDate
  apply LeapSecondsfromYMD_rows h Host.plain st builtinState hn hnb y m d
  · rw [hcnt, hcb, h2, h1]
  · rw [hcb, h2]
    rcases ymdIndex_range builtinState (12 * y + m) (k + 1) with hr | hr
    · rw [hr]
      show st.row 0 = builtinState.row 0
      rw [row_of_take st k hL 0 (by omega), hrb]
    · rw [row_of_take st k hL _ (by omega), hrb]

/-- On a date in or after the month of row `k`, the table cut after row `k` gives the leap
seconds of row `k`. -/
theorem LeapSecondsfromYMD_take_after (h : Host) (st : TTState) (k : Nat) (hk1 : 14 ≤ k)
    (hk2 : k < 42) (hL : st.LTD = .live (LTS.take (k + 1))) (hE : st.entryCnt = (k : Int) + 1)
    (y m d : Int) (hge : ltsKey k ≤ 12 * y + m) :
    LeapSecondsfromYMD h st y m d = (Dbl.ofInt ((k : Int) - 4), st) := by
  unfold LeapSecondsfromYMD
  have hnull : st.LTD.isNull = false := by rw [hL]; rfl
  simp only [hnull, Bool.false_eq_true, if_false]
  have hcnt : st.entryCnt.toNat = k + 1 := by rw [hE]; omega
  have hidx : ymdIndex st (12 * y + m) (k + 1) = (k : Int) := by
    apply ymdIndex_found st _ k (by rw [row_of_take st k hL k (le_refl k)]; exact hge) (k + 1)
      (by omega)
    intro j hj1 hj2
    omega
  rw [hcnt, hidx]
  have hne : ¬ ((k : Int) = -1) := by omega
  have h14 : ¬ ((k : Int) < NERA1) := by unfold NERA1; omega
  simp only [hne, if_false, h14, Int.toNat_ofNat]
  rw [row_of_take st k hL k (le_refl k), (leapRow_facts k hk1 hk2).1]

/-- The day count since J2000 is exact in `double` arithmetic. -/
theorem jd_exact (y m d : Int) (lo : 2344793 ≤ JulianDay12hL y m d)
    (hi : JulianDay12hL y m d ≤ 2558297) :
    Dbl.toInt (Dbl.sub (JulianDay12h y m d) (Dbl.ofInt JulianDateJ2000_12h))
      = JulianDay12hL y m d - 2451545 := by
  have hn := window_natAbs _ lo (by omega)
  unfold JulianDay12h JulianDateJ2000_12h
  rw [Dbl.sub_ofInt _ _ hn (by decide) (natAbs_small _ (by omega) (by omega)),
    Dbl.toInt_ofInt _ (natAbs_small _ (by omega) (by omega))]

/-- `computeTT2000` on a date of the years 1708 .. 2291 with the built-in table in place: the
exact value, and the state with the date cached. -/
theorem computeTT2000I_builtin (c : Sentinels) (h : Host) (s : TTState)
    (hL : s.LTD = .live LTS) (hE : s.entryCnt = NDAT) (hc : CacheOK s)
    (y m d hh mn ss ms us ns : Int)
    (hy1 : 1708 ≤ y) (hy2 : y ≤ 2291) (hm1 : 1 ≤ m) (hm2 : m ≤ 12) (hd1 : 1 ≤ d)
    (hd2 : d ≤ daysInMonth y m)
    (h1 : 0 ≤ hh ∧ hh < 24) (h2 : 0 ≤ mn ∧ mn < 60) (h3 : 0 ≤ ss ∧ ss < 60)
    (h4 : 0 ≤ ms ∧ ms < 1000) (h5 : 0 ≤ us ∧ us < 1000) (h6 : 0 ≤ ns ∧ ns < 1000) :
    computeTT2000I c h s y m d hh mn ss ms us ns
      = ((JulianDay12hL y m d - 2451545) * DAYinNanoSecs
          + (hh * HOURinNanoSecs + mn * MINUTEinNanoSecs + ss * SECinNanoSecs + ms * 1000000
              + us * 1000 + ns)
          + Dbl.toInt (Dbl.mul (leapOfDate y m d) (Dbl.ofInt SECinNanoSecs))
          + dTinNanoSecs - T12hinNanoSecs,
         { s with currentDay := 10000000 * m + 10000 * d + y,
                  currentLeapSeconds := leapOfDate y m d,
                  currentJDay := JulianDay12h y m d }) := by
  have hd31 : d ≤ 31 := le_trans hd2 (daysInMonth_le y m hm1 hm2)
  unfold computeTT2000I computeTT2000
  rw [computeTT2000Sym_ints h s y m d hh mn ss ms us ns (natAbs_small _ (by omega) (by omega))
    (natAbs_small _ (by omega) (by omega)) (by omega) (natAbs_small _ (by omega) (by omega))
    h1 h2 h3 h4 h5 h6,
    (computeFields_builtin h s hL hE hc y m d hh mn ss ms us ns hy1 hy2 hm1 hm2 hd1 hd2 h1 h2
      ⟨h3.1, by omega⟩ h4 h5 h6).1]
  rfl

/-- `computeTT2000` on a date of the years 1708 .. 2291 with any table and an empty day
cache: the value in terms of the leap seconds the table gives. -/
theorem computeTT2000I_fresh (c : Sentinels) (h : Host) (st : TTState)
    (hcd : st.currentDay = -1) (y m d hh mn ss ms us ns : Int)
    (hy1 : 1708 ≤ y) (hy2 : y ≤ 2291) (hm1 : 1 ≤ m) (hm2 : m ≤ 12) (hd1 : 1 ≤ d)
    (hd2 : d ≤ daysInMonth y m)
    (h1 : 0 ≤ hh ∧ hh < 24) (h2 : 0 ≤ mn ∧ mn < 60) (h3 : 0 ≤ ss ∧ ss < 60)
    (h4 : 0 ≤ ms ∧ ms < 1000) (h5 : 0 ≤ us ∧ us < 1000) (h6 : 0 ≤ ns ∧ ns < 1000) :
    (computeTT2000I c h st y m d hh mn ss ms us ns).1
      = wrap64 ((JulianDay12hL y m d - 2451545) * DAYinNanoSecs
          + (hh * HOURinNanoSecs + mn * MINUTEinNanoSecs + ss * SECinNanoSecs + ms * 1000000
              + us * 1000 + ns)
          + Dbl.toInt (Dbl.mul
              (LeapSecondsfromYMD h { st with currentDay := 10000000 * m + 10000 * d + y }
                y m d).1 (Dbl.ofInt SECinNanoSecs))
          + dTinNanoSecs - T12hinNanoSecs) := by
  have hd31 : d ≤ 31 := le_trans hd2 (daysInMonth_le y m hm1 hm2)
  obtain ⟨j1, j2⟩ := JulianDay12hL_years y m d hy1 hy2 hm1 hm2 hd1 hd31
  unfold computeTT2000I computeTT2000
  rw [computeTT2000Sym_ints h st y m d hh mn ss ms us ns (natAbs_small _ (by omega) (by omega))
    (natAbs_small _ (by omega) (by omega)) (by omega) (natAbs_small _ (by omega) (by omega))
    h1 h2 h3 h4 h5 h6,
    computeFields_valid h st y m d hh mn ss ms us ns hy1 hy2 hm1 hm2 hd1 hd2,
    if_pos (by rw [hcd]; omega), jd_exact y m d (by omega) (by omega), coreArith_wrap]
  rfl

theorem wrap64_sub_wrap (a b : Int) : wrap64 (a - wrap64 b) = wrap64 (a - b) := by
  unfold wrap64
  omega

/-- The date and the month key of a row from 1972 on. -/
theorem row_keys (i : Nat) (h1 : 14 ≤ i) (h2 : i < 42) :
    rowDate (ltsRowAt i) = 10000 * ltsYear i + 100 * ltsMonth i + 1 ∧
    ltsKey i = 12 * ltsYear i + ltsMonth i ∧ 1 ≤ ltsMonth i ∧ ltsMonth i ≤ 12 ∧
    1972 ≤ ltsYear i ∧ ltsYear i ≤ 2017 := by
  obtain ⟨-, -, -, -, a5, a6, a7, a8, a9, -⟩ := leapRow_facts i h1 h2
  exact ⟨rowDate_row i h1 h2, a5, a6, a7, a8, a9⟩

/-- `LeapSecondLastUpdatedinTable` with the built-in table in place, for a day in the
validity of row `i`: the index is `i`, the state is left as it is. -/
theorem LeapSecondLastUpdatedinTable_row (h : Host) (s : TTState) (hL : s.LTD = .live LTS)
    (hE : s.entryCnt = NDAT) (v : Int) (i : Nat) (h2 : i < 42)
    (hge : rowDate (ltsRowAt i) ≤ v) (hlt : ∀ j, i < j → j < 42 → v < rowDate (ltsRowAt j)) :
    LeapSecondLastUpdatedinTable h s v = ((i : Int), s) := by
  unfold LeapSecondLastUpdatedinTable
  have hnull : s.LTD.isNull = false := by rw [hL]; rfl
  simp only [hnull, Bool.false_eq_true, if_false]
  have hcnt : s.entryCnt.toNat = 42 := by rw [hE]; decide
  rw [hcnt, lastUpdatedIndex_found s v i (by rw [row_of_LTD s hL]; exact hge) 42 h2
    (fun j hj1 hj2 => by rw [row_of_LTD s hL]; exact hlt j hj1 hj2)]

/-- The as-of-table compute on a date after the as-of day, the day being the date of row `k`
and the date lying in the validity of row `i`: `i - k` seconds are taken off. -/
theorem withBased_after (c : Sentinels) (h : Host) (s : TTState)
    (hL : s.LTD = .live LTS) (hE : s.entryCnt = NDAT) (hc : CacheOK s)
    (k i : Nat) (hk1 : 14 ≤ k) (hki : k ≤ i) (hi : i < 42)
    (y m d hh mn ss ms us ns : Int)
    (hy1 : 1708 ≤ y) (hy2 : y ≤ 2291) (hm1 : 1 ≤ m) (hm2 : m ≤ 12) (hd1 : 1 ≤ d)
    (hd2 : d ≤ daysInMonth y m)
    (h1 : 0 ≤ hh ∧ hh < 24) (h2 : 0 ≤ mn ∧ mn < 60) (h3 : 0 ≤ ss ∧ ss < 60)
    (h4 : 0 ≤ ms ∧ ms < 1000) (h5 : 0 ≤ us ∧ us < 1000) (h6 : 0 ≤ ns ∧ ns < 1000)
    (hge : ltsKey i ≤ 12 * y + m) (hlt : i + 1 < 42 → 12 * y + m < ltsKey (i + 1))
    (hafter : rowDate (ltsRowAt k) < 10000 * y + 100 * m + d) :
    (computeTT2000withBasedLeapDay c h s y m d hh mn ss ms us ns (rowDate (ltsRowAt k))).1
      = (computeTT2000I c h s y m d hh mn ss ms us ns).1 - ((i : Int) - k) * 1000000000 := by
  have hd31 : d ≤ 31 := le_trans hd2 (daysInMonth_le y m hm1 hm2)
  obtain ⟨kA, kK, kM1, kM2, kY1, kY2⟩ := row_keys k hk1 (by omega)
  obtain ⟨iA, iK, iM1, iM2, iY1, iY2⟩ := row_keys i (by omega) hi
  have e := computeTT2000I_builtin c h s hL hE hc y m d hh mn ss ms us ns hy1 hy2 hm1 hm2 hd1
    hd2 h1 h2 h3 h4 h5 h6
  obtain ⟨-, lo, hi64⟩ := computeFields_builtin h s hL hE hc y m d hh mn ss ms us ns hy1 hy2
    hm1 hm2 hd1 hd2 h1 h2 ⟨h3.1, by omega⟩ h4 h5 h6
  obtain ⟨j1, j2⟩ := JulianDay12hL_years y m d hy1 hy2 hm1 hm2 hd1 hd31
  have hleap := leapOfDate_row y m d i (by omega) hi hge hlt
  have hi4 : ((i : Int) - 4).natAbs ≤ 2 ^ 53 := natAbs_le_pow53 _ (by omega) (by omega)
  have hp : (((i : Int) - 4) * 1000000000).natAbs ≤ 2 ^ 53 :=
    natAbs_le_pow53 _ (by omega) (by omega)
  have ht2 : Dbl.toInt (Dbl.mul (leapOfDate y m d) (Dbl.ofInt SECinNanoSecs))
      = ((i : Int) - 4) * 1000000000 := by
    rw [hleap]
    unfold SECinNanoSecs
    rw [Dbl.mul_ofInt _ _ hi4 (by decide) hp, Dbl.toInt_ofInt _ hp]
  rw [ht2] at e lo hi64
  generalize hs1 : ({ s with currentDay := 10000000 * m + 10000 * d + y,
                             currentLeapSeconds := leapOfDate y m d,
                             currentJDay := JulianDay12h y m d } : TTState) = s1 at e
  have hL1 : s1.LTD = .live LTS := by rw [← hs1]; exact hL
  have hE1 : s1.entryCnt = NDAT := by rw [← hs1]; exact hE
  have hkey : wrap64 (y * 10000 + m * 100 + d) = 10000 * y + 100 * m + d := by
    rw [wrap64_id _ (by unfold INT64_MIN; omega) (by unfold INT64_MAX; omega)]; ring
  have htime : wrap64 (hh * 10000 + mn * 100 + ss) = hh * 10000 + mn * 100 + ss :=
    wrap64_id _ (by unfold INT64_MIN; omega) (by unfold INT64_MAX; omega)
  have hw32 : wrap32 (y * 10000 + m * 100 + d) = 10000 * y + 100 * m + d := by
    unfold wrap32; omega
  have hmm : (if m = 0 then 1 else m) = m := if_neg (by omega)
  have hix := LeapSecondLastUpdatedinTable_row h s1 hL1 hE1 (rowDate (ltsRowAt k)) k
    (by omega) (le_refl _) (fun j hj1 hj2 => by
      obtain ⟨jA, jK, jM1, jM2, jY1, jY2⟩ := row_keys j (by omega) hj2
      have := ltsKey_mono k j hk1 hj1 hj2
      rw [kA, jA]
      omega)
  have hiy := LeapSecondLastUpdatedinTable_row h s1 hL1 hE1 (10000 * y + 100 * m + d) i
    hi (by rw [iA]; omega) (fun j hj1 hj2 => by
      obtain ⟨jA, jK, jM1, jM2, jY1, jY2⟩ := row_keys j (by omega) hj2
      have hh2 := hlt (by omega)
      have : ltsKey (i + 1) ≤ ltsKey j := by
        rcases Nat.lt_or_ge (i + 1) j with h3 | h3
        · exact le_of_lt (ltsKey_mono (i + 1) j (by omega) h3 hj2)
        · have : j = i + 1 := by omega
          rw [this]
      rw [jA]
      omega)
  unfold computeTT2000withBasedLeapDay
  rw [if_neg (by omega), hmm]
  simp only []
  rw [hkey, htime, if_neg (by rw [kA] at hafter ⊢; omega), e]
  simp only []
  rw [hix]
  simp only []
  rw [hw32, hiy]
  simp only []
  have b1 : INT64_MIN ≤ (JulianDay12hL y m d - 2451545) * DAYinNanoSecs
      + (hh * HOURinNanoSecs + mn * MINUTEinNanoSecs + ss * SECinNanoSecs + ms * 1000000
          + us * 1000 + ns)
      + ((i : Int) - 4) * 1000000000 + dTinNanoSecs - T12hinNanoSecs
      - ((i : Int) - k) * 1000000000 := by
    unfold INT64_MIN DAYinNanoSecs HOURinNanoSecs MINUTEinNanoSecs SECinNanoSecs dTinNanoSecs
      T12hinNanoSecs
    omega
  have b2 : (JulianDay12hL y m d - 2451545) * DAYinNanoSecs
      + (hh * HOURinNanoSecs + mn * MINUTEinNanoSecs + ss * SECinNanoSecs + ms * 1000000
          + us * 1000 + ns)
      + ((i : Int) - 4) * 1000000000 + dTinNanoSecs - T12hinNanoSecs
      - ((i : Int) - k) * 1000000000 ≤ INT64_MAX := by
    unfold INT64_MAX at hi64 ⊢
    omega
  rw [wrap64_sub_wrap, wrap64_id _ b1 b2]

/-- The as-of-table compute on a date not after the as-of day returns what `computeTT2000`
returns. -/
theorem withBased_before (c : Sentinels) (h : Host) (s : TTState)
    (y m d hh mn ss ms us ns asOf : Int)
    (hy1 : 1708 ≤ y) (hy2 : y ≤ 2291) (hm1 : 1 ≤ m) (hm2 : m ≤ 12) (hd1 : 1 ≤ d) (hd2 : d ≤ 31)
    (h1 : 0 ≤ hh ∧ hh < 24) (h2 : 0 ≤ mn ∧ mn < 60) (h3 : 0 ≤ ss ∧ ss < 60)
    (h4 : 0 ≤ ms) (h5 : 0 ≤ us) (h6 : 0 ≤ ns)
    (hbefore : 10000 * y + 100 * m + d ≤ asOf) :
    computeTT2000withBasedLeapDay c h s y m d hh mn ss ms us ns asOf
      = computeTT2000I c h s y m d hh mn ss ms us ns := by
  have hkey : wrap64 (y * 10000 + m * 100 + d) = 10000 * y + 100 * m + d := by
    rw [wrap64_id _ (by unfold INT64_MIN; omega) (by unfold INT64_MAX; omega)]; ring
  have htime : wrap64 (hh * 10000 + mn * 100 + ss) = hh * 10000 + mn * 100 + ss :=
    wrap64_id _ (by unfold INT64_MIN; omega) (by unfold INT64_MAX; omega)
  have hmm : (if m = 0 then 1 else m) = m := if_neg (by omega)
  unfold computeTT2000withBasedLeapDay
  rw [if_neg (by omega), hmm]
  simp only []
  rw [hkey, htime, if_pos (by omega)]

/-- Claim C24.  As-of-table compute equals compute under the older table.  With the built-in
table in place, let the as-of day be the date of row `k` of the table (any row from 1972 on).
For every calendar date of the years 1708 .. 2291 and time of day within its ranges (second
at most 59), `computeTT2000withBasedLeapDay` returns the value `computeTT2000` returns from the
table that ends with row `k` (freshly loaded); it returns the value of `computeTT2000` under
the built-in table when the date is not after the as-of day; and when the last row dated on or
before the date is row `i`, it returns that value less `10^9` times `i - k`, one second for
each row after the as-of day that is in force on the date. -/
theorem C24_as_of_table_compute (c : Sentinels) (h : Host) (s st : TTState) (k : Nat)
    (y m d hh mn ss ms us ns : Int)
    (hk : 14 ≤ k ∧ k < 42) (hs : BuiltinOK s)
    (hst : st.LTD = .live (LTS.take (k + 1)) ∧ st.entryCnt = (k : Int) + 1
      ∧ st.currentDay = -1)
    (hy : 1708 ≤ y ∧ y ≤ 2291) (hm : 1 ≤ m ∧ m ≤ 12) (hd : 1 ≤ d ∧ d ≤ daysInMonth y m)
    (h1 : 0 ≤ hh ∧ hh < 24) (h2 : 0 ≤ mn ∧ mn < 60) (h3 : 0 ≤ ss ∧ ss < 60)
    (h4 : 0 ≤ ms ∧ ms < 1000) (h5 : 0 ≤ us ∧ us < 1000) (h6 : 0 ≤ ns ∧ ns < 1000) :
    (computeTT2000withBasedLeapDay c h s y m d hh mn ss ms us ns (rowDate (ltsRowAt k))).1
      = (computeTT2000I c h st y m d hh mn ss ms us ns).1 ∧
    (10000 * y + 100 * m + d ≤ rowDate (ltsRowAt k) →
      (computeTT2000withBasedLeapDay c h s y m d hh mn ss ms us ns (rowDate (ltsRowAt k))).1
        = (computeTT2000I c h s y m d hh mn ss ms us ns).1) ∧
    (∀ i : Nat, k ≤ i → i < 42 → rowDate (ltsRowAt i) ≤ 10000 * y + 100 * m + d →
      (i + 1 < 42 → 10000 * y + 100 * m + d < rowDate (ltsRowAt (i + 1))) →
      (computeTT2000withBasedLeapDay c h s y m d hh mn ss ms us ns (rowDate (ltsRowAt k))).1
        = (computeTT2000I c h s y m d hh mn ss ms us ns).1
            - ((i : Int) - k) * 1000000000) := by
  obtain ⟨hL, hE, -, hc⟩ := hs
  obtain ⟨tL, tE, tD⟩ := hst
  have hd31 : d ≤ 31 := le_trans hd.2 (daysInMonth_le y m hm.1 hm.2)
  obtain ⟨kA, kK, kM1, kM2, kY1, kY2⟩ := row_keys k hk.1 hk.2
  have hbef : 10000 * y + 100 * m + d ≤ rowDate (ltsRowAt k) →
      computeTT2000withBasedLeapDay c h s y m d hh mn ss ms us ns (rowDate (ltsRowAt k))
        = computeTT2000I c h s y m d hh mn ss ms us ns :=
    withBased_before c h s y m d hh mn ss ms us ns _ hy.1 hy.2 hm.1 hm.2 hd.1 hd31 h1 h2 h3
      h4.1 h5.1 h6.1
  have haft : ∀ i : Nat, k ≤ i → i < 42 → ltsKey i ≤ 12 * y + m →
      (i + 1 < 42 → 12 * y + m < ltsKey (i + 1)) →
      rowDate (ltsRowAt k) < 10000 * y + 100 * m + d →
      (computeTT2000withBasedLeapDay c h s y m d hh mn ss ms us ns (rowDate (ltsRowAt k))).1
        = (computeTT2000I c h s y m d hh mn ss ms us ns).1
            - ((i : Int) - k) * 1000000000 :=
    fun i a1 a2 a3 a4 a5 => withBased_after c h s hL hE hc k i hk.1 a1 a2 y m d hh mn ss ms us
      ns hy.1 hy.2 hm.1 hm.2 hd.1 hd.2 h1 h2 h3 h4 h5 h6 a3 a4 a5
  have efull := computeTT2000I_builtin c h s hL hE hc y m d hh mn ss ms us ns hy.1 hy.2 hm.1
    hm.2 hd.1 hd.2 h1 h2 h3 h4 h5 h6
  obtain ⟨-, lo, hi64⟩ := computeFields_builtin h s hL hE hc y m d hh mn ss ms us ns hy.1 hy.2
    hm.1 hm.2 hd.1 hd.2 h1 h2 ⟨h3.1, by omega⟩ h4 h5 h6
  have efresh := computeTT2000I_fresh c h st tD y m d hh mn ss ms us ns hy.1 hy.2 hm.1
    hm.2 hd.1 hd.2 h1 h2 h3 h4 h5 h6
  have tL' : ({ st with currentDay := 10000000 * m + 10000 * d + y } : TTState).LTD
      = .live (LTS.take (k + 1)) := tL
  have tE' : ({ st with currentDay := 10000000 * m + 10000 * d + y } : TTState).entryCnt
      = (k : Int) + 1 := tE
  refine ⟨?_, fun hb => by rw [hbef hb], ?_⟩
  · by_cases hb : 10000 * y + 100 * m + d ≤ rowDate (ltsRowAt k)
    · rw [hbef hb, efull, efresh,
        LeapSecondsfromYMD_take_before h _ k hk.1 hk.2 tL' tE' y m d (fun hk3 => by
          have := (leapRow_facts k hk.1 hk.2).2.2.2.2.2.2.2.2.2.2.1 hk3
          rw [kA] at hb
          omega),
        wrap64_id _ (by unfold INT64_MIN; omega) hi64]
    · have hb' : rowDate (ltsRowAt k) < 10000 * y + 100 * m + d := by omega
      have hkey : ltsKey k ≤ 12 * y + m := by rw [kA] at hb'; omega
      obtain ⟨i, i1, i2, i3, i4⟩ := exists_last_le ltsKey (12 * y + m) k 42 hk.2 hkey
      have hleap := leapOfDate_row y m d i (by omega) i2 i3 (fun hh' => i4 (i + 1) (by omega) hh')
      have hi4 : ((i : Int) - 4).natAbs ≤ 2 ^ 53 := natAbs_le_pow53 _ (by omega) (by omega)
      have hp : (((i : Int) - 4) * 1000000000).natAbs ≤ 2 ^ 53 :=
        natAbs_le_pow53 _ (by omega) (by omega)
      have hk4 : ((k : Int) - 4).natAbs ≤ 2 ^ 53 := natAbs_le_pow53 _ (by omega) (by omega)
      have hpk : (((k : Int) - 4) * 1000000000).natAbs ≤ 2 ^ 53 :=
        natAbs_le_pow53 _ (by omega) (by omega)
      have ht2 : Dbl.toInt (Dbl.mul (leapOfDate y m d) (Dbl.ofInt SECinNanoSecs))
          = ((i : Int) - 4) * 1000000000 := by
        rw [hleap]
        unfold SECinNanoSecs
        rw [Dbl.mul_ofInt _ _ hi4 (by decide) hp, Dbl.toInt_ofInt _ hp]
      have ht2k : Dbl.toInt (Dbl.mul (Dbl.ofInt ((k : Int) - 4)) (Dbl.ofInt SECinNanoSecs))
          = ((k : Int) - 4) * 1000000000 := by
        unfold SECinNanoSecs
        rw [Dbl.mul_ofInt _ _ hk4 (by decide) hpk, Dbl.toInt_ofInt _ hpk]
      rw [ht2] at efull lo hi64
      rw [haft i i1 i2 i3 (fun hh' => i4 (i + 1) (by omega) hh') hb', efull, efresh,
        LeapSecondsfromYMD_take_after h _ k hk.1 hk.2 tL' tE' y m d hkey]
      simp only []
      rw [ht2k]
      have b1 : INT64_MIN ≤ (JulianDay12hL y m d - 2451545) * DAYinNanoSecs
          + (hh * HOURinNanoSecs + mn * MINUTEinNanoSecs + ss * SECinNanoSecs + ms * 1000000
              + us * 1000 + ns)
          + ((k : Int) - 4) * 1000000000 + dTinNanoSecs - T12hinNanoSecs := by
        obtain ⟨j1, j2⟩ := JulianDay12hL_years y m d hy.1 hy.2 hm.1 hm.2 hd.1 hd31
        unfold INT64_MIN DAYinNanoSecs HOURinNanoSecs MINUTEinNanoSecs SECinNanoSecs
          dTinNanoSecs T12hinNanoSecs
        omega
      have b2 : (JulianDay12hL y m d - 2451545) * DAYinNanoSecs
          + (hh * HOURinNanoSecs + mn * MINUTEinNanoSecs + ss * SECinNanoSecs + ms * 1000000
              + us * 1000 + ns)
          + ((k : Int) - 4) * 1000000000 + dTinNanoSecs - T12hinNanoSecs ≤ INT64_MAX := by
        unfold INT64_MAX at hi64 ⊢
        omega
      rw [wrap64_id _ b1 b2]
      ring
  · intro i a1 a2 a3 a4
    obtain ⟨iA, iK, iM1, iM2, iY1, iY2⟩ := row_keys i (by omega) a2
    by_cases hb : 10000 * y + 100 * m + d ≤ rowDate (ltsRowAt k)
    · have hik : i = k := by
        by_contra hne
        have := ltsKey_mono k i hk.1 (by omega) a2
        rw [kA] at hb
        rw [iA] at a3
        omega
      subst hik
      rw [hbef hb]
      ring
    · refine haft i a1 a2 (by rw [iA] at a3; omega) (fun hh' => ?_) (by omega)
      obtain ⟨jA, jK, jM1, jM2, jY1, jY2⟩ := row_keys (i + 1) (by omega) hh'
      have := a4 hh'
      rw [jA] at this
      omega

theorem C24_as_of_table_compute_witness :
    BuiltinOK builtinState ∧
    ((olderTable 40).LTD = .live (LTS.take (40 + 1)) ∧
      (olderTable 40).entryCnt = ((40 : Nat) : Int) + 1 ∧ (olderTable 40).currentDay = -1) ∧
    (3 : Int) ≤ 12 ∧ (1 : Int) ≤ daysInMonth 2017 3 ∧
    (computeTT2000withBasedLeapDay cdfSentinels Host.plain builtinState 2017 3 1 1 2 3 4 5 6
        (rowDate (ltsRowAt 40))).1
      = (computeTT2000I cdfSentinels Host.plain (olderTable 40) 2017 3 1 1 2 3 4 5 6).1 :=
  ⟨BuiltinOK_builtinState, ⟨rfl, rfl, rfl⟩, by decide, by decide,
   (C24_as_of_table_compute cdfSentinels Host.plain builtinState (olderTable 40) 40
      2017 3 1 1 2 3 4 5 6 (by decide) BuiltinOK_builtinState ⟨rfl, rfl, rfl⟩ (by decide)
      (by decide) (by decide) (by decide) (by decide) (by decide) (by decide) (by decide)
      (by decide)).1⟩

set_option maxRecDepth 100000 in
/-- An instance in numbers: the as-of day 2015-07-01 is the date of row 40; on 2017-03-01 the
row of 2017-01-01 is in force as well, and the as-of-table compute returns one second less
than `computeTT2000`. -/
theorem withBased_example :
    rowDate (ltsRowAt 40) = 20150701 ∧
    (computeTT2000withBasedLeapDay cdfSentinels Host.plain builtinState 2017 3 1 1 2 3 4 5 6
        20150701).1 = 541602191188005006 ∧
    (computeTT2000I cdfSentinels Host.plain builtinState 2017 3 1 1 2 3 4 5 6).1
      = 541602192188005006 ∧
    (computeTT2000I cdfSentinels Host.plain (olderTable 40) 2017 3 1 1 2 3 4 5 6).1
      = 541602191188005006 := by
  decide!

set_option maxRecDepth 100000 in
/-- Outside the supported years the adjustment is applied to the reserved constant
`computeTT2000` returns: for 2300-03-01 and the as-of day 2015-07-01 the result is
`ILLEGAL_TT2000_VALUE` less one second, reduced to 64 bits. -/
theorem withBased_shifts_illegal :
    (computeTT2000I cdfSentinels Host.plain builtinState 2300 3 1 1 2 3 4 5 6).1
      = cdfSentinels.ILLEGAL_TT2000_VALUE ∧
    (computeTT2000withBasedLeapDay cdfSentinels Host.plain builtinState 2300 3 1 1 2 3 4 5 6
        20150701).1 = 9223372035854775811 := by
  decide!

/-! ## Leap-year test, thresholds, range search soundness, open handles, template fields,
leap seconds, day cache and the two-key search -/

/-- C37. The leap-year predicate and the day tables are Gregorian: for every year `y >= 0`
the test `(y & 3) == 0 && ((y % 25) != 0 || (y & 15) == 0)` of `computeTT2000` holds exactly
when `y` is divisible by 4 and not by 100, or divisible by 400; and for every month index
`k` in 0..11, `doys1[k] = daym1[0] + ... + daym1[k]` and
`doys2[k] = daym2[0] + ... + daym2[k]`. -/
theorem C37_gregorian_leap_years_and_tables (y : Int) (hy : 0 ≤ y) :
    (lyearOf y = true ↔ ((y % 4 = 0 ∧ y % 100 ≠ 0) ∨ y % 400 = 0)) ∧
    (∀ k : Nat, k < 12 →
      doys1.getD k 0 = (daym1.take (k + 1)).sum ∧ doys2.getD k 0 = (daym2.take (k + 1)).sum) := by
  refine ⟨?_, by decide⟩
  rw [lyearOf_gregorian y hy]
  omega

/-- Witness of C37 at the year 2000 (divisible by 400, a leap year). -/
theorem C37_gregorian_leap_years_and_tables_witness :
    (lyearOf 2000 = true ↔ (((2000 : Int) % 4 = 0 ∧ (2000 : Int) % 100 ≠ 0)
      ∨ (2000 : Int) % 400 = 0)) ∧
    (∀ k : Nat, k < 12 →
      doys1.getD k 0 = (daym1.take (k + 1)).sum ∧ doys2.getD k 0 = (daym2.take (k + 1)).sum) :=
  C37_gregorian_leap_years_and_tables 2000 (by decide)

/-- The thresholds `NST2` increase strictly from index 14 on. -/
theorem NST2_strict (i j : Nat) (hi : 14 ≤ i) (hij : i < j) (hj : j < 42) :
    NST2.getD i 0 < NST2.getD j 0 := by
  induction j with
  | zero => omega
  | succ n ih =>
    have hstep : NST2.getD n 0 < NST2.getD (n + 1) 0 := by
      have := (leapRow_facts n (by omega) (by omega)).2.2.2.2.2.2.2.2.2.2.1 (by omega)
      omega
    rcases Nat.lt_or_ge i n with h | h
    · exact lt_trans (ih h (by omega)) hstep
    · have : i = n := by omega
      subst this
      exact hstep

/-- The value `computeTT2000` returns for the date of row `i` of the built-in table at
00:00:00 is the threshold `NST2[i]`. -/
theorem compute_row_date (c : Sentinels) (h : Host) (s : TTState) (hL : s.LTD = .live LTS)
    (hE : s.entryCnt = NDAT) (hc : CacheOK s) (i : Nat) (h1 : 14 ≤ i) (h2 : i < 42) :
    (computeTT2000 c h s (ltsRowAt i).c0 (ltsRowAt i).c1 (ltsRowAt i).c2
      ⟨0⟩ ⟨0⟩ ⟨0⟩ ⟨0⟩ ⟨0⟩ ⟨0⟩).1 = NST2.getD i 0 := by
  obtain ⟨-, e0, e1, e2, ek, hm1, hm2, hy1, hy2, hn, hnext, hd1, hd2⟩ := leapRow_facts i h1 h2
  have hz : (⟨0⟩ : Dbl) = Dbl.ofInt 0 := Dbl.ofInt_zero.symm
  rw [e0, e1, e2, hz]
  unfold computeTT2000
  rw [computeTT2000Sym_ints h s (ltsYear i) (ltsMonth i) 1 0 0 0 0 0 0
    (natAbs_small _ (by omega) (by omega)) (natAbs_small _ (by omega) (by omega)) (by omega)
    (by decide) (by decide) (by decide) (by decide) (by decide) (by decide) (by decide)]
  have hdim := daysInMonth_ge (ltsYear i) (ltsMonth i) hm1 hm2
  have hJ : JulianDay12hL (ltsYear i) (ltsMonth i) 1 = ltsDay i := rfl
  rw [computeFields_cached h s hL hE hc (ltsYear i) (ltsMonth i) 1 0 0 0 0 0 0 i h1 h2 hm1 hm2
    (by decide) (by omega) (by omega) (by omega) (by rw [hJ]; omega) (by rw [hJ]; omega)
    (by omega) (fun h3 => by have := (hnext h3).2; omega)]
  show wrap64 _ = _
  rw [hJ]
  have hv : (ltsDay i - 2451545) * DAYinNanoSecs
      + (0 * HOURinNanoSecs + 0 * MINUTEinNanoSecs + 0 * SECinNanoSecs + 0 * 1000000
          + 0 * 1000 + 0) + ((i : Int) - 4) * 1000000000 + dTinNanoSecs - T12hinNanoSecs
      = NST2.getD i 0 := by
    unfold DAYinNanoSecs HOURinNanoSecs MINUTEinNanoSecs SECinNanoSecs dTinNanoSecs
      T12hinNanoSecs
    omega
  rw [hv]
  have hlo := NST2_lower i h2 h1
  have hhi : NST2.getD i 0 ≤ 9223372036854775807 := by omega
  exact wrap64_id _ (by unfold INT64_MIN; omega) (by unfold INT64_MAX; omega)

/-- C39. The precomputed threshold table matches compute: in a state that holds the built-in
table (with a consistent day cache), for every index `i` from 14 to 41,
`computeTT2000 (LTS[i][0], LTS[i][1], LTS[i][2], 0, 0, 0, 0, 0, 0)` returns `NST2[i]`; `NST2`
increases strictly on the indices 14..41; and `LoadLeapNanoSecondsTable` makes `NST2[i]` the
threshold `NST[i]` that `breakdownTT2000` uses. -/
theorem C39_thresholds_match_compute (c : Sentinels) (h : Host) (s : TTState)
    (hL : s.LTD = .live LTS) (hE : s.entryCnt = NDAT) (hc : CacheOK s)
    (i : Nat) (h1 : 14 ≤ i) (h2 : i < 42) :
    (computeTT2000 c h s (ltsRowAt i).c0 (ltsRowAt i).c1 (ltsRowAt i).c2
      ⟨0⟩ ⟨0⟩ ⟨0⟩ ⟨0⟩ ⟨0⟩ ⟨0⟩).1 = NST2.getD i 0 ∧
    (∀ j : Nat, i < j → j < 42 → NST2.getD i 0 < NST2.getD j 0) ∧
    (LoadLeapNanoSecondsTable c h s).nst i = NST2.getD i 0 := by
  refine ⟨compute_row_date c h s hL hE hc i h1 h2, fun j hij hj => NST2_strict i j h1 hij hj, ?_⟩
  rw [LoadLeapNanoSecondsTable_builtin c h s hL hE]
  rfl

/-- Witness of C39 at the last row (index 41, 2017-01-01) in the state right after loading
the built-in table. -/
theorem C39_thresholds_match_compute_witness :
    (computeTT2000 cdfSentinels Host.plain builtinState (ltsRowAt 41).c0 (ltsRowAt 41).c1
      (ltsRowAt 41).c2 ⟨0⟩ ⟨0⟩ ⟨0⟩ ⟨0⟩ ⟨0⟩ ⟨0⟩).1 = NST2.getD 41 0 ∧
    (∀ j : Nat, 41 < j → j < 42 → NST2.getD 41 0 < NST2.getD j 0) ∧
    (LoadLeapNanoSecondsTable cdfSentinels Host.plain builtinState).nst 41 = NST2.getD 41 0 :=
  C39_thresholds_match_compute cdfSentinels Host.plain builtinState
    BuiltinOK_builtinState.1 BuiltinOK_builtinState.2.1 BuiltinOK_builtinState.2.2.2 41
    (by decide) (by decide)

/-- With a CDF open and a table loaded, the first statement of a table query changes
nothing, whatever the host. -/
theorem refreshTable_pinned (h : Host) (s : TTState) (hopen : 0 < s.openCDF64s)
    (hl : s.LTD.isNull = false) : refreshTable h s = s := by
  unfold refreshTable RecheckLeapSecondsTableEnvVar
  rw [hl]
  simp only [Bool.false_eq_true, if_false]
  rw [if_pos (by omega)]

/-- A load that is not skipped sets `tableChecked`. -/
theorem LoadLeapSecondsTable_checked (h : Host) (s : TTState) (h0 : s.tableChecked = 0) :
    (LoadLeapSecondsTable h s).tableChecked = 1 := by
  unfold LoadLeapSecondsTable
  rw [if_pos h0]

/-- A load that is not skipped caches the value of the environment variable it read: the
path when it is set and not empty, `NULL` otherwise. -/
theorem LoadLeapSecondsTable_env (h : Host) (s : TTState) (h0 : s.tableChecked = 0) :
    (LoadLeapSecondsTable h s).leapTableEnv
      = (match CDFgetLeapSecondsTableEnvVar h s with
         | some path => if path.length > 0 then some path else none
         | none => none) := by
  have key : ∀ s1 : TTState,
      ({ (if s1.fromFile = 0 then { s1 with LTD := .live LTS, entryCnt := NDAT } else s1) with
          tableChecked := 1 } : TTState).leapTableEnv = s1.leapTableEnv := by
    intro s1
    split <;> rfl
  unfold LoadLeapSecondsTable
  rw [if_pos h0]
  simp only []
  rw [key]
  cases CDFgetLeapSecondsTableEnvVar h s with
  | none => rfl
  | some path =>
    simp only []
    by_cases hp : path.length > 0
    · rw [if_pos hp, if_pos hp]
      cases h.fopen path with
      | none => rfl
      | some lines =>
        simp only []
        cases scanRows h lines [] <;> rfl
    · rw [if_neg hp, if_neg hp]

/-- C36. Open handles pin the table: while the count of open CDFs is greater than 0 and a
table is loaded, `CDFClearLeapSecondsTable` and every query (`CDFgetRowsinLeapSecondsTable`,
`CDFgetLastDateinLeapSecondsTable`, `CDFgetLeapSecondsTableStatus`, `CDFfillLeapSecondsTable`,
`CDFgetLeapSecondsTableEnvVar`) leave the whole module state (rows, row count, provenance,
cached variable value, thresholds) unchanged on every host, so also after a change of the
environment variable; and when `ReduceOpenCDFsCount` brings the count from 1 to 0 the table,
the thresholds and the cached variable value are cleared, so that the next query loads the
table again, reading the environment variable of the host of that moment. -/
theorem C36_open_handles_pin_table (h h2 : Host) (s : TTState) (hopen : 0 < s.openCDF64s)
    (hl : s.LTD.isNull = false) :
    CDFClearLeapSecondsTable s = s ∧
    CDFgetRowsinLeapSecondsTable h s = (s.entryCnt, s) ∧
    (CDFgetLastDateinLeapSecondsTable h s).2 = s ∧
    CDFgetLeapSecondsTableStatus h s = (s.fromFile, s) ∧
    (CDFfillLeapSecondsTable h s).2 = s ∧
    CDFgetLeapSecondsTableEnvVar h s = s.leapTableEnv ∧
    (s.openCDF64s = 1 →
      ReduceOpenCDFsCount s
        = { s with LTD := .null, NST := .null, tableChecked := 0, leapTableEnv := none,
                   openCDF64s := 0 } ∧
      refreshTable h2 (ReduceOpenCDFsCount s) = LoadLeapSecondsTable h2 (ReduceOpenCDFsCount s) ∧
      CDFgetLeapSecondsTableEnvVar h2 (ReduceOpenCDFsCount s) = h2.getenv ∧
      (refreshTable h2 (ReduceOpenCDFsCount s)).tableChecked = 1 ∧
      (refreshTable h2 (ReduceOpenCDFsCount s)).leapTableEnv
        = (match h2.getenv with
           | some path => if path.length > 0 then some path else none
           | none => none)) := by
  have hr := refreshTable_pinned h s hopen hl
  have hclear : CDFClearLeapSecondsTable s = s := by
    have hne : s.openCDF64s ≠ 0 := by omega
    unfold CDFClearLeapSecondsTable
    simp [hne]
  refine ⟨hclear, ?_, ?_, ?_, ?_, ?_, ?_⟩
  · unfold CDFgetRowsinLeapSecondsTable; rw [hr]
  · unfold CDFgetLastDateinLeapSecondsTable; rw [hr]
  · unfold CDFgetLeapSecondsTableStatus; rw [hr]
  · unfold CDFfillLeapSecondsTable; rw [hr]
  · unfold CDFgetLeapSecondsTableEnvVar; rw [if_pos hopen]
  · intro h1
    have hred : ReduceOpenCDFsCount s
        = { s with LTD := .null, NST := .null, tableChecked := 0, leapTableEnv := none,
                   openCDF64s := 0 } := by
      unfold ReduceOpenCDFsCount CDFClearLeapSecondsTable
      simp only [h1, hl]
      cases hle : s.leapTableEnv <;> simp
    refine ⟨hred, ?_, ?_, ?_, ?_⟩
    · rw [hred]; rfl
    · rw [hred]; unfold CDFgetLeapSecondsTableEnvVar; simp
    · rw [show refreshTable h2 (ReduceOpenCDFsCount s)
        = LoadLeapSecondsTable h2 (ReduceOpenCDFsCount s) from by rw [hred]; rfl]
      exact LoadLeapSecondsTable_checked h2 _ (by rw [hred])
    · rw [show refreshTable h2 (ReduceOpenCDFsCount s)
        = LoadLeapSecondsTable h2 (ReduceOpenCDFsCount s) from by rw [hred]; rfl,
        LoadLeapSecondsTable_env h2 _ (by rw [hred]),
        show CDFgetLeapSecondsTableEnvVar h2 (ReduceOpenCDFsCount s) = h2.getenv from by
          rw [hred]; unfold CDFgetLeapSecondsTableEnvVar; simp]

/-- Witness of C36: the built-in table with one CDF open, queried on a host whose
environment variable names a file. -/
theorem C36_open_handles_pin_table_witness :
    (0 < (AddOpenCDFsCount builtinState).openCDF64s ∧
      (AddOpenCDFsCount builtinState).LTD.isNull = false) ∧
    CDFgetRowsinLeapSecondsTable hostGood (AddOpenCDFsCount builtinState)
      = ((AddOpenCDFsCount builtinState).entryCnt, AddOpenCDFsCount builtinState) ∧
    (refreshTable hostGood (ReduceOpenCDFsCount (AddOpenCDFsCount builtinState))).leapTableEnv
      = some "good.dat" :=
  ⟨⟨by decide, by decide⟩,
    (C36_open_handles_pin_table hostGood hostGood (AddOpenCDFsCount builtinState) (by decide)
      (by decide)).2.1,
    ((C36_open_handles_pin_table hostGood hostGood (AddOpenCDFsCount builtinState) (by decide)
      (by decide)).2.2.2.2.2.2 (by decide)).2.2.2.2⟩

/-- Two appends in a row are one append of the concatenation. -/
theorem strcatX_strcatX (d a b : List Char) (max : Nat) :
    strcatX (strcatX d a max) b max = strcatX d (a ++ b) max := by
  unfold strcatX
  by_cases h : max = 0
  · simp [h]
  · simp only [h, if_false, List.append_assoc, List.length_append, List.length_take,
      List.take_append_eq_append_take]
    congr 2
    rcases Nat.le_total a.length (max - d.length) with h1 | h1
    · rw [Nat.min_eq_right h1]
      congr 1
      omega
    · rw [Nat.min_eq_left h1]
      rw [show max - (d.length + (max - d.length)) = 0 from by omega,
        show max - d.length - a.length = 0 from by omega]

/-- A run of one-character appends is one append of the run. -/
theorem strcatRep_eq (max : Nat) (c : Char) :
    ∀ (n : Nat) (enc : List Char),
      strcatRep max [c] n enc = strcatX enc (List.replicate n c) max := by
  intro n
  induction n with
  | zero => intro enc; simp [strcatRep, strcatX]
  | succ n ih =>
    intro enc
    simp only [strcatRep]
    rw [ih, strcatX_strcatX]
    rfl

/-- `AppendPart` appends the padded field, as far as the capacity of the string allows. -/
theorem AppendPart_eq (k : EpochConsts) (enc p : List Char) (w : Nat) (l0 : Bool) :
    AppendPart k enc p (w : Int) l0 = strcatX enc (paddedField p w l0) k.EPOCHx_STRING_MAX := by
  unfold AppendPart paddedField
  by_cases hw : w = 0
  · subst hw
    simp
  · rw [if_neg (by omega), if_neg hw]
    simp only []
    by_cases hl : p.length > w
    · rw [if_pos (by omega), if_pos hl, strcatRep_eq]
      rfl
    · rw [if_neg (by omega), if_neg hl, strcatRep_eq, strcatX_strcatX]
      congr 3
      omega

theorem paddedField_length (p : List Char) (w : Nat) (l0 : Bool) :
    (paddedField p (w + 1) l0).length = w + 1 := by
  unfold paddedField
  rw [if_neg (by omega)]
  split
  · simp
  · simp only [List.length_append, List.length_replicate]
    omega

set_option maxRecDepth 100000 in
/-- C38. Template field padding: for every text part `p`, width `w >= 0` and padding choice,
`AppendPart` appends (by `strcatX`, so within the capacity `EPOCHx_STRING_MAX` of the string)
the part unchanged when `w = 0`, and otherwise exactly `w` characters: `w` asterisks if `p` is
longer than `w`, else `p` padded on the left to length `w` with `'0'` when leading zeros are
requested and with `' '` otherwise.  In the format scan of `encodeEPOCHx` the tokens
`<year>`, `<hour>`, `<min>`, `<sec>` are appended with width 4, 2, 2, 2 and leading zeros,
`<mm>` with width 0, and `<mm.02>` with width 2 and leading zeros; so the year 7 and the
month 3 are written `0007-03` under the format `<year>-<mm.02>`. -/
theorem C38_template_field_padding (k : EpochConsts) (enc p : List Char) (w : Nat) (l0 : Bool)
    (y m d hh mn ss ms : Int) :
    AppendPart k enc p (w : Int) l0 = strcatX enc (paddedField p w l0) k.EPOCHx_STRING_MAX ∧
    paddedField p 0 l0 = p ∧
    (paddedField p (w + 1) l0).length = w + 1 ∧
    (p.length > w + 1 → paddedField p (w + 1) l0 = List.replicate (w + 1) '*') ∧
    (p.length ≤ w + 1 → paddedField p (w + 1) l0
      = List.replicate (w + 1 - p.length) (if l0 then '0' else ' ') ++ p) ∧
    encodeParts k y m d hh mn ss ms 2 "<year>".data enc = AppendPart k enc (fmtLd 0 y) 4 true ∧
    encodeParts k y m d hh mn ss ms 2 "<hour>".data enc = AppendPart k enc (fmtLd 0 hh) 2 true ∧
    encodeParts k y m d hh mn ss ms 2 "<min>".data enc = AppendPart k enc (fmtLd 0 mn) 2 true ∧
    encodeParts k y m d hh mn ss ms 2 "<sec>".data enc = AppendPart k enc (fmtLd 0 ss) 2 true ∧
    encodeParts k y m d hh mn ss ms 2 "<mm>".data enc = AppendPart k enc (fmtLd 0 m) 0 false ∧
    encodeParts k y m d hh mn ss ms 2 "<mm.02>".data enc = AppendPart k enc (fmtLd 0 m) 2 true ∧
    encodeParts cdfEpochConsts 7 3 d hh mn ss ms 8 "<year>-<mm.02>".data [] = "0007-03".data := by
  refine ⟨AppendPart_eq k enc p w l0, rfl, paddedField_length p w l0, ?_, ?_, rfl, rfl, rfl,
    rfl, rfl, rfl, rfl⟩
  · intro hl
    unfold paddedField
    rw [if_neg (by omega), if_pos hl]
  · intro hl
    unfold paddedField
    rw [if_neg (by omega), if_neg (by omega)]

/-- Witness of C38: the part `12345` is too long for width 4, the part `7` is padded. -/
theorem C38_template_field_padding_witness :
    paddedField "12345".data (3 + 1) true = List.replicate (3 + 1) '*' ∧
    paddedField "7".data (3 + 1) true
      = List.replicate (3 + 1 - "7".data.length) (if true then '0' else ' ') ++ "7".data :=
  ⟨(C38_template_field_padding cdfEpochConsts [] "12345".data 3 true 0 0 0 0 0 0 0).2.2.2.1
      (by decide),
    (C38_template_field_padding cdfEpochConsts [] "7".data 3 true 0 0 0 0 0 0 0).2.2.2.2.1
      (by decide)⟩

/-- The thresholds `NST2` from index 14 on are at most `NST2[41]`, far below `INT64_MAX`. -/
theorem NST2_upper (i : Nat) (h1 : 14 ≤ i) (h2 : i < 42) :
    NST2.getD i 0 ≤ 536500869184000000 := by
  obtain ⟨-, -, -, -, -, -, -, -, -, hn, -, -, hd2⟩ := leapRow_facts i h1 h2
  omega

/-- C32. Leap flag and offset lookup: with the built-in table in place, for every `long long`
value `t` (every `t >= INT64_MIN`), `LeapSecondsfromJ2000 (t)` returns 0.0 with flag 0 when `t < NST[14]`; otherwise
there is a greatest index `i` in 14..41 with `NST[i] <= t`, the value returned is the leap
second count `LTD[i][3]` of that row, and the flag is 1 exactly when `i` is not the last
index and `NST[i+1] - 10^9 <= t < NST[i+1]`, and 0 otherwise. -/
theorem C32_leap_flag_and_offset (c : Sentinels) (h : Host) (s : TTState)
    (hL : s.LTD = .live LTS) (hE : s.entryCnt = NDAT)
    (hN : s.NST = .null ∨ s.NST = .live NST2) (t : Int)
    (ht1 : INT64_MIN ≤ t) :
    (t < NST2.getD 14 0 →
      LeapSecondsfromJ2000 c h s t = (⟨0⟩, 0, { s with NST := .live NST2 })) ∧
    (NST2.getD 14 0 ≤ t →
      ∃ i : Nat, 14 ≤ i ∧ i < 42 ∧ NST2.getD i 0 ≤ t ∧
        (∀ j : Nat, i < j → j < 42 → t < NST2.getD j 0) ∧
        LeapSecondsfromJ2000 c h s t
          = ((ltsRowAt i).c3,
             (if i ≠ 41 ∧ NST2.getD (i + 1) 0 - 1000000000 ≤ t ∧ t < NST2.getD (i + 1) 0 then 1
              else 0),
             { s with NST := .live NST2 })) := by
  have e14 : NST2.getD 14 0 = -883655957816000000 := by decide
  constructor
  · intro hlt
    exact LeapSecondsfromJ2000_before c h s hL hE hN t (by omega)
  · intro hge
    obtain ⟨i, i1, i2, hi, hlt⟩ := exists_last_le (fun j => NST2.getD j 0) t 14 42 (by decide)
      hge
    refine ⟨i, i1, i2, hi, hlt, ?_⟩
    rw [LeapSecondsfromJ2000_builtin c h s hL hE hN t i i1 i2 hi hlt,
      (leapRow_facts i i1 i2).1]
    congr 2
    by_cases h41 : i = 41
    · rw [if_neg (by omega), if_neg (by omega)]
    · have hnext := hlt (i + 1) (by omega) (by omega)
      have hup := NST2_upper (i + 1) (by omega) (by omega)
      have hw : wrap64 (t + 1000000000) = t + 1000000000 :=
        wrap64_id _ (by unfold INT64_MIN at *; omega) (by unfold INT64_MAX; omega)
      rw [hw]
      by_cases hc : NST2.getD (i + 1) 0 - 1000000000 ≤ t
      · rw [if_pos ⟨by omega, by omega⟩, if_pos ⟨h41, hc, hnext⟩]
      · rw [if_neg (by omega), if_neg (by omega)]

/-- Witness of C32 inside the leap second at the end of 2016 (`t = NST2[41] - 10^9`). -/
theorem C32_leap_flag_and_offset_witness :
    (INT64_MIN ≤ (536500868184000000 : Int) ∧ NST2.getD 14 0 ≤ 536500868184000000) ∧
    ∃ i : Nat, 14 ≤ i ∧ i < 42 ∧ NST2.getD i 0 ≤ 536500868184000000 ∧
      (∀ j : Nat, i < j → j < 42 → 536500868184000000 < NST2.getD j 0) ∧
      LeapSecondsfromJ2000 cdfSentinels Host.plain builtinState 536500868184000000
        = ((ltsRowAt i).c3,
           (if i ≠ 41 ∧ NST2.getD (i + 1) 0 - 1000000000 ≤ 536500868184000000
              ∧ 536500868184000000 < NST2.getD (i + 1) 0 then 1 else 0),
           { builtinState with NST := .live NST2 }) :=
  ⟨⟨by decide, by decide⟩,
    (C32_leap_flag_and_offset cdfSentinels Host.plain builtinState BuiltinOK_builtinState.1
      BuiltinOK_builtinState.2.1 BuiltinOK_builtinState.2.2.1 536500868184000000
      (by decide)).2 (by decide)⟩

set_option maxRecDepth 100000 in
/-- The day before the date of each leap-second row from index 15 on, decoded from its day
number: a valid date whose next day is the date of the row. -/
theorem leap_eve : ∀ k : Nat, k < 27 →
    nextDay (dateFromL (68569 + (ltsDay (k + 15) - 1))).1
        (dateFromL (68569 + (ltsDay (k + 15) - 1))).2.1
        (dateFromL (68569 + (ltsDay (k + 15) - 1))).2.2
      = (ltsYear (k + 15), ltsMonth (k + 15), 1) ∧
    1 ≤ (dateFromL (68569 + (ltsDay (k + 15) - 1))).2.1 ∧
    (dateFromL (68569 + (ltsDay (k + 15) - 1))).2.1 ≤ 12 ∧
    1 ≤ (dateFromL (68569 + (ltsDay (k + 15) - 1))).2.2 ∧
    (dateFromL (68569 + (ltsDay (k + 15) - 1))).2.2
      ≤ daysInMonth (dateFromL (68569 + (ltsDay (k + 15) - 1))).1
          (dateFromL (68569 + (ltsDay (k + 15) - 1))).2.1 := by
  decide!

/-- The breakdown of a value inside the leap second inserted before row `j + 1`. -/
theorem breakdown_leap_second (c : Sentinels) (h : Host) (s : TTState)
    (hL : s.LTD = .live LTS) (hE : s.entryCnt = NDAT)
    (hN : s.NST = .null ∨ s.NST = .live NST2)
    (hF : c.FILLED_TT2000_VALUE < -883655957816000000)
    (hP : c.DEFAULT_TT2000_PADVALUE < -883655957816000000)
    (j : Nat) (j1 : 14 ≤ j) (j2 : j < 41) (f : Int) (hf0 : 0 ≤ f) (hf1 : f < 1000000000) :
    (breakdownTT2000 c h s (NST2.getD (j + 1) 0 - 1000000000 + f)).1
      = Parts.ofInts (dateFromL (68569 + (ltsDay (j + 1) - 1))).1
          (dateFromL (68569 + (ltsDay (j + 1) - 1))).2.1
          (dateFromL (68569 + (ltsDay (j + 1) - 1))).2.2
          23 59 60 (f / 1000000) (f / 1000 % 1000) (f % 1000) := by
  obtain ⟨-, -, -, -, -, -, -, -, -, hn, hnext, -, -⟩ := leapRow_facts j j1 (by omega)
  obtain ⟨-, -, -, -, -, -, -, -, -, hn1, -, hd1, hd2⟩ := leapRow_facts (j + 1) (by omega)
    (by omega)
  have hstep := (hnext (by omega)).1
  have hlo := NST2_lower j (by omega) j1
  have hup := NST2_upper (j + 1) (by omega) (by omega)
  obtain ⟨t, ht⟩ : ∃ t, t = NST2.getD (j + 1) 0 - 1000000000 + f := ⟨_, rfl⟩
  obtain ⟨E, hEv⟩ : ∃ E, E = (ltsDay (j + 1) - 1721060) * 86400 - 1 := ⟨_, rfl⟩
  have hw : wrap64 (t + 1000000000) = t + 1000000000 :=
    wrap64_id _ (by unfold INT64_MIN; omega) (by unfold INT64_MAX; omega)
  have hb := breakdown_eval c h s t (by omega) (by omega) hL hE hN j j1 (by omega) (by omega)
    (fun k hk1 hk2 => by
      rcases Nat.lt_or_ge (j + 1) k with hk | hk
      · have := NST2_strict (j + 1) k (by omega) hk hk2
        omega
      · have : k = j + 1 := by omega
        subst this
        omega)
    (by unfold INT64_MAX; omega) 1 E
    (by rw [hw, if_pos ⟨by omega, by omega⟩])
    (by push_cast at hn1 ⊢; omega)
  rw [← ht, hb]
  have a1 : 1721060 + E / 86400 + 68569 = 68569 + (ltsDay (j + 1) - 1) := by omega
  have a2 : E / 3600 % 24 = 23 := by omega
  have a3 : E / 60 % 60 = 59 := by omega
  have a4 : E % 60 + 1 = 60 := by omega
  have a5 : (t + 43167816000000) % 1000000000 = f := by push_cast at hn1; omega
  simp only [a1, a2, a3, a4, a5]

/-- The breakdown of the threshold of row `i`: the date of the row at 00:00:00. -/
theorem breakdown_threshold (c : Sentinels) (h : Host) (s : TTState)
    (hL : s.LTD = .live LTS) (hE : s.entryCnt = NDAT)
    (hN : s.NST = .null ∨ s.NST = .live NST2)
    (hF : c.FILLED_TT2000_VALUE < -883655957816000000)
    (hP : c.DEFAULT_TT2000_PADVALUE < -883655957816000000)
    (i : Nat) (i1 : 14 ≤ i) (i2 : i < 42) :
    (breakdownTT2000 c h s (NST2.getD i 0)).1
      = Parts.ofInts (ltsYear i) (ltsMonth i) 1 0 0 0 0 0 0 := by
  obtain ⟨-, -, -, -, -, hm1, hm2, hy1, hy2, hn, hnext, hd1, hd2⟩ := leapRow_facts i i1 i2
  have hlo := NST2_lower i i2 i1
  have hup := NST2_upper i i1 i2
  obtain ⟨t, ht⟩ : ∃ t, t = NST2.getD i 0 := ⟨_, rfl⟩
  obtain ⟨E, hEv⟩ : ∃ E, E = (ltsDay i - 1721060) * 86400 := ⟨_, rfl⟩
  have hw : wrap64 (t + 1000000000) = t + 1000000000 :=
    wrap64_id _ (by unfold INT64_MIN; omega) (by unfold INT64_MAX; omega)
  have hb := breakdown_eval c h s t (by omega) (by omega) hL hE hN i i1 i2 (by omega)
    (fun k hk1 hk2 => by
      have := NST2_strict i k i1 hk1 hk2
      omega)
    (by unfold INT64_MAX; omega) 0 E
    (by
      rw [hw, if_neg]
      rintro ⟨h41, hge⟩
      have := (hnext (by omega)).1
      omega)
    (by omega)
  rw [← ht, hb]
  have a1 : 1721060 + E / 86400 + 68569 = 68569 + JulianDay12hL (ltsYear i) (ltsMonth i) 1 := by
    have : JulianDay12hL (ltsYear i) (ltsMonth i) 1 = ltsDay i := rfl
    omega
  have a2 : E / 3600 % 24 = 0 := by omega
  have a3 : E / 60 % 60 = 0 := by omega
  have a4 : E % 60 + 0 = 0 := by omega
  have a5 : (t + 43167816000000) % 1000000000 = 0 := by omega
  have hdim := daysInMonth_ge (ltsYear i) (ltsMonth i) hm1 hm2
  simp only [a1, a2, a3, a4, a5,
    dateFromL_JulianDay12hL (ltsYear i) (ltsMonth i) 1 hm1 hm2 (by decide) (by omega)
      (by split <;> omega) (by split <;> omega)]
  rfl

/-- C31. Leap seconds decode as second 60: with the built-in table in place (and the
reserved constants below the 1972 threshold), for every table index `i` from 15 to 41 and
every `f` with `0 <= f < 10^9`, `breakdownTT2000 (NST[i] - 10^9 + f)` writes a valid calendar
date whose next day is the date of row `i`, with hour 23, minute 59, second 60 and
`(ms, us, ns)` the digits of `f`; and `breakdownTT2000 (NST[i])` writes the date of row `i`
at 00:00:00.000000000. -/
theorem C31_leap_second_decodes_as_60 (c : Sentinels) (h : Host) (s : TTState)
    (hL : s.LTD = .live LTS) (hE : s.entryCnt = NDAT)
    (hN : s.NST = .null ∨ s.NST = .live NST2)
    (hF : c.FILLED_TT2000_VALUE < -883655957816000000)
    (hP : c.DEFAULT_TT2000_PADVALUE < -883655957816000000)
    (i : Nat) (h1 : 15 ≤ i) (h2 : i ≤ 41) (f : Int) (hf0 : 0 ≤ f) (hf1 : f < 1000000000) :
    (∃ Y M D : Int,
      nextDay Y M D = (ltsYear i, ltsMonth i, 1) ∧
      1 ≤ M ∧ M ≤ 12 ∧ 1 ≤ D ∧ D ≤ daysInMonth Y M ∧
      (breakdownTT2000 c h s (NST2.getD i 0 - 1000000000 + f)).1
        = Parts.ofInts Y M D 23 59 60 (f / 1000000) (f / 1000 % 1000) (f % 1000)) ∧
    (breakdownTT2000 c h s (NST2.getD i 0)).1
      = Parts.ofInts (ltsYear i) (ltsMonth i) 1 0 0 0 0 0 0 ∧
    (ltsRowAt i).c0 = Dbl.ofInt (ltsYear i) ∧ (ltsRowAt i).c1 = Dbl.ofInt (ltsMonth i) ∧
    (ltsRowAt i).c2 = Dbl.ofInt 1 := by
  obtain ⟨k, rfl⟩ : ∃ k, i = k + 15 := ⟨i - 15, by omega⟩
  obtain ⟨e1, e2, e3, e4, e5⟩ := leap_eve k (by omega)
  obtain ⟨-, r0, r1, r2, -⟩ := leapRow_facts (k + 15) (by omega) (by omega)
  refine ⟨⟨_, _, _, e1, e2, e3, e4, e5, ?_⟩, ?_, r0, r1, r2⟩
  · exact breakdown_leap_second c h s hL hE hN hF hP (k + 14) (by omega) (by omega) f hf0 hf1
  · exact breakdown_threshold c h s hL hE hN hF hP (k + 15) (by omega) (by omega)

set_option maxRecDepth 100000 in
/-- Witness of C31 at the leap second at the end of 2016 (row 41, 2017-01-01), 123456789 ns
into the second. -/
theorem C31_leap_second_decodes_as_60_witness :
    (builtinState.LTD = .live LTS ∧ builtinState.entryCnt = NDAT ∧
      cdfSentinels.FILLED_TT2000_VALUE < -883655957816000000 ∧
      cdfSentinels.DEFAULT_TT2000_PADVALUE < -883655957816000000) ∧
    (∃ Y M D : Int,
      nextDay Y M D = (ltsYear 41, ltsMonth 41, 1) ∧
      1 ≤ M ∧ M ≤ 12 ∧ 1 ≤ D ∧ D ≤ daysInMonth Y M ∧
      (breakdownTT2000 cdfSentinels Host.plain builtinState
          (NST2.getD 41 0 - 1000000000 + 123456789)).1
        = Parts.ofInts Y M D 23 59 60 ((123456789 : Int) / 1000000)
            ((123456789 : Int) / 1000 % 1000) ((123456789 : Int) % 1000)) ∧
    (ltsYear 41, ltsMonth 41) = (2017, 1) :=
  ⟨⟨BuiltinOK_builtinState.1, BuiltinOK_builtinState.2.1, by decide, by decide⟩,
    (C31_leap_second_decodes_as_60 cdfSentinels Host.plain builtinState
      BuiltinOK_builtinState.1 BuiltinOK_builtinState.2.1 BuiltinOK_builtinState.2.2.1
      (by decide) (by decide) 41 (by decide) (by decide) 123456789 (by decide) (by decide)).1,
    by decide!⟩

set_option maxRecDepth 100000 in
/-- C35 (failing input). The day cache of `computeTT2000` survives a change of table.
`computeTT2000 (2016,6,1,0,0,0,0,0,0)` with the built-in table returns 518011268184000000
(36 leap seconds) and caches the day.  After `CDFClearLeapSecondsTable ()` and a query that
loads the one-row table of the file `good.dat` (37 s from 2017-01-01; no leap seconds on
2016-06-01), the same call still returns 518011268184000000 from the cache, although
`LeapSecondsfromYMD` gives 0.0 for that date with the table now loaded and the evaluation
that does not use the cache (`currentDay` reset to -1) returns 518011232184000000. -/
theorem C35_day_cache_stale_after_reload :
    (computeTT2000I cdfSentinels Host.plain TTState.init 2016 6 1 0 0 0 0 0 0).1
      = 518011268184000000 ∧
    (CDFgetRowsinLeapSecondsTable hostGood (CDFClearLeapSecondsTable
      (computeTT2000I cdfSentinels Host.plain TTState.init 2016 6 1 0 0 0 0 0 0).2)).1 = 1 ∧
    (computeTT2000I cdfSentinels hostGood
      (CDFgetRowsinLeapSecondsTable hostGood (CDFClearLeapSecondsTable
        (computeTT2000I cdfSentinels Host.plain TTState.init 2016 6 1 0 0 0 0 0 0).2)).2
      2016 6 1 0 0 0 0 0 0).1 = 518011268184000000 ∧
    (LeapSecondsfromYMD hostGood
      (CDFgetRowsinLeapSecondsTable hostGood (CDFClearLeapSecondsTable
        (computeTT2000I cdfSentinels Host.plain TTState.init 2016 6 1 0 0 0 0 0 0).2)).2
      2016 6 1).1 = ⟨0⟩ ∧
    (computeTT2000I cdfSentinels hostGood
      { (CDFgetRowsinLeapSecondsTable hostGood (CDFClearLeapSecondsTable
          (computeTT2000I cdfSentinels Host.plain TTState.init 2016 6 1 0 0 0 0 0 0).2)).2 with
        currentDay := -1 }
      2016 6 1 0 0 0 0 0 0).1 = 518011232184000000 := by
  decide!

theorem pairs_get_even : ∀ (a : List Dbl) (n : Nat),
    (pairsWithZero a).get? (2 * n) = a.get? n := by
  intro a
  induction a with
  | nil => intro n; simp [pairsWithZero]
  | cons x xs ih =>
    intro n
    cases n with
    | zero => simp [pairsWithZero]
    | succ n =>
      rw [show 2 * (n + 1) = 2 * n + 1 + 1 from by omega]
      simp only [pairsWithZero, List.get?_cons_succ]
      exact ih n

theorem pairs_get_odd : ∀ (a : List Dbl) (n : Nat),
    (pairsWithZero a).get? (2 * n + 1) = (a.get? n).map fun _ => (⟨0⟩ : Dbl) := by
  intro a
  induction a with
  | nil => intro n; simp [pairsWithZero]
  | cons x xs ih =>
    intro n
    cases n with
    | zero => simp [pairsWithZero]
    | succ n =>
      rw [show 2 * (n + 1) + 1 = (2 * n + 1) + 1 + 1 from by omega]
      simp only [pairsWithZero, List.get?_cons_succ]
      exact ih n

theorem pairs_length : ∀ a : List Dbl, (pairsWithZero a).length = 2 * a.length := by
  intro a
  induction a with
  | nil => rfl
  | cons x xs ih => simp only [pairsWithZero, List.length_cons, ih]; omega

/-- The first word of pair `i` of the paired array is element `i` of the array. -/
theorem rd_pairs_even (a : List Dbl) (i : Int) : rd (pairsWithZero a) (2 * i) = rd a i := by
  unfold rd
  by_cases h : i < 0
  · rw [if_pos (by omega), if_pos h]
  · rw [if_neg (by omega), if_neg h, show (2 * i).toNat = 2 * i.toNat from by omega]
    exact pairs_get_even a _

/-- The second word of pair `i` of the paired array is 0.0. -/
theorem rd_pairs_odd (a : List Dbl) (i : Int) :
    rd (pairsWithZero a) (2 * i + 1) = (rd a i).map fun _ => (⟨0⟩ : Dbl) := by
  unfold rd
  by_cases h : i < 0
  · rw [if_pos (by omega), if_pos h]
    rfl
  · rw [if_neg (by omega), if_neg h, show (2 * i + 1).toNat = 2 * i.toNat + 1 from by omega]
    exact pairs_get_odd a _

theorem gt16_pairs (a : List Dbl) (i : Int) (key : Dbl) :
    gt16 (pairsWithZero a) i (key, ⟨0⟩) = (rd a i).map fun x => decide (x > key) := by
  unfold gt16
  rw [rd_pairs_even, rd_pairs_odd]
  cases rd a i with
  | none => rfl
  | some x =>
    simp only [Option.some_bind, Option.map_some']
    by_cases h1 : x > key
    · simp [h1]
    · by_cases h2 : x = key
      · simp [h2]
      · simp [h1, h2]

theorem lt16_pairs (a : List Dbl) (i : Int) (key : Dbl) :
    lt16 (pairsWithZero a) i (key, ⟨0⟩) = (rd a i).map fun x => decide (x < key) := by
  unfold lt16
  rw [rd_pairs_even, rd_pairs_odd]
  cases rd a i with
  | none => rfl
  | some x =>
    simp only [Option.some_bind, Option.map_some']
    by_cases h1 : x < key
    · simp [h1]
    · by_cases h2 : x = key
      · simp [h2]
      · simp [h1, h2]

theorem bind_map_decide {α β : Type} (o : Option α) (p : α → Prop) [DecidablePred p]
    (x y : Option β) :
    ((o.map fun v => decide (p v)).bind fun b => if b = true then x else y)
      = o.bind fun v => if p v then x else y := by
  cases o <;> simp

/-- On pairs with second word 0.0 the first loop of the two-key search is the first loop of
the single-key search. -/
theorem lowerLoop16_pairs (a : List Dbl) (s : Dbl) :
    ∀ (k : Nat) (first last middle : Int),
      lowerLoop16 (pairsWithZero a) (s, ⟨0⟩) k first last middle
        = lowerLoop a s k first last middle := by
  intro k
  induction k with
  | zero => intro first last middle; rfl
  | succ k ih =>
    intro first last middle
    simp only [lowerLoop16, lowerLoop, gt16_pairs, lt16_pairs, ih, bind_map_decide]
    cases rd a middle with
    | none => simp
    | some am =>
      simp only [Option.some_bind]

/-- On pairs with second word 0.0 the second loop of the two-key search is the second loop
of the single-key search. -/
theorem upperLoop16_pairs (a : List Dbl) (s : Dbl) :
    ∀ (k : Nat) (first last middle : Int),
      upperLoop16 (pairsWithZero a) (s, ⟨0⟩) k first last middle
        = upperLoop a s k first last middle := by
  intro k
  induction k with
  | zero => intro first last middle; rfl
  | succ k ih =>
    intro first last middle
    simp only [upperLoop16, upperLoop, gt16_pairs, lt16_pairs, ih, bind_map_decide]
    cases rd a middle with
    | none => simp
    | some am =>
      simp only [Option.some_bind]

/-- When the last element is `stop` and every element before it is below `stop`, the second
loop of the single-key search ends on the last index. -/
theorem upperLoop_last {α : Type} [LinearOrder α] (a : List α) (f : Int → α) (stop : α)
    (hf : ∀ i : Int, 0 ≤ i → i < (a.length : Int) → rd a i = some (f i))
    (hlast : f ((a.length : Int) - 1) = stop)
    (hprev : ∀ i : Int, 0 ≤ i → i < (a.length : Int) - 1 → f i < stop) :
    ∀ (k : Nat) (first : Int), 0 ≤ first → first ≤ (a.length : Int) - 1 →
      (a.length : Int) - 1 - first < (k : Int) →
      upperLoop a stop k first ((a.length : Int) - 1)
        (Int.tdiv (first + ((a.length : Int) - 1)) 2) = some ((a.length : Int) - 1) := by
  intro k
  induction k with
  | zero => intro first h0 h1 hk; omega
  | succ k ih =>
    intro first h0 h1 hk
    obtain ⟨hm1, hm2⟩ := mid_bounds first ((a.length : Int) - 1) h0 h1
    obtain ⟨m, hm⟩ : ∃ m, m = Int.tdiv (first + ((a.length : Int) - 1)) 2 := ⟨_, rfl⟩
    rw [← hm] at hm1 hm2 ⊢
    simp only [upperLoop]
    rw [if_pos h1, hf m (by omega) (by omega)]
    simp only [Option.some_bind]
    by_cases hlastm : m = (a.length : Int) - 1
    · rw [hlastm, hlast, if_neg (lt_irrefl _), if_neg (lt_irrefl _)]
    · have hlt : f m < stop := hprev m (by omega) (by omega)
      have hnext : ¬ f (m + 1) > stop := by
        by_cases h2 : m + 1 = (a.length : Int) - 1
        · rw [h2, hlast]; exact lt_irrefl _
        · exact not_lt.2 (le_of_lt (hprev (m + 1) (by omega) (by omega)))
      rw [if_pos hlt]
      have hrec := ih (m + 1) (by omega) (by omega) (by push_cast at hk; omega)
      by_cases hw : (a.length : Int) - 1 - (m + 1) ≤ 1
      · rw [if_pos hw, hf (m + 1) (by omega) (by omega)]
        simp only [Option.some_bind]
        rw [if_neg hnext]
        exact hrec
      · rw [if_neg hw]
        exact hrec

/-- On a non-empty non-decreasing array whose last element is at least `start`, the first
part of the search assigns `beginning` an index of the array. -/
theorem beginning_defined {α : Type} [LinearOrder α] (a : List α) (f : Int → α) (start : α)
    (hlen : 0 < a.length)
    (hf : ∀ i : Int, 0 ≤ i → i < (a.length : Int) → rd a i = some (f i))
    (hmono : ∀ i j : Int, 0 ≤ i → i ≤ j → j < (a.length : Int) → f i ≤ f j)
    (hn : start ≤ f ((a.length : Int) - 1)) :
    ∃ b : Int, (if f 0 ≥ start then some 0
        else lowerLoop a start (a.length + 2) 0 ((a.length : Int) - 1)
          (Int.tdiv (0 + ((a.length : Int) - 1)) 2)) = some b ∧ 0 ≤ b ∧ b < (a.length : Int) := by
  by_cases h0 : f 0 ≥ start
  · rw [if_pos h0]
    exact ⟨0, rfl, le_refl _, by exact_mod_cast hlen⟩
  · rw [if_neg h0]
    obtain ⟨b, hb, hb0, hb1, -⟩ := lowerLoop_spec a f start hf hmono (not_le.1 h0) hn
      (a.length + 2) 0 ((a.length : Int) - 1) (le_refl _) (by omega) (by omega)
      (fun i hi1 hi2 => by omega) (fun i hi1 hi2 => by omega) (by push_cast; omega)
    exact ⟨b, hb, by omega, hb1⟩

/-- After the early return, the two-key search on pairs with second word 0.0 does what the
single-key search does, when `stop` is not the last element or the last element occurs
once. -/
theorem searchBody16_pairs (a : List Dbl) (start stop : Dbl) (hne : a ≠ [])
    (hs : a.Sorted (· ≤ ·))
    (hn : start ≤ a.getD ((a.length : Int) - 1).toNat ⟨0⟩)
    (hlast : stop ≠ a.getD ((a.length : Int) - 1).toNat ⟨0⟩ ∨
      ∀ i : Int, 0 ≤ i → i < (a.length : Int) - 1 → a.getD i.toNat ⟨0⟩ < stop) :
    searchBody16 (pairsWithZero a) 0 ((a.length : Int) - 1) (start, ⟨0⟩) (stop, ⟨0⟩)
      = searchBody a 0 ((a.length : Int) - 1) start stop := by
  have hlen : 0 < a.length := List.length_pos.2 hne
  have hN : (0 : Int) < (a.length : Int) := by exact_mod_cast hlen
  have hf := rd_getD a (⟨0⟩ : Dbl)
  have hmono := getD_mono a (⟨0⟩ : Dbl) hs
  obtain ⟨b, hb, hb0, hb1⟩ := beginning_defined a (fun i => a.getD i.toNat ⟨0⟩) start hlen hf
    hmono hn
  obtain ⟨a0, ha0⟩ : ∃ a0, a0 = a.getD (0 : Int).toNat ⟨0⟩ := ⟨_, rfl⟩
  obtain ⟨an, han⟩ : ∃ an, an = a.getD ((a.length : Int) - 1).toNat ⟨0⟩ := ⟨_, rfl⟩
  have r0 : rd a 0 = some a0 := by rw [ha0]; exact hf 0 (le_refl _) hN
  have rn : rd a ((a.length : Int) - 1) = some an := by
    rw [han]; exact hf _ (by omega) (by omega)
  have p0 : rd (pairsWithZero a) 0 = some a0 := by
    have := rd_pairs_even a 0
    rw [r0] at this
    exact this
  have p1 : rd (pairsWithZero a) 1 = some ⟨0⟩ := by
    have := rd_pairs_odd a 0
    rw [r0] at this
    exact this
  have htot : (a.length : Int) - 1 - 0 + 1 - 1 = (a.length : Int) - 1 := by omega
  have hfuel : (pairsWithZero a).length / 2 + 2 = a.length + 2 := by
    rw [pairs_length, Nat.mul_div_cancel_left _ (by decide : 0 < 2)]
  have hA : (if start < a0 then some true
      else if start = a0 then some (decide ((⟨0⟩ : Dbl) ≤ ⟨0⟩))
      else some false) = some (decide (a0 ≥ start)) := by
    rcases lt_trichotomy start a0 with h | h | h
    · rw [if_pos h]; simp [le_of_lt h]
    · rw [if_neg (by rw [h]; exact lt_irrefl _), if_pos h]; simp [h]
    · rw [if_neg (not_lt.2 (le_of_lt h)), if_neg (ne_of_gt h)]; simp [h]
  rw [← ha0] at hb
  unfold searchBody16 searchBody
  simp only [htot, hfuel, p0, p1, r0, rn, Option.some_bind, lowerLoop16_pairs,
    upperLoop16_pairs, lt16_pairs, Option.map_some']
  rw [hA]
  simp only [Option.some_bind, decide_eq_true_eq]
  rw [hb]
  simp only [Option.some_bind]
  rcases lt_trichotomy an stop with h | h | h
  · rw [if_pos h, if_pos (le_of_lt h)]
  · rw [if_neg (by rw [h]; exact lt_irrefl _), if_pos (le_of_eq h)]
    have hprev : ∀ i : Int, 0 ≤ i → i < (a.length : Int) - 1 → a.getD i.toNat ⟨0⟩ < stop := by
      rcases hlast with h1 | h1
      · exact absurd (han ▸ h.symm) h1
      · exact h1
    rw [upperLoop_last a (fun i => a.getD i.toNat ⟨0⟩) stop hf (by show a.getD ((a.length : Int) - 1).toNat ⟨0⟩ = stop; rw [← han]; exact h) hprev
      (a.length + 2) b hb0 (by omega) (by push_cast; omega)]
  · rw [if_neg (not_lt.2 (le_of_lt h)), if_neg (not_le.2 h)]

/-- The two-key search on pairs with second word 0.0 writes what the single-key search
writes, when `stop` is not the last element or the last element occurs once. -/
theorem RangeSearchForEPOCH16_pairs (a : List Dbl) (start stop : Dbl) (hne : a ≠ [])
    (hs : a.Sorted (· ≤ ·))
    (hlast : stop ≠ a.getD (a.length - 1) ⟨0⟩ ∨ a.length = 1 ∨
      a.getD (a.length - 2) ⟨0⟩ < a.getD (a.length - 1) ⟨0⟩) :
    RangeSearchForEPOCH16 (pairsWithZero a) 0 ((a.length : Int) - 1) (start, ⟨0⟩) (stop, ⟨0⟩)
      = RangeSearchForEPOCH a 0 ((a.length : Int) - 1) start stop := by
  have hlen : 0 < a.length := List.length_pos.2 hne
  have hN : (0 : Int) < (a.length : Int) := by exact_mod_cast hlen
  have hf := rd_getD a (⟨0⟩ : Dbl)
  have hmono := getD_mono a (⟨0⟩ : Dbl) hs
  have hidx : ((a.length : Int) - 1).toNat = a.length - 1 := by omega
  obtain ⟨a0, ha0⟩ : ∃ a0, a0 = a.getD (0 : Int).toNat ⟨0⟩ := ⟨_, rfl⟩
  obtain ⟨an, han⟩ : ∃ an, an = a.getD ((a.length : Int) - 1).toNat ⟨0⟩ := ⟨_, rfl⟩
  have r0 : rd a 0 = some a0 := by rw [ha0]; exact hf 0 (le_refl _) hN
  have rn : rd a ((a.length : Int) - 1) = some an := by
    rw [han]; exact hf _ (by omega) (by omega)
  have p0 : rd (pairsWithZero a) 0 = some a0 := by
    have := rd_pairs_even a 0
    rw [r0] at this
    exact this
  have p1 : rd (pairsWithZero a) 1 = some ⟨0⟩ := by
    have := rd_pairs_odd a 0
    rw [r0] at this
    exact this
  have pn : rd (pairsWithZero a) (2 * (a.length : Int) - 2) = some an := by
    rw [show 2 * (a.length : Int) - 2 = 2 * ((a.length : Int) - 1) from by omega,
      rd_pairs_even, rn]
  have pn1 : rd (pairsWithZero a) (2 * (a.length : Int) - 1) = some ⟨0⟩ := by
    rw [show 2 * (a.length : Int) - 1 = 2 * ((a.length : Int) - 1) + 1 from by omega,
      rd_pairs_odd, rn]
    rfl
  have htot : (a.length : Int) - 1 - 0 + 1 = (a.length : Int) := by omega
  unfold RangeSearchForEPOCH16 RangeSearchForEPOCH
  simp only [htot, pn, pn1, p0, p1, rn, r0, Option.some_bind, Option.map_some', gt_iff_lt,
    lt_self_iff_false, and_false, or_false, decide_False, ite_self, Bool.false_eq_true,
    if_false]
  by_cases h1 : stop < start
  · rw [if_pos h1, if_pos h1]
  · rw [if_neg h1, if_neg h1]
    by_cases h3 : an < start
    · rw [if_pos h3, if_pos h3]
    · rw [if_neg h3, if_neg h3]
      by_cases h2 : stop < a0
      · rw [if_pos h2, if_pos h2]
      · rw [if_neg h2, if_neg h2]
        apply searchBody16_pairs a start stop hne hs (by rw [← han]; exact not_lt.1 h3)
        rw [hidx]
        rcases hlast with h | h | h
        · exact Or.inl h
        · exact Or.inr (fun i hi1 hi2 => by omega)
        · by_cases he : stop = a.getD (a.length - 1) ⟨0⟩
          · right
            intro i hi1 hi2
            have hle := hmono i ((a.length : Int) - 2) hi1 (by omega) (by omega)
            rw [show ((a.length : Int) - 2).toNat = a.length - 2 from by omega] at hle
            rw [he]
            exact lt_of_le_of_lt hle h
          · exact Or.inl he

theorem rd_map {α β : Type} (g : α → β) (a : List α) (i : Int) :
    rd (a.map g) i = (rd a i).map g := by
  unfold rd
  split
  · rfl
  · simp [List.get?_eq_getElem?]

theorem rd_mem {α : Type} (a : List α) (i : Int) (x : α) (h : rd a i = some x) : x ∈ a := by
  unfold rd at h
  split at h
  · exact absurd h (by simp)
  · exact List.get?_mem h

theorem bind_map_rd {α β γ : Type} (g : α → β) (a : List α) (i : Int) (F : β → Option γ)
    (G : α → Option γ) (h : ∀ x ∈ a, F (g x) = G x) :
    ((rd a i).map g).bind F = (rd a i).bind G := by
  cases hr : rd a i with
  | none => rfl
  | some x => exact h x (rd_mem a i x hr)

/-- The first loop of the search does not change under a map of the keys that keeps the
order between the elements and `start`. -/
theorem lowerLoop_map {α β : Type} [LinearOrder α] [LinearOrder β] (g : α → β) (a : List α)
    (s : α) (hg : ∀ x ∈ a, (g x < g s ↔ x < s) ∧ (g s < g x ↔ s < x)) :
    ∀ (k : Nat) (first last middle : Int),
      lowerLoop (a.map g) (g s) k first last middle = lowerLoop a s k first last middle := by
  intro k
  induction k with
  | zero => intro first last middle; rfl
  | succ k ih =>
    intro first last middle
    simp only [lowerLoop, rd_map, ih]
    by_cases hfl : first ≤ last
    · rw [if_pos hfl, if_pos hfl]
      apply bind_map_rd
      intro am ham
      simp only [gt_iff_lt, (hg am ham).1, (hg am ham).2]
      split_ifs <;> first
        | rfl
        | (apply bind_map_rd
           intro x hx
           simp only [gt_iff_lt, (hg x hx).1, (hg x hx).2])
    · rw [if_neg hfl, if_neg hfl]

/-- The second loop of the search does not change under a map of the keys that keeps the
order between the elements and `stop`. -/
theorem upperLoop_map {α β : Type} [LinearOrder α] [LinearOrder β] (g : α → β) (a : List α)
    (s : α) (hg : ∀ x ∈ a, (g x < g s ↔ x < s) ∧ (g s < g x ↔ s < x)) :
    ∀ (k : Nat) (first last middle : Int),
      upperLoop (a.map g) (g s) k first last middle = upperLoop a s k first last middle := by
  intro k
  induction k with
  | zero => intro first last middle; rfl
  | succ k ih =>
    intro first last middle
    simp only [upperLoop, rd_map, ih]
    by_cases hfl : first ≤ last
    · rw [if_pos hfl, if_pos hfl]
      apply bind_map_rd
      intro am ham
      simp only [gt_iff_lt, (hg am ham).1, (hg am ham).2]
      split_ifs <;> first
        | rfl
        | (apply bind_map_rd
           intro x hx
           simp only [gt_iff_lt, (hg x hx).1, (hg x hx).2])
    · rw [if_neg hfl, if_neg hfl]

/-- Conversion to `double` keeps the order of integers of at most 53 bits. -/
theorem Dbl.ofInt_lt_iff (x y : Int) (hx : x.natAbs ≤ 2 ^ 53) (hy : y.natAbs ≤ 2 ^ 53) :
    Dbl.ofInt x < Dbl.ofInt y ↔ x < y := by
  show (Dbl.ofInt x).raw < (Dbl.ofInt y).raw ↔ x < y
  rw [Dbl.ofInt_raw x hx, Dbl.ofInt_raw y hy]
  exact mul_lt_mul_right SC_posZ

/-- The part of the search after the early return does not change under a map of the keys
that keeps the order between the elements and the bounds. -/
theorem searchBody_map {α β : Type} [LinearOrder α] [LinearOrder β] (g : α → β) (a : List α)
    (first last : Int) (s t : α)
    (hs : ∀ x ∈ a, (g x < g s ↔ x < s) ∧ (g s < g x ↔ s < x))
    (ht : ∀ x ∈ a, (g x < g t ↔ x < t) ∧ (g t < g x ↔ t < x)) :
    searchBody (a.map g) first last (g s) (g t) = searchBody a first last s t := by
  unfold searchBody
  simp only [rd_map, List.length_map, lowerLoop_map g a s hs, upperLoop_map g a t ht]
  apply bind_map_rd
  intro a0 h0
  simp only [ge_iff_le, ← not_lt, (hs a0 h0).1]
  congr 1
  funext beginning
  apply bind_map_rd
  intro an hn
  simp only [(ht an hn).2]

/-- `RangeSearchForEPOCH` on the keys converted to `double` writes what
`RangeSearchForTT2000` writes on the integer keys, for keys of at most 53 bits. -/
theorem RangeSearchForEPOCH_ofInt (a : List Int) (first last : Int) (start stop : Int)
    (hne : a ≠ []) (hl : last - first + 1 = (a.length : Int))
    (ha : ∀ x ∈ a, x.natAbs ≤ 2 ^ 53) (h1 : start.natAbs ≤ 2 ^ 53)
    (h2 : stop.natAbs ≤ 2 ^ 53) :
    RangeSearchForEPOCH (a.map Dbl.ofInt) first last (Dbl.ofInt start) (Dbl.ofInt stop)
      = RangeSearchForTT2000 a first last start stop := by
  have hlen : 0 < a.length := List.length_pos.2 hne
  have hN : (0 : Int) < (a.length : Int) := by exact_mod_cast hlen
  have hf := rd_getD a (0 : Int)
  have hs : ∀ x ∈ a, (Dbl.ofInt x < Dbl.ofInt start ↔ x < start)
      ∧ (Dbl.ofInt start < Dbl.ofInt x ↔ start < x) :=
    fun x hx => ⟨Dbl.ofInt_lt_iff x start (ha x hx) h1, Dbl.ofInt_lt_iff start x h1 (ha x hx)⟩
  have ht : ∀ x ∈ a, (Dbl.ofInt x < Dbl.ofInt stop ↔ x < stop)
      ∧ (Dbl.ofInt stop < Dbl.ofInt x ↔ stop < x) :=
    fun x hx => ⟨Dbl.ofInt_lt_iff x stop (ha x hx) h2, Dbl.ofInt_lt_iff stop x h2 (ha x hx)⟩
  obtain ⟨a0, r0⟩ : ∃ a0, rd a 0 = some a0 := ⟨_, hf 0 (le_refl _) hN⟩
  obtain ⟨an, rn⟩ : ∃ an, rd a ((a.length : Int) - 1) = some an :=
    ⟨_, hf _ (by omega) (by omega)⟩
  unfold RangeSearchForEPOCH RangeSearchForTT2000
  simp only [hl, rd_map, r0, rn, Option.map_some', Option.some_bind, gt_iff_lt,
    Dbl.ofInt_lt_iff stop start h2 h1, (hs an (rd_mem a _ an rn)).1,
    (hs an (rd_mem a _ an rn)).2, (ht a0 (rd_mem a _ a0 r0)).1, (ht a0 (rd_mem a _ a0 r0)).2, searchBody_map Dbl.ofInt a first last start stop hs ht]
  split_ifs <;> rfl

set_option maxRecDepth 100000 in
/-- C34 (failing input). On the non-decreasing keys `[1,5,5,5]` with `start = 1` and
`stop = 5`, `RangeSearchForEPOCH` and `RangeSearchForTT2000` write `(0, 3)`, but
`RangeSearchForEPOCH16` on the pairs `(1,0),(5,0),(5,0),(5,0)` with the bounds `(1,0)` and
`(5,0)` writes `(0, 1)`: its shortcut for the last pair compares with `<` where the
single-key searches compare with `<=`, so it bisects and stops at the first copy of `stop`
it meets. -/
theorem C34_two_key_search_differs :
    ([1, 5, 5, 5] : List Int).Sorted (· ≤ ·) ∧
    RangeSearchForEPOCH (([1, 5, 5, 5] : List Int).map Dbl.ofInt) 0 3
      (Dbl.ofInt 1) (Dbl.ofInt 5) = some (0, 3) ∧
    RangeSearchForTT2000 [1, 5, 5, 5] 0 3 1 5 = some (0, 3) ∧
    RangeSearchForEPOCH16 (pairsWithZero (([1, 5, 5, 5] : List Int).map Dbl.ofInt)) 0 3
      (Dbl.ofInt 1, ⟨0⟩) (Dbl.ofInt 5, ⟨0⟩) = some (0, 1) := by
  refine ⟨by decide, by decide!, by decide, by decide!⟩

/-- The two-key search agrees with the single-key searches when `stop` is not the last key or
the last key occurs once: for a non-empty non-decreasing array `a` of integer
keys (of at most 53 bits, so that `double` holds them exactly; duplicates allowed elsewhere)
and every `start`, `stop`, `RangeSearchForEPOCH16` applied to the pairs
`(a[0],0), ..., (a[n-1],0)` with the bounds `(start,0)` and `(stop,0)` writes the same index
pair as `RangeSearchForEPOCH` applied to the keys as `double`s, which is the pair that
`RangeSearchForTT2000` writes on the integer keys. -/
theorem two_key_search_agrees (a : List Int) (start stop : Int) (hne : a ≠ [])
    (hs : a.Sorted (· ≤ ·))
    (ha : ∀ x ∈ a, x.natAbs ≤ 2 ^ 53) (h1 : start.natAbs ≤ 2 ^ 53)
    (h2 : stop.natAbs ≤ 2 ^ 53)
    (hlast : stop ≠ a.getD (a.length - 1) 0 ∨ a.length = 1 ∨
      a.getD (a.length - 2) 0 < a.getD (a.length - 1) 0) :
    RangeSearchForEPOCH16 (pairsWithZero (a.map Dbl.ofInt)) 0 ((a.length : Int) - 1)
        (Dbl.ofInt start, ⟨0⟩) (Dbl.ofInt stop, ⟨0⟩)
      = RangeSearchForEPOCH (a.map Dbl.ofInt) 0 ((a.length : Int) - 1)
          (Dbl.ofInt start) (Dbl.ofInt stop) ∧
    RangeSearchForEPOCH (a.map Dbl.ofInt) 0 ((a.length : Int) - 1)
        (Dbl.ofInt start) (Dbl.ofInt stop)
      = RangeSearchForTT2000 a 0 ((a.length : Int) - 1) start stop := by
  have hlen : 0 < a.length := List.length_pos.2 hne
  have hget : ∀ i : Nat, i < a.length →
      (a.map Dbl.ofInt).getD i ⟨0⟩ = Dbl.ofInt (a.getD i 0) ∧ a.getD i 0 ∈ a := by
    intro i hi
    rw [List.getD_eq_getElem _ _ (by rw [List.length_map]; exact hi),
      List.getD_eq_getElem _ _ hi, List.getElem_map]
    exact ⟨rfl, List.getElem_mem _⟩
  constructor
  · have hm := RangeSearchForEPOCH16_pairs (a.map Dbl.ofInt) (Dbl.ofInt start)
      (Dbl.ofInt stop) (by simpa using hne)
      (List.pairwise_map.2 (hs.imp_of_mem fun {x y} hx hy hxy =>
        not_lt.1 fun hlt => absurd ((Dbl.ofInt_lt_iff y x (ha y hy) (ha x hx)).1 hlt)
          (not_lt.2 hxy)))
    rw [List.length_map] at hm
    apply hm
    obtain ⟨e1, m1⟩ := hget (a.length - 1) (by omega)
    obtain ⟨e2, m2⟩ := hget (a.length - 2) (by omega)
    rw [e1, e2]
    rcases hlast with h | h | h
    · left
      intro he
      rcases lt_or_gt_of_ne h with h' | h'
      · have := (Dbl.ofInt_lt_iff _ _ h2 (ha _ m1)).2 h'
        rw [he] at this
        exact lt_irrefl _ this
      · have := (Dbl.ofInt_lt_iff _ _ (ha _ m1) h2).2 h'
        rw [he] at this
        exact lt_irrefl _ this
    · exact Or.inr (Or.inl h)
    · exact Or.inr (Or.inr ((Dbl.ofInt_lt_iff _ _ (ha _ m2) (ha _ m1)).2 h))
  · exact RangeSearchForEPOCH_ofInt a 0 ((a.length : Int) - 1) start stop hne (by omega) ha h1
      h2

set_option maxRecDepth 100000 in
/-- The agreement on `[1,5,5,7]` with `start = 1`, `stop = 5` (copies of `stop` inside the
array, the last key above it): the three searches write `(0, 1)`. -/
theorem two_key_search_agrees_example :
    (([1, 5, 5, 7] : List Int).Sorted (· ≤ ·) ∧
      (5 : Int) ≠ ([1, 5, 5, 7] : List Int).getD (([1, 5, 5, 7] : List Int).length - 1) 0) ∧
    (RangeSearchForEPOCH16 (pairsWithZero (([1, 5, 5, 7] : List Int).map Dbl.ofInt)) 0
        ((([1, 5, 5, 7] : List Int).length : Int) - 1) (Dbl.ofInt 1, ⟨0⟩) (Dbl.ofInt 5, ⟨0⟩)
      = RangeSearchForEPOCH (([1, 5, 5, 7] : List Int).map Dbl.ofInt) 0
          ((([1, 5, 5, 7] : List Int).length : Int) - 1) (Dbl.ofInt 1) (Dbl.ofInt 5) ∧
    RangeSearchForEPOCH (([1, 5, 5, 7] : List Int).map Dbl.ofInt) 0
        ((([1, 5, 5, 7] : List Int).length : Int) - 1) (Dbl.ofInt 1) (Dbl.ofInt 5)
      = RangeSearchForTT2000 [1, 5, 5, 7] 0 ((([1, 5, 5, 7] : List Int).length : Int) - 1)
          1 5) ∧
    RangeSearchForTT2000 [1, 5, 5, 7] 0 ((([1, 5, 5, 7] : List Int).length : Int) - 1) 1 5
      = some (0, 1) :=
  ⟨⟨by decide, by decide⟩,
    two_key_search_agrees [1, 5, 5, 7] 1 5 (by decide) (by decide) (by decide)
      (by decide) (by decide) (Or.inl (by decide)),
    by decide⟩

end Cdf
